import Mathlib

/-!
# OpenVic simulation core: market clearing and production operations

A shallow embedding of `economy/GoodInstance.cpp`,
`economy/production/ArtisanalProducer.cpp` and
`economy/production/ResourceGatheringOperation.cpp`, with the properties of
the market tick and of the production operations stated over it.

Stateful member functions become functions from the object's state to its new
state; every invocation of an order continuation is recorded as the value that
was handed to it, in invocation order.
-/

namespace OpenVic

/-! ## Fixed-point numbers -/

/-- Modelled from the spec: `fixed_point_t` (types/fixed_point/FixedPoint.hpp is
not among the sources). A value is its raw signed 64-bit integer with 16
fractional bits, so the number represented is `raw / 65536`. -/
abbrev fixed_point_t := Int

namespace fixed_point_t

/-- Modelled from the spec: largest raw value of the 64-bit representation. -/
def MAX : Int := 9223372036854775807

/-- Modelled from the spec: "all arithmetic saturates on overflow", "saturate to
±MAX". The exact result of an operation is clamped into `[-MAX, MAX]`. -/
def saturate (v : Int) : Int := max (-MAX) (min MAX v)

/-- Modelled from the spec: the constant `fixed_point_t::_0()`. -/
def _0 : fixed_point_t := 0

/-- Modelled from the spec: the constant `fixed_point_t::_1()`. -/
def _1 : fixed_point_t := 65536

/-- Modelled from the spec: the constant `fixed_point_t::_2()`. -/
def _2 : fixed_point_t := 131072

/-- Modelled from the spec: the constant `fixed_point_t::_100()`. -/
def _100 : fixed_point_t := 6553600

/-- Modelled from the spec: the constant `fixed_point_t::_0_50()`. -/
def _0_50 : fixed_point_t := 32768

/-- Modelled from the spec: integer to fixed-point conversion (the converting
constructor and `fixed_point_t::parse(int64_t)`). -/
def parse (n : Int) : fixed_point_t := saturate (n * 65536)

/-- Modelled from the spec: `operator+` on `fixed_point_t`, saturating. -/
def add (a b : fixed_point_t) : fixed_point_t := saturate (a + b)

/-- Modelled from the spec: `operator-` on `fixed_point_t`, saturating. -/
def sub (a b : fixed_point_t) : fixed_point_t := saturate (a - b)

/-- Modelled from the spec: `operator*` on two `fixed_point_t`, saturating. The
double-width product is shifted right by `PRECISION` (rounding towards minus
infinity), the rounding of a 16-bit binary fixed-point product. -/
def mul (a b : fixed_point_t) : fixed_point_t := saturate ((a * b) / 65536)

/-- Modelled from the spec: `operator*` of a `fixed_point_t` and an integer. -/
def mul_int (a : fixed_point_t) (n : Int) : fixed_point_t := saturate (a * n)

/-- Modelled from the spec: `operator/` on two `fixed_point_t`. Division by zero
yields 0; otherwise the shifted numerator is divided with C++ integer division
(truncation towards zero) and the quotient saturates. -/
def div (a b : fixed_point_t) : fixed_point_t :=
  if b = 0 then 0 else saturate (Int.tdiv (a * 65536) b)

/-- Modelled from the spec: `operator/` of a `fixed_point_t` by an integer.
Division by zero yields 0; otherwise C++ integer division of the raw value. -/
def div_int (a : fixed_point_t) (n : Int) : fixed_point_t :=
  if n = 0 then 0 else saturate (Int.tdiv a n)

end fixed_point_t

/-! ## Market: `GoodInstance` -/

/-- Modelled from the spec: `GoodDefinition` (GoodDefinition.hpp is not among the
sources), as far as the market and the producers read it: the identifier, the
base price and the availability flag. -/
structure GoodDefinition where
  identifier : String
  base_price : fixed_point_t
  is_available_from_start : Bool
deriving DecidableEq, Repr

/-- The value handed to the continuation of a buy-up-to order (`BuyResult.hpp`). -/
structure BuyResult where
  quantity_bought : fixed_point_t
  money_left : fixed_point_t
deriving DecidableEq, Repr

/-- Modelled from the spec: `SellResult` (SellResult.hpp is not among the
sources); the sell continuation receives `(quantity, quantity × new_price)`. -/
structure SellResult where
  quantity_sold : fixed_point_t
  money_gained : fixed_point_t
deriving DecidableEq, Repr

/-- Modelled from the spec: `GoodBuyUpToOrder` (BuyUpToOrder.hpp is not among the
sources), a buy-up-to order with its `max_quantity` and `money_to_spend`. The
`after_trade` continuation is represented by the `BuyResult` it is invoked with. -/
structure GoodBuyUpToOrder where
  max_quantity : fixed_point_t
  money_to_spend : fixed_point_t
deriving DecidableEq, Repr

/-- Modelled from the spec: `GoodMarketSellOrder` (MarketSellOrder.hpp is not
among the sources), a market sell order with its `quantity`. The `after_trade`
continuation is represented by the `SellResult` it is invoked with. -/
structure GoodMarketSellOrder where
  quantity : fixed_point_t
deriving DecidableEq, Repr

/-- The mutable state of a `GoodInstance` (GoodInstance.hpp). The two mutexes
carry no data and are left out. -/
structure GoodInstance where
  good_definition : GoodDefinition
  price : fixed_point_t
  max_next_price : fixed_point_t
  min_next_price : fixed_point_t
  is_available : Bool
  total_demand_yesterday : fixed_point_t
  total_supply_yesterday : fixed_point_t
  buy_up_to_orders : List GoodBuyUpToOrder
  market_sell_orders : List GoodMarketSellOrder
deriving DecidableEq, Repr

namespace GoodInstance

/-- The function `GoodInstance::update_next_price_limits` (GoodInstance.cpp:20-29). -/
def update_next_price_limits (g : GoodInstance) : GoodInstance :=
  { g with
    max_next_price :=
      min (fixed_point_t.mul_int g.good_definition.base_price 5)
          (fixed_point_t.add g.price (fixed_point_t.div fixed_point_t._1 fixed_point_t._100))
    min_next_price :=
      max (fixed_point_t.div (fixed_point_t.mul_int g.good_definition.base_price 22)
             fixed_point_t._100)
          (fixed_point_t.sub g.price (fixed_point_t.div fixed_point_t._1 fixed_point_t._100)) }

/-- The constructor `GoodInstance::GoodInstance` (GoodInstance.cpp:5-18). -/
def new (new_good_definition : GoodDefinition) : GoodInstance :=
  update_next_price_limits
    { good_definition := new_good_definition
      price := new_good_definition.base_price
      max_next_price := 0
      min_next_price := 0
      is_available := new_good_definition.is_available_from_start
      total_demand_yesterday := fixed_point_t._0
      total_supply_yesterday := fixed_point_t._0
      buy_up_to_orders := []
      market_sell_orders := [] }

/-- The function `GoodInstance::add_buy_up_to_order` (GoodInstance.cpp:31-34). -/
def add_buy_up_to_order (g : GoodInstance) (buy_up_to_order : GoodBuyUpToOrder) :
    GoodInstance :=
  { g with buy_up_to_orders := g.buy_up_to_orders ++ [buy_up_to_order] }

/-- The function `GoodInstance::add_market_sell_order` (GoodInstance.cpp:36-39). -/
def add_market_sell_order (g : GoodInstance) (market_sell_order : GoodMarketSellOrder) :
    GoodInstance :=
  { g with market_sell_orders := g.market_sell_orders ++ [market_sell_order] }

/-- The first loop of `execute_orders` (GoodInstance.cpp:42-45). -/
def demand_running_total (g : GoodInstance) : fixed_point_t :=
  g.buy_up_to_orders.foldl (fun acc o => fixed_point_t.add acc o.max_quantity)
    fixed_point_t._0

/-- The second loop of `execute_orders` (GoodInstance.cpp:47-50). -/
def supply_running_total (g : GoodInstance) : fixed_point_t :=
  g.market_sell_orders.foldl (fun acc o => fixed_point_t.add acc o.quantity)
    fixed_point_t._0

/-- The local `new_price` of `execute_orders` (GoodInstance.cpp:52-59). -/
def new_price (g : GoodInstance) : fixed_point_t :=
  if demand_running_total g > supply_running_total g then g.max_next_price
  else if demand_running_total g < supply_running_total g then g.min_next_price
  else g.price

/-- The value one buy continuation is invoked with (GoodInstance.cpp:62-66). -/
def buy_result (new_price : fixed_point_t) (o : GoodBuyUpToOrder) : BuyResult :=
  let quantity_bought := fixed_point_t.div o.money_to_spend new_price
  { quantity_bought := quantity_bought
    money_left := fixed_point_t.sub o.money_to_spend
      (fixed_point_t.mul quantity_bought new_price) }

/-- The value one sell continuation is invoked with (GoodInstance.cpp:70-74). -/
def sell_result (new_price : fixed_point_t) (o : GoodMarketSellOrder) : SellResult :=
  let market_sell_quantity := o.quantity
  { quantity_sold := market_sell_quantity
    money_gained := fixed_point_t.mul market_sell_quantity new_price }

/-- What one `execute_orders` call does: the state it leaves and the values its
continuations were invoked with, in invocation order. -/
structure Execution where
  good : GoodInstance
  buy_results : List BuyResult
  sell_results : List SellResult
deriving DecidableEq, Repr

/-- The function `GoodInstance::execute_orders` (GoodInstance.cpp:41-84). The
member `price` is not assigned anywhere in the function. -/
def execute_orders (g : GoodInstance) : Execution :=
  let demand := demand_running_total g
  let supply := supply_running_total g
  let np := new_price g
  let buys := g.buy_up_to_orders.map (buy_result np)
  let sells := g.market_sell_orders.map (sell_result np)
  let g1 : GoodInstance :=
    { g with
      total_demand_yesterday := demand
      total_supply_yesterday := supply
      buy_up_to_orders := []
      market_sell_orders := [] }
  let g2 := if np ≠ g1.price then update_next_price_limits g1 else g1
  { good := g2, buy_results := buys, sell_results := sells }

/-- One call on a `GoodInstance` from outside: an order submission or a
clearing. -/
inductive Call where
  | add_buy_up_to_order (o : GoodBuyUpToOrder)
  | add_market_sell_order (o : GoodMarketSellOrder)
  | execute_orders
deriving DecidableEq, Repr

/-- The state after one call. -/
def step (g : GoodInstance) : Call → GoodInstance
  | .add_buy_up_to_order o => g.add_buy_up_to_order o
  | .add_market_sell_order o => g.add_market_sell_order o
  | .execute_orders => (g.execute_orders).good

/-- The state after a sequence of calls. -/
def run (g : GoodInstance) (calls : List Call) : GoodInstance :=
  calls.foldl step g

end GoodInstance

/-- The good of the market-clearing scenarios: base price 1, price 1. -/
def scenario_good : GoodInstance :=
  GoodInstance.new
    { identifier := "g", base_price := 65536, is_available_from_start := true }

/-- Scenario with demand above supply: one buy (max 10, money 10), one sell of 5. -/
def scenario_demand_above : GoodInstance :=
  (scenario_good.add_buy_up_to_order { max_quantity := 655360, money_to_spend := 655360 }
    ).add_market_sell_order { quantity := 327680 }

/-- Scenario with demand below supply: one buy (max 5, money 5), one sell of 10. -/
def scenario_demand_below : GoodInstance :=
  (scenario_good.add_buy_up_to_order { max_quantity := 327680, money_to_spend := 327680 }
    ).add_market_sell_order { quantity := 655360 }

/-! ## Production: `ArtisanalProducer` -/

/-- Modelled from the spec: `GoodDefinition::good_definition_map_t`, an
insertion-ordered map from goods to fixed-point values (its declaration is not
among the sources), as an association list in insertion order. -/
abbrev good_definition_map_t := List (GoodDefinition × fixed_point_t)

namespace good_definition_map_t

/-- Modelled from the spec: reading `map[key]`; an absent key reads as zero. -/
def get (m : good_definition_map_t) (key : GoodDefinition) : fixed_point_t :=
  match m.find? (fun e => e.1 = key) with
  | some e => e.2
  | none => 0

/-- Modelled from the spec: the assignment `map[key] = value`; a present key keeps
its position, an absent key is appended. -/
def set (m : good_definition_map_t) (key : GoodDefinition) (value : fixed_point_t) :
    good_definition_map_t :=
  if m.any (fun e => e.1 = key) then m.map (fun e => if e.1 = key then (key, value) else e)
  else m ++ [(key, value)]

/-- Modelled from the spec: `map.erase(key)`. -/
def erase (m : good_definition_map_t) (key : GoodDefinition) : good_definition_map_t :=
  m.filter (fun e => e.1 ≠ key)

end good_definition_map_t

/-- Modelled from the spec: `PopType` (PopType.hpp is not among the sources), as
far as the production operations read it. -/
structure PopType where
  identifier : String
  is_slave : Bool
deriving DecidableEq, Repr

/-- Modelled from the spec: `Pop` (Pop.hpp is not among the sources), as far as
the production operations read it; `type` is a nullable pointer in the code. -/
structure Pop where
  type : Option PopType
  size : Int
  cash : fixed_point_t
deriving DecidableEq, Repr

/-- The effect kinds of a `Job` (`Job::effect_t`). -/
inductive Job.effect_t where
  | INPUT
  | OUTPUT
  | THROUGHPUT
deriving DecidableEq, Repr

/-- Modelled from the spec: `Job` (ProductionType.hpp is not among the sources);
`pop_type` is a nullable pointer in the code. -/
structure Job where
  pop_type : Option PopType
  effect_type : Job.effect_t
  effect_multiplier : fixed_point_t
  amount : fixed_point_t
deriving DecidableEq, Repr

/-- Modelled from the spec: `ProductionType` (ProductionType.hpp is not among the
sources), as far as the production operations read it. -/
structure ProductionType where
  identifier : String
  owner : Option Job
  jobs : List Job
  input_goods : good_definition_map_t
  output_good : GoodDefinition
  base_workforce_size : Int
  base_output_quantity : fixed_point_t
  is_farm : Bool
  is_mine : Bool
deriving DecidableEq, Repr

/-- The `GoodInstanceManager` (GoodInstance.hpp): its registry of good instances. -/
structure GoodInstanceManager where
  good_instances : List GoodInstance
deriving DecidableEq, Repr

/-- Modelled from the spec: the registry lookup `by_identifier(key) → Option<&T>`
generated by `IDENTIFIER_REGISTRY` (IdentifierRegistry.hpp is not among the
sources). -/
def GoodInstanceManager.get_good_instance_by_identifier (m : GoodInstanceManager)
    (identifier : String) : Option GoodInstance :=
  m.good_instances.find? (fun g => g.good_definition.identifier = identifier)

/-- The `MarketInstance` (MarketInstance.hpp). -/
structure MarketInstance where
  good_instance_manager : GoodInstanceManager
deriving DecidableEq, Repr

/-- Modelled from the spec: the market-level `BuyUpToOrder` (BuyUpToOrder.hpp is
not among the sources), `BuyUpToOrder(good, optimal_qty, money_to_spend,
continuation)` without the continuation. -/
structure BuyUpToOrder where
  good : GoodDefinition
  max_quantity : fixed_point_t
  money_to_spend : fixed_point_t
deriving DecidableEq, Repr

/-- Modelled from the spec: the market-level `MarketSellOrder` (MarketSellOrder.hpp
is not among the sources), `MarketSellOrder(good, output, continuation)` without
the continuation. -/
structure MarketSellOrder where
  good : GoodDefinition
  quantity : fixed_point_t
deriving DecidableEq, Repr

/-- The state of an `ArtisanalProducer` (ArtisanalProducer.hpp). The modifier
effect cache is never read by `artisan_tick` and is left out. -/
structure ArtisanalProducer where
  market_instance : MarketInstance
  pop : Pop
  stockpile : good_definition_map_t
  production_type : ProductionType
  current_production : fixed_point_t
deriving DecidableEq, Repr

namespace ArtisanalProducer

/-- The locals written by the first loop of `artisan_tick`. -/
structure Inputs where
  demand : good_definition_map_t
  inputs_bought_scalar : fixed_point_t
  goods_to_buy_and_max_price : good_definition_map_t
deriving DecidableEq, Repr

/-- The first loop of `artisan_tick` (ArtisanalProducer.cpp:32-39), over the
remaining input goods. A good without a good instance makes the code dereference
a null pointer; the model stops with `none`. -/
def read_inputs (ap : ArtisanalProducer) :
    List (GoodDefinition × fixed_point_t) → Inputs → Option Inputs
  | [], s => some s
  | (input_good, base_desired_quantity) :: rest, s =>
    let desired_quantity :=
      fixed_point_t.div_int (fixed_point_t.mul_int base_desired_quantity ap.pop.size)
        ap.production_type.base_workforce_size
    let demand := s.demand.set input_good desired_quantity
    let inputs_bought_scalar :=
      min (fixed_point_t.div (ap.stockpile.get input_good) desired_quantity)
        s.inputs_bought_scalar
    match ap.market_instance.good_instance_manager.get_good_instance_by_identifier
        input_good.identifier with
    | none => none
    | some good =>
      read_inputs ap rest
        { demand := demand
          inputs_bought_scalar := inputs_bought_scalar
          goods_to_buy_and_max_price :=
            s.goods_to_buy_and_max_price.set input_good good.max_next_price }

/-- The consumption loop of `artisan_tick` (ArtisanalProducer.cpp:42-52), over the
remaining input goods; it updates the stockpile and `goods_to_buy_and_max_price`. -/
def consume_inputs (demand : good_definition_map_t) (inputs_bought_scalar : fixed_point_t) :
    List (GoodDefinition × fixed_point_t) → good_definition_map_t × good_definition_map_t →
      good_definition_map_t × good_definition_map_t
  | [], s => s
  | (input_good, _) :: rest, (stockpile, goods_to_buy_and_max_price) =>
    let desired_quantity := demand.get input_good
    let stockpile1 := stockpile.set input_good
      (max fixed_point_t._0
        (fixed_point_t.sub (stockpile.get input_good)
          (fixed_point_t.mul desired_quantity inputs_bought_scalar)))
    let goods1 :=
      if stockpile1.get input_good ≥ desired_quantity then
        goods_to_buy_and_max_price.erase input_good
      else goods_to_buy_and_max_price
    consume_inputs demand inputs_bought_scalar rest (stockpile1, goods1)

/-- One pass of the body of the `while` loop (ArtisanalProducer.cpp:61-80): the
satisfaction reachable with the goods still to buy, and those goods without the
ones whose stockpile already meets it. The inner loop that erases entries of the
map it walks is modelled as testing every entry once. -/
def satisfaction_pass (demand stockpile : good_definition_map_t)
    (total_cash_to_spend : fixed_point_t) (goods_to_buy_and_max_price : good_definition_map_t) :
    fixed_point_t × good_definition_map_t :=
  let total_demand_value := goods_to_buy_and_max_price.foldl
    (fun acc e => fixed_point_t.add acc (fixed_point_t.mul e.2 (demand.get e.1)))
    fixed_point_t._0
  let total_stockpile_value := goods_to_buy_and_max_price.foldl
    (fun acc e => fixed_point_t.add acc (fixed_point_t.mul e.2 (stockpile.get e.1)))
    fixed_point_t._0
  let max_possible_satisfaction :=
    min fixed_point_t._1
      (fixed_point_t.div (fixed_point_t.add total_stockpile_value total_cash_to_spend)
        total_demand_value)
  (max_possible_satisfaction,
    goods_to_buy_and_max_price.filter (fun e =>
      ¬ (stockpile.get e.1 ≥ fixed_point_t.mul (demand.get e.1) max_possible_satisfaction)))

/-- The `while (!at_or_below_optimum)` loop (ArtisanalProducer.cpp:60-81), with a
bound on the number of passes; `none` when the bound is used up. -/
def satisfaction_loop (demand stockpile : good_definition_map_t)
    (total_cash_to_spend : fixed_point_t) :
    Nat → good_definition_map_t → Option (fixed_point_t × good_definition_map_t)
  | 0, _ => none
  | fuel + 1, goods_to_buy_and_max_price =>
    let pass := satisfaction_pass demand stockpile total_cash_to_spend
      goods_to_buy_and_max_price
    if pass.2.length = goods_to_buy_and_max_price.length then some pass
    else satisfaction_loop demand stockpile total_cash_to_spend fuel pass.2

/-- The orders of the last loop (ArtisanalProducer.cpp:83-96). -/
def buy_orders (demand : good_definition_map_t) (max_possible_satisfaction : fixed_point_t)
    (goods_to_buy_and_max_price : good_definition_map_t) : List BuyUpToOrder :=
  goods_to_buy_and_max_price.map (fun e =>
    let optimal_quantity := fixed_point_t.mul (demand.get e.1) max_possible_satisfaction
    let money_to_spend := fixed_point_t.mul optimal_quantity e.2
    { good := e.1, max_quantity := optimal_quantity, money_to_spend := money_to_spend })

/-- What one `artisan_tick` does: the producer it leaves and the orders it placed
on the market, in placement order. -/
structure Tick where
  producer : ArtisanalProducer
  buy_up_to_orders : List BuyUpToOrder
  market_sell_orders : List MarketSellOrder
deriving DecidableEq, Repr

/-- The end of `artisan_tick` (ArtisanalProducer.cpp:100-113). -/
def produce_and_sell (ap : ArtisanalProducer) (stockpile : good_definition_map_t)
    (inputs_bought_scalar : fixed_point_t) (buys : List BuyUpToOrder) : Tick :=
  let current_production :=
    fixed_point_t.div_int
      (fixed_point_t.mul_int
        (fixed_point_t.mul ap.production_type.base_output_quantity inputs_bought_scalar)
        ap.pop.size)
      ap.production_type.base_workforce_size
  { producer := { ap with stockpile := stockpile, current_production := current_production }
    buy_up_to_orders := buys
    market_sell_orders :=
      if current_production > 0 then
        [{ good := ap.production_type.output_good, quantity := current_production }]
      else [] }

/-- The purchase of missing inputs and the end of `artisan_tick`
(ArtisanalProducer.cpp:55-113), from the locals `s` of the first loop and the
stockpile and `goods_to_buy_and_max_price` left by the consumption loop. -/
def buy_inputs_and_produce (ap : ArtisanalProducer) (s : Inputs)
    (consumed : good_definition_map_t × good_definition_map_t) : Option Tick :=
  let total_cash_to_spend := ap.pop.cash
  if total_cash_to_spend > 0 ∧ ¬ consumed.2.isEmpty then
    match satisfaction_loop s.demand consumed.1 total_cash_to_spend
        (consumed.2.length + 1) consumed.2 with
    | none => none
    | some (max_possible_satisfaction, goods) =>
      some (produce_and_sell ap consumed.1 s.inputs_bought_scalar
        (buy_orders s.demand max_possible_satisfaction goods))
  else some (produce_and_sell ap consumed.1 s.inputs_bought_scalar [])

/-- The function `ArtisanalProducer::artisan_tick` (ArtisanalProducer.cpp:24-114). -/
def artisan_tick (ap : ArtisanalProducer) : Option Tick :=
  if ap.production_type.input_goods.isEmpty then
    some (produce_and_sell ap ap.stockpile fixed_point_t._1 [])
  else
    match read_inputs ap ap.production_type.input_goods
        { demand := [], inputs_bought_scalar := fixed_point_t._1,
          goods_to_buy_and_max_price := [] } with
    | none => none
    | some s =>
      buy_inputs_and_produce ap s
        (if s.inputs_bought_scalar > fixed_point_t._0 then
          consume_inputs s.demand s.inputs_bought_scalar ap.production_type.input_goods
            (ap.stockpile, s.goods_to_buy_and_max_price)
        else (ap.stockpile, s.goods_to_buy_and_max_price))

end ArtisanalProducer

/-- The input good of the artisan scenarios: base price 1, so `max_next_price` is
raw 66191 (about 1.01). -/
def scenario_input_good : GoodDefinition :=
  { identifier := "input", base_price := 65536, is_available_from_start := true }

/-- The output good of the artisan scenarios. -/
def scenario_output_good : GoodDefinition :=
  { identifier := "output", base_price := 65536, is_available_from_start := true }

/-- An artisan of the scenarios: one pop of size 1 with the given cash, a
production type needing 10 of the input good per worker and yielding 1 of the
output good, and the given amount of the input good in the stockpile. -/
def scenario_artisan (cash stock : fixed_point_t) : ArtisanalProducer :=
  { market_instance :=
      { good_instance_manager :=
          { good_instances :=
              [GoodInstance.new scenario_input_good, GoodInstance.new scenario_output_good] } }
    pop := { type := none, size := 1, cash := cash }
    stockpile := [(scenario_input_good, stock)]
    production_type :=
      { identifier := "artisan"
        owner := none
        jobs := []
        input_goods := [(scenario_input_good, 655360)]
        output_good := scenario_output_good
        base_workforce_size := 1
        base_output_quantity := 65536
        is_farm := false
        is_mine := false }
    current_production := 0 }

/-! ## Production: `ResourceGatheringOperation` -/

/-- Modelled from the spec: `fixed_point_t::floor`, the largest integer not above
the value. -/
def fixed_point_t.floor (a : fixed_point_t) : Int := a / 65536

/-- Modelled from the spec: `Employee` (Employee.hpp is not among the sources): the
pop employed and how many of its members are hired. -/
structure Employee where
  pop : Pop
  size : Int
deriving DecidableEq, Repr

/-- The modifier effects that the RGO reads through the `ModifierEffectCache`
(ModifierEffectCache.hpp is not among the sources); the effects kept per good carry
the good's identifier. -/
inductive rgo_modifier_effect_t where
  | rgo_throughput
  | local_rgo_throughput
  | rgo_output
  | local_rgo_output
  | farm_rgo_throughput_global
  | farm_rgo_output_global
  | farm_rgo_output_local
  | farm_rgo_size_global
  | farm_rgo_size_local
  | mine_rgo_throughput_global
  | mine_rgo_output_global
  | mine_rgo_output_local
  | mine_rgo_size_global
  | mine_rgo_size_local
  | rgo_goods_throughput (good : String)
  | rgo_goods_output (good : String)
  | rgo_size (good : String)
deriving DecidableEq, Repr

/-- Modelled from the spec: `ProvinceInstance::colony_status_t`. -/
inductive colony_status_t where
  | STATE
  | PROTECTORATE
  | COLONY
deriving DecidableEq, Repr

/-- Modelled from the spec: `State` (State.hpp is not among the sources). The
vector `provinces` of pointers to province instances is given twice: by
`provinces`, the pops behind each pointer (a nullable pointer in the code), as
`produce` reads them, and by `province_indices`, the 1-based indices of the
province instances pointed to, as `add_state_set` writes them. The owner is given by
the identifier of the country, a null owner by `none`; the capital by its index. -/
structure State where
  identifier : String
  provinces : List (Option (List Pop))
  owner : Option String := none
  capital : Nat := 0
  province_indices : List Nat := []
  colony_status : colony_status_t := colony_status_t.STATE
deriving DecidableEq, Repr

/-- Modelled from the spec: `ProvinceInstance` (ProvinceInstance.hpp is not among
the sources), as far as the RGO and the state manager read it: its pops, its state
(a nullable pointer in the code), the values of its modifier sum, its owner (the
identifier of the country, `none` for a null owner) and its colony status. -/
structure ProvinceInstance where
  identifier : String
  pops : List Pop
  state : Option State := none
  modifier_effect_values : List (rgo_modifier_effect_t × fixed_point_t) := []
  owner : Option String := none
  colony_status : colony_status_t := colony_status_t.STATE
deriving DecidableEq, Repr

/-- Modelled from the spec: `get_modifier_effect_value_nullcheck`, the value of the
province's modifier sum for an effect, zero when the sum holds no entry for it. -/
def ProvinceInstance.get_modifier_effect_value_nullcheck (location : ProvinceInstance)
    (effect : rgo_modifier_effect_t) : fixed_point_t :=
  match location.modifier_effect_values.find? (fun e => e.1 = effect) with
  | some e => e.2
  | none => 0

/-- The state of a `ResourceGatheringOperation` (the members initialised by its
constructor, ResourceGatheringOperation.cpp:16-36). The per-type employee count,
an indexed map over the pop types, is a list of entries in key order. -/
structure ResourceGatheringOperation where
  production_type_nullable : Option ProductionType
  revenue_yesterday : fixed_point_t
  output_quantity_yesterday : fixed_point_t
  unsold_quantity_yesterday : fixed_point_t
  size_multiplier : fixed_point_t
  employees : List Employee
  max_employee_count_cache : Int
  total_employees_count_cache : Int
  total_paid_employees_count_cache : Int
  total_owner_income_cache : fixed_point_t
  total_employee_income_cache : fixed_point_t
  employee_count_per_type_cache : List (PopType × Int)
deriving DecidableEq, Repr

namespace ResourceGatheringOperation

/-- The constructor taking only the pop type keys
(ResourceGatheringOperation.cpp:38-42). -/
def new (pop_type_keys : List PopType) : ResourceGatheringOperation :=
  { production_type_nullable := none
    revenue_yesterday := fixed_point_t._0
    output_quantity_yesterday := fixed_point_t._0
    unsold_quantity_yesterday := fixed_point_t._0
    size_multiplier := fixed_point_t._0
    employees := []
    max_employee_count_cache := 0
    total_employees_count_cache := 0
    total_paid_employees_count_cache := 0
    total_owner_income_cache := 0
    total_employee_income_cache := 0
    employee_count_per_type_cache := pop_type_keys.map (fun k => (k, 0)) }

/-- The body of the loop over the pops in `hire`
(ResourceGatheringOperation.cpp:150-164) for one pop. For a pop without a type the
code binds the reference `pop_type` to the null pointer and compares only its address
with the pop types of the jobs, so the pop is skipped when every job has a pop type.
When a job has no pop type either, the addresses are equal and the code reads the
pop type through the null reference (`employee_count_per_type_cache[pop_type]`,
`pop_type.get_is_slave()`); the model stops with `none` there. -/
def hire_pop (jobs : List Job) (proportion_to_hire : fixed_point_t)
    (rgo : ResourceGatheringOperation) (pop : Pop) : Option ResourceGatheringOperation :=
  match pop.type with
  | none => if jobs.any (fun job => job.pop_type = none) then none else some rgo
  | some pop_type =>
    if jobs.any (fun job => job.pop_type = some pop_type) then
      let pop_size_to_hire :=
        fixed_point_t.floor (fixed_point_t.mul_int proportion_to_hire pop.size)
      some { rgo with
        employee_count_per_type_cache := rgo.employee_count_per_type_cache.map
          (fun e => if e.1 = pop_type then (e.1, e.2 + pop_size_to_hire) else e)
        employees := rgo.employees ++ [{ pop := pop, size := pop_size_to_hire }]
        total_employees_count_cache := rgo.total_employees_count_cache + pop_size_to_hire
        total_paid_employees_count_cache :=
          if ¬ pop_type.is_slave then rgo.total_paid_employees_count_cache + pop_size_to_hire
          else rgo.total_paid_employees_count_cache }
    else some rgo

/-- The loop over the pops in `hire` (ResourceGatheringOperation.cpp:150-164). -/
def hire_pops (jobs : List Job) (proportion_to_hire : fixed_point_t) :
    List Pop → ResourceGatheringOperation → Option ResourceGatheringOperation
  | [], rgo => some rgo
  | pop :: rest, rgo =>
    match hire_pop jobs proportion_to_hire rgo pop with
    | none => none
    | some rgo1 => hire_pops jobs proportion_to_hire rest rgo1

/-- The function `ResourceGatheringOperation::hire` (ResourceGatheringOperation.cpp:126-165).
Only the branch for a null production type clears `employees` and the per-type
counts. -/
def hire (rgo : ResourceGatheringOperation) (location : ProvinceInstance)
    (available_worker_count : Int) : Option ResourceGatheringOperation :=
  let rgo0 := { rgo with total_employees_count_cache := 0,
                         total_paid_employees_count_cache := 0 }
  match rgo0.production_type_nullable with
  | none =>
    some { rgo0 with
      employees := []
      employee_count_per_type_cache :=
        rgo0.employee_count_per_type_cache.map (fun e => (e.1, 0)) }
  | some production_type =>
    if rgo0.max_employee_count_cache ≤ 0 then some rgo0
    else if available_worker_count ≤ 0 then some rgo0
    else
      let proportion_to_hire :=
        if rgo0.max_employee_count_cache ≥ available_worker_count then fixed_point_t._1
        else
          fixed_point_t.div (fixed_point_t.parse rgo0.max_employee_count_cache)
            (fixed_point_t.parse available_worker_count)
      hire_pops production_type.jobs proportion_to_hire location.pops rgo0

/-- The owner share of the revenue (ResourceGatheringOperation.cpp:314-318). -/
def owner_share (total_owner_count_in_state_cache total_worker_count_in_province : Int) :
    fixed_point_t :=
  let owner_share :=
    fixed_point_t.div_int
      (fixed_point_t.mul_int fixed_point_t._2 total_owner_count_in_state_cache)
      total_worker_count_in_province
  if owner_share > fixed_point_t._0_50 then fixed_point_t._0_50 else owner_share

/-- The income handed to one owner pop (ResourceGatheringOperation.cpp:322). -/
def owner_income (revenue_left owner_share : fixed_point_t)
    (total_owner_count_in_state_cache : Int) (owner_pop : Pop) : fixed_point_t :=
  fixed_point_t.div_int
    (fixed_point_t.mul_int (fixed_point_t.mul revenue_left owner_share) owner_pop.size)
    total_owner_count_in_state_cache

/-- The income handed to one paid employee (ResourceGatheringOperation.cpp:343). -/
def employee_income (revenue_left : fixed_point_t) (total_paid_employees_count_cache : Int)
    (employee : Employee) : fixed_point_t :=
  fixed_point_t.div_int (fixed_point_t.mul_int revenue_left employee.size)
    total_paid_employees_count_cache

/-- What the two loops of `pay_employees` accumulate: the running income total and
the incomes handed to pops, in call order. -/
abbrev Incomes := fixed_point_t × List (Pop × fixed_point_t)

/-- The loop over the owner pops (ResourceGatheringOperation.cpp:320-325). -/
def pay_owners (revenue_left owner_share : fixed_point_t)
    (total_owner_count_in_state_cache : Int) : List Pop → Incomes → Incomes
  | [], acc => acc
  | owner_pop :: rest, (total, paid) =>
    let income_for_this_pop :=
      owner_income revenue_left owner_share total_owner_count_in_state_cache owner_pop
    pay_owners revenue_left owner_share total_owner_count_in_state_cache rest
      (fixed_point_t.add total income_for_this_pop, paid ++ [(owner_pop, income_for_this_pop)])

/-- The loop over the employees (ResourceGatheringOperation.cpp:330-346). An
employee whose pop has no type ends the function; slaves are skipped. -/
def pay_workers (revenue_left : fixed_point_t) (total_paid_employees_count_cache : Int) :
    List Employee → Incomes → Incomes
  | [], acc => acc
  | employee :: rest, (total, paid) =>
    match employee.pop.type with
    | none => (total, paid)
    | some employee_pop_type =>
      if employee_pop_type.is_slave then
        pay_workers revenue_left total_paid_employees_count_cache rest (total, paid)
      else
        let income_for_this_pop :=
          employee_income revenue_left total_paid_employees_count_cache employee
        pay_workers revenue_left total_paid_employees_count_cache rest
          (fixed_point_t.add total income_for_this_pop,
            paid ++ [(employee.pop, income_for_this_pop)])

/-- What one `pay_employees` call does: the operation it leaves and the incomes it
handed to the pops through `add_rgo_owner_income` and `add_rgo_worker_income`. -/
structure Payroll where
  rgo : ResourceGatheringOperation
  owner_incomes : List (Pop × fixed_point_t)
  worker_incomes : List (Pop × fixed_point_t)
deriving DecidableEq, Repr

/-- The function `ResourceGatheringOperation::pay_employees`
(ResourceGatheringOperation.cpp:292-351). With a positive owner count and a
production type without owner job, `get_owner().value()` throws; the model stops
with `none`. -/
def pay_employees (rgo : ResourceGatheringOperation) (revenue : fixed_point_t)
    (total_worker_count_in_province : Int) (owner_pops_cache : List Pop)
    (total_owner_count_in_state_cache : Int) : Option Payroll :=
  let rgo0 := { rgo with total_owner_income_cache := 0, total_employee_income_cache := 0 }
  match rgo0.production_type_nullable with
  | none => some { rgo := rgo0, owner_incomes := [], worker_incomes := [] }
  | some production_type =>
    if revenue ≤ 0 ∨ total_worker_count_in_province ≤ 0 then
      some { rgo := rgo0, owner_incomes := [], worker_incomes := [] }
    else
      let owners : Option (fixed_point_t × Incomes) :=
        if total_owner_count_in_state_cache > 0 then
          match production_type.owner with
          | none => none
          | some _ =>
            let share :=
              owner_share total_owner_count_in_state_cache total_worker_count_in_province
            some (fixed_point_t.mul revenue (fixed_point_t.sub fixed_point_t._1 share),
              pay_owners revenue share total_owner_count_in_state_cache owner_pops_cache
                (0, []))
        else some (revenue, (0, []))
      match owners with
      | none => none
      | some (revenue_left, owner_total, owner_paid) =>
        let workers : Incomes :=
          if rgo0.total_paid_employees_count_cache > 0 then
            pay_workers revenue_left rgo0.total_paid_employees_count_cache rgo0.employees
              (0, [])
          else (0, [])
        some
          { rgo := { rgo0 with total_owner_income_cache := owner_total,
                               total_employee_income_cache := workers.1 }
            owner_incomes := owner_paid
            worker_incomes := workers.2 }

/-- What one `produce` call does: the quantity it returns and the values it
leaves in its two reference parameters. -/
structure Production where
  output : fixed_point_t
  owner_pops_cache : List Pop
  total_owner_count_in_state_cache : Int
deriving DecidableEq, Repr

/-- What the loops over the state's provinces and their pops in `produce`
accumulate (ResourceGatheringOperation.cpp:203-218). -/
structure StateCount where
  state_population : Int
  owner_pops_cache : List Pop
  total_owner_count_in_state_cache : Int
deriving DecidableEq, Repr

/-- The loop over the pops of one province of the state
(ResourceGatheringOperation.cpp:211-217). -/
def count_pops (owner_pop_type : PopType) : List Pop → StateCount → StateCount
  | [], s => s
  | pop :: rest, s =>
    count_pops owner_pop_type rest
      (if some owner_pop_type = pop.type then
        { state_population := s.state_population + pop.size
          owner_pops_cache := s.owner_pops_cache ++ [pop]
          total_owner_count_in_state_cache := s.total_owner_count_in_state_cache + pop.size }
      else { s with state_population := s.state_population + pop.size })

/-- The loop over the provinces of the state
(ResourceGatheringOperation.cpp:205-218); the flag is false when a null province
was met, where the code logs an error and returns. -/
def count_state (owner_pop_type : PopType) :
    List (Option (List Pop)) → StateCount → Bool × StateCount
  | [], s => (true, s)
  | none :: _, s => (false, s)
  | some pops :: rest, s => count_state owner_pop_type rest (count_pops owner_pop_type pops s)

/-- The share of a job's pop type in the workforce, capped by the job's amount
when its effect multiplier is not 1 (ResourceGatheringOperation.cpp:264-269). -/
def relative_to_workforce (rgo : ResourceGatheringOperation) (employees_of_type : Int)
    (job : Job) : fixed_point_t :=
  let relative_to_workforce :=
    fixed_point_t.div (fixed_point_t.parse employees_of_type)
      (fixed_point_t.parse rgo.max_employee_count_cache)
  if job.effect_multiplier ≠ fixed_point_t._1 ∧ relative_to_workforce > job.amount then
    job.amount
  else relative_to_workforce

/-- The loop over the jobs for one pop type (ResourceGatheringOperation.cpp:259-281);
the accumulators are `(throughput_from_workers, output_from_workers)`. -/
def add_jobs (rgo : ResourceGatheringOperation) (pop_type : PopType) (employees_of_type : Int) :
    List Job → fixed_point_t × fixed_point_t → fixed_point_t × fixed_point_t
  | [], acc => acc
  | job :: rest, (throughput_from_workers, output_from_workers) =>
    if job.pop_type ≠ some pop_type then
      add_jobs rgo pop_type employees_of_type rest (throughput_from_workers, output_from_workers)
    else
      let contribution :=
        fixed_point_t.mul job.effect_multiplier
          (relative_to_workforce rgo employees_of_type job)
      add_jobs rgo pop_type employees_of_type rest
        (match job.effect_type with
          | Job.effect_t.OUTPUT =>
            (throughput_from_workers, fixed_point_t.add output_from_workers contribution)
          | Job.effect_t.THROUGHPUT =>
            (fixed_point_t.add throughput_from_workers contribution, output_from_workers)
          | Job.effect_t.INPUT => (throughput_from_workers, output_from_workers))

/-- The loop over the pop types (ResourceGatheringOperation.cpp:256-282). -/
def add_workers (rgo : ResourceGatheringOperation) (jobs : List Job) :
    List (PopType × Int) → fixed_point_t × fixed_point_t → fixed_point_t × fixed_point_t
  | [], acc => acc
  | (pop_type, employees_of_type) :: rest, acc =>
    add_workers rgo jobs rest (add_jobs rgo pop_type employees_of_type jobs acc)

/-- The multipliers after the modifiers of the location are added
(ResourceGatheringOperation.cpp:235-252), from the multipliers
`(throughput_multiplier, output_multiplier)` left by the owner. -/
def add_modifiers (location : ProvinceInstance) (production_type : ProductionType)
    (multipliers : fixed_point_t × fixed_point_t) : fixed_point_t × fixed_point_t :=
  let value := location.get_modifier_effect_value_nullcheck
  let throughput1 := fixed_point_t.add multipliers.1
    (fixed_point_t.add (value .rgo_throughput) (value .local_rgo_throughput))
  let output1 := fixed_point_t.add multipliers.2
    (fixed_point_t.add (value .rgo_output) (value .local_rgo_output))
  let throughput2 :=
    if production_type.is_farm then
      fixed_point_t.add throughput1 (value .farm_rgo_throughput_global)
    else throughput1
  let output2 :=
    if production_type.is_farm then
      fixed_point_t.add output1
        (fixed_point_t.add (value .farm_rgo_output_global) (value .farm_rgo_output_local))
    else output1
  let throughput3 :=
    if production_type.is_mine then
      fixed_point_t.add throughput2 (value .mine_rgo_throughput_global)
    else throughput2
  let output3 :=
    if production_type.is_mine then
      fixed_point_t.add output2
        (fixed_point_t.add (value .mine_rgo_output_global) (value .mine_rgo_output_local))
    else output2
  (fixed_point_t.add throughput3
      (value (.rgo_goods_throughput production_type.output_good.identifier)),
    fixed_point_t.add output3
      (value (.rgo_goods_output production_type.output_good.identifier)))

/-- The end of `produce` (ResourceGatheringOperation.cpp:235-289), from the
multipliers `(throughput_multiplier, output_multiplier)` left by the owner. -/
def produce_output (rgo : ResourceGatheringOperation) (location : ProvinceInstance)
    (production_type : ProductionType) (size_modifier : fixed_point_t)
    (multipliers : fixed_point_t × fixed_point_t) : fixed_point_t :=
  let modified := add_modifiers location production_type multipliers
  let workers := add_workers rgo production_type.jobs rgo.employee_count_per_type_cache
    (fixed_point_t._0, fixed_point_t._1)
  fixed_point_t.mul
    (fixed_point_t.mul
      (fixed_point_t.mul
        (fixed_point_t.mul
          (fixed_point_t.mul
            (fixed_point_t.mul production_type.base_output_quantity size_modifier)
            rgo.size_multiplier)
          modified.1)
        workers.1)
      modified.2)
    workers.2

/-- The multipliers `(throughput_multiplier, output_multiplier)` after the owner
job's effect is added (ResourceGatheringOperation.cpp:220-232). -/
def add_owner (owner_job : Job) (count : StateCount) : fixed_point_t × fixed_point_t :=
  if count.total_owner_count_in_state_cache > 0 then
    let effect :=
      fixed_point_t.div_int
        (fixed_point_t.mul_int owner_job.effect_multiplier
          count.total_owner_count_in_state_cache)
        count.state_population
    match owner_job.effect_type with
    | Job.effect_t.OUTPUT => (fixed_point_t._1, fixed_point_t.add fixed_point_t._1 effect)
    | Job.effect_t.THROUGHPUT => (fixed_point_t.add fixed_point_t._1 effect, fixed_point_t._1)
    | Job.effect_t.INPUT => (fixed_point_t._1, fixed_point_t._1)
  else (fixed_point_t._1, fixed_point_t._1)

/-- The function `ResourceGatheringOperation::produce`
(ResourceGatheringOperation.cpp:167-290). The two reference parameters come in
with the values given and go out in the result. -/
def produce (rgo : ResourceGatheringOperation) (location : ProvinceInstance)
    (owner_pops_cache : List Pop) (total_owner_count_in_state_cache : Int)
    (size_modifier : fixed_point_t) : Production :=
  if size_modifier = fixed_point_t._0 then
    { output := fixed_point_t._0, owner_pops_cache := owner_pops_cache,
      total_owner_count_in_state_cache := total_owner_count_in_state_cache }
  else
    match rgo.production_type_nullable with
    | none =>
      { output := fixed_point_t._0, owner_pops_cache := [],
        total_owner_count_in_state_cache := 0 }
    | some production_type =>
      if rgo.max_employee_count_cache ≤ 0 then
        { output := fixed_point_t._0, owner_pops_cache := [],
          total_owner_count_in_state_cache := 0 }
      else
        match production_type.owner with
        | none =>
          { output := produce_output rgo location production_type size_modifier
              (fixed_point_t._1, fixed_point_t._1)
            owner_pops_cache := [], total_owner_count_in_state_cache := 0 }
        | some owner_job =>
          match owner_job.pop_type with
          | none =>
            { output := fixed_point_t._0, owner_pops_cache := [],
              total_owner_count_in_state_cache := 0 }
          | some owner_pop_type =>
            match location.state with
            | none =>
              { output := fixed_point_t._0, owner_pops_cache := [],
                total_owner_count_in_state_cache := 0 }
            | some state =>
              let counted := count_state owner_pop_type state.provinces
                { state_population := 0, owner_pops_cache := [],
                  total_owner_count_in_state_cache := 0 }
              if counted.1 then
                { output := produce_output rgo location production_type size_modifier
                    (add_owner owner_job counted.2)
                  owner_pops_cache := counted.2.owner_pops_cache
                  total_owner_count_in_state_cache :=
                    counted.2.total_owner_count_in_state_cache }
              else
                { output := fixed_point_t._0
                  owner_pops_cache := counted.2.owner_pops_cache
                  total_owner_count_in_state_cache :=
                    counted.2.total_owner_count_in_state_cache }

/-- The pops of a state, province after province (null provinces hold none). -/
def state_pops (state : State) : List Pop :=
  state.provinces.flatMap (fun province => province.getD [])

/-- In the words of the spec: the share of a job in the workforce,
`relative = employees_of_type / max_employees`, both counts converted to fixed point,
with the cap by `Job.amount` when `effect_multiplier ≠ 1`: for an effect multiplier
of 1 the share itself, otherwise the smaller of the share and the job's amount. -/
def spec_relative (employees_of_type max_employees : Int) (job : Job) : fixed_point_t :=
  if job.effect_multiplier = fixed_point_t._1 then
    fixed_point_t.div (fixed_point_t.parse employees_of_type)
      (fixed_point_t.parse max_employees)
  else
    min
      (fixed_point_t.div (fixed_point_t.parse employees_of_type)
        (fixed_point_t.parse max_employees))
      job.amount

/-- In the words of the spec: the contributions of the employed pop types, in the
order of the pop types and, within one pop type, of its jobs. Each is the effect
type of a job of that pop type with `effect_multiplier × relative`, where
`relative = employees_of_type / max_employee_count`, capped by the job's amount
when its effect multiplier is not 1. -/
def spec_worker_contributions (rgo : ResourceGatheringOperation) (jobs : List Job) :
    List (Job.effect_t × fixed_point_t) :=
  rgo.employee_count_per_type_cache.flatMap (fun entry =>
    (jobs.filter (fun job => job.pop_type = some entry.1)).map (fun job =>
      (job.effect_type,
        fixed_point_t.mul job.effect_multiplier
          (spec_relative entry.2 rgo.max_employee_count_cache job))))

/-- In the words of the spec: a worker accumulator, its start value plus the
contributions of the jobs of one effect type. -/
def spec_from_workers (rgo : ResourceGatheringOperation) (jobs : List Job)
    (effect_type : Job.effect_t) (start : fixed_point_t) : fixed_point_t :=
  (((spec_worker_contributions rgo jobs).filter (fun c => c.1 = effect_type)).map
    (fun c => c.2)).foldl fixed_point_t.add start

/-- In the words of the spec: the throughput and output multipliers before the
province's modifiers are added. Both are 1, and an owner job with a positive
owner count adds `effect_multiplier × owner_count / state_population` to the one
its effect type names, where the owner count is the summed size of the state's
pops of the owner job's pop type and the state population that of all its pops. -/
def spec_owner_multipliers (owner : Option Job) (pops : List Pop) :
    fixed_point_t × fixed_point_t :=
  match owner with
  | none => (fixed_point_t._1, fixed_point_t._1)
  | some owner_job =>
    let owner_count :=
      ((pops.filter (fun pop => pop.type = owner_job.pop_type)).map (fun pop => pop.size)).sum
    let state_population := (pops.map (fun pop => pop.size)).sum
    let effect :=
      fixed_point_t.div_int (fixed_point_t.mul_int owner_job.effect_multiplier owner_count)
        state_population
    if owner_count > 0 then
      match owner_job.effect_type with
      | Job.effect_t.OUTPUT => (fixed_point_t._1, fixed_point_t.add fixed_point_t._1 effect)
      | Job.effect_t.THROUGHPUT => (fixed_point_t.add fixed_point_t._1 effect, fixed_point_t._1)
      | Job.effect_t.INPUT => (fixed_point_t._1, fixed_point_t._1)
    else (fixed_point_t._1, fixed_point_t._1)

end ResourceGatheringOperation

/-- The pop type of the owners in the RGO scenarios. -/
def scenario_owner_type : PopType := { identifier := "aristocrats", is_slave := false }

/-- The pop type of the workers in the RGO scenarios. -/
def scenario_worker_type : PopType := { identifier := "farmers", is_slave := false }

/-- The production type of the RGO scenarios: farmers work, and aristocrats own
when `with_owner` is set. -/
def scenario_rgo_production_type (with_owner : Bool) : ProductionType :=
  { identifier := "farm"
    owner :=
      if with_owner then
        some { pop_type := some scenario_owner_type, effect_type := Job.effect_t.OUTPUT,
               effect_multiplier := 65536, amount := 65536 }
      else none
    jobs := [{ pop_type := some scenario_worker_type, effect_type := Job.effect_t.THROUGHPUT,
               effect_multiplier := 65536, amount := 65536 }]
    input_goods := []
    output_good := scenario_output_good
    base_workforce_size := 100
    base_output_quantity := 65536
    is_farm := true
    is_mine := false }

/-- The province of the RGO scenarios: 40 and 60 farmers. -/
def scenario_province : ProvinceInstance :=
  { identifier := "province"
    pops := [{ type := some scenario_worker_type, size := 40, cash := 0 },
             { type := some scenario_worker_type, size := 60, cash := 0 }] }

/-- The owner pops of the RGO scenarios: 20 and 30 aristocrats. -/
def scenario_owner_pops : List Pop :=
  [{ type := some scenario_owner_type, size := 20, cash := 0 },
   { type := some scenario_owner_type, size := 30, cash := 0 }]

/-- An RGO of the scenarios before hiring: a capacity of 100 employees and no
employee recorded. -/
def scenario_rgo (with_owner : Bool) : ResourceGatheringOperation :=
  { ResourceGatheringOperation.new [scenario_owner_type, scenario_worker_type] with
    production_type_nullable := some (scenario_rgo_production_type with_owner)
    size_multiplier := 65536
    max_employee_count_cache := 100 }

/-- The state of the RGO scenarios: the scenario province's farmers and the
scenario's 50 aristocrats in a second province. -/
def scenario_state : State :=
  { identifier := "state"
    provinces := [some scenario_province.pops, some scenario_owner_pops] }

/-- The scenario province as a member of the scenario state. -/
def scenario_province_in_state : ProvinceInstance :=
  { scenario_province with state := some scenario_state }

/-- The RGO of the scenarios after `hire` on the scenario province with its 100
available workers. -/
def scenario_rgo_hired (with_owner : Bool) : ResourceGatheringOperation :=
  ((scenario_rgo with_owner).hire scenario_province 100).getD (scenario_rgo with_owner)

/-- The RGO of the scenarios after `hire` has run twice on the scenario province. -/
def scenario_rgo_hired_twice (with_owner : Bool) : ResourceGatheringOperation :=
  ((scenario_rgo_hired with_owner).hire scenario_province 100).getD
    (scenario_rgo_hired with_owner)

/-! ## Map: provinces and adjacencies -/

/-- Modelled from the spec: `fixed_point_t::abs`, saturating. -/
def fixed_point_t.abs (a : fixed_point_t) : fixed_point_t :=
  if a < 0 then fixed_point_t.saturate (-a) else a

/-- The integer square root of `n`, found bit by bit from bit `bits - 1` down. -/
def fixed_point_t.sqrt_bits (n : Nat) : Nat → Nat → Nat
  | 0, root => root
  | bits + 1, root =>
    fixed_point_t.sqrt_bits n bits
      (if (root + 2 ^ bits) * (root + 2 ^ bits) ≤ n then root + 2 ^ bits else root)

/-- Modelled from the spec: `fixed_point_t::sqrt`, the largest fixed-point value
whose square is not above the argument (zero for a negative argument). -/
def fixed_point_t.sqrt (a : fixed_point_t) : fixed_point_t :=
  if a ≤ 0 then 0 else (fixed_point_t.sqrt_bits (a.toNat * 65536) 40 0 : Nat)

/-- Modelled from the spec: `fvec2_t`, a vector of two fixed-point numbers
(Vector.hpp is not among the sources). -/
structure fvec2_t where
  x : fixed_point_t
  y : fixed_point_t
deriving DecidableEq, Repr

/-- Modelled from the spec: `fvec2_t::length_squared`. -/
def fvec2_t.length_squared (v : fvec2_t) : fixed_point_t :=
  fixed_point_t.add (fixed_point_t.mul v.x v.x) (fixed_point_t.mul v.y v.y)

/-- The adjacency types (`Province::adjacency_t::type_t`). -/
inductive adjacency_t.type_t where
  | LAND
  | WATER
  | COASTAL
  | IMPASSABLE
  | STRAIT
  | CANAL
deriving DecidableEq, Repr

/-- Modelled from the spec: `Province::adjacency_t` (Province.hpp is not among the
sources). The pointers `get_to` and `through` are given by the 1-based index of the
province they point to, a null `through` by `none`. -/
structure adjacency_t where
  get_to : Nat
  distance : fixed_point_t
  type : adjacency_t.type_t
  through : Option Nat
  data : Nat
deriving DecidableEq, Repr

/-- Modelled from the spec: the canal data of an adjacency that is no canal. -/
def adjacency_t.NO_CANAL : Nat := 0

/-- Modelled from the spec: `colour_t`, an RGB byte tuple (types/Colour.hpp is not
among the sources). -/
structure colour_t where
  red : Nat
  green : Nat
  blue : Nat
deriving DecidableEq, Repr

/-- Modelled from the spec: the null colour, all components zero. -/
def colour_t.null : colour_t := { red := 0, green := 0, blue := 0 }

/-- Modelled from the spec: `colour_t::is_null`. -/
def colour_t.is_null (colour : colour_t) : Bool := colour = colour_t.null

/-- Modelled from the spec: `Province` (Province.hpp is not among the sources), as
far as the functions of the map read and write it. The pointers `climate` and
`continent` are given by the identifier of the registered climate or continent they
point to, a null pointer by `none`. -/
structure Province where
  identifier : String
  index : Nat
  water : Bool := false
  coastal : Bool := false
  adjacencies : List adjacency_t := []
  unit_position : fvec2_t := { x := 0, y := 0 }
  colour : colour_t := colour_t.null
  has_region : Bool := false
  climate : Option String := none
  continent : Option String := none
  on_map : Bool := false
  centre : fvec2_t := { x := 0, y := 0 }
deriving DecidableEq, Repr

namespace Province

/-- The function `Province::is_water` (Province.cpp:25-27). -/
def is_water (province : Province) : Bool := province.water

/-- Modelled from the spec: `Province::is_adjacent_to`, whether the province holds
an adjacency to the given province. -/
def is_adjacent_to (province : Province) (index_to : Nat) : Bool :=
  province.adjacencies.any (fun adj => adj.get_to = index_to)

end Province

/-- A pixel of the province shape image (`Map::shape_pixel_t`, Map.hpp:55-58). -/
structure shape_pixel_t where
  index : Nat
  terrain : Nat
deriving DecidableEq, Repr

/-- Modelled from the spec: `Region`, a named province set with its meta flag
(Region.hpp is not among the sources). The provinces are given by their indices. -/
structure Region where
  identifier : String
  colour : colour_t := colour_t.null
  meta : Bool
  provinces : List Nat
deriving DecidableEq, Repr

/-- Modelled from the spec: `Climate`, a named province set (its modifier values are
not part of the model). The provinces are given by their indices. -/
structure Climate where
  identifier : String
  provinces : List Nat := []
deriving DecidableEq, Repr

/-- Modelled from the spec: `Continent`, a named province set (its modifier values
are not part of the model). The provinces are given by their indices. -/
structure Continent where
  identifier : String
  provinces : List Nat := []
deriving DecidableEq, Repr

/-- Modelled from the spec: `TerrainTypeMapping` (TerrainType.hpp is not among the
sources): the terrain type it stands for, the terrain indices of the terrain image
that it covers and whether it has a texture. -/
structure TerrainTypeMapping where
  type : String
  terrain_indices : List Nat := []
  has_texture : Bool := false
deriving DecidableEq, Repr

/-- Modelled from the spec: `TerrainTypeManager`, as far as `load_map_images` reads
it. -/
structure TerrainTypeManager where
  terrain_type_mappings : List TerrainTypeMapping := []
  terrain_type_mappings_locked : Bool := false
  terrain_texture_limit : Nat := 0
deriving DecidableEq, Repr

/-- The part of the state of a `Map` (Map.hpp, Map.cpp) that the functions below
use: the province registry, whose indices start at 1, and its lock, the dimensions
and the province shape image, the colour index map, the province limit and the
registries of regions, climates and continents. -/
structure Map where
  provinces : List Province
  width : Int := 0
  height : Int := 0
  province_shape_image : List shape_pixel_t := []
  provinces_locked : Bool := false
  colour_index_map : List (colour_t × Nat) := []
  max_provinces : Nat := 65535
  regions : List Region := []
  regions_locked : Bool := false
  climates : List Climate := []
  climates_locked : Bool := false
  continents : List Continent := []
  continents_locked : Bool := false
  terrain_type_manager : TerrainTypeManager := {}
deriving DecidableEq, Repr

namespace Map

/-- Modelled from the spec: `get_province_by_index`, the registry lookup by 1-based
index; index 0 is the null index. -/
def get_province_by_index (map : Map) (index : Nat) : Option Province :=
  if index = 0 then none else map.provinces[index - 1]?

/-- The map after the province with the given index is overwritten: the effect of
writing through a reference to that province. -/
def set_province (map : Map) (index : Nat) (province : Province) : Map :=
  if index = 0 then map else { map with provinces := map.provinces.set (index - 1) province }

/-- The function `Map::calculate_distance_between` (Map.cpp:71-84). -/
def calculate_distance_between (map : Map) (province_from province_to : Province) :
    fixed_point_t :=
  let to_pos := province_to.unit_position
  let from_pos := province_from.unit_position
  let min_x :=
    min (fixed_point_t.abs (fixed_point_t.sub to_pos.x from_pos.x))
      (min
        (fixed_point_t.abs
          (fixed_point_t.add (fixed_point_t.sub to_pos.x from_pos.x)
            (fixed_point_t.parse map.width)))
        (fixed_point_t.abs
          (fixed_point_t.sub (fixed_point_t.sub to_pos.x from_pos.x)
            (fixed_point_t.parse map.width))))
  fixed_point_t.sqrt
    (fvec2_t.length_squared { x := min_x, y := fixed_point_t.sub to_pos.y from_pos.y })

/-- The function `Map::add_standard_adjacency` (Map.cpp:90-127). The two references
are given by the indices of the provinces; the call cannot be made without both
provinces, and the model then returns false and the map as it is. -/
def add_standard_adjacency (map : Map) (index_from index_to : Nat) : Bool × Map :=
  match map.get_province_by_index index_from, map.get_province_by_index index_to with
  | some province_from, some province_to =>
    if index_from = index_to then (false, map)
    else
      let from_needs_adjacency := !province_from.is_adjacent_to index_to
      let to_needs_adjacency := !province_to.is_adjacent_to index_from
      if !from_needs_adjacency && !to_needs_adjacency then (false, map)
      else
        let distance := map.calculate_distance_between province_from province_to
        let type :=
          if province_from.is_water ≠ province_to.is_water then adjacency_t.type_t.COASTAL
          else if province_from.is_water then adjacency_t.type_t.WATER
          else adjacency_t.type_t.LAND
        let from1 : Province :=
          if province_from.is_water ≠ province_to.is_water then
            { province_from with coastal := !province_from.is_water }
          else province_from
        let to1 : Province :=
          if province_from.is_water ≠ province_to.is_water then
            { province_to with coastal := !province_to.is_water }
          else province_to
        let from2 : Province :=
          if from_needs_adjacency then
            { from1 with adjacencies := from1.adjacencies ++
                [{ get_to := index_to, distance := distance, type := type, through := none,
                   data := 0 }] }
          else from1
        let to2 : Province :=
          if to_needs_adjacency then
            { to1 with adjacencies := to1.adjacencies ++
                [{ get_to := index_from, distance := distance, type := type, through := none,
                   data := 0 }] }
          else to1
        (true, (map.set_province index_from from2).set_province index_to to2)
  | _, _ => (false, map)

/-- The adjacency list with its first adjacency to the given province overwritten: the assignment
`*existing_adjacency = ...` (Map.cpp:238). -/
def replace_existing (index_to : Nat) (adjacency : adjacency_t) :
    List adjacency_t → List adjacency_t
  | [] => []
  | adj :: rest =>
    if adj.get_to = index_to then adjacency :: rest else adj :: replace_existing index_to adjacency rest

/-- The adjacency list with its first adjacency to the given province removed:
`from.adjacencies.erase(existing_adjacency)` (Map.cpp:218). -/
def erase_existing (index_to : Nat) : List adjacency_t → List adjacency_t
  | [] => []
  | adj :: rest => if adj.get_to = index_to then rest else adj :: erase_existing index_to rest

/-- The lambda `add_adjacency` of `add_special_adjacency` (Map.cpp:201-249), on the
adjacency list of its first argument: its result and the list it leaves. -/
def add_adjacency (distance : fixed_point_t) (type : adjacency_t.type_t)
    (through : Option Nat) (data : Nat) (adjacencies : List adjacency_t) (index_to : Nat) :
    Bool × List adjacency_t :=
  let adjacency : adjacency_t :=
    { get_to := index_to, distance := distance, type := type, through := through, data := data }
  match adjacencies.find? (fun adj => adj.get_to = index_to) with
  | some existing_adjacency =>
    if type = existing_adjacency.type ∧
        (type ≠ adjacency_t.type_t.STRAIT ∧ type ≠ adjacency_t.type_t.CANAL) then
      (true, adjacencies)
    else if type = adjacency_t.type_t.IMPASSABLE then
      if existing_adjacency.type = adjacency_t.type_t.WATER ∨
          existing_adjacency.type = adjacency_t.type_t.COASTAL then
        (true, erase_existing index_to adjacencies)
      else (true, replace_existing index_to adjacency adjacencies)
    else if type ≠ adjacency_t.type_t.STRAIT ∧ type ≠ adjacency_t.type_t.CANAL then
      (false, adjacencies)
    else if type ≠ existing_adjacency.type ∧
        existing_adjacency.type ≠
          (if type = adjacency_t.type_t.CANAL then adjacency_t.type_t.WATER
            else adjacency_t.type_t.LAND) then
      (false, adjacencies)
    else (true, replace_existing index_to adjacency adjacencies)
  | none =>
    if type = adjacency_t.type_t.IMPASSABLE then (true, adjacencies)
    else (true, adjacencies ++ [adjacency])

/-- The endpoint check of `add_special_adjacency` (Map.cpp:139-170): whether the
water status of the two provinces suits the adjacency type. -/
def endpoints_valid (type : adjacency_t.type_t) (province_from province_to : Province) :
    Bool :=
  match type with
  | .LAND | .STRAIT => !(province_from.is_water || province_to.is_water)
  | .WATER | .CANAL => !(!province_from.is_water || !province_to.is_water)
  | .COASTAL => !(province_from.is_water == province_to.is_water)
  | .IMPASSABLE => true

/-- The through check of `add_special_adjacency` (Map.cpp:172-188): `none` when the
check fails, otherwise the through province that the adjacency is to record. A
`through` index that names no province stands for the null pointer. -/
def through_checked (map : Map) (type : adjacency_t.type_t) (through : Option Nat) :
    Option (Option Nat) :=
  if type = adjacency_t.type_t.STRAIT ∨ type = adjacency_t.type_t.CANAL then
    let water_expected : Bool := type = adjacency_t.type_t.STRAIT
    match through.bind map.get_province_by_index with
    | none => none
    | some through_province =>
      if through_province.is_water ≠ water_expected then none else some through
  else some none

/-- The canal data check of `add_special_adjacency` (Map.cpp:190-197): the data
that the adjacency is to record. -/
def canal_data (type : adjacency_t.type_t) (data : Nat) : Nat :=
  if data ≠ adjacency_t.NO_CANAL ∧ type ≠ adjacency_t.type_t.CANAL then adjacency_t.NO_CANAL
  else data

/-- The function `Map::add_special_adjacency` (Map.cpp:129-252). The references
`from` and `to` and the pointer `through` are given by province indices; the call
cannot be made without the provinces that `from` and `to` name, and the model then
returns false and the map as it is. -/
def add_special_adjacency (map : Map) (index_from index_to : Nat)
    (type : adjacency_t.type_t) (through : Option Nat) (data : Nat) : Bool × Map :=
  match map.get_province_by_index index_from, map.get_province_by_index index_to with
  | some province_from, some province_to =>
    if index_from = index_to then (false, map)
    else if !endpoints_valid type province_from province_to then (false, map)
    else
      match map.through_checked type through with
      | none => (false, map)
      | some through1 =>
        let data1 := canal_data type data
        let distance := map.calculate_distance_between province_from province_to
        let added_from :=
          add_adjacency distance type through1 data1 province_from.adjacencies index_to
        let added_to :=
          add_adjacency distance type through1 data1 province_to.adjacencies index_from
        (added_from.1 && added_to.1,
          (map.set_province index_from { province_from with adjacencies := added_from.2 }
            ).set_province index_to { province_to with adjacencies := added_to.2 })
  | _, _ => (false, map)

/-- The province index that the shape image holds for the pixel in column `x` of
row `y`: the read `province_shape_image[x + y * width].index` (Map.cpp:780, 789). A
read past the end of the image, which does not occur for an image of width × height
pixels, gives the null index. -/
def pixel_index (map : Map) (x y : Nat) : Nat :=
  match map.province_shape_image[x + y * map.width.toNat]? with
  | some pixel => pixel.index
  | none => 0

/-- The lambda `generate_adjacency` of `_generate_standard_province_adjacencies`
(Map.cpp:779-785), with the province `current` given by its index. -/
def generate_adjacency (map : Map) (current : Nat) (x y : Nat) : Bool × Map :=
  match map.get_province_by_index (map.pixel_index x y) with
  | some _ => map.add_standard_adjacency current (map.pixel_index x y)
  | none => (false, map)

/-- The body of the loops of `_generate_standard_province_adjacencies`
(Map.cpp:789-796) for the pixel in column `x` of row `y`, on the flag `changed` and
the map. -/
def generate_pixel (y : Nat) (state : Bool × Map) (x : Nat) : Bool × Map :=
  match state.2.get_province_by_index (state.2.pixel_index x y) with
  | some _ =>
    let right := state.2.generate_adjacency (state.2.pixel_index x y)
      ((x + 1) % state.2.width.toNat) y
    if y + 1 < state.2.height.toNat then
      let below := right.2.generate_adjacency (state.2.pixel_index x y) x (y + 1)
      ((state.1 || right.1) || below.1, below.2)
    else (state.1 || right.1, right.2)
  | none => state

/-- The inner loop of `_generate_standard_province_adjacencies` (Map.cpp:788-797):
the pixels of row `y`. -/
def generate_row (state : Bool × Map) (y : Nat) : Bool × Map :=
  (List.range state.2.width.toNat).foldl (generate_pixel y) state

/-- The function `Map::_generate_standard_province_adjacencies` (Map.cpp:776-801):
its result and the map it leaves. -/
def _generate_standard_province_adjacencies (map : Map) : Bool × Map :=
  (List.range map.height.toNat).foldl generate_row (false, map)

/-- A call of one of the two functions that add adjacencies to a map. -/
inductive adjacency_call where
  | standard (index_from index_to : Nat)
  | special (index_from index_to : Nat) (type : adjacency_t.type_t) (through : Option Nat)
      (data : Nat)
deriving DecidableEq, Repr

/-- The map after a call of `add_standard_adjacency` or `add_special_adjacency`. -/
def adjacency_call.run (map : Map) : adjacency_call → Map
  | .standard index_from index_to => (map.add_standard_adjacency index_from index_to).2
  | .special index_from index_to type through data =>
    (map.add_special_adjacency index_from index_to type through data).2

/-- The map after a sequence of calls, made in order. -/
def run_calls (map : Map) (calls : List adjacency_call) : Map :=
  calls.foldl adjacency_call.run map

/-- The relation that the specification draws between pixels of the shape image:
the pixels `(x1, y1)` and `(x2, y2)` of an image of the given width and height are
4-neighbours when they lie in the same row in columns that follow each other, the
last column being followed by the first, or in the same column in rows that follow
each other, the last row being followed by none. -/
def spec_four_neighbours (width height x1 y1 x2 y2 : Nat) : Prop :=
  x1 < width ∧ x2 < width ∧ y1 < height ∧ y2 < height ∧
    ((y1 = y2 ∧ (x2 = (x1 + 1) % width ∨ x1 = (x2 + 1) % width)) ∨
      (x1 = x2 ∧ (y2 = y1 + 1 ∨ y1 = y2 + 1)))

instance (width height x1 y1 x2 y2 : Nat) :
    Decidable (spec_four_neighbours width height x1 y1 x2 y2) := by
  unfold spec_four_neighbours
  infer_instance

end Map

/-- The provinces of the adjacency scenarios: two land provinces 1 and 2, two water
provinces 3 and 4. -/
def scenario_map : Map :=
  { provinces :=
      [{ identifier := "p1", index := 1 },
       { identifier := "p2", index := 2, unit_position := { x := 196608, y := 262144 } },
       { identifier := "p3", index := 3, water := true },
       { identifier := "p4", index := 4, water := true }]
    width := 10
    height := 10 }

/-- The adjacency scenario after a strait between the land provinces 1 and 2
through the water province 3 has been added. -/
def scenario_map_strait : Map :=
  scenario_map.run_calls [Map.adjacency_call.special 1 2 adjacency_t.type_t.STRAIT (some 3) 0]

/-- The adjacency scenario after the standard adjacencies between the land
provinces 1 and 2 and between the water provinces 3 and 4 have been added. -/
def scenario_map_standard : Map :=
  scenario_map.run_calls [Map.adjacency_call.standard 1 2, Map.adjacency_call.standard 3 4]

/-- A map of five land provinces with a shape image of three rows of three pixels:
province 1 fills the first row, the provinces 2, 3 and 4 share the second row and
province 5 fills the third. -/
def scenario_map_image : Map :=
  { provinces :=
      [{ identifier := "p1", index := 1 }, { identifier := "p2", index := 2 },
       { identifier := "p3", index := 3 }, { identifier := "p4", index := 4 },
       { identifier := "p5", index := 5 }]
    width := 3
    height := 3
    province_shape_image :=
      [⟨1, 0⟩, ⟨1, 0⟩, ⟨1, 0⟩, ⟨2, 0⟩, ⟨3, 0⟩, ⟨4, 0⟩, ⟨5, 0⟩, ⟨5, 0⟩, ⟨5, 0⟩] }

/-! ## Map: province and region registries -/

/-- Modelled from the spec: `valid_basic_identifier`, whether the identifier contains
only alphanumeric characters and underscores. -/
def valid_basic_identifier (identifier : String) : Bool :=
  identifier.data.all (fun c => c.isAlphanum || c = '_')

/-- Modelled from the spec: `IdentifierRegistry::add_item` on the items and the lock
of a registry: a locked registry and an identifier that the registry already holds
are refused, otherwise the item is appended. -/
def IdentifierRegistry.add_item {T : Type} (get_identifier : T → String) (locked : Bool)
    (items : List T) (item : T) : Bool × List T :=
  if locked then (false, items)
  else if items.any (fun other => get_identifier other = get_identifier item) then
    (false, items)
  else (true, items ++ [item])

/-- Modelled from the spec: `ProvinceSet::add_province` on the provinces of a set: a
province that the set already holds is refused. -/
def ProvinceSet.add_province (provinces : List Nat) (province : Nat) : Bool × List Nat :=
  if province ∈ provinces then (false, provinces) else (true, provinces ++ [province])

/-- Modelled from the spec: `ProvinceSet::add_provinces`. -/
def ProvinceSet.add_provinces (provinces : List Nat) (new_provinces : List Nat) :
    Bool × List Nat :=
  new_provinces.foldl
    (fun state province =>
      ((state.1 && (ProvinceSet.add_province state.2 province).1),
        (ProvinceSet.add_province state.2 province).2))
    (true, provinces)

/-- Modelled from the spec: `ProvinceSet::remove_province`. -/
def ProvinceSet.remove_province (provinces : List Nat) (province : Nat) : Bool × List Nat :=
  if province ∈ provinces then (true, provinces.filter (fun other => other ≠ province))
  else (false, provinces)

namespace Map

/-- The function `Map::get_index_from_colour` (Map.cpp:322-328); the null index is
0. -/
def get_index_from_colour (map : Map) (colour : colour_t) : Nat :=
  match map.colour_index_map.find? (fun entry => entry.1 = colour) with
  | some entry => entry.2
  | none => 0

/-- The assignment `colour_index_map[colour] = index` (Map.cpp:67). -/
def set_colour_index (colour_index_map : List (colour_t × Nat)) (colour : colour_t)
    (index : Nat) : List (colour_t × Nat) :=
  if colour_index_map.any (fun entry => entry.1 = colour) then
    colour_index_map.map (fun entry => if entry.1 = colour then (colour, index) else entry)
  else colour_index_map ++ [(colour, index)]

/-- The function `Map::add_province` (Map.cpp:37-69): its result and the map it
leaves. The index of the new province is cast to the 16-bit `Province::index_t`. -/
def add_province (map : Map) (identifier : String) (colour : colour_t) : Bool × Map :=
  if map.provinces.length ≥ map.max_provinces then (false, map)
  else if identifier.isEmpty then (false, map)
  else if !valid_basic_identifier identifier then (false, map)
  else if colour.is_null then (false, map)
  else
    let new_province : Province :=
      { identifier := identifier, colour := colour,
        index := (map.provinces.length + 1) % 65536 }
    if map.get_index_from_colour colour ≠ 0 then (false, map)
    else
      let colour_index_map :=
        set_colour_index map.colour_index_map new_province.colour new_province.index
      let added :=
        IdentifierRegistry.add_item Province.identifier map.provinces_locked map.provinces
          new_province
      (added.1, { map with colour_index_map := colour_index_map, provinces := added.2 })

/-- The map after a sequence of `add_province` calls, made in order. -/
def add_provinces (map : Map) (calls : List (String × colour_t)) : Map :=
  calls.foldl (fun map call => (map.add_province call.1 call.2).2) map

/-- The function `Province::get_has_region` through a pointer to the province. -/
def get_has_region (map : Map) (province : Nat) : Bool :=
  match map.get_province_by_index province with
  | some province => province.has_region
  | none => false

/-- The loop of `add_region` that marks the provinces of a new region
(Map.cpp:312-314). -/
def mark_has_region (map : Map) (provinces : List Nat) : Map :=
  provinces.foldl
    (fun map province =>
      match map.get_province_by_index province with
      | some marked => map.set_province province { marked with has_region := true }
      | none => map)
    map

/-- The function `Map::add_region` (Map.cpp:295-320): its result and the map it
leaves. The provinces are given by their indices. -/
def add_region (map : Map) (identifier : String) (provinces : List Nat) (colour : colour_t) :
    Bool × Map :=
  if identifier.isEmpty then (false, map)
  else if provinces.isEmpty then (true, map)
  else
    let meta := provinces.any map.get_has_region
    let region_provinces := ProvinceSet.add_provinces [] provinces
    let region : Region :=
      { identifier := identifier, colour := colour, meta := meta,
        provinces := region_provinces.2 }
    let added :=
      IdentifierRegistry.add_item Region.identifier map.regions_locked map.regions region
    if added.1 then
      if !meta then
        (region_provinces.1, mark_has_region { map with regions := added.2 } provinces)
      else (region_provinces.1, { map with regions := added.2 })
    else (false, map)

/-- A call of `add_region`. -/
structure region_call where
  identifier : String
  provinces : List Nat
  colour : colour_t := colour_t.null
deriving DecidableEq, Repr

/-- The map after a sequence of `add_region` calls, made in order. -/
def add_regions (map : Map) (calls : List region_call) : Map :=
  calls.foldl (fun map call => (map.add_region call.identifier call.provinces call.colour).2)
    map

end Map

/-! ## States -/

/-- Modelled from the spec: `MapInstance` (MapInstance.hpp is not among the
sources), as far as the state manager uses it: the province instances, the instance
of the province definition with index `i` at position `i - 1`. -/
structure MapInstance where
  province_instances : List ProvinceInstance
deriving DecidableEq, Repr

namespace MapInstance

/-- Modelled from the spec: `get_province_instance_from_definition`, with the
province definition given by its index. -/
def get_province_instance_from_definition (map_instance : MapInstance) (index : Nat) :
    Option ProvinceInstance :=
  if index = 0 then none else map_instance.province_instances[index - 1]?

/-- The call `province->set_state(&state)` through the pointer to the province
instance with the given index. -/
def set_state (map_instance : MapInstance) (index : Nat) (state : State) : MapInstance :=
  match map_instance.get_province_instance_from_definition index with
  | some province_instance =>
    { map_instance with
      province_instances :=
        map_instance.province_instances.set (index - 1)
          { province_instance with state := some state } }
  | none => map_instance

end MapInstance

/-- The function `provinces_belong_in_same_state` (State.cpp:86-88). -/
def provinces_belong_in_same_state (lhs rhs : ProvinceInstance) : Bool :=
  lhs.owner = rhs.owner && lhs.colony_status = rhs.colony_status

/-- Modelled from the spec: `StateSet`, the states made from one region. -/
structure StateSet where
  region : Region
  states : List State := []
deriving DecidableEq, Repr

/-- The state sets of a `StateManager`. -/
structure StateManager where
  state_sets : List StateSet := []
deriving DecidableEq, Repr

namespace StateManager

/-- The inner loop of the grouping in `add_state_set` (State.cpp:121-127): the
province joins the first group whose front province belongs in the same state; `none`
when there is no such group. -/
def add_to_existing (map_instance : MapInstance) (province : Nat)
    (province_instance : ProvinceInstance) : List (List Nat) → Option (List (List Nat))
  | [] => none
  | provinces :: rest =>
    match provinces.head?.bind map_instance.get_province_instance_from_definition with
    | some front =>
      if provinces_belong_in_same_state front province_instance then
        some ((provinces ++ [province]) :: rest)
      else (add_to_existing map_instance province province_instance rest).map
        (fun rest1 => provinces :: rest1)
    | none =>
      (add_to_existing map_instance province province_instance rest).map
        (fun rest1 => provinces :: rest1)

/-- The body of the grouping loop of `add_state_set` (State.cpp:117-135) for one
province of the region. -/
def group_province (map_instance : MapInstance) (temp_provinces : List (List Nat))
    (province : Nat) : List (List Nat) :=
  match map_instance.get_province_instance_from_definition province with
  | some province_instance =>
    match add_to_existing map_instance province province_instance temp_provinces with
    | some grouped => grouped
    | none => temp_provinces ++ [[province]]
  | none => temp_provinces

/-- The body of the loop of `add_state_set` that creates the states
(State.cpp:144-162) for one group: the state is inserted and every province of the
group is pointed to it. The identifier of the model state is that of its region; the
owner's list of states is not part of the model. -/
def create_state (region : Region) (created : List State × MapInstance)
    (provinces : List Nat) : List State × MapInstance :=
  match provinces.head?.bind created.2.get_province_instance_from_definition with
  | some capital =>
    let state : State :=
      { identifier := region.identifier
        provinces :=
          provinces.map (fun province =>
            (created.2.get_province_instance_from_definition province).map
              (fun province_instance => province_instance.pops))
        owner := capital.owner
        capital := provinces.head?.getD 0
        province_indices := provinces
        colony_status := capital.colony_status }
    (created.1 ++ [state],
      state.province_indices.foldl (fun map_instance province =>
        map_instance.set_state province state) created.2)
  | none => created

/-- The function `StateManager::add_state_set` (State.cpp:102-165): its result, the
state manager and the map instance it leaves. The provinces of the region are given
by their indices; the call cannot be made for a province without instance, and the
model then returns false and leaves everything as it is. -/
def add_state_set (manager : StateManager) (map_instance : MapInstance) (region : Region) :
    Bool × StateManager × MapInstance :=
  if region.provinces.any (fun province =>
      (map_instance.get_province_instance_from_definition province).isNone) then
    (false, manager, map_instance)
  else if region.meta then (false, manager, map_instance)
  else if region.provinces.isEmpty then (false, manager, map_instance)
  else
    let temp_provinces := region.provinces.foldl (group_province map_instance) []
    let created := temp_provinces.foldl (create_state region) ([], map_instance)
    (true,
      { manager with
        state_sets := manager.state_sets ++ [{ region := region, states := created.1 }] },
      created.2)

end StateManager

/-- The map instance of the state scenario: provinces 1 and 3 owned by "ENG" as
states, province 2 owned by "FRA", province 4 owned by "ENG" as a colony. -/
def scenario_map_instance : MapInstance :=
  { province_instances :=
      [{ identifier := "p1", pops := [], owner := some "ENG" },
       { identifier := "p2", pops := [], owner := some "FRA" },
       { identifier := "p3", pops := [], owner := some "ENG" },
       { identifier := "p4", pops := [], owner := some "ENG",
         colony_status := colony_status_t.COLONY }] }

/-! ## Climates and continents -/

/-- An entry of the climate file or of the continent file, as far as the loaders
read it: its key, the provinces that the province identifiers of its node name, in
order and given by their indices, and whether the node parses without error. -/
structure province_set_entry where
  identifier : String
  provinces : List Nat := []
  valid : Bool := true
deriving DecidableEq, Repr

namespace Map

/-- Modelled from the spec: the registry lookup `climates.get_item_by_identifier`. -/
def get_climate_by_identifier (map : Map) (identifier : String) : Option Climate :=
  map.climates.find? (fun climate => climate.identifier = identifier)

/-- The map after the registered climate with the identifier of the given one is
overwritten: the effect of writing through a pointer to that climate. -/
def set_climate (map : Map) (climate : Climate) : Map :=
  { map with
    climates :=
      map.climates.map (fun other =>
        if other.identifier = climate.identifier then climate else other) }

/-- The callback of `load_climate_file` for one province of the list of an existing
climate (Map.cpp:882-902). -/
def add_province_to_climate (map : Map) (identifier : String) (province : Nat) : Map :=
  match map.get_province_by_index province, map.get_climate_by_identifier identifier with
  | some listed, some cur_climate =>
    if listed.climate ≠ some identifier then
      let added : Map :=
        map.set_climate
          { cur_climate with
            provinces := (ProvinceSet.add_province cur_climate.provinces province).2 }
      let removed : Map :=
        match listed.climate.bind added.get_climate_by_identifier with
        | some old_climate =>
          added.set_climate
            { old_climate with
              provinces := (ProvinceSet.remove_province old_climate.provinces province).2 }
        | none => added
      removed.set_province province { listed with climate := some identifier }
    else map
  | _, _ => map

/-- The callback of `load_climate_file` for one entry of the file
(Map.cpp:868-906), on the result so far and the map. -/
def load_climate_entry (loaded : Bool × Map) (entry : province_set_entry) : Bool × Map :=
  if entry.identifier.isEmpty then (false, loaded.2)
  else
    match loaded.2.get_climate_by_identifier entry.identifier with
    | none =>
      let added :=
        IdentifierRegistry.add_item Climate.identifier loaded.2.climates_locked
          loaded.2.climates { identifier := entry.identifier }
      (loaded.1 && (entry.valid && added.1), { loaded.2 with climates := added.2 })
    | some _ =>
      (loaded.1 && entry.valid,
        entry.provinces.foldl
          (fun map province => map.add_province_to_climate entry.identifier province)
          loaded.2)

/-- The function `Map::load_climate_file` (Map.cpp:865-916) on the entries of the
file: its result and the map it leaves. -/
def load_climate_file (map : Map) (entries : List province_set_entry) : Bool × Map :=
  ((entries.foldl load_climate_entry (true, map)).1,
    { (entries.foldl load_climate_entry (true, map)).2 with climates_locked := true })

/-- The callback of the province list of a continent (Map.cpp:931-938): the listed
provinces that have no continent yet. -/
def continent_provinces (map : Map) (provinces : List Nat) : List Nat :=
  provinces.filter (fun province =>
    match map.get_province_by_index province with
    | some listed => listed.continent.isNone
    | none => false)

/-- The loop of `load_continent_file` that points the provinces of a new continent
to it (Map.cpp:948-950). -/
def set_continent (map : Map) (identifier : String) (provinces : List Nat) : Map :=
  provinces.foldl
    (fun map province =>
      match map.get_province_by_index province with
      | some listed => map.set_province province { listed with continent := some identifier }
      | none => map)
    map

/-- The callback of `load_continent_file` for one entry of the file
(Map.cpp:921-956), on the result so far and the map. -/
def load_continent_entry (loaded : Bool × Map) (entry : province_set_entry) : Bool × Map :=
  if entry.identifier.isEmpty then (false, loaded.2)
  else
    let continent : Continent :=
      { identifier := entry.identifier,
        provinces :=
          (ProvinceSet.add_provinces [] (continent_provinces loaded.2 entry.provinces)).2 }
    let added :=
      IdentifierRegistry.add_item Continent.identifier loaded.2.continents_locked
        loaded.2.continents continent
    if added.1 then
      (loaded.1 && entry.valid,
        set_continent { loaded.2 with continents := added.2 } entry.identifier
          continent.provinces)
    else (false, loaded.2)

/-- The function `Map::load_continent_file` (Map.cpp:918-962) on the entries of the
file: its result and the map it leaves. -/
def load_continent_file (map : Map) (entries : List province_set_entry) : Bool × Map :=
  ((entries.foldl load_continent_entry (true, map)).1,
    { (entries.foldl load_continent_entry (true, map)).2 with continents_locked := true })

end Map

/-! ## Map: the province and terrain images -/

/-- Modelled from the spec: `operator++` on `fixed_point_t`, which adds the constant
one. -/
def fixed_point_t.increment (a : fixed_point_t) : fixed_point_t :=
  fixed_point_t.add a fixed_point_t._1

/-- Modelled from the spec: `operator+` on `fvec2_t`, by components. -/
def fvec2_t.add (a b : fvec2_t) : fvec2_t :=
  { x := fixed_point_t.add a.x b.x, y := fixed_point_t.add a.y b.y }

/-- Modelled from the spec: `operator/` of an `fvec2_t` by a `fixed_point_t`, by
components. -/
def fvec2_t.div (a : fvec2_t) (b : fixed_point_t) : fvec2_t :=
  { x := fixed_point_t.div a.x b, y := fixed_point_t.div a.y b }

/-- Modelled from the spec: the conversion of the integer vector `ivec2_t { x, y }`
to an `fvec2_t`, by components. -/
def fvec2_t.of_ivec2 (x y : Int) : fvec2_t :=
  { x := fixed_point_t.parse x, y := fixed_point_t.parse y }

/-- Modelled from the spec: a `BMP` image as far as `load_map_images` reads it
(BMP.hpp is not among the sources): whether the file opens and its header and
pixel data can be read, the bits per pixel, the dimensions and the bytes of the
pixel data. -/
structure BMP where
  readable : Bool := true
  bits_per_pixel : Nat
  width : Int
  height : Int
  pixel_data : List Nat
deriving DecidableEq, Repr

/-- The function `colour_at` (Map.cpp:614-621): the colour of the pixel `idx` in
data of BGR byte triplets. A read past the end of the data gives the byte 0. -/
def colour_at (colour_data : List Nat) (idx : Nat) : colour_t :=
  { red := colour_data.getD (idx * 3 + 2) 0, green := colour_data.getD (idx * 3 + 1) 0,
    blue := colour_data.getD (idx * 3) 0 }

/-- Modelled from the spec: `TerrainTypeManager::get_terrain_type_mapping_for`, the
mapping that covers the terrain index. -/
def TerrainTypeManager.get_terrain_type_mapping_for (manager : TerrainTypeManager)
    (terrain : Nat) : Option TerrainTypeMapping :=
  manager.terrain_type_mappings.find? (fun mapping => terrain ∈ mapping.terrain_indices)

namespace Map

/-- The vectors that the pixel loop of `load_map_images` fills (Map.cpp:670-681): the
shape image, the pixel count of every province and the sum of the pixel positions of
every province. The terrain type histogram `terrain_type_pixels_list`, which only
the default terrain type of a province is computed from, is left out. -/
structure image_scan where
  province_shape_image : List shape_pixel_t
  pixels_per_province : List fixed_point_t
  pixel_position_sum_per_province : List fvec2_t
deriving DecidableEq, Repr

/-- The body of the pixel loop of `load_map_images` for the pixel in column `x` of row
`y` (Map.cpp:685-738). A province index beyond the registry, which the source would
use to write past the end of the vectors, leaves the vectors as they are. -/
def scan_pixel (map : Map) (province_data terrain_data : List Nat) (width : Nat) (y : Nat)
    (scan : image_scan) (x : Nat) : image_scan :=
  let pixel_index := x + y * width
  let province_colour := colour_at province_data pixel_index
  let province_index :=
    if x > 0 ∧ colour_at province_data (pixel_index - 1) = province_colour then
      (scan.province_shape_image.getD (pixel_index - 1) ⟨0, 0⟩).index
    else if y > 0 ∧ colour_at province_data (pixel_index - width) = province_colour then
      (scan.province_shape_image.getD (pixel_index - width) ⟨0, 0⟩).index
    else map.get_index_from_colour province_colour
  let terrain := terrain_data.getD pixel_index 0
  let terrain_variant :=
    match map.terrain_type_manager.get_terrain_type_mapping_for terrain with
    | some mapping =>
      if mapping.has_texture && decide (terrain < map.terrain_type_manager.terrain_texture_limit)
      then (terrain + 1) % 256
      else 0
    | none => 0
  { province_shape_image :=
      scan.province_shape_image.set pixel_index
        { index := province_index, terrain := terrain_variant }
    pixels_per_province :=
      if province_index ≠ 0 then
        scan.pixels_per_province.set (province_index - 1)
          (fixed_point_t.increment (scan.pixels_per_province.getD (province_index - 1) 0))
      else scan.pixels_per_province
    pixel_position_sum_per_province :=
      if province_index ≠ 0 then
        scan.pixel_position_sum_per_province.set (province_index - 1)
          (fvec2_t.add
            (scan.pixel_position_sum_per_province.getD (province_index - 1)
              { x := 0, y := 0 })
            (fvec2_t.of_ivec2 x y))
      else scan.pixel_position_sum_per_province }

/-- The pixel loop of `load_map_images` (Map.cpp:683-740): the rows from the first to
the last, and in every row the columns from the first to the last. -/
def scan_pixels (map : Map) (province_data terrain_data : List Nat) (width height : Nat)
    (scan : image_scan) : image_scan :=
  (List.range height).foldl
    (fun scan y =>
      (List.range width).foldl (scan_pixel map province_data terrain_data width y) scan)
    scan

/-- The body of the province loop of `load_map_images` (Map.cpp:747-765), as far as
it sets the flag `on_map` and the centre of the province at `array_index` of the
registry, which is the province with the index `array_index + 1`. -/
def set_pixel_results (scan : image_scan) (map : Map) (array_index : Nat) : Map :=
  match map.get_province_by_index (array_index + 1) with
  | some province =>
    let pixel_count := scan.pixels_per_province.getD array_index 0
    if pixel_count > 0 then
      map.set_province (array_index + 1)
        { province with
          on_map := true
          centre :=
            fvec2_t.div
              (scan.pixel_position_sum_per_province.getD array_index { x := 0, y := 0 })
              pixel_count }
    else map.set_province (array_index + 1) { province with on_map := false }
  | none => map

/-- The province index of a pixel by a direct lookup of its colour,
`get_index_from_colour` of `colour_at` of the pixel: what the index that the pixel
loop stores is compared with. -/
def direct_lookup_index (map : Map) (province_data : List Nat) (pixel : Nat) : Nat :=
  map.get_index_from_colour (colour_at province_data pixel)

/-- The coordinates (x, y) of the pixels of an image, row by row. -/
def pixel_coordinates (width height : Nat) : List (Nat × Nat) :=
  (List.range height).flatMap (fun y => (List.range width).map (fun x => (x, y)))

/-- The coordinates of the pixels of the shape image that carry the given province
index. -/
def province_pixels (map : Map) (index : Nat) : List (Nat × Nat) :=
  (pixel_coordinates map.width.toNat map.height.toNat).filter
    (fun pixel => map.pixel_index pixel.1 pixel.2 = index)

/-- The mean of the positions of the given pixels in fixed-point numbers: the sum of
the x coordinates and the sum of the y coordinates, divided by the number of the
pixels. -/
def pixel_position_mean (pixels : List (Nat × Nat)) : fvec2_t :=
  fvec2_t.div
    (fvec2_t.of_ivec2 ((pixels.map (fun pixel => pixel.1)).sum : Nat)
      ((pixels.map (fun pixel => pixel.2)).sum : Nat))
    (fixed_point_t.parse (pixels.length : Nat))

/-- The function `Map::load_map_images` (Map.cpp:623-771) on the province image and
the terrain image: its result and the map it leaves. -/
def load_map_images (map : Map) (province_bmp terrain_bmp : BMP) : Bool × Map :=
  if !map.provinces_locked then (false, map)
  else if !map.terrain_type_manager.terrain_type_mappings_locked then (false, map)
  else if !province_bmp.readable then (false, map)
  else if province_bmp.bits_per_pixel ≠ 24 then (false, map)
  else if !terrain_bmp.readable then (false, map)
  else if terrain_bmp.bits_per_pixel ≠ 8 then (false, map)
  else if province_bmp.width ≠ terrain_bmp.width ∨ province_bmp.height ≠ terrain_bmp.height
  then (false, map)
  else
    let size := (province_bmp.width * province_bmp.height).toNat
    let scan :=
      scan_pixels map province_bmp.pixel_data terrain_bmp.pixel_data province_bmp.width.toNat
        province_bmp.height.toNat
        { province_shape_image :=
            map.province_shape_image.take size ++
              List.replicate (size - map.province_shape_image.length) ⟨0, 0⟩
          pixels_per_province := List.replicate map.provinces.length 0
          pixel_position_sum_per_province :=
            List.replicate map.provinces.length { x := 0, y := 0 } }
    (true,
      (List.range map.provinces.length).foldl (set_pixel_results scan)
        { map with
          width := province_bmp.width
          height := province_bmp.height
          province_shape_image := scan.province_shape_image })

end Map

/-- The province image of the image scenario: two rows of three pixels, the first row
in the colour of province 1, the second row in the colour of province 2, in an
unregistered colour and in the colour of province 2. -/
def scenario_province_bmp : BMP :=
  { bits_per_pixel := 24, width := 3, height := 2,
    pixel_data := [0, 0, 1, 0, 0, 1, 0, 0, 1, 0, 0, 2, 0, 0, 9, 0, 0, 2] }

/-- The terrain image of the image scenario. -/
def scenario_terrain_bmp : BMP :=
  { bits_per_pixel := 8, width := 3, height := 2, pixel_data := [0, 0, 0, 0, 0, 0] }

/-- The map of the image scenario: the provinces "p1", "p2" and "p3" with the colours
(1, 0, 0), (2, 0, 0) and (3, 0, 0), locked, before the images are loaded. -/
def scenario_map_unloaded : Map :=
  { ((({ provinces := [] } : Map).add_provinces
      [("p1", ⟨1, 0, 0⟩), ("p2", ⟨2, 0, 0⟩), ("p3", ⟨3, 0, 0⟩)])) with
    provinces_locked := true
    terrain_type_manager := { terrain_type_mappings_locked := true } }

/-! ## Modifiers: effects, effect mappings and values -/

/-- Modelled from the spec: unary `operator-` on `fixed_point_t`, saturating. -/
def fixed_point_t.neg (a : fixed_point_t) : fixed_point_t := fixed_point_t.saturate (-a)

/-- Modelled from the spec: `ModifierEffect` (ModifierEffect.hpp is not among the
sources), as far as the functions below read it: its identifier and the key under
which the effect mappings hold it. A pointer to a modifier effect is the effect. -/
structure ModifierEffect where
  identifier : String
  mapping_key : String
deriving DecidableEq, Repr

/-- The types of modifier effect mappings
(`ModifierEffectMapping::modifier_effect_mapping_type_t`,
ModifierEffectMapping.hpp:13-22); the last one counts the types and is used as the
invalid type. -/
inductive ModifierEffectMapping.modifier_effect_mapping_type_t where
  | LEADER_MAPPING
  | TECHNOLOGY_MAPPING
  | UNIT_TERRAIN_MAPPING
  | BASE_COUNTRY_MAPPING
  | BASE_PROVINCE_MAPPING
  | EVENT_MAPPING
  | TERRAIN_MAPPING
  | MODIFIER_EFFECT_MAPPING_COUNT
deriving DecidableEq, Repr

/-- A modifier effect mapping (`ModifierEffectMapping`,
ModifierEffectMapping.hpp:12-45): its type, its lock, the mapping it falls back to,
which the code holds as a nullable pointer, and its effects by mapping key in the
order of insertion. -/
inductive ModifierEffectMapping where
  | mk (type : ModifierEffectMapping.modifier_effect_mapping_type_t) (locked : Bool)
      (fallback_mapping : Option ModifierEffectMapping)
      (effect_map : List (String × ModifierEffect))

namespace ModifierEffectMapping

/-- The getter `get_type`. -/
def get_type : ModifierEffectMapping → modifier_effect_mapping_type_t
  | mk type _ _ _ => type

/-- The getter `is_locked`. -/
def is_locked : ModifierEffectMapping → Bool
  | mk _ locked _ _ => locked

/-- The getter `get_fallback_mapping`. -/
def get_fallback_mapping : ModifierEffectMapping → Option ModifierEffectMapping
  | mk _ _ fallback_mapping _ => fallback_mapping

/-- The getter `get_effect_map`. -/
def get_effect_map : ModifierEffectMapping → List (String × ModifierEffect)
  | mk _ _ _ effect_map => effect_map

/-- The constructor of `ModifierEffectMapping` (ModifierEffectMapping.cpp:25-27). -/
def new (new_type : modifier_effect_mapping_type_t)
    (new_fallback_mapping : Option ModifierEffectMapping) : ModifierEffectMapping :=
  mk new_type false new_fallback_mapping []

/-- The function `ModifierEffectMapping::add_modifier_effect`
(ModifierEffectMapping.cpp:33-50): its result and the mapping it leaves. -/
def add_modifier_effect : ModifierEffectMapping → ModifierEffect → Bool × ModifierEffectMapping
  | mk type locked fallback_mapping effect_map, effect =>
    if locked then (false, mk type locked fallback_mapping effect_map)
    else if effect_map.any (fun entry => entry.1 = effect.mapping_key) then
      (false, mk type locked fallback_mapping effect_map)
    else (true, mk type locked fallback_mapping (effect_map ++ [(effect.mapping_key, effect)]))

/-- The function `ModifierEffectMapping::lock` (ModifierEffectMapping.cpp:52-58). -/
def lock : ModifierEffectMapping → ModifierEffectMapping
  | mk type locked fallback_mapping effect_map =>
    if locked then mk type locked fallback_mapping effect_map
    else mk type true fallback_mapping effect_map

/-- The function `ModifierEffectMapping::lookup_modifier_effect`
(ModifierEffectMapping.cpp:60-80); the null pointer is `none`. -/
def lookup_modifier_effect : ModifierEffectMapping → String → Option ModifierEffect
  | mk _ locked fallback_mapping effect_map, identifier =>
    if !locked then none
    else
      match effect_map.find? (fun entry => entry.1 = identifier) with
      | some entry => some entry.2
      | none =>
        match fallback_mapping with
        | some fallback => lookup_modifier_effect fallback identifier
        | none => none

/-- The fallback chain of a mapping: the mapping itself, its fallback, the fallback of
its fallback, and so on. -/
def chain : ModifierEffectMapping → List ModifierEffectMapping
  | mk type locked none effect_map => [mk type locked none effect_map]
  | mk type locked (some fallback) effect_map =>
    mk type locked (some fallback) effect_map :: chain fallback

/-- The effect registered under the key in the mapping itself, if there is one. -/
def registered_effect (mapping : ModifierEffectMapping) (key : String) :
    Option ModifierEffect :=
  (mapping.get_effect_map.find? (fun entry => entry.1 = key)).map (fun entry => entry.2)

/-- The first hit along a chain of mappings: the effect registered under the key in
the first mapping that contains the key, and the null pointer when no mapping
contains it. -/
def first_hit (mappings : List ModifierEffectMapping) (key : String) :
    Option ModifierEffect :=
  match mappings.find? (fun mapping => (mapping.registered_effect key).isSome) with
  | some mapping => mapping.registered_effect key
  | none => none

end ModifierEffectMapping

/-- Modelled from the spec: the modifier types `Modifier::modifier_type_t`
(Modifier.hpp is not among the sources), the eighteen values that the switch of
`modifier_type_to_modifier_effect_mapping_type` names. -/
inductive Modifier.modifier_type_t where
  | EVENT
  | STATIC
  | TRIGGERED
  | CRIME
  | TERRAIN
  | CLIMATE
  | CONTINENT
  | BUILDING
  | LEADER
  | UNIT_TERRAIN
  | NATIONAL_VALUE
  | NATIONAL_FOCUS
  | ISSUE
  | REFORM
  | TECHNOLOGY
  | INVENTION
  | INVENTION_EFFECT
  | TECH_SCHOOL
deriving DecidableEq, Repr

/-- The function `modifier_type_to_modifier_effect_mapping_type`
(ModifierManager.cpp:736-763). The default branch of the switch, which returns
`MODIFIER_EFFECT_MAPPING_COUNT`, is reached by no value of the enumeration. -/
def modifier_type_to_modifier_effect_mapping_type :
    Modifier.modifier_type_t → ModifierEffectMapping.modifier_effect_mapping_type_t
  | .EVENT => .EVENT_MAPPING
  | .STATIC => .BASE_COUNTRY_MAPPING
  | .TRIGGERED => .BASE_COUNTRY_MAPPING
  | .CRIME => .BASE_PROVINCE_MAPPING
  | .TERRAIN => .TERRAIN_MAPPING
  | .CLIMATE => .BASE_PROVINCE_MAPPING
  | .CONTINENT => .BASE_PROVINCE_MAPPING
  | .BUILDING => .BASE_PROVINCE_MAPPING
  | .LEADER => .LEADER_MAPPING
  | .UNIT_TERRAIN => .UNIT_TERRAIN_MAPPING
  | .NATIONAL_VALUE => .BASE_COUNTRY_MAPPING
  | .NATIONAL_FOCUS => .BASE_PROVINCE_MAPPING
  | .ISSUE => .BASE_COUNTRY_MAPPING
  | .REFORM => .BASE_COUNTRY_MAPPING
  | .TECHNOLOGY => .TECHNOLOGY_MAPPING
  | .INVENTION => .BASE_COUNTRY_MAPPING
  | .INVENTION_EFFECT => .TECHNOLOGY_MAPPING
  | .TECH_SCHOOL => .BASE_COUNTRY_MAPPING

/-- The fixed table of the specification, by rows: a mapping type and the modifier
types that are mapped to it. -/
def modifier_effect_mapping_table :
    List (ModifierEffectMapping.modifier_effect_mapping_type_t ×
      List Modifier.modifier_type_t) :=
  [(.EVENT_MAPPING, [.EVENT]),
   (.TECHNOLOGY_MAPPING, [.TECHNOLOGY, .INVENTION_EFFECT]),
   (.TERRAIN_MAPPING, [.TERRAIN]),
   (.LEADER_MAPPING, [.LEADER]),
   (.UNIT_TERRAIN_MAPPING, [.UNIT_TERRAIN]),
   (.BASE_PROVINCE_MAPPING, [.BUILDING, .CLIMATE, .CONTINENT, .CRIME, .NATIONAL_FOCUS]),
   (.BASE_COUNTRY_MAPPING,
     [.STATIC, .TRIGGERED, .INVENTION, .ISSUE, .REFORM, .NATIONAL_VALUE, .TECH_SCHOOL])]

/-- Modelled from the spec: `ModifierValue::effect_map_t`, an insertion-ordered map
from modifier effects to fixed-point values, as an association list in insertion
order. -/
abbrev effect_map_t := List (ModifierEffect × fixed_point_t)

namespace effect_map_t

/-- Modelled from the spec: `values.find(effect) != values.end()`. -/
def contains (m : effect_map_t) (effect : ModifierEffect) : Bool :=
  m.any (fun entry => entry.1 = effect)

/-- Modelled from the spec: reading `map[key]`; an absent key reads as zero. -/
def get (m : effect_map_t) (effect : ModifierEffect) : fixed_point_t :=
  match m.find? (fun entry => entry.1 = effect) with
  | some entry => entry.2
  | none => 0

/-- Modelled from the spec: the assignment `map[key] = value`; a present key keeps
its position, an absent key is appended. -/
def set (m : effect_map_t) (effect : ModifierEffect) (value : fixed_point_t) :
    effect_map_t :=
  if m.any (fun entry => entry.1 = effect) then
    m.map (fun entry => if entry.1 = effect then (effect, value) else entry)
  else m ++ [(effect, value)]

end effect_map_t

/-- A modifier value (`ModifierValue`): its map from effects to values. -/
structure ModifierValue where
  values : effect_map_t := []
deriving DecidableEq, Repr

namespace ModifierValue

/-- The function `ModifierValue::trim` (Modifier.cpp:25-29). -/
def trim (modifier : ModifierValue) : ModifierValue :=
  { values := modifier.values.filter (fun value => !decide (value.2 = fixed_point_t._0)) }

/-- The function `ModifierValue::get_effect_count` (Modifier.cpp:31-33). -/
def get_effect_count (modifier : ModifierValue) : Nat := modifier.values.length

/-- The function `ModifierValue::get_effect` (Modifier.cpp:35-43): the value and
whether the effect was found. -/
def get_effect (modifier : ModifierValue) (effect : ModifierEffect) : fixed_point_t × Bool :=
  match modifier.values.find? (fun entry => entry.1 = effect) with
  | some entry => (entry.2, true)
  | none => (fixed_point_t._0, false)

/-- The function `ModifierValue::has_effect` (Modifier.cpp:45-47). -/
def has_effect (modifier : ModifierValue) (effect : ModifierEffect) : Bool :=
  modifier.values.contains effect

/-- The function `ModifierValue::operator+=` (Modifier.cpp:49-54). -/
def add_assign (modifier right : ModifierValue) : ModifierValue :=
  { values :=
      right.values.foldl
        (fun values value =>
          values.set value.1 (fixed_point_t.add (values.get value.1) value.2))
        modifier.values }

/-- The function `ModifierValue::operator+` (Modifier.cpp:56-59). -/
def add (modifier right : ModifierValue) : ModifierValue :=
  modifier.add_assign right

/-- The unary `ModifierValue::operator-` (Modifier.cpp:61-67). -/
def neg (modifier : ModifierValue) : ModifierValue :=
  { values := modifier.values.map (fun value => (value.1, fixed_point_t.neg value.2)) }

/-- The function `ModifierValue::operator-=` (Modifier.cpp:69-74). -/
def sub_assign (modifier right : ModifierValue) : ModifierValue :=
  { values :=
      right.values.foldl
        (fun values value =>
          values.set value.1 (fixed_point_t.sub (values.get value.1) value.2))
        modifier.values }

/-- The binary `ModifierValue::operator-` (Modifier.cpp:76-79). -/
def sub (modifier right : ModifierValue) : ModifierValue :=
  modifier.sub_assign right

/-- The modifier value holds no entry whose value is zero. -/
def no_zero_entries (modifier : ModifierValue) : Prop :=
  ∀ value ∈ modifier.values, value.2 ≠ fixed_point_t._0

instance (modifier : ModifierValue) : Decidable modifier.no_zero_entries :=
  inferInstanceAs (Decidable (∀ value ∈ modifier.values, value.2 ≠ fixed_point_t._0))

end ModifierValue

/-- The modifier effect of the modifier scenarios. -/
def scenario_effect : ModifierEffect :=
  { identifier := "supply_limit", mapping_key := "supply_limit" }

/-- Another modifier effect of the modifier scenarios. -/
def scenario_effect_other : ModifierEffect :=
  { identifier := "movement_cost", mapping_key := "movement_cost" }

/-- The modifier value of the modifier scenarios: the scenario effect with the value
one. -/
def scenario_modifier_value : ModifierValue := { values := [(scenario_effect, 65536)] }

/-- The modifier value that cancels the one of the modifier scenarios: the scenario
effect with the value minus one. -/
def scenario_modifier_value_opposite : ModifierValue :=
  { values := [(scenario_effect, -65536)] }

/-- The mapping scenario: a locked event mapping that holds "movement_cost" and
falls back to a locked province mapping that holds "supply_limit" and a second
effect under the key "movement_cost", which falls back to a locked country mapping
without effects. -/
def scenario_mapping : ModifierEffectMapping :=
  .mk .EVENT_MAPPING true
    (some (.mk .BASE_PROVINCE_MAPPING true
      (some (.mk .BASE_COUNTRY_MAPPING true none []))
      [("supply_limit", scenario_effect),
       ("movement_cost",
         { identifier := "movement_cost_province", mapping_key := "movement_cost" })]))
    [("movement_cost", scenario_effect_other)]

/-! ## Parsing a modifier block -/

/-- Modelled from the spec: a node of a parsed script (the syntax tree of the
dataloader is not among the sources): an identifier with its text and the number
that `fixed_point_t::parse` reads from the text, if it reads one, a string, or a
list, given by the keys and values of its assign statements. -/
inductive Node where
  | identifier (name : String) (fixed_point : Option fixed_point_t)
  | string (name : String)
  | list (statements : List (String × Node))

namespace NodeTools

/-- A callback on a key and a value (`key_value_callback_t`), with the state `σ` that
the callback reads and writes. -/
abbrev key_value_callback_t (σ : Type) := String → Node → σ → Bool × σ

/-- A callback on a node that may be null (`node_callback_t`), with the state `σ` that
the callback reads and writes. -/
abbrev node_callback_t (σ : Type) := Option Node → σ → Bool × σ

/-- The function `expect_identifier` (NodeTools.cpp:40-42): the callback on the text of
an identifier node that is not empty. -/
def expect_identifier {σ : Type} (callback : String → σ → Bool × σ) : node_callback_t σ :=
  fun node state =>
    match node with
    | some (Node.identifier name _) =>
      if name.isEmpty then (false, state) else callback name state
    | _ => (false, state)

/-- The function `expect_fixed_point` (NodeTools.cpp:109-123): the callback on the
number that an identifier node holds. -/
def expect_fixed_point {σ : Type} (callback : fixed_point_t → σ → Bool × σ) :
    node_callback_t σ :=
  fun node state =>
    match node with
    | some (Node.identifier name fixed_point) =>
      if name.isEmpty then (false, state)
      else
        match fixed_point with
        | some value => callback value state
        | none => (false, state)
    | _ => (false, state)

/-- The function `expect_dictionary` (NodeTools.cpp:223-248, 326-332): the callback on
every assign statement of a list node, in order; the result is the conjunction of
the results. -/
def expect_dictionary {σ : Type} (callback : key_value_callback_t σ) : node_callback_t σ :=
  fun node state =>
    match node with
    | some (Node.list statements) =>
      statements.foldl
        (fun ret statement =>
          (ret.1 && (callback statement.1 statement.2 ret.2).1,
            (callback statement.1 statement.2 ret.2).2))
        (true, state)
    | _ => (false, state)

/-- Modelled from the spec: how often a key of a key map is expected
(`dictionary_entry_t::expected_count_t`). -/
inductive expected_count_t where
  | ZERO_OR_ONE
  | ONE_EXACTLY
  | ZERO_OR_MORE
  | ONE_OR_MORE
deriving DecidableEq, Repr

/-- Modelled from the spec: an entry of a key map (`dictionary_entry_t`): how often
the key is expected, the callback for its value and how often the key has
occurred. -/
structure dictionary_entry_t (σ : Type) where
  expected_count : expected_count_t
  callback : node_callback_t σ
  count : Nat := 0

/-- Modelled from the spec: `dictionary_entry_t::must_appear`. -/
def dictionary_entry_t.must_appear {σ : Type} (entry : dictionary_entry_t σ) : Bool :=
  entry.expected_count = expected_count_t.ONE_EXACTLY ||
    entry.expected_count = expected_count_t.ONE_OR_MORE

/-- Modelled from the spec: `dictionary_entry_t::can_repeat`. -/
def dictionary_entry_t.can_repeat {σ : Type} (entry : dictionary_entry_t σ) : Bool :=
  entry.expected_count = expected_count_t.ZERO_OR_MORE ||
    entry.expected_count = expected_count_t.ONE_OR_MORE

/-- Modelled from the spec: a key map (`key_map_t`), the entries by key. -/
abbrev key_map_t (σ : Type) := List (String × dictionary_entry_t σ)

/-- Modelled from the spec: `key_value_invalid_callback`, which reports the key as
invalid and returns false. -/
def key_value_invalid_callback {σ : Type} : key_value_callback_t σ :=
  fun _ _ state => (false, state)

/-- Modelled from the spec: `dictionary_keys_callback(key_map, default_callback)`. A
key of the key map is counted and, unless it repeats without being allowed to, its
value is handed to the callback of the entry; every other key is handed to the
default callback. The key map, which the code captures by reference, is part of the
state. -/
def dictionary_keys_callback {σ : Type} (default_callback : key_value_callback_t σ) :
    key_value_callback_t (key_map_t σ × σ) :=
  fun key value state =>
    match state.1.find? (fun entry => entry.1 = key) with
    | none =>
      ((default_callback key value state.2).1,
        (state.1, (default_callback key value state.2).2))
    | some found =>
      let key_map : key_map_t σ :=
        state.1.map (fun entry =>
          if entry.1 = key then (entry.1, { entry.2 with count := entry.2.count + 1 })
          else entry)
      if found.2.count + 1 > 1 ∧ found.2.can_repeat = false then (false, (key_map, state.2))
      else
        ((found.2.callback (some value) state.2).1,
          (key_map, (found.2.callback (some value) state.2).2))

/-- Modelled from the spec: `check_key_map_counts`, whether every key that must appear
has occurred, and the key map with the counts reset. -/
def check_key_map_counts {σ : Type} (key_map : key_map_t σ) : Bool × key_map_t σ :=
  (key_map.all (fun entry => !(entry.2.must_appear && decide (entry.2.count < 1))),
    key_map.map (fun entry => (entry.1, { entry.2 with count := 0 })))

/-- Modelled from the spec: `expect_dictionary_key_map`, which `expect_dictionary_keys`
builds its key map for: the dictionary is read with `dictionary_keys_callback` and
`key_value_invalid_callback`, and the counts of the key map are checked. -/
def expect_dictionary_key_map {σ : Type} (key_map : key_map_t σ) : node_callback_t σ :=
  fun node state =>
    ((expect_dictionary (dictionary_keys_callback key_value_invalid_callback) node
          (key_map, state)).1 &&
        (check_key_map_counts
          (expect_dictionary (dictionary_keys_callback key_value_invalid_callback) node
            (key_map, state)).2.1).1,
      (expect_dictionary (dictionary_keys_callback key_value_invalid_callback) node
        (key_map, state)).2.2)

end NodeTools

section

open NodeTools

/-- The mapping types in the order of the enumeration: the value that
`static_cast<size_t>` gives. -/
def ModifierEffectMapping.modifier_effect_mapping_type_t.toNat :
    ModifierEffectMapping.modifier_effect_mapping_type_t → Nat
  | .LEADER_MAPPING => 0
  | .TECHNOLOGY_MAPPING => 1
  | .UNIT_TERRAIN_MAPPING => 2
  | .BASE_COUNTRY_MAPPING => 3
  | .BASE_PROVINCE_MAPPING => 4
  | .EVENT_MAPPING => 5
  | .TERRAIN_MAPPING => 6
  | .MODIFIER_EFFECT_MAPPING_COUNT => 7

/-- The part of the state of a `ModifierManager` that parsing a modifier block reads:
the registry of modifier effects of Modifier.cpp, and the modifier effect mappings by
mapping type and the complex modifiers of modifier/ModifierManager.cpp. -/
structure ModifierManager where
  modifier_effects : List ModifierEffect := []
  modifier_effect_mappings : List ModifierEffectMapping := []
  complex_modifiers : List String := []

/-- A callback on a modifier value (`callback_t<ModifierValue&&>`), with the state `σ`
that the callback reads and writes. -/
abbrev modifier_callback_t (σ : Type) := ModifierValue → σ → Bool × σ

namespace Modifier_cpp

/-- Modelled from the spec: the registry lookup `get_modifier_effect_by_identifier`. -/
def get_modifier_effect_by_identifier (manager : ModifierManager) (key : String) :
    Option ModifierEffect :=
  manager.modifier_effects.find? (fun effect => effect.identifier = key)

/-- The lambda that `ModifierManager::expect_modifier_value_and_default` of Modifier.cpp
hands to `expect_dictionary` (Modifier.cpp:166-179). The state is the modifier value
that is being read and the state of the caller. -/
def modifier_effect_callback {σ : Type} (manager : ModifierManager)
    (default_callback : key_value_callback_t σ) : key_value_callback_t (ModifierValue × σ) :=
  fun key value state =>
    match get_modifier_effect_by_identifier manager key with
    | some effect =>
      if state.1.values.contains effect = false then
        ((expect_fixed_point
            (fun parsed (modifier : ModifierValue) =>
              (true, ({ values := modifier.values.set effect parsed } : ModifierValue)))
            (some value) { values := state.1.values.set effect 0 }).1,
          ((expect_fixed_point
            (fun parsed (modifier : ModifierValue) =>
              (true, ({ values := modifier.values.set effect parsed } : ModifierValue)))
            (some value) { values := state.1.values.set effect 0 }).2, state.2))
      else (false, state)
    | none =>
      ((default_callback key value state.2).1, (state.1, (default_callback key value state.2).2))

/-- The function `ModifierManager::expect_modifier_value_and_default` of Modifier.cpp
(Modifier.cpp:162-183). -/
def expect_modifier_value_and_default {σ : Type} (manager : ModifierManager)
    (modifier_callback : modifier_callback_t σ) (default_callback : key_value_callback_t σ) :
    node_callback_t σ :=
  fun root state =>
    ((expect_dictionary (modifier_effect_callback manager default_callback) root
          ({}, state)).1 &&
        (modifier_callback
          (expect_dictionary (modifier_effect_callback manager default_callback) root
            ({}, state)).2.1
          (expect_dictionary (modifier_effect_callback manager default_callback) root
            ({}, state)).2.2).1,
      (modifier_callback
        (expect_dictionary (modifier_effect_callback manager default_callback) root
          ({}, state)).2.1
        (expect_dictionary (modifier_effect_callback manager default_callback) root
          ({}, state)).2.2).2)

/-- The function `ModifierManager::expect_modifier_value` of Modifier.cpp
(Modifier.cpp:185-187). -/
def expect_modifier_value {σ : Type} (manager : ModifierManager)
    (modifier_callback : modifier_callback_t σ) : node_callback_t σ :=
  expect_modifier_value_and_default manager modifier_callback key_value_invalid_callback

/-- A callback on a modifier value as a callback that leaves the key map of the state
as it is. -/
def with_key_map {σ : Type} (modifier_callback : modifier_callback_t σ) :
    modifier_callback_t (key_map_t σ × σ) :=
  fun modifier state =>
    ((modifier_callback modifier state.2).1, (state.1, (modifier_callback modifier state.2).2))

/-- The function `ModifierManager::expect_modifier_value_and_key_map_and_default` of
Modifier.cpp (Modifier.cpp:189-197). The default callback is a parameter of the
function, but the lambda does not capture it: the keys that the key map does not
hold go to `key_value_invalid_callback`. -/
def expect_modifier_value_and_key_map_and_default {σ : Type} (manager : ModifierManager)
    (modifier_callback : modifier_callback_t σ) (_default_callback : key_value_callback_t σ)
    (key_map : key_map_t σ) : node_callback_t σ :=
  fun node state =>
    ((expect_modifier_value_and_default manager (with_key_map modifier_callback)
          (dictionary_keys_callback key_value_invalid_callback) node (key_map, state)).1 &&
        (check_key_map_counts
          (expect_modifier_value_and_default manager (with_key_map modifier_callback)
            (dictionary_keys_callback key_value_invalid_callback) node
            (key_map, state)).2.1).1,
      (expect_modifier_value_and_default manager (with_key_map modifier_callback)
        (dictionary_keys_callback key_value_invalid_callback) node (key_map, state)).2.2)

/-- The function `ModifierManager::expect_modifier_value_and_key_map` of Modifier.cpp
(Modifier.cpp:199-201). -/
def expect_modifier_value_and_key_map {σ : Type} (manager : ModifierManager)
    (modifier_callback : modifier_callback_t σ) (key_map : key_map_t σ) :
    node_callback_t σ :=
  expect_modifier_value_and_key_map_and_default manager modifier_callback
    key_value_invalid_callback key_map

end Modifier_cpp

namespace ModifierManager

/-- The function `ModifierManager::get_flat_identifier` (ModifierManager.cpp:558-562). -/
def get_flat_identifier (complex_modifier_identifier variant_identifier : String) : String :=
  complex_modifier_identifier ++ " " ++ variant_identifier

/-- The lambda `add_modifier_cb` of `_modifier_effect_callback`
(ModifierManager.cpp:772-785): the number of the value is stored under the effect
unless the modifier value already holds the effect (`map_callback`, modelled from
the spec: a duplicate key is an error). -/
def add_modifier_cb (effect : ModifierEffect) (value : Option Node) (modifier : ModifierValue) :
    Bool × ModifierValue :=
  expect_fixed_point
    (fun parsed (modifier : ModifierValue) =>
      if modifier.values.contains effect then (false, modifier)
      else (true, { values := modifier.values ++ [(effect, parsed)] }))
    value modifier

/-- The lambda `add_flattened_modifier_cb` of `_modifier_effect_callback`
(ModifierManager.cpp:787-798). -/
def add_flattened_modifier_cb (modifier_effect_mapping : ModifierEffectMapping)
    (complex_modifier_identifier key : String) (value : Option Node) (modifier : ModifierValue) :
    Bool × ModifierValue :=
  match modifier_effect_mapping.lookup_modifier_effect
      (get_flat_identifier complex_modifier_identifier key) with
  | some effect => add_modifier_cb effect value modifier
  | none => (false, modifier)

/-- The branch of `_modifier_effect_callback` for the complex modifier
"rebel_org_gain" (ModifierManager.cpp:853-864): the faction and the value node are
read with `expect_dictionary_keys`, then the flattened modifier is added. -/
def add_rebel_org_gain (modifier_effect_mapping : ModifierEffectMapping) (key : String)
    (value : Node) (modifier : ModifierValue) : Bool × ModifierValue :=
  let read :=
    expect_dictionary_key_map
      [("faction",
          { expected_count := expected_count_t.ONE_EXACTLY
            callback :=
              expect_identifier
                (fun name (state : String × Option Node) => (true, (name, state.2))) }),
        ("value",
          { expected_count := expected_count_t.ONE_EXACTLY
            callback := fun node (state : String × Option Node) => (true, (state.1, node)) })]
      (some value) ("", none)
  ((read.1 &&
      (add_flattened_modifier_cb modifier_effect_mapping key read.2.1 read.2.2 modifier).1),
    (add_flattened_modifier_cb modifier_effect_mapping key read.2.1 read.2.2 modifier).2)

/-- The function `ModifierManager::_modifier_effect_callback`
(ModifierManager.cpp:765-869). The state is the modifier value that is being read and
the state of the caller. The read of `modifier_effect_mappings` cannot be made
before the mappings are set up, and the model then returns false. -/
def _modifier_effect_callback {σ : Type} (manager : ModifierManager)
    (type : Modifier.modifier_type_t) (default_callback : key_value_callback_t σ) :
    key_value_callback_t (ModifierValue × σ) :=
  fun key value state =>
    if (modifier_type_to_modifier_effect_mapping_type type).toNat ≥
        ModifierEffectMapping.modifier_effect_mapping_type_t.MODIFIER_EFFECT_MAPPING_COUNT.toNat
    then (false, state)
    else
      match manager.modifier_effect_mappings[
          (modifier_type_to_modifier_effect_mapping_type type).toNat]? with
      | none => (false, state)
      | some modifier_effect_mapping =>
        match value with
        | Node.identifier _ _ =>
          match modifier_effect_mapping.lookup_modifier_effect key with
          | some effect =>
            ((add_modifier_cb effect (some value) state.1).1,
              ((add_modifier_cb effect (some value) state.1).2, state.2))
          | none =>
            ((default_callback key value state.2).1,
              (state.1, (default_callback key value state.2).2))
        | Node.list _ =>
          if manager.complex_modifiers.contains key then
            if key = "rebel_org_gain" then
              ((add_rebel_org_gain modifier_effect_mapping key value state.1).1,
                ((add_rebel_org_gain modifier_effect_mapping key value state.1).2, state.2))
            else
              ((expect_dictionary
                  (fun dict_key dict_value modifier =>
                    add_flattened_modifier_cb modifier_effect_mapping key dict_key
                      (some dict_value) modifier)
                  (some value) state.1).1,
                ((expect_dictionary
                  (fun dict_key dict_value modifier =>
                    add_flattened_modifier_cb modifier_effect_mapping key dict_key
                      (some dict_value) modifier)
                  (some value) state.1).2, state.2))
          else
            ((default_callback key value state.2).1,
              (state.1, (default_callback key value state.2).2))
        | Node.string _ =>
          ((default_callback key value state.2).1,
            (state.1, (default_callback key value state.2).2))

/-- The function `ModifierManager::expect_modifier_value_and_default`
(ModifierManager.cpp:871-888). -/
def expect_modifier_value_and_default {σ : Type} (manager : ModifierManager)
    (modifier_callback : modifier_callback_t σ) (type : Modifier.modifier_type_t)
    (default_callback : key_value_callback_t σ) : node_callback_t σ :=
  fun root state =>
    ((expect_dictionary (_modifier_effect_callback manager type default_callback) root
          ({}, state)).1 &&
        (modifier_callback
          (expect_dictionary (_modifier_effect_callback manager type default_callback) root
            ({}, state)).2.1
          (expect_dictionary (_modifier_effect_callback manager type default_callback) root
            ({}, state)).2.2).1,
      (modifier_callback
        (expect_dictionary (_modifier_effect_callback manager type default_callback) root
          ({}, state)).2.1
        (expect_dictionary (_modifier_effect_callback manager type default_callback) root
          ({}, state)).2.2).2)

/-- The function `ModifierManager::expect_modifier_value` (ModifierManager.cpp:890-894). -/
def expect_modifier_value {σ : Type} (manager : ModifierManager)
    (modifier_callback : modifier_callback_t σ) (type : Modifier.modifier_type_t) :
    node_callback_t σ :=
  expect_modifier_value_and_default manager modifier_callback type key_value_invalid_callback

/-- The function `ModifierManager::expect_modifier_value_and_key_map_and_default`
(ModifierManager.cpp:896-911): the keys that the key map does not hold go to the
default callback. -/
def expect_modifier_value_and_key_map_and_default {σ : Type} (manager : ModifierManager)
    (modifier_callback : modifier_callback_t σ) (type : Modifier.modifier_type_t)
    (default_callback : key_value_callback_t σ) (key_map : key_map_t σ) :
    node_callback_t σ :=
  fun node state =>
    ((expect_modifier_value_and_default manager
          (Modifier_cpp.with_key_map modifier_callback) type
          (dictionary_keys_callback default_callback) node (key_map, state)).1 &&
        (check_key_map_counts
          (expect_modifier_value_and_default manager
            (Modifier_cpp.with_key_map modifier_callback) type
            (dictionary_keys_callback default_callback) node (key_map, state)).2.1).1,
      (expect_modifier_value_and_default manager
        (Modifier_cpp.with_key_map modifier_callback) type
        (dictionary_keys_callback default_callback) node (key_map, state)).2.2)

/-- The function `ModifierManager::expect_modifier_value_and_key_map`
(ModifierManager.cpp:913-919). -/
def expect_modifier_value_and_key_map {σ : Type} (manager : ModifierManager)
    (modifier_callback : modifier_callback_t σ) (type : Modifier.modifier_type_t)
    (key_map : key_map_t σ) : node_callback_t σ :=
  expect_modifier_value_and_key_map_and_default manager modifier_callback type
    key_value_invalid_callback key_map

end ModifierManager

/-- The modifier manager of the parsing scenario: the modifier effect "supply_limit",
which the province mapping holds, with the seven mappings in the order of their
types, all locked. -/
def scenario_modifier_manager : ModifierManager :=
  { modifier_effects := [scenario_effect]
    modifier_effect_mappings :=
      [.mk .LEADER_MAPPING true none [], .mk .TECHNOLOGY_MAPPING true none [],
       .mk .UNIT_TERRAIN_MAPPING true none [], .mk .BASE_COUNTRY_MAPPING true none [],
       .mk .BASE_PROVINCE_MAPPING true (some (.mk .BASE_COUNTRY_MAPPING true none []))
         [("supply_limit", scenario_effect)],
       .mk .EVENT_MAPPING true none [], .mk .TERRAIN_MAPPING true none []] }

/-- The modifier block of the parsing scenario: the modifier effect "supply_limit"
with the value one, and the key "icon", which is no modifier effect. -/
def scenario_modifier_block : Node :=
  Node.list
    [("supply_limit", Node.identifier "1" (some 65536)),
     ("icon", Node.identifier "3" (some 196608))]

/-- The default callback of the parsing scenario: it records the key that it is handed
and returns true. -/
def scenario_default_callback : NodeTools.key_value_callback_t (List String) :=
  fun key _ state => (true, state ++ [key])

/-- The modifier callback of the parsing scenario: it returns true. -/
def scenario_modifier_callback : modifier_callback_t (List String) :=
  fun _ state => (true, state)

end

/-! ## The identifier registry of Types.hpp -/

namespace Types_hpp

/-- The result type `return_t` (Types.hpp:40). -/
abbrev return_t := Bool

/-- The constant `SUCCESS` (Types.hpp:43), which mirrors `godot::Error`: success is
the boolean false. -/
def SUCCESS : return_t := false

/-- The constant `FAILURE` (Types.hpp:43): failure is the boolean true. -/
def FAILURE : return_t := true

/-- The base class `HasIdentifier` (Types.hpp:50-63): an object with a string
identifier. -/
class HasIdentifier (T : Type) where
  get_identifier : T → String

/-- The state of an `IdentifierRegistry` (Types.hpp:92-100): its items, its lock and
its map from identifiers to positions, an association list in insertion order. The
name of the registry is only used for logging and is left out. -/
structure IdentifierRegistry (T : Type) where
  items : List T := []
  locked : Bool := false
  identifier_index_map : List (String × Nat) := []
deriving DecidableEq, Repr

namespace IdentifierRegistry

variable {T : Type} [HasIdentifier T]

/-- The function `IdentifierRegistry::get_item_by_identifier` (Types.hpp:135-144); the
null pointer is `none`. The read `items[it->second]` is not bounds-checked in the
code; a position past the end, which no registry built by `add_item` holds, gives
`none`. -/
def get_item_by_identifier (registry : IdentifierRegistry T) (identifier : String) :
    Option T :=
  match registry.identifier_index_map.find? (fun entry => entry.1 = identifier) with
  | some entry => registry.items[entry.2]?
  | none => none

/-- The function `IdentifierRegistry::get_item_by_index` (Types.hpp:145-150). -/
def get_item_by_index (registry : IdentifierRegistry T) (index : Nat) : Option T :=
  if index < registry.items.length then registry.items[index]? else none

/-- The function `IdentifierRegistry::get_item_count` (Types.hpp:132-134). -/
def get_item_count (registry : IdentifierRegistry T) : Nat := registry.items.length

/-- The function `IdentifierRegistry::is_locked` (Types.hpp:124-126). -/
def is_locked (registry : IdentifierRegistry T) : Bool := registry.locked

/-- The assignment `identifier_index_map[identifier] = index`: the entry of a present
key is overwritten, an absent key is added. -/
def set_index (identifier_index_map : List (String × Nat)) (identifier : String)
    (index : Nat) : List (String × Nat) :=
  if identifier_index_map.any (fun entry => entry.1 = identifier) then
    identifier_index_map.map (fun entry =>
      if entry.1 = identifier then (identifier, index) else entry)
  else identifier_index_map ++ [(identifier, index)]

/-- The function `IdentifierRegistry::add_item` (Types.hpp:102-115): its result and the
registry it leaves. -/
def add_item (registry : IdentifierRegistry T) (item : T) :
    return_t × IdentifierRegistry T :=
  if registry.locked then (FAILURE, registry)
  else
    match registry.get_item_by_identifier (HasIdentifier.get_identifier item) with
    | some _ => (FAILURE, registry)
    | none =>
      (SUCCESS,
        { registry with
          identifier_index_map :=
            set_index registry.identifier_index_map (HasIdentifier.get_identifier item)
              registry.items.length
          items := registry.items ++ [item] })

/-- The function `IdentifierRegistry::lock` (Types.hpp:116-123). -/
def lock (registry : IdentifierRegistry T) : IdentifierRegistry T :=
  if registry.locked then registry else { registry with locked := true }

/-- The function `IdentifierRegistry::reset` (Types.hpp:127-131). -/
def reset (_registry : IdentifierRegistry T) : IdentifierRegistry T :=
  { items := [], locked := false, identifier_index_map := [] }

/-- A call of one of the public operations of the registry that can change it. -/
inductive operation (T : Type) where
  | add_item (item : T)
  | lock
  | reset

/-- Whether the call is a call of `reset`. -/
def operation.is_reset {T : Type} : operation T → Bool
  | operation.reset => true
  | _ => false

/-- The registry after one call. -/
def step (registry : IdentifierRegistry T) : operation T → IdentifierRegistry T
  | operation.add_item item => (registry.add_item item).2
  | operation.lock => registry.lock
  | operation.reset => registry.reset

/-- The registry after a sequence of calls, made in order. -/
def run (registry : IdentifierRegistry T) (calls : List (operation T)) :
    IdentifierRegistry T :=
  calls.foldl step registry

/-- The results of a sequence of `add_item` calls, in order, and the registry that
the calls leave. -/
def add_items (registry : IdentifierRegistry T) : List T → List return_t × IdentifierRegistry T
  | [] => ([], registry)
  | item :: rest =>
    ((registry.add_item item).1 :: (add_items (registry.add_item item).2 rest).1,
      (add_items (registry.add_item item).2 rest).2)

end IdentifierRegistry

/-- An item of the registry scenarios: an object that has only its identifier. -/
structure scenario_item where
  identifier : String
deriving DecidableEq, Repr

instance : HasIdentifier scenario_item where
  get_identifier := fun item => item.identifier

end Types_hpp

/-! ## Sliders -/

/-- The members of a `slider_value_t` (Sliders.hpp:11-13). -/
structure slider_value_t where
  min : Int
  max : Int
  value : Int
deriving DecidableEq, Repr

/-- The constructor `slider_value_t(int value, int min = 0, int max = 100)`
(Sliders.hpp:16-26): the object it leaves and the value of its parameter `value` at
the end of the body. The parameters have the names of the members and hide them, the
body assigns to the parameter `value` only, and there are no member initialisers, so
the three members keep the content of the storage in which the object is
constructed, which is given as `storage`. -/
def slider_value_t.new (storage : slider_value_t) (value min max : Int) :
    slider_value_t × Int :=
  let value1 := if value > max then min else value
  let value2 := if value1 < min then max else value1
  (storage, value2)

/-- The function `SliderManager::set_slider_value` (Sliders.hpp:31-41). -/
def SliderManager.set_slider_value (slider : slider_value_t) (new_value : Int) :
    slider_value_t :=
  if new_value ≤ slider.max ∧ new_value ≥ slider.min then { slider with value := new_value }
  else if new_value > slider.max then { slider with value := slider.min }
  else { slider with value := slider.max }

/-- The rule of the slider: the value itself when it lies between the bounds, the
lower bound when it is above the upper bound, and the upper bound otherwise. -/
def slider_value_t.wrapped (value min max : Int) : Int :=
  if min ≤ value ∧ value ≤ max then value else if value > max then min else max

/-! ## The budgeting of `artisan_tick` -/

namespace ArtisanalProducer

/-- The sum that one inner loop of the `while` body builds
(ArtisanalProducer.cpp:64-67): over the goods still to buy, the maximum price times
the quantity of the good in `quantities` (`demand` or `stockpile`). -/
def total_value (goods_to_buy_and_max_price quantities : good_definition_map_t) :
    fixed_point_t :=
  goods_to_buy_and_max_price.foldl
    (fun acc e => fixed_point_t.add acc (fixed_point_t.mul e.2 (quantities.get e.1)))
    fixed_point_t._0

/-- The stockpile and `goods_to_buy_and_max_price` that `artisan_tick` holds when it
reaches the test of the cash (ArtisanalProducer.cpp:41-55), from the locals `s` of
the first loop. -/
def consumed_inputs (ap : ArtisanalProducer) (s : Inputs) :
    good_definition_map_t × good_definition_map_t :=
  if s.inputs_bought_scalar > fixed_point_t._0 then
    consume_inputs s.demand s.inputs_bought_scalar ap.production_type.input_goods
      (ap.stockpile, s.goods_to_buy_and_max_price)
  else (ap.stockpile, s.goods_to_buy_and_max_price)

/-- The runs of the body of the `while (!at_or_below_optimum)` loop
(ArtisanalProducer.cpp:60-81): the map `goods_to_buy_and_max_price` at the start of
every run, in order, with the same bound on the number of passes as
`satisfaction_loop`. -/
def satisfaction_loop_passes (demand stockpile : good_definition_map_t)
    (total_cash_to_spend : fixed_point_t) :
    Nat → good_definition_map_t → List good_definition_map_t
  | 0, _ => []
  | fuel + 1, goods_to_buy_and_max_price =>
    let pass := satisfaction_pass demand stockpile total_cash_to_spend
      goods_to_buy_and_max_price
    goods_to_buy_and_max_price ::
      (if pass.2.length = goods_to_buy_and_max_price.length then []
      else satisfaction_loop_passes demand stockpile total_cash_to_spend fuel pass.2)

end ArtisanalProducer

/-! ## RGO: size and worker count -/

/-- Modelled from the spec: `fixed_point_t::ceil`, the smallest integer not below the
value. -/
def fixed_point_t.ceil (a : fixed_point_t) : Int := -((-a) / 65536)

/-- Modelled from the spec: the constant `fixed_point_t::_1_50()`. -/
def fixed_point_t._1_50 : fixed_point_t := 98304

namespace ResourceGatheringOperation

/-- The loop over the pops of the province in
`update_size_and_return_total_worker_count`
(ResourceGatheringOperation.cpp:74-83): the summed size of the pops whose type is the
pop type of a job. -/
def total_worker_count_in_province (jobs : List Job) : List Pop → Int → Int
  | [], total => total
  | pop :: rest, total =>
    total_worker_count_in_province jobs rest
      (if jobs.any (fun job => job.pop_type = pop.type) then total + pop.size else total)

/-- The function `ResourceGatheringOperation::update_size_and_return_total_worker_count`
(ResourceGatheringOperation.cpp:62-103): the operation it leaves and the count it
returns. -/
def update_size_and_return_total_worker_count (rgo : ResourceGatheringOperation)
    (location : ProvinceInstance) (size_modifier : fixed_point_t) :
    ResourceGatheringOperation × Int :=
  match rgo.production_type_nullable with
  | none =>
    ({ rgo with size_multiplier := fixed_point_t._0, max_employee_count_cache := 0 }, 0)
  | some production_type =>
    let total := total_worker_count_in_province production_type.jobs location.pops 0
    let base_size_modifier1 :=
      if production_type.is_farm then
        fixed_point_t.add fixed_point_t._1
          (location.get_modifier_effect_value_nullcheck .farm_rgo_size_local)
      else fixed_point_t._1
    let base_size_modifier :=
      if production_type.is_mine then
        fixed_point_t.add base_size_modifier1
          (location.get_modifier_effect_value_nullcheck .mine_rgo_size_local)
      else base_size_modifier1
    let base_workforce_size := fixed_point_t.parse production_type.base_workforce_size
    let size_multiplier : fixed_point_t :=
      if base_size_modifier = fixed_point_t._0 then 0
      else
        fixed_point_t.parse
          (fixed_point_t.floor
            (fixed_point_t.mul_int fixed_point_t._1_50
              (fixed_point_t.ceil
                (fixed_point_t.div (fixed_point_t.parse total)
                  (fixed_point_t.mul base_size_modifier base_workforce_size)))))
    ({ rgo with
        size_multiplier := size_multiplier
        max_employee_count_cache :=
          fixed_point_t.floor
            (fixed_point_t.mul (fixed_point_t.mul size_modifier size_multiplier)
              base_workforce_size) },
      total)

/-- The function `ResourceGatheringOperation::calculate_size_modifier`
(ResourceGatheringOperation.cpp:105-124). -/
def calculate_size_modifier (rgo : ResourceGatheringOperation) (location : ProvinceInstance) :
    fixed_point_t :=
  match rgo.production_type_nullable with
  | none => fixed_point_t._1
  | some production_type =>
    let value := location.get_modifier_effect_value_nullcheck
    let size_modifier1 :=
      if production_type.is_farm then
        fixed_point_t.add fixed_point_t._1
          (fixed_point_t.add (value .farm_rgo_size_global) (value .farm_rgo_size_local))
      else fixed_point_t._1
    let size_modifier2 :=
      if production_type.is_mine then
        fixed_point_t.add size_modifier1
          (fixed_point_t.add (value .mine_rgo_size_global) (value .mine_rgo_size_local))
      else size_modifier1
    let size_modifier :=
      fixed_point_t.add size_modifier2
        (value (.rgo_size production_type.output_good.identifier))
    if size_modifier > fixed_point_t._0 then size_modifier else fixed_point_t._0

/-- The first steps of `initialise_for_new_game` on an operation with a production
type (ResourceGatheringOperation.cpp:51-54): the size modifier is calculated, the size
is updated and the workers counted by `update_size_and_return_total_worker_count` are
offered to `hire`. -/
def update_size_and_hire (rgo : ResourceGatheringOperation) (location : ProvinceInstance) :
    Option ResourceGatheringOperation :=
  let size_modifier := rgo.calculate_size_modifier location
  let updated := rgo.update_size_and_return_total_worker_count location size_modifier
  updated.1.hire location updated.2

end ResourceGatheringOperation

/-- The province of the RGO scenarios with a global farm size modifier of +3 and a
local farm size modifier of -2. -/
def scenario_province_shrunk : ProvinceInstance :=
  { scenario_province with
    modifier_effect_values :=
      [(rgo_modifier_effect_t.farm_rgo_size_global, 196608),
       (rgo_modifier_effect_t.farm_rgo_size_local, -131072)] }

/-- The province of the RGO scenarios with a third pop, of size 25, that has no type. -/
def scenario_province_untyped : ProvinceInstance :=
  { scenario_province with
    pops := scenario_province.pops ++ [{ type := none, size := 25, cash := 0 }] }

/-- A production type of the RGO scenarios with a second job that names no pop type. -/
def scenario_rgo_untyped_job_production_type : ProductionType :=
  { scenario_rgo_production_type false with
    jobs := (scenario_rgo_production_type false).jobs ++
      [{ pop_type := none, effect_type := Job.effect_t.OUTPUT,
         effect_multiplier := 65536, amount := 65536 }] }

/-- A production type of the RGO scenarios whose only job has the effect type OUTPUT. -/
def scenario_rgo_output_production_type : ProductionType :=
  { scenario_rgo_production_type false with
    jobs := [{ pop_type := some scenario_worker_type, effect_type := Job.effect_t.OUTPUT,
               effect_multiplier := 65536, amount := 65536 }] }

/-- An RGO of the scenarios whose production type has no THROUGHPUT job, after `hire`
on the scenario province. -/
def scenario_rgo_output_hired : ResourceGatheringOperation :=
  (({ scenario_rgo false with
      production_type_nullable := some scenario_rgo_output_production_type
      } : ResourceGatheringOperation).hire scenario_province 100).getD (scenario_rgo false)

/-! ## Lemmas on fixed-point arithmetic -/

namespace fixed_point_t

theorem saturate_of_mem {v : Int} (h1 : -MAX ≤ v) (h2 : v ≤ MAX) : saturate v = v := by
  unfold saturate; unfold MAX at *; omega

theorem saturate_mono {a b : Int} (h : a ≤ b) : saturate a ≤ saturate b := by
  unfold saturate; unfold MAX; omega

theorem saturate_nonneg {v : Int} (h : 0 ≤ v) : 0 ≤ saturate v := by
  unfold saturate; unfold MAX; omega

theorem saturate_le_self {v : Int} (h : 0 ≤ v) : saturate v ≤ v := by
  unfold saturate; unfold MAX; omega

/-- For a non-negative amount and a positive price the quotient is the floor of
the exact quotient, clamped. -/
theorem div_eq_of_nonneg {a b : Int} (ha : 0 ≤ a) (hb : 0 < b) :
    div a b = saturate ((a * 65536) / b) := by
  unfold div
  rw [if_neg (show ¬ b = 0 by omega), Int.tdiv_eq_ediv (by omega) (by omega)]

theorem div_nonneg {a b : Int} (ha : 0 ≤ a) (hb : 0 < b) : 0 ≤ div a b := by
  rw [div_eq_of_nonneg ha hb]
  exact saturate_nonneg (Int.ediv_nonneg (by omega) (by omega))

/-- Buying `a / b` at price `b` never costs more than `a`. -/
theorem mul_div_le {a b : Int} (ha : 0 ≤ a) (hb : 0 < b) : mul (div a b) b ≤ a := by
  have hq : 0 ≤ (a * 65536) / b := Int.ediv_nonneg (by omega) (by omega)
  have h1 : div a b ≤ (a * 65536) / b := by
    rw [div_eq_of_nonneg ha hb]; exact saturate_le_self hq
  have h2 : 0 ≤ div a b := div_nonneg ha hb
  have h3 : div a b * b ≤ a * 65536 :=
    le_trans (Int.mul_le_mul_of_nonneg_right h1 (by omega))
      (Int.ediv_mul_le _ (by omega))
  have h4 : 0 ≤ div a b * b := Int.mul_nonneg h2 (by omega)
  have h5 : (div a b * b) / 65536 ≤ a := by
    have := Int.ediv_le_ediv (by decide : (0 : Int) < 65536) h3
    rwa [Int.mul_ediv_cancel _ (by decide : (65536 : Int) ≠ 0)] at this
  have h6 : 0 ≤ (div a b * b) / 65536 := Int.ediv_nonneg h4 (by decide)
  unfold mul
  exact le_trans (saturate_le_self h6) h5

theorem mul_div_nonneg {a b : Int} (ha : 0 ≤ a) (hb : 0 < b) : 0 ≤ mul (div a b) b := by
  unfold mul
  exact saturate_nonneg
    (Int.ediv_nonneg (Int.mul_nonneg (div_nonneg ha hb) (by omega)) (by decide))

/-- A quantity whose price `mul a b` covers the money `m` is not exceeded by what
`m` buys at price `b`. -/
theorem div_le_of_le_mul {m a b : Int} (ha : 0 ≤ a) (hb : 0 < b) (hm : m ≤ mul a b) :
    div m b ≤ a := by
  have hx : 0 ≤ (a * b) / 65536 := Int.ediv_nonneg (Int.mul_nonneg ha (by omega)) (by decide)
  have h1 : m ≤ (a * b) / 65536 := le_trans hm (saturate_le_self hx)
  have h2 : m * 65536 ≤ a * b :=
    le_trans (Int.mul_le_mul_of_nonneg_right h1 (by decide)) (Int.ediv_mul_le _ (by decide))
  have h3 : Int.tdiv (m * 65536) b ≤ a := by
    rcases le_or_lt 0 m with hm0 | hm0
    · rw [Int.tdiv_eq_ediv (by omega) (by omega)]
      have := Int.ediv_le_ediv hb h2
      rwa [Int.mul_ediv_cancel _ (show b ≠ 0 by omega)] at this
    · have hneg : Int.tdiv (m * 65536) b ≤ 0 := by
        have h := Int.tdiv_nonneg (a := -(m * 65536)) (b := b) (by omega) (by omega)
        rw [Int.neg_tdiv] at h
        omega
      omega
  unfold div
  rw [if_neg (show ¬ b = 0 by omega)]
  exact le_trans (saturate_mono h3) (saturate_le_self ha)

end fixed_point_t

/-! ## Lemmas on the market tick -/

namespace GoodInstance

/-- The bounds stored in `g` are the ones `update_next_price_limits` computes
from the stored price and the base price. -/
def limits_current (g : GoodInstance) : Prop :=
  g.max_next_price =
      min (fixed_point_t.mul_int g.good_definition.base_price 5)
        (fixed_point_t.add g.price (fixed_point_t.div fixed_point_t._1 fixed_point_t._100)) ∧
    g.min_next_price =
      max (fixed_point_t.div (fixed_point_t.mul_int g.good_definition.base_price 22)
            fixed_point_t._100)
        (fixed_point_t.sub g.price (fixed_point_t.div fixed_point_t._1 fixed_point_t._100))

theorem execute_orders_price (g : GoodInstance) : (g.execute_orders).good.price = g.price := by
  unfold execute_orders
  dsimp only
  split <;> rfl

theorem execute_orders_good_definition (g : GoodInstance) :
    (g.execute_orders).good.good_definition = g.good_definition := by
  unfold execute_orders
  dsimp only
  split <;> rfl

theorem step_price (g : GoodInstance) (c : Call) : (g.step c).price = g.price := by
  cases c
  · rfl
  · rfl
  · exact execute_orders_price g

theorem step_good_definition (g : GoodInstance) (c : Call) :
    (g.step c).good_definition = g.good_definition := by
  cases c
  · rfl
  · rfl
  · exact execute_orders_good_definition g

theorem limits_current_update (g : GoodInstance) : limits_current (update_next_price_limits g) :=
  ⟨rfl, rfl⟩

theorem limits_current_execute_orders (g : GoodInstance) (h : limits_current g) :
    limits_current (g.execute_orders).good := by
  unfold execute_orders
  dsimp only
  split
  · exact limits_current_update _
  · exact h

theorem limits_current_step (g : GoodInstance) (c : Call) (h : limits_current g) :
    limits_current (g.step c) := by
  cases c
  · exact h
  · exact h
  · exact limits_current_execute_orders g h

theorem run_invariant (d : GoodDefinition) (calls : List Call) :
    limits_current (run (new d) calls) ∧ (run (new d) calls).price = d.base_price ∧
      (run (new d) calls).good_definition = d := by
  unfold run
  induction calls using List.reverseRecOn with
  | nil => exact ⟨limits_current_update _, rfl, rfl⟩
  | append_singleton cs c ih =>
    rw [List.foldl_append]
    simp only [List.foldl_cons, List.foldl_nil]
    refine ⟨limits_current_step _ c ih.1, ?_, ?_⟩
    · rw [step_price]; exact ih.2.1
    · rw [step_good_definition]; exact ih.2.2

/-- Without overflow the running total of the first loop is the plain sum. -/
theorem foldl_add_eq_sum (qs : List Int) (acc : Int) (h0 : ∀ q ∈ qs, 0 ≤ q) (ha : 0 ≤ acc)
    (hs : acc + qs.sum ≤ fixed_point_t.MAX) :
    qs.foldl (fun a q => fixed_point_t.add a q) acc = acc + qs.sum := by
  induction qs generalizing acc with
  | nil => simp
  | cons q qs ih =>
    have hq : 0 ≤ q := h0 q (List.mem_cons_self _ _)
    have hqs : 0 ≤ qs.sum := List.sum_nonneg (fun x hx => h0 x (List.mem_cons_of_mem _ hx))
    simp only [List.sum_cons] at hs
    have hadd : fixed_point_t.add acc q = acc + q := by
      unfold fixed_point_t.add
      apply fixed_point_t.saturate_of_mem <;> (unfold fixed_point_t.MAX at *; omega)
    simp only [List.foldl_cons, List.sum_cons, hadd]
    have hs2 : acc + q + qs.sum ≤ fixed_point_t.MAX := by linarith
    rw [ih (acc + q) (fun x hx => h0 x (List.mem_cons_of_mem _ hx)) (by omega) hs2]
    ring

/-- Without overflow the demand total of `execute_orders` is the sum of
`max_quantity` over the buy-up-to orders. -/
theorem demand_running_total_eq_sum (g : GoodInstance)
    (h0 : ∀ o ∈ g.buy_up_to_orders, 0 ≤ o.max_quantity)
    (hs : (g.buy_up_to_orders.map (fun o => o.max_quantity)).sum ≤ fixed_point_t.MAX) :
    g.demand_running_total = (g.buy_up_to_orders.map (fun o => o.max_quantity)).sum := by
  have h := foldl_add_eq_sum (g.buy_up_to_orders.map (fun o => o.max_quantity)) 0
    (by simpa using h0) (le_refl _) (by simpa using hs)
  rw [List.foldl_map] at h
  simpa [demand_running_total, fixed_point_t._0] using h

/-- Without overflow the supply total of `execute_orders` is the sum of `quantity`
over the market sell orders. -/
theorem supply_running_total_eq_sum (g : GoodInstance)
    (h0 : ∀ o ∈ g.market_sell_orders, 0 ≤ o.quantity)
    (hs : (g.market_sell_orders.map (fun o => o.quantity)).sum ≤ fixed_point_t.MAX) :
    g.supply_running_total = (g.market_sell_orders.map (fun o => o.quantity)).sum := by
  have h := foldl_add_eq_sum (g.market_sell_orders.map (fun o => o.quantity)) 0
    (by simpa using h0) (le_refl _) (by simpa using hs)
  rw [List.foldl_map] at h
  simpa [supply_running_total, fixed_point_t._0] using h

end GoodInstance

/-! ## Lemmas on the artisanal tick -/

namespace ArtisanalProducer

/-- The share of its desired quantity that the stockpile holds of one input good
before the tick. -/
def stockpile_ratio (ap : ArtisanalProducer) (e : GoodDefinition × fixed_point_t) :
    fixed_point_t :=
  fixed_point_t.div (ap.stockpile.get e.1)
    (fixed_point_t.div_int (fixed_point_t.mul_int e.2 ap.pop.size)
      ap.production_type.base_workforce_size)

/-- The value `artisan_tick` assigns to `current_production` for a given
`inputs_bought_scalar`. -/
def production_for (ap : ArtisanalProducer) (inputs_bought_scalar : fixed_point_t) :
    fixed_point_t :=
  fixed_point_t.div_int
    (fixed_point_t.mul_int
      (fixed_point_t.mul ap.production_type.base_output_quantity inputs_bought_scalar)
      ap.pop.size)
    ap.production_type.base_workforce_size

theorem satisfaction_loop_some (demand stockpile : good_definition_map_t)
    (cash : fixed_point_t) (fuel : Nat) (goods : good_definition_map_t)
    (h : goods.length < fuel) :
    ∃ r, satisfaction_loop demand stockpile cash fuel goods = some r := by
  induction fuel generalizing goods with
  | zero => omega
  | succ n ih =>
    unfold satisfaction_loop
    dsimp only
    split
    · exact ⟨_, rfl⟩
    · rename_i hne
      apply ih
      have hle : (satisfaction_pass demand stockpile cash goods).2.length ≤ goods.length :=
        List.length_filter_le _ _
      omega

theorem buy_inputs_and_produce_some (ap : ArtisanalProducer) (s : Inputs)
    (consumed : good_definition_map_t × good_definition_map_t) :
    ∃ stockpile buys, buy_inputs_and_produce ap s consumed =
      some (produce_and_sell ap stockpile s.inputs_bought_scalar buys) := by
  unfold buy_inputs_and_produce
  dsimp only
  split
  · obtain ⟨r, hr⟩ := satisfaction_loop_some s.demand consumed.1 ap.pop.cash
      (consumed.2.length + 1) consumed.2 (Nat.lt_succ_self _)
    rw [hr]
    exact ⟨_, _, rfl⟩
  · exact ⟨_, _, rfl⟩

theorem read_inputs_some (ap : ArtisanalProducer)
    (inputs : List (GoodDefinition × fixed_point_t)) (s : Inputs)
    (h : ∀ e ∈ inputs,
      (ap.market_instance.good_instance_manager.get_good_instance_by_identifier
        e.1.identifier).isSome = true) :
    ∃ r, read_inputs ap inputs s = some r ∧
      r.inputs_bought_scalar ≤ s.inputs_bought_scalar ∧
      (∀ e ∈ inputs, r.inputs_bought_scalar ≤ stockpile_ratio ap e) ∧
      (r.inputs_bought_scalar = s.inputs_bought_scalar ∨
        ∃ e ∈ inputs, r.inputs_bought_scalar = stockpile_ratio ap e) := by
  induction inputs generalizing s with
  | nil => exact ⟨s, rfl, le_refl _, by simp, Or.inl rfl⟩
  | cons e rest ih =>
    obtain ⟨input_good, base_desired_quantity⟩ := e
    have hl := h (input_good, base_desired_quantity) (List.mem_cons_self _ _)
    obtain ⟨good, hgood⟩ := Option.isSome_iff_exists.mp hl
    unfold read_inputs
    dsimp only at hgood ⊢
    rw [hgood]
    dsimp only
    obtain ⟨r, hr, hle, hall, hex⟩ := ih
      { demand := s.demand.set input_good
          (fixed_point_t.div_int (fixed_point_t.mul_int base_desired_quantity ap.pop.size)
            ap.production_type.base_workforce_size)
        inputs_bought_scalar :=
          min (stockpile_ratio ap (input_good, base_desired_quantity)) s.inputs_bought_scalar
        goods_to_buy_and_max_price :=
          s.goods_to_buy_and_max_price.set input_good good.max_next_price }
      (fun e he => h e (List.mem_cons_of_mem _ he))
    refine ⟨r, hr, ?_, ?_, ?_⟩
    · exact le_trans hle (min_le_right _ _)
    · intro e he
      rcases List.mem_cons.mp he with rfl | he
      · exact le_trans hle (min_le_left _ _)
      · exact hall e he
    · rcases hex with hex | ⟨e, he, hex⟩
      · dsimp only at hex
        rcases min_choice (stockpile_ratio ap (input_good, base_desired_quantity))
          s.inputs_bought_scalar with hm | hm
        · exact Or.inr ⟨_, List.mem_cons_self _ _, by rw [hex, hm]⟩
        · exact Or.inl (by rw [hex, hm])
      · exact Or.inr ⟨e, List.mem_cons_of_mem _ he, hex⟩

end ArtisanalProducer

/-! ## Lemmas on the RGO payroll -/

namespace ResourceGatheringOperation

/-- An employee that `pay_employees` pays: its pop has a type and is not a slave. -/
def is_paid (employee : Employee) : Bool :=
  match employee.pop.type with
  | some employee_pop_type => !employee_pop_type.is_slave
  | none => false

theorem owner_share_eq_min (owners workers : Int) :
    owner_share owners workers =
      min fixed_point_t._0_50
        (fixed_point_t.div_int (fixed_point_t.mul_int fixed_point_t._2 owners) workers) := by
  unfold owner_share
  dsimp only
  split
  · rename_i h
    rw [min_eq_left (le_of_lt h)]
  · rename_i h
    rw [min_eq_right (not_lt.mp h)]

theorem pay_owners_incomes (revenue_left share : fixed_point_t) (owners : Int)
    (pops : List Pop) (acc : Incomes) :
    (pay_owners revenue_left share owners pops acc).2 =
      acc.2 ++ pops.map (fun p => (p, owner_income revenue_left share owners p)) := by
  induction pops generalizing acc with
  | nil => simp [pay_owners]
  | cons p rest ih =>
    obtain ⟨total, paid⟩ := acc
    unfold pay_owners
    dsimp only
    rw [ih]
    simp

theorem pay_workers_incomes (revenue_left : fixed_point_t) (total_paid : Int)
    (employees : List Employee) (acc : Incomes)
    (h : ∀ e ∈ employees, e.pop.type.isSome = true) :
    (pay_workers revenue_left total_paid employees acc).2 =
      acc.2 ++ (employees.filter is_paid).map
        (fun e => (e.pop, employee_income revenue_left total_paid e)) := by
  induction employees generalizing acc with
  | nil => simp [pay_workers]
  | cons e rest ih =>
    obtain ⟨total, paid⟩ := acc
    have he := h e (List.mem_cons_self _ _)
    obtain ⟨t, ht⟩ := Option.isSome_iff_exists.mp he
    have hrest : ∀ e ∈ rest, e.pop.type.isSome = true :=
      fun x hx => h x (List.mem_cons_of_mem _ hx)
    unfold pay_workers
    rw [ht]
    dsimp only
    by_cases hs : t.is_slave = true
    · rw [if_pos hs, ih _ hrest]
      have hp : is_paid e = false := by unfold is_paid; rw [ht]; simp [hs]
      rw [List.filter_cons_of_neg (by simp [hp])]
    · rw [if_neg hs, ih _ hrest]
      have hp : is_paid e = true := by unfold is_paid; rw [ht]; simpa using hs
      rw [List.filter_cons_of_pos hp]
      simp

theorem owner_incomes_sum_of_half_of_thousand (pops : List Pop)
    (h0 : ∀ p ∈ pops, 0 ≤ p.size) (hs : (pops.map (fun p => p.size)).sum ≤ 50) :
    (pops.map (fun p => owner_income 65536000 32768 50 p)).sum =
      655360 * (pops.map (fun p => p.size)).sum := by
  induction pops with
  | nil => simp
  | cons p rest ih =>
    have hp : 0 ≤ p.size := h0 p (List.mem_cons_self _ _)
    have hrest : ∀ q ∈ rest, 0 ≤ q.size := fun q hq => h0 q (List.mem_cons_of_mem _ hq)
    have hsum : 0 ≤ (rest.map (fun q => q.size)).sum :=
      List.sum_nonneg (by simpa using hrest)
    simp only [List.map_cons, List.sum_cons] at hs ⊢
    rw [ih hrest (by omega)]
    have hone : owner_income 65536000 32768 50 p = 655360 * p.size := by
      unfold owner_income
      have hm : fixed_point_t.mul 65536000 32768 = 32768000 := by decide
      rw [hm]
      unfold fixed_point_t.div_int fixed_point_t.mul_int
      rw [if_neg (by decide)]
      have h1 : fixed_point_t.saturate (32768000 * p.size) = 32768000 * p.size := by
        apply fixed_point_t.saturate_of_mem <;> (unfold fixed_point_t.MAX; omega)
      rw [h1]
      have h2 : Int.tdiv (32768000 * p.size) 50 = 655360 * p.size := by
        rw [Int.tdiv_eq_ediv (by omega) (by decide)]
        omega
      rw [h2]
      apply fixed_point_t.saturate_of_mem <;> (unfold fixed_point_t.MAX; omega)
    rw [hone]
    ring

/-- An income `x × size / n` is non-negative and, times `n`, at most `x × size`. -/
theorem income_bound (x size n : Int) (hx : 0 ≤ x) (hsize : 0 ≤ size) (hn : 0 < n) :
    0 ≤ fixed_point_t.div_int (fixed_point_t.mul_int x size) n ∧
      n * fixed_point_t.div_int (fixed_point_t.mul_int x size) n ≤ x * size := by
  have hz : 0 ≤ x * size := Int.mul_nonneg hx hsize
  have hy0 : 0 ≤ fixed_point_t.mul_int x size := fixed_point_t.saturate_nonneg hz
  have hy1 : fixed_point_t.mul_int x size ≤ x * size := fixed_point_t.saturate_le_self hz
  unfold fixed_point_t.div_int
  rw [if_neg (show ¬ n = 0 by omega), Int.tdiv_eq_ediv hy0 (le_of_lt hn)]
  have hq0 : 0 ≤ fixed_point_t.mul_int x size / n := Int.ediv_nonneg hy0 (le_of_lt hn)
  have hq1 : fixed_point_t.mul_int x size / n * n ≤ fixed_point_t.mul_int x size :=
    Int.ediv_mul_le _ (show n ≠ 0 by omega)
  have hs1 : fixed_point_t.saturate (fixed_point_t.mul_int x size / n) ≤
      fixed_point_t.mul_int x size / n := fixed_point_t.saturate_le_self hq0
  refine ⟨fixed_point_t.saturate_nonneg hq0, ?_⟩
  have h3 : n * fixed_point_t.saturate (fixed_point_t.mul_int x size / n) ≤
      n * (fixed_point_t.mul_int x size / n) :=
    Int.mul_le_mul_of_nonneg_left hs1 (le_of_lt hn)
  have h4 : n * (fixed_point_t.mul_int x size / n) =
      fixed_point_t.mul_int x size / n * n := Int.mul_comm _ _
  unfold fixed_point_t at *
  omega

theorem add_bound (a b : Int) (ha : 0 ≤ a) (hb : 0 ≤ b) :
    0 ≤ fixed_point_t.add a b ∧ fixed_point_t.add a b ≤ a + b := by
  have h : 0 ≤ a + b := by omega
  exact ⟨fixed_point_t.saturate_nonneg h, fixed_point_t.saturate_le_self h⟩

theorem pay_owners_total (x : fixed_point_t) (share : fixed_point_t) (n : Int)
    (hx : 0 ≤ fixed_point_t.mul x share) (hn : 0 < n) (pops : List Pop) (acc : Incomes)
    (hacc : 0 ≤ acc.1) (hsize : ∀ p ∈ pops, 0 ≤ p.size) :
    0 ≤ (pay_owners x share n pops acc).1 ∧
      n * (pay_owners x share n pops acc).1 ≤
        n * acc.1 + fixed_point_t.mul x share * (pops.map (fun p => p.size)).sum := by
  induction pops generalizing acc with
  | nil => simp [pay_owners, hacc]
  | cons p rest ih =>
    obtain ⟨total, paid⟩ := acc
    have hp : 0 ≤ p.size := hsize p (List.mem_cons_self _ _)
    have hrest : ∀ q ∈ rest, 0 ≤ q.size := fun q hq => hsize q (List.mem_cons_of_mem _ hq)
    obtain ⟨hi0, hi1⟩ := income_bound (fixed_point_t.mul x share) p.size n hx hp hn
    obtain ⟨ha0, ha1⟩ := add_bound total (owner_income x share n p) hacc hi0
    unfold pay_owners
    dsimp only
    obtain ⟨ih0, ih1⟩ := ih
      (fixed_point_t.add total (owner_income x share n p), paid ++ [(p, owner_income x share n p)])
      ha0 hrest
    refine ⟨ih0, ?_⟩
    simp only [List.map_cons, List.sum_cons]
    have h1 : n * fixed_point_t.add total (owner_income x share n p) ≤
        n * (total + owner_income x share n p) :=
      Int.mul_le_mul_of_nonneg_left ha1 (le_of_lt hn)
    have h2 : n * (total + owner_income x share n p) = n * total + n * owner_income x share n p :=
      Int.mul_add _ _ _
    have h3 : fixed_point_t.mul x share * (p.size + (rest.map (fun p => p.size)).sum) =
        fixed_point_t.mul x share * p.size +
          fixed_point_t.mul x share * (rest.map (fun p => p.size)).sum := Int.mul_add _ _ _
    have hi2 : n * owner_income x share n p ≤ fixed_point_t.mul x share * p.size := hi1
    dsimp only at ih1
    linarith

theorem pay_workers_total (x : fixed_point_t) (n : Int) (hx : 0 ≤ x) (hn : 0 < n)
    (employees : List Employee) (acc : Incomes) (hacc : 0 ≤ acc.1)
    (hsize : ∀ e ∈ employees, 0 ≤ e.size) :
    0 ≤ (pay_workers x n employees acc).1 ∧
      n * (pay_workers x n employees acc).1 ≤
        n * acc.1 + x * ((employees.filter is_paid).map (fun e => e.size)).sum := by
  induction employees generalizing acc with
  | nil => simp [pay_workers, hacc]
  | cons e rest ih =>
    obtain ⟨total, paid⟩ := acc
    have he : 0 ≤ e.size := hsize e (List.mem_cons_self _ _)
    have hrest : ∀ q ∈ rest, 0 ≤ q.size := fun q hq => hsize q (List.mem_cons_of_mem _ hq)
    have hsum0 : ∀ l : List Employee, (∀ q ∈ l, 0 ≤ q.size) →
        0 ≤ ((l.filter is_paid).map (fun e => e.size)).sum := by
      intro l hl
      apply List.sum_nonneg
      intro v hv
      obtain ⟨q, hq, rfl⟩ := List.mem_map.mp hv
      exact hl q (List.mem_filter.mp hq).1
    unfold pay_workers
    cases ht : e.pop.type with
    | none =>
      dsimp only
      refine ⟨hacc, ?_⟩
      have := Int.mul_nonneg hx (hsum0 (e :: rest) hsize)
      dsimp only at hacc ⊢
      linarith
    | some t =>
      dsimp only
      by_cases hs : t.is_slave = true
      · rw [if_pos hs]
        have hp : is_paid e = false := by unfold is_paid; rw [ht]; simp [hs]
        rw [List.filter_cons_of_neg (by simp [hp])]
        exact ih (total, paid) hacc hrest
      · rw [if_neg hs]
        have hp : is_paid e = true := by unfold is_paid; rw [ht]; simpa using hs
        rw [List.filter_cons_of_pos hp]
        obtain ⟨hi0, hi1⟩ := income_bound x e.size n hx he hn
        obtain ⟨ha0, ha1⟩ := add_bound total (employee_income x n e) hacc hi0
        obtain ⟨ih0, ih1⟩ := ih
          (fixed_point_t.add total (employee_income x n e),
            paid ++ [(e.pop, employee_income x n e)]) ha0 hrest
        refine ⟨ih0, ?_⟩
        simp only [List.map_cons, List.sum_cons]
        have h1 : n * fixed_point_t.add total (employee_income x n e) ≤
            n * (total + employee_income x n e) :=
          Int.mul_le_mul_of_nonneg_left ha1 (le_of_lt hn)
        have h2 : n * (total + employee_income x n e) = n * total + n * employee_income x n e :=
          Int.mul_add _ _ _
        have h3 : x * (e.size + ((rest.filter is_paid).map (fun e => e.size)).sum) =
            x * e.size + x * ((rest.filter is_paid).map (fun e => e.size)).sum :=
          Int.mul_add _ _ _
        have hi2 : n * employee_income x n e ≤ x * e.size := hi1
        dsimp only at ih1
        linarith

/-- A total `t` with `n × t ≤ x × s` for a share `s ≤ n` of the whole is at most
`x`. -/
theorem total_le_of_mul_le (n t x s : Int) (hn : 0 < n) (hx : 0 ≤ x) (hs : s ≤ n)
    (h : n * t ≤ x * s) : t ≤ x := by
  have h1 : x * s ≤ x * n := Int.mul_le_mul_of_nonneg_left hs hx
  have h2 : n * t ≤ n * x := by rw [Int.mul_comm n x]; exact le_trans h h1
  exact le_of_mul_le_mul_left h2 hn

theorem owner_share_bounds (owners workers : Int) (ho : 0 < owners) (hw : 0 < workers) :
    0 ≤ owner_share owners workers ∧ owner_share owners workers ≤ 32768 := by
  have hx : 0 ≤ fixed_point_t.div_int (fixed_point_t.mul_int fixed_point_t._2 owners) workers :=
    (income_bound fixed_point_t._2 owners workers (by decide) (le_of_lt ho) hw).1
  unfold owner_share
  dsimp only
  unfold fixed_point_t._0_50
  split
  · decide
  · rename_i h
    exact ⟨hx, not_lt.mp h⟩

/-- The owners' part and the part left for the employees together never exceed
the revenue. -/
theorem revenue_split_le (revenue share : Int) (hr : 0 ≤ revenue) (h0 : 0 ≤ share)
    (h1 : share ≤ 32768) :
    0 ≤ fixed_point_t.mul revenue share ∧
      0 ≤ fixed_point_t.mul revenue (fixed_point_t.sub fixed_point_t._1 share) ∧
      fixed_point_t.mul revenue share +
        fixed_point_t.mul revenue (fixed_point_t.sub fixed_point_t._1 share) ≤ revenue := by
  have hsub : fixed_point_t.sub fixed_point_t._1 share = 65536 - share := by
    unfold fixed_point_t.sub fixed_point_t._1
    apply fixed_point_t.saturate_of_mem <;> (unfold fixed_point_t.MAX; omega)
  rw [hsub]
  have hp : 0 ≤ revenue * share := Int.mul_nonneg hr h0
  have hq : 0 ≤ revenue * (65536 - share) := Int.mul_nonneg hr (by omega)
  have hexp : revenue * (65536 - share) = 65536 * revenue - revenue * share := by ring
  have ha0 : 0 ≤ revenue * share / 65536 := Int.ediv_nonneg hp (by decide)
  have hb0 : 0 ≤ revenue * (65536 - share) / 65536 := Int.ediv_nonneg hq (by decide)
  have ha1 := fixed_point_t.saturate_le_self ha0
  have hb1 := fixed_point_t.saturate_le_self hb0
  have ha2 := fixed_point_t.saturate_nonneg ha0
  have hb2 := fixed_point_t.saturate_nonneg hb0
  unfold fixed_point_t.mul
  refine ⟨ha2, hb2, ?_⟩
  rw [hexp] at hb1 ⊢
  generalize revenue * share = p at *
  unfold fixed_point_t at *
  omega

/-- The recorded employees are the ones counted: the sizes of the paid employees
add up to `total_paid_employees_count_cache` and no size is negative. -/
def employees_counted (rgo : ResourceGatheringOperation) : Prop :=
  ((rgo.employees.filter is_paid).map (fun e => e.size)).sum =
      rgo.total_paid_employees_count_cache ∧
    ∀ e ∈ rgo.employees, 0 ≤ e.size

theorem is_paid_mk (pop : Pop) (size : Int) (t : PopType) (ht : pop.type = some t) :
    is_paid ⟨pop, size⟩ = !t.is_slave := by
  unfold is_paid
  dsimp only
  rw [ht]

theorem hire_pop_counted (jobs : List Job) (proportion : fixed_point_t) (hprop : 0 ≤ proportion)
    (rgo r : ResourceGatheringOperation) (pop : Pop) (hsize : 0 ≤ pop.size)
    (h : employees_counted rgo) (hr : hire_pop jobs proportion rgo pop = some r) :
    employees_counted r := by
  unfold hire_pop at hr
  cases ht : pop.type with
  | none =>
    rw [ht] at hr
    dsimp only at hr
    split at hr
    · cases hr
    · have hr2 := (Option.some.inj hr).symm
      subst hr2
      exact h
  | some t =>
    rw [ht] at hr
    dsimp only at hr
    split at hr
    · have hn : 0 ≤ fixed_point_t.floor (fixed_point_t.mul_int proportion pop.size) := by
        unfold fixed_point_t.floor
        exact Int.ediv_nonneg
          (fixed_point_t.saturate_nonneg (Int.mul_nonneg hprop hsize)) (by decide)
      have hr2 := (Option.some.inj hr).symm
      subst hr2
      obtain ⟨h1, h2⟩ := h
      unfold employees_counted
      dsimp only
      constructor
      · rw [List.filter_append, List.map_append, List.sum_append, h1]
        have hp := is_paid_mk pop
          (fixed_point_t.floor (fixed_point_t.mul_int proportion pop.size)) t ht
        by_cases hs : t.is_slave = true
        · simp [List.filter_cons, hp, hs]
        · simp [List.filter_cons, hp, hs]
      · intro e he
        rcases List.mem_append.mp he with he | he
        · exact h2 e he
        · rw [List.mem_singleton.mp he]
          exact hn
    · have hr2 := (Option.some.inj hr).symm
      subst hr2
      exact h

theorem hire_pops_counted (jobs : List Job) (proportion : fixed_point_t) (hprop : 0 ≤ proportion)
    (pops : List Pop) (rgo r : ResourceGatheringOperation) (hsize : ∀ p ∈ pops, 0 ≤ p.size)
    (h : employees_counted rgo) (hr : hire_pops jobs proportion pops rgo = some r) :
    employees_counted r := by
  induction pops generalizing rgo with
  | nil =>
    unfold hire_pops at hr
    rw [← Option.some.inj hr]
    exact h
  | cons p rest ih =>
    unfold hire_pops at hr
    cases h1 : hire_pop jobs proportion rgo p with
    | none => rw [h1] at hr; simp at hr
    | some rgo1 =>
      rw [h1] at hr
      exact ih rgo1 (fun q hq => hsize q (List.mem_cons_of_mem _ hq))
        (hire_pop_counted jobs proportion hprop rgo rgo1 p (hsize p (List.mem_cons_self _ _)) h h1)
        hr

/-- After `hire` on an operation with no recorded employee, the recorded employees
are the ones counted by `total_paid_employees_count_cache`. -/
theorem hire_counted (rgo r : ResourceGatheringOperation) (location : ProvinceInstance)
    (available_worker_count : Int) (hempty : rgo.employees = [])
    (hsize : ∀ p ∈ location.pops, 0 ≤ p.size)
    (hr : rgo.hire location available_worker_count = some r) : employees_counted r := by
  have hstart : employees_counted
      { rgo with total_employees_count_cache := 0, total_paid_employees_count_cache := 0 } := by
    unfold employees_counted
    dsimp only
    rw [hempty]
    simp
  unfold hire at hr
  dsimp only at hr
  split at hr
  · rw [← Option.some.inj hr]
    unfold employees_counted
    simp
  · split at hr
    · rw [← Option.some.inj hr]; exact hstart
    · split at hr
      · rw [← Option.some.inj hr]; exact hstart
      · rename_i hmax havail
        refine hire_pops_counted _ _ ?_ location.pops _ r hsize hstart hr
        split
        · decide
        · unfold fixed_point_t.div
          split
          · exact le_refl _
          · apply fixed_point_t.saturate_nonneg
            have hp1 : 0 ≤ fixed_point_t.parse rgo.max_employee_count_cache :=
              fixed_point_t.saturate_nonneg (by omega)
            have hp2 : 0 ≤ fixed_point_t.parse available_worker_count :=
              fixed_point_t.saturate_nonneg (by omega)
            exact Int.tdiv_nonneg (Int.mul_nonneg hp1 (by decide)) hp2

/-- On a state whose recorded employees are the ones counted by
`total_paid_employees_count_cache` and whose owner pops are the ones counted by the
owner count, `pay_employees` returns and the recorded owner and employee incomes
together do not exceed the revenue. -/
theorem pay_employees_total_le_revenue (rgo : ResourceGatheringOperation)
    (production_type : ProductionType) (revenue : fixed_point_t)
    (total_worker_count_in_province : Int) (owner_pops_cache : List Pop)
    (total_owner_count_in_state_cache : Int)
    (hpt : rgo.production_type_nullable = some production_type)
    (howner : 0 < total_owner_count_in_state_cache → production_type.owner.isSome = true)
    (hrevenue : 0 < revenue) (hworkers : 0 < total_worker_count_in_province)
    (hpaid : 0 < rgo.total_paid_employees_count_cache)
    (howner_size : ∀ p ∈ owner_pops_cache, 0 ≤ p.size)
    (howner_sum : (owner_pops_cache.map (fun p => p.size)).sum ≤ total_owner_count_in_state_cache)
    (hemployee_size : ∀ e ∈ rgo.employees, 0 ≤ e.size)
    (hemployee_sum : ((rgo.employees.filter is_paid).map (fun e => e.size)).sum ≤
      rgo.total_paid_employees_count_cache) :
    ∃ r, rgo.pay_employees revenue total_worker_count_in_province owner_pops_cache
          total_owner_count_in_state_cache = some r ∧
      r.rgo.total_owner_income_cache + r.rgo.total_employee_income_cache ≤ revenue := by
  have hguard : ¬ (revenue ≤ 0 ∨ total_worker_count_in_province ≤ 0) := by
    unfold fixed_point_t at *; omega
  have hpaid2 : rgo.total_paid_employees_count_cache > 0 := hpaid
  have hrev0 : (0 : Int) ≤ revenue := le_of_lt hrevenue
  unfold pay_employees
  dsimp only
  rw [hpt]
  dsimp only
  rw [if_neg hguard]
  by_cases hcount : total_owner_count_in_state_cache > 0
  · obtain ⟨job, hjob⟩ := Option.isSome_iff_exists.mp (howner hcount)
    rw [if_pos hcount, hjob]
    dsimp only
    refine ⟨_, rfl, ?_⟩
    dsimp only
    rw [if_pos hpaid2]
    obtain ⟨hs0, hs1⟩ := owner_share_bounds total_owner_count_in_state_cache
      total_worker_count_in_province hcount hworkers
    obtain ⟨ha, hb, hab⟩ := revenue_split_le revenue _ hrev0 hs0 hs1
    obtain ⟨_, ho⟩ := pay_owners_total revenue _ total_owner_count_in_state_cache ha hcount
      owner_pops_cache (0, []) (le_refl _) howner_size
    obtain ⟨_, he⟩ := pay_workers_total _ rgo.total_paid_employees_count_cache hb hpaid
      rgo.employees (0, []) (le_refl _) hemployee_size
    have ho2 := total_le_of_mul_le _ _ _ _ hcount ha howner_sum (by simpa using ho)
    have he2 := total_le_of_mul_le _ _ _ _ hpaid hb hemployee_sum (by simpa using he)
    unfold fixed_point_t at *
    omega
  · rw [if_neg hcount]
    dsimp only
    refine ⟨_, rfl, ?_⟩
    dsimp only
    rw [if_pos hpaid2]
    obtain ⟨_, he⟩ := pay_workers_total revenue rgo.total_paid_employees_count_cache hrev0 hpaid
      rgo.employees (0, []) (le_refl _) hemployee_size
    have he2 := total_le_of_mul_le _ _ _ _ hpaid hrev0 hemployee_sum (by simpa using he)
    unfold fixed_point_t at *
    omega

/-- After one `hire` on an operation with no recorded employee, `pay_employees`
with positive revenue and a positive paid employee count records owner and
employee incomes that together do not exceed the revenue. -/
theorem pay_employees_after_hire_le_revenue (rgo hired : ResourceGatheringOperation)
    (location : ProvinceInstance) (available_worker_count : Int)
    (production_type : ProductionType) (revenue : fixed_point_t)
    (total_worker_count_in_province : Int) (owner_pops_cache : List Pop)
    (total_owner_count_in_state_cache : Int)
    (hempty : rgo.employees = [])
    (hpops : ∀ p ∈ location.pops, 0 ≤ p.size)
    (hhire : rgo.hire location available_worker_count = some hired)
    (hpt : hired.production_type_nullable = some production_type)
    (howner : 0 < total_owner_count_in_state_cache → production_type.owner.isSome = true)
    (hrevenue : 0 < revenue) (hworkers : 0 < total_worker_count_in_province)
    (hpaid : 0 < hired.total_paid_employees_count_cache)
    (howner_size : ∀ p ∈ owner_pops_cache, 0 ≤ p.size)
    (howner_sum : (owner_pops_cache.map (fun p => p.size)).sum ≤
      total_owner_count_in_state_cache) :
    ∃ r, hired.pay_employees revenue total_worker_count_in_province owner_pops_cache
          total_owner_count_in_state_cache = some r ∧
      r.rgo.total_owner_income_cache + r.rgo.total_employee_income_cache ≤ revenue := by
  obtain ⟨hsum, hsize⟩ := hire_counted rgo hired location available_worker_count hempty hpops
    hhire
  exact pay_employees_total_le_revenue hired production_type revenue
    total_worker_count_in_province owner_pops_cache total_owner_count_in_state_cache hpt howner
    hrevenue hworkers hpaid howner_size howner_sum hsize (le_of_eq hsum)

end ResourceGatheringOperation

/-! ## The market tick: price update, continuations, conservation -/

/-- C1, evaluated on the code: with demand 10 above supply 5 and the bound
`max_next_price` standing at raw 66191 (1.01) before the call, `execute_orders`
leaves the stored price at raw 65536 (1.0); the member `price` is never assigned,
so no `execute_orders` changes the stored price. -/
theorem execute_orders_leaves_price_below_max_next :
    GoodInstance.demand_running_total scenario_demand_above = 655360 ∧
      GoodInstance.supply_running_total scenario_demand_above = 327680 ∧
      scenario_demand_above.price = 65536 ∧
      scenario_demand_above.max_next_price = 66191 ∧
      (scenario_demand_above.execute_orders).good.price = 65536 ∧
      ∀ g : GoodInstance, (g.execute_orders).good.price = g.price :=
  ⟨by decide, by decide, by decide, by decide, by decide,
    GoodInstance.execute_orders_price⟩

/-- C2, as stated, fails at its own scenario: the buyer is handed raw 1 (not 0) as
money left, and the seller raw 330955, which is not 5.05 (505/100 of raw 65536). -/
theorem scenario_demand_above_results_inexact :
    (scenario_demand_above.execute_orders).buy_results =
        [{ quantity_bought := 648874, money_left := 1 }] ∧
      (scenario_demand_above.execute_orders).sell_results =
        [{ quantity_sold := 327680, money_gained := 330955 }] ∧
      ¬ (∃ q, (scenario_demand_above.execute_orders).buy_results =
          [{ quantity_bought := q, money_left := 0 }]) ∧
      ¬ (∃ r, (scenario_demand_above.execute_orders).sell_results = [r] ∧
          r.money_gained * 100 = 505 * 65536) := by
  refine ⟨by decide, by decide, ?_, ?_⟩
  · rintro ⟨q, hq⟩
    have h : (scenario_demand_above.execute_orders).buy_results =
        [{ quantity_bought := 648874, money_left := 1 }] := by decide
    rw [h] at hq
    simp at hq
  · rintro ⟨r, hr, hm⟩
    have h : (scenario_demand_above.execute_orders).sell_results =
        [{ quantity_sold := 327680, money_gained := 330955 }] := by decide
    rw [h] at hr
    simp only [List.cons.injEq, and_true] at hr
    subst hr
    simp at hm

/-- C2, amended: every buy continuation is invoked with
`(money_to_spend / new_price, money_to_spend − (money_to_spend / new_price) × new_price)`
and every sell continuation with `(quantity, quantity × new_price)`, in fixed-point
arithmetic, where `new_price` is the pre-tick `max_next_price` if the demand total
exceeds the supply total, the pre-tick `min_next_price` if it is below, and the
current price if they are equal. In the scenario (base price 1, price 1, one buy
of max 10 with money 10, one sell of 5) the new price is raw 66191, the buyer
receives (raw 648874, raw 1) and the seller (raw 327680, raw 330955). -/
theorem execute_orders_continuation_values :
    (∀ g : GoodInstance,
      (g.execute_orders).buy_results = g.buy_up_to_orders.map (fun o =>
        { quantity_bought := fixed_point_t.div o.money_to_spend g.new_price
          money_left := fixed_point_t.sub o.money_to_spend
            (fixed_point_t.mul (fixed_point_t.div o.money_to_spend g.new_price)
              g.new_price) }) ∧
      (g.execute_orders).sell_results = g.market_sell_orders.map (fun o =>
        { quantity_sold := o.quantity
          money_gained := fixed_point_t.mul o.quantity g.new_price }) ∧
      (g.demand_running_total > g.supply_running_total → g.new_price = g.max_next_price) ∧
      (g.demand_running_total < g.supply_running_total → g.new_price = g.min_next_price) ∧
      (g.demand_running_total = g.supply_running_total → g.new_price = g.price)) ∧
    scenario_demand_above.new_price = 66191 ∧
    (scenario_demand_above.execute_orders).buy_results =
      [{ quantity_bought := 648874, money_left := 1 }] ∧
    (scenario_demand_above.execute_orders).sell_results =
      [{ quantity_sold := 327680, money_gained := 330955 }] := by
  refine ⟨fun g => ⟨rfl, rfl, ?_, ?_, ?_⟩, by decide, by decide, by decide⟩
  · intro h
    unfold GoodInstance.new_price
    rw [if_pos h]
  · intro h
    unfold GoodInstance.new_price
    have h2 : ¬ (g.demand_running_total > g.supply_running_total) := by
      unfold fixed_point_t at *; omega
    rw [if_neg h2, if_pos h]
  · intro h
    unfold GoodInstance.new_price
    have h2 : ¬ (g.demand_running_total > g.supply_running_total) := by
      unfold fixed_point_t at *; omega
    have h3 : ¬ (g.demand_running_total < g.supply_running_total) := by
      unfold fixed_point_t at *; omega
    rw [if_neg h2, if_neg h3]

/-- C3, as stated, fails: in the scenario with one buy (max 5, money 5) and one
sell of 10 the buyer is handed raw 330988 (about 5.0505), more than the raw 327680
(5) of its `max_quantity`. -/
theorem scenario_demand_below_bought_exceeds_max_quantity :
    ¬ (((scenario_demand_below.execute_orders).buy_results.map
          (fun r => r.quantity_bought)).sum ≤
        (scenario_demand_below.buy_up_to_orders.map (fun o => o.max_quantity)).sum) := by
  decide

/-- C3, amended: when the new price is positive and every buy-up-to order has a
non-negative `max_quantity` and commits no more money than `max_quantity` costs at
the new price, the total quantity handed to the buy continuations is at most the
sum of `max_quantity` over the orders. -/
theorem execute_orders_bought_le_max_quantity (g : GoodInstance)
    (hp : 0 < g.new_price)
    (h : ∀ o ∈ g.buy_up_to_orders, 0 ≤ o.max_quantity ∧
      o.money_to_spend ≤ fixed_point_t.mul o.max_quantity g.new_price) :
    ((g.execute_orders).buy_results.map (fun r => r.quantity_bought)).sum ≤
      (g.buy_up_to_orders.map (fun o => o.max_quantity)).sum := by
  have hres : (g.execute_orders).buy_results =
      g.buy_up_to_orders.map (GoodInstance.buy_result g.new_price) := rfl
  rw [hres, List.map_map]
  apply List.sum_le_sum
  intro o ho
  exact fixed_point_t.div_le_of_le_mul (h o ho).1 hp (h o ho).2

theorem execute_orders_bought_le_max_quantity_witness :
    0 < scenario_demand_above.new_price ∧
    ((scenario_demand_above.execute_orders).buy_results.map (fun r => r.quantity_bought)).sum ≤
      (scenario_demand_above.buy_up_to_orders.map (fun o => o.max_quantity)).sum :=
  ⟨by decide, execute_orders_bought_le_max_quantity scenario_demand_above (by decide)
    (by decide)⟩

/-- C4: for a positive new price and buy-up-to orders whose `money_to_spend` is
non-negative and representable, every buy continuation receives values with
`quantity_bought × new_price + money_left = money_to_spend`, `quantity_bought ≥ 0`
and `0 ≤ money_left ≤ money_to_spend`; summed over the orders, the money returned
plus the money spent equals the sum of `money_to_spend`. -/
theorem execute_orders_money_conserved (g : GoodInstance)
    (hp : 0 < g.new_price)
    (h : ∀ o ∈ g.buy_up_to_orders, 0 ≤ o.money_to_spend ∧
      o.money_to_spend ≤ fixed_point_t.MAX) :
    List.Forall₂
        (fun o r =>
          fixed_point_t.add (fixed_point_t.mul r.quantity_bought g.new_price) r.money_left
              = o.money_to_spend ∧
            fixed_point_t.mul r.quantity_bought g.new_price + r.money_left
              = o.money_to_spend ∧
            0 ≤ r.quantity_bought ∧ 0 ≤ r.money_left ∧ r.money_left ≤ o.money_to_spend)
        g.buy_up_to_orders (g.execute_orders).buy_results ∧
      ((g.execute_orders).buy_results.map (fun r => r.money_left)).sum +
          ((g.execute_orders).buy_results.map
            (fun r => fixed_point_t.mul r.quantity_bought g.new_price)).sum =
        (g.buy_up_to_orders.map (fun o => o.money_to_spend)).sum := by
  have hres : (g.execute_orders).buy_results =
      g.buy_up_to_orders.map (GoodInstance.buy_result g.new_price) := rfl
  have key : ∀ o ∈ g.buy_up_to_orders,
      (GoodInstance.buy_result g.new_price o).money_left =
          o.money_to_spend - fixed_point_t.mul
            (GoodInstance.buy_result g.new_price o).quantity_bought g.new_price ∧
        0 ≤ fixed_point_t.mul
            (GoodInstance.buy_result g.new_price o).quantity_bought g.new_price ∧
        fixed_point_t.mul
            (GoodInstance.buy_result g.new_price o).quantity_bought g.new_price
          ≤ o.money_to_spend := by
    intro o ho
    have h1 := fixed_point_t.mul_div_le (h o ho).1 hp
    have h2 := fixed_point_t.mul_div_nonneg (h o ho).1 hp
    have h3 := (h o ho).2
    refine ⟨?_, h2, h1⟩
    show fixed_point_t.sub _ _ = _
    unfold fixed_point_t.sub
    apply fixed_point_t.saturate_of_mem
    · unfold fixed_point_t.MAX at *; unfold fixed_point_t at *; omega
    · unfold fixed_point_t.MAX at *; unfold fixed_point_t at *; omega
  rw [hres]
  constructor
  · rw [List.forall₂_map_right_iff, List.forall₂_same]
    intro o ho
    obtain ⟨k1, k2, k3⟩ := key o ho
    have h3 := (h o ho).2
    have hq : 0 ≤ (GoodInstance.buy_result g.new_price o).quantity_bought :=
      fixed_point_t.div_nonneg (h o ho).1 hp
    have hsum : fixed_point_t.mul (GoodInstance.buy_result g.new_price o).quantity_bought
        g.new_price + (GoodInstance.buy_result g.new_price o).money_left
          = o.money_to_spend := by
      rw [k1]; ring
    refine ⟨?_, hsum, hq, ?_, ?_⟩
    · unfold fixed_point_t.add
      rw [hsum]
      apply fixed_point_t.saturate_of_mem
      · have := (h o ho).1
        unfold fixed_point_t.MAX; unfold fixed_point_t at *; omega
      · exact h3
    · rw [k1]; unfold fixed_point_t at *; omega
    · rw [k1]; unfold fixed_point_t at *; omega
  · rw [List.map_map, List.map_map, ← List.sum_map_add]
    apply congrArg
    apply List.map_congr_left
    intro o ho
    obtain ⟨k1, _, _⟩ := key o ho
    simp only [Function.comp]
    rw [k1]; ring

theorem execute_orders_money_conserved_witness :
    0 < scenario_demand_above.new_price ∧
    ((scenario_demand_above.execute_orders).buy_results.map (fun r => r.money_left)).sum +
        ((scenario_demand_above.execute_orders).buy_results.map
          (fun r => fixed_point_t.mul r.quantity_bought scenario_demand_above.new_price)).sum =
      (scenario_demand_above.buy_up_to_orders.map (fun o => o.money_to_spend)).sum :=
  ⟨by decide, (execute_orders_money_conserved scenario_demand_above (by decide)
    (by decide)).2⟩

/-- C5: for a good instance built from a definition with a non-negative
(representable) base price, after any sequence of order submissions and
`execute_orders` calls, a further `execute_orders` leaves the price within the
closed interval `[min_next_price, max_next_price]` of the bounds held before it. -/
theorem price_within_previous_limits (d : GoodDefinition) (calls : List GoodInstance.Call)
    (h0 : 0 ≤ d.base_price) (hmax : d.base_price ≤ fixed_point_t.MAX) :
    (GoodInstance.run (GoodInstance.new d) calls).min_next_price ≤
        ((GoodInstance.run (GoodInstance.new d) calls).execute_orders).good.price ∧
      ((GoodInstance.run (GoodInstance.new d) calls).execute_orders).good.price ≤
        (GoodInstance.run (GoodInstance.new d) calls).max_next_price := by
  obtain ⟨⟨hmaxp, hminp⟩, hprice, hdef⟩ := GoodInstance.run_invariant d calls
  rw [GoodInstance.execute_orders_price, hminp, hmaxp, hprice, hdef]
  have hc : fixed_point_t.div fixed_point_t._1 fixed_point_t._100 = 655 := by decide
  rw [hc]
  unfold fixed_point_t.mul_int fixed_point_t.add fixed_point_t.sub fixed_point_t.div
    fixed_point_t.saturate fixed_point_t._100
  unfold fixed_point_t.MAX at *
  unfold fixed_point_t at *
  have hb : d.base_price = d.base_price := rfl
  generalize d.base_price = b at *
  rw [if_neg (by decide)]
  have ht : Int.tdiv (max (-9223372036854775807) (min 9223372036854775807 (b * 22)) * 65536)
      6553600 ≤ b := by
    rw [Int.tdiv_eq_ediv (by omega) (by decide)]
    omega
  omega

theorem price_within_previous_limits_witness :
    (GoodInstance.run scenario_good
        [GoodInstance.Call.add_buy_up_to_order { max_quantity := 655360, money_to_spend := 655360 },
          GoodInstance.Call.execute_orders]).min_next_price ≤
      ((GoodInstance.run scenario_good
        [GoodInstance.Call.add_buy_up_to_order { max_quantity := 655360, money_to_spend := 655360 },
          GoodInstance.Call.execute_orders]).execute_orders).good.price ∧
    ((GoodInstance.run scenario_good
        [GoodInstance.Call.add_buy_up_to_order { max_quantity := 655360, money_to_spend := 655360 },
          GoodInstance.Call.execute_orders]).execute_orders).good.price ≤
      (GoodInstance.run scenario_good
        [GoodInstance.Call.add_buy_up_to_order { max_quantity := 655360, money_to_spend := 655360 },
          GoodInstance.Call.execute_orders]).max_next_price :=
  price_within_previous_limits
    { identifier := "g", base_price := 65536, is_available_from_start := true }
    [GoodInstance.Call.add_buy_up_to_order { max_quantity := 655360, money_to_spend := 655360 },
      GoodInstance.Call.execute_orders] (by decide) (by decide)

/-- C6: at construction, and after every `execute_orders` of any sequence of calls
on a constructed good instance, `max_next_price = min(base_price × 5, price + 0.01)`
and `min_next_price = max(base_price × 22 / 100, price − 0.01)` in fixed-point
arithmetic, for the stored price and the definition's base price. -/
theorem limits_match_stored_price (d : GoodDefinition) :
    ((GoodInstance.new d).max_next_price =
        min (fixed_point_t.mul_int d.base_price 5)
          (fixed_point_t.add (GoodInstance.new d).price
            (fixed_point_t.div fixed_point_t._1 fixed_point_t._100)) ∧
      (GoodInstance.new d).min_next_price =
        max (fixed_point_t.div (fixed_point_t.mul_int d.base_price 22) fixed_point_t._100)
          (fixed_point_t.sub (GoodInstance.new d).price
            (fixed_point_t.div fixed_point_t._1 fixed_point_t._100))) ∧
    ∀ calls : List GoodInstance.Call,
      ((GoodInstance.run (GoodInstance.new d) calls).execute_orders).good.max_next_price =
          min (fixed_point_t.mul_int d.base_price 5)
            (fixed_point_t.add
              ((GoodInstance.run (GoodInstance.new d) calls).execute_orders).good.price
              (fixed_point_t.div fixed_point_t._1 fixed_point_t._100)) ∧
        ((GoodInstance.run (GoodInstance.new d) calls).execute_orders).good.min_next_price =
          max (fixed_point_t.div (fixed_point_t.mul_int d.base_price 22) fixed_point_t._100)
            (fixed_point_t.sub
              ((GoodInstance.run (GoodInstance.new d) calls).execute_orders).good.price
              (fixed_point_t.div fixed_point_t._1 fixed_point_t._100)) := by
  refine ⟨⟨rfl, rfl⟩, fun calls => ?_⟩
  obtain ⟨hlim, _, hdef⟩ := GoodInstance.run_invariant d calls
  have h := GoodInstance.limits_current_execute_orders _ hlim
  unfold GoodInstance.limits_current at h
  rw [GoodInstance.execute_orders_good_definition, hdef] at h
  exact h

/-! ## The artisanal tick -/

/-- C7, evaluated on the code: a pop with cash 1 (raw 65536) whose stockpile holds
15 of an input good of which it desires 10, at a `max_next_price` of raw 66191,
places one buy-up-to order with `money_to_spend` raw 396483 (about 6.05), more
than its cash: the order is sized for the whole optimal quantity, the 5 units left
in the stockpile are not deducted. -/
theorem artisan_tick_orders_exceed_cash :
    (scenario_artisan 65536 983040).pop.cash = 65536 ∧
      (scenario_artisan 65536 983040).artisan_tick.map (fun t => t.buy_up_to_orders) =
        some [{ good := scenario_input_good, max_quantity := 392560,
                money_to_spend := 396483 }] ∧
      (scenario_artisan 65536 983040).artisan_tick.map
          (fun t => decide ((t.buy_up_to_orders.map (fun o => o.money_to_spend)).sum ≤
            (scenario_artisan 65536 983040).pop.cash)) = some false := by
  decide

/-- C8, as stated, fails: an artisan whose stockpile holds none of its input good
produces 0 and submits no market sell order at all. -/
theorem artisan_tick_without_inputs_sells_nothing :
    (scenario_artisan 0 0).artisan_tick.map
        (fun t => (t.producer.current_production, t.market_sell_orders)) =
      some (0, []) := by
  decide

/-- C8, amended: when every input good has a good instance, `artisan_tick` returns
and sets `current_production` to
`base_output_quantity × inputs_bought_scalar × pop_size / base_workforce_size`,
where `inputs_bought_scalar` is the minimum of 1 and, over all input goods, of
pre-tick `stockpile_i / desired_i` with
`desired_i = base_input_i × pop_size / base_workforce_size` (so 1 without inputs);
it submits exactly one market sell order, for the output good with that quantity,
when `current_production` is positive, and none otherwise. -/
theorem artisan_tick_production (ap : ArtisanalProducer)
    (h : ∀ e ∈ ap.production_type.input_goods,
      (ap.market_instance.good_instance_manager.get_good_instance_by_identifier
        e.1.identifier).isSome = true) :
    ∃ t inputs_bought_scalar,
      ap.artisan_tick = some t ∧
      inputs_bought_scalar ≤ fixed_point_t._1 ∧
      (∀ e ∈ ap.production_type.input_goods,
        inputs_bought_scalar ≤
          fixed_point_t.div (ap.stockpile.get e.1)
            (fixed_point_t.div_int (fixed_point_t.mul_int e.2 ap.pop.size)
              ap.production_type.base_workforce_size)) ∧
      (inputs_bought_scalar = fixed_point_t._1 ∨
        ∃ e ∈ ap.production_type.input_goods,
          inputs_bought_scalar =
            fixed_point_t.div (ap.stockpile.get e.1)
              (fixed_point_t.div_int (fixed_point_t.mul_int e.2 ap.pop.size)
                ap.production_type.base_workforce_size)) ∧
      t.producer.current_production =
        fixed_point_t.div_int
          (fixed_point_t.mul_int
            (fixed_point_t.mul ap.production_type.base_output_quantity inputs_bought_scalar)
            ap.pop.size)
          ap.production_type.base_workforce_size ∧
      t.market_sell_orders =
        if t.producer.current_production > 0 then
          [{ good := ap.production_type.output_good,
             quantity := t.producer.current_production }]
        else [] := by
  have key : ∃ stockpile inputs_bought_scalar buys,
      ap.artisan_tick =
        some (ArtisanalProducer.produce_and_sell ap stockpile inputs_bought_scalar buys) ∧
      inputs_bought_scalar ≤ fixed_point_t._1 ∧
      (∀ e ∈ ap.production_type.input_goods,
        inputs_bought_scalar ≤ ArtisanalProducer.stockpile_ratio ap e) ∧
      (inputs_bought_scalar = fixed_point_t._1 ∨
        ∃ e ∈ ap.production_type.input_goods,
          inputs_bought_scalar = ArtisanalProducer.stockpile_ratio ap e) := by
    unfold ArtisanalProducer.artisan_tick
    split
    · rename_i hempty
      refine ⟨_, _, _, rfl, le_refl _, ?_, Or.inl rfl⟩
      intro e he
      rw [List.isEmpty_iff.mp hempty] at he
      simp at he
    · obtain ⟨s, hs, hle, hall, hex⟩ := ArtisanalProducer.read_inputs_some ap
        ap.production_type.input_goods
        { demand := [], inputs_bought_scalar := fixed_point_t._1,
          goods_to_buy_and_max_price := [] } h
      rw [hs]
      obtain ⟨stockpile, buys, hb⟩ := ArtisanalProducer.buy_inputs_and_produce_some ap s
        (if s.inputs_bought_scalar > fixed_point_t._0 then
          ArtisanalProducer.consume_inputs s.demand s.inputs_bought_scalar
            ap.production_type.input_goods (ap.stockpile, s.goods_to_buy_and_max_price)
        else (ap.stockpile, s.goods_to_buy_and_max_price))
      exact ⟨_, _, _, hb, hle, hall, hex⟩
  obtain ⟨stockpile, scalar, buys, ht, hle, hall, hex⟩ := key
  exact ⟨_, scalar, ht, hle, hall, hex, rfl, rfl⟩

theorem artisan_tick_production_witness :
    ∃ t inputs_bought_scalar,
      (scenario_artisan 65536 983040).artisan_tick = some t ∧
      inputs_bought_scalar ≤ fixed_point_t._1 ∧
      (∀ e ∈ (scenario_artisan 65536 983040).production_type.input_goods,
        inputs_bought_scalar ≤
          fixed_point_t.div ((scenario_artisan 65536 983040).stockpile.get e.1)
            (fixed_point_t.div_int
              (fixed_point_t.mul_int e.2 (scenario_artisan 65536 983040).pop.size)
              (scenario_artisan 65536 983040).production_type.base_workforce_size)) ∧
      (inputs_bought_scalar = fixed_point_t._1 ∨
        ∃ e ∈ (scenario_artisan 65536 983040).production_type.input_goods,
          inputs_bought_scalar =
            fixed_point_t.div ((scenario_artisan 65536 983040).stockpile.get e.1)
              (fixed_point_t.div_int
                (fixed_point_t.mul_int e.2 (scenario_artisan 65536 983040).pop.size)
                (scenario_artisan 65536 983040).production_type.base_workforce_size)) ∧
      t.producer.current_production =
        fixed_point_t.div_int
          (fixed_point_t.mul_int
            (fixed_point_t.mul
              (scenario_artisan 65536 983040).production_type.base_output_quantity
              inputs_bought_scalar)
            (scenario_artisan 65536 983040).pop.size)
          (scenario_artisan 65536 983040).production_type.base_workforce_size ∧
      t.market_sell_orders =
        if t.producer.current_production > 0 then
          [{ good := (scenario_artisan 65536 983040).production_type.output_good,
             quantity := t.producer.current_production }]
        else [] :=
  artisan_tick_production (scenario_artisan 65536 983040) (by decide)

/-! ## The RGO payroll -/

/-- C9: `pay_employees` on an operation whose production type has an owner job,
with positive revenue, positive province worker count and positive state owner
count, returns and hands each owner pop
`revenue × owner_share × pop.size / owner_count` with
`owner_share = min(0.5, 2 × owner_count / total_worker_count_in_province)`; when
some paid employee is recorded and every employee's pop has a type, it hands each
non-slave employee `(revenue × (1 − owner_share)) × employee_size /
total_paid_employees` and nothing to slaves. With 100 workers, 50 owners (owner
pops whose sizes add up to 50) and revenue 1000 the owner incomes add up to 500
(raw 32768000) and each non-slave employee receives
`500 × employee_size / total_paid_employees`. -/
theorem pay_employees_incomes (rgo : ResourceGatheringOperation)
    (production_type : ProductionType) (owner_job : Job) (revenue : fixed_point_t)
    (total_worker_count_in_province : Int) (owner_pops_cache : List Pop)
    (total_owner_count_in_state_cache : Int)
    (hpt : rgo.production_type_nullable = some production_type)
    (howner : production_type.owner = some owner_job)
    (hrevenue : 0 < revenue) (hworkers : 0 < total_worker_count_in_province)
    (hcount : 0 < total_owner_count_in_state_cache) :
    ∃ r, rgo.pay_employees revenue total_worker_count_in_province owner_pops_cache
          total_owner_count_in_state_cache = some r ∧
      r.owner_incomes = owner_pops_cache.map (fun p =>
        (p, fixed_point_t.div_int
          (fixed_point_t.mul_int
            (fixed_point_t.mul revenue
              (min fixed_point_t._0_50
                (fixed_point_t.div_int
                  (fixed_point_t.mul_int fixed_point_t._2 total_owner_count_in_state_cache)
                  total_worker_count_in_province)))
            p.size)
          total_owner_count_in_state_cache)) ∧
      (0 < rgo.total_paid_employees_count_cache →
        (∀ e ∈ rgo.employees, e.pop.type.isSome = true) →
        r.worker_incomes = (rgo.employees.filter ResourceGatheringOperation.is_paid).map
          (fun e =>
            (e.pop, fixed_point_t.div_int
              (fixed_point_t.mul_int
                (fixed_point_t.mul revenue
                  (fixed_point_t.sub fixed_point_t._1
                    (min fixed_point_t._0_50
                      (fixed_point_t.div_int
                        (fixed_point_t.mul_int fixed_point_t._2
                          total_owner_count_in_state_cache)
                        total_worker_count_in_province))))
                e.size)
              rgo.total_paid_employees_count_cache))) ∧
      (revenue = 65536000 → total_worker_count_in_province = 100 →
        total_owner_count_in_state_cache = 50 →
        (∀ p ∈ owner_pops_cache, 0 ≤ p.size) →
        (owner_pops_cache.map (fun p => p.size)).sum = 50 →
        (r.owner_incomes.map (fun i => i.2)).sum = 32768000 ∧
        (0 < rgo.total_paid_employees_count_cache →
          (∀ e ∈ rgo.employees, e.pop.type.isSome = true) →
          r.worker_incomes = (rgo.employees.filter ResourceGatheringOperation.is_paid).map
            (fun e =>
              (e.pop, fixed_point_t.div_int (fixed_point_t.mul_int 32768000 e.size)
                rgo.total_paid_employees_count_cache)))) := by
  have hguard : ¬ (revenue ≤ 0 ∨ total_worker_count_in_province ≤ 0) := by
    unfold fixed_point_t at *; omega
  have hcount2 : total_owner_count_in_state_cache > 0 := hcount
  unfold ResourceGatheringOperation.pay_employees
  dsimp only
  rw [hpt]
  dsimp only
  rw [if_neg hguard, if_pos hcount2, howner]
  dsimp only
  refine ⟨_, rfl, ?_, ?_, ?_⟩
  · dsimp only
    rw [ResourceGatheringOperation.pay_owners_incomes,
      ResourceGatheringOperation.owner_share_eq_min]
    rfl
  · intro hpaid htyped
    have hpaid2 : rgo.total_paid_employees_count_cache > 0 := hpaid
    dsimp only
    rw [if_pos hpaid2, ResourceGatheringOperation.pay_workers_incomes _ _ _ _ htyped,
      ResourceGatheringOperation.owner_share_eq_min]
    rfl
  · intro h1 h2 h3 hsizes hsum
    subst h1 h2 h3
    have hshare : ResourceGatheringOperation.owner_share 50 100 = 32768 := by decide
    have hleft : fixed_point_t.mul 65536000 (fixed_point_t.sub fixed_point_t._1 32768)
        = 32768000 := by decide
    dsimp only
    rw [hshare, hleft]
    constructor
    · rw [ResourceGatheringOperation.pay_owners_incomes]
      simp only [List.nil_append, List.map_map]
      have hcomp : ((fun i : Pop × fixed_point_t => i.2) ∘ fun p =>
          (p, ResourceGatheringOperation.owner_income 65536000 32768 50 p)) =
          fun p => ResourceGatheringOperation.owner_income 65536000 32768 50 p := rfl
      rw [hcomp, ResourceGatheringOperation.owner_incomes_sum_of_half_of_thousand _ hsizes
        (le_of_eq hsum), hsum]
      rfl
    · intro hpaid htyped
      have hpaid2 : rgo.total_paid_employees_count_cache > 0 := hpaid
      rw [if_pos hpaid2, ResourceGatheringOperation.pay_workers_incomes _ _ _ _ htyped]
      rfl

theorem pay_employees_incomes_witness :
    (scenario_rgo_hired true).total_paid_employees_count_cache = 100 ∧
      ((scenario_rgo_hired true).pay_employees 65536000 100 scenario_owner_pops 50).map
          (fun r => ((r.owner_incomes.map (fun i => i.2)).sum,
            (r.worker_incomes.map (fun i => i.2)).sum)) =
        some (32768000, 32768000) := by
  refine ⟨by decide, ?_⟩
  obtain ⟨r, hr, _, _, hexample⟩ :=
    pay_employees_incomes (scenario_rgo_hired true) (scenario_rgo_production_type true)
      { pop_type := some scenario_owner_type, effect_type := Job.effect_t.OUTPUT,
        effect_multiplier := 65536, amount := 65536 }
      65536000 100 scenario_owner_pops 50 (by decide) (by decide) (by decide) (by decide)
      (by decide)
  obtain ⟨howners, hworkers⟩ := hexample rfl rfl rfl (by decide) (by decide)
  rw [hr, Option.map_some', howners, hworkers (by decide) (by decide)]
  decide

/-- C10, evaluated on the code: `hire` appends to the employee list without
clearing it, so after a second `hire` on the same province (two pops of 40 and 60
farmers, capacity 100) each pop is recorded twice while
`total_paid_employees_count_cache` is 100; `pay_employees` with revenue 1000 (raw
65536000) and no owner then records `total_employee_income_cache` raw 131072000,
twice the revenue. After a single `hire` the recorded incomes sum to the revenue. -/
theorem pay_employees_after_second_hire_exceeds_revenue :
    (scenario_rgo_hired_twice false).total_paid_employees_count_cache = 100 ∧
      (scenario_rgo_hired_twice false).employees.map (fun e => e.size) = [40, 60, 40, 60] ∧
      ((scenario_rgo_hired_twice false).pay_employees 65536000 100 [] 0).map
          (fun r => (r.rgo.total_owner_income_cache, r.rgo.total_employee_income_cache)) =
        some (0, 131072000) ∧
      ((scenario_rgo_hired false).pay_employees 65536000 100 [] 0).map
          (fun r => (r.rgo.total_owner_income_cache, r.rgo.total_employee_income_cache)) =
        some (0, 65536000) := by
  decide

/-! ## Lemmas on RGO hiring and production -/

namespace ResourceGatheringOperation

/-- The employees that `hire` records for the pops of a province: one for each pop
whose type matches a job, with the floor of its share as size. -/
def hired (jobs : List Job) (proportion_to_hire : fixed_point_t) (pops : List Pop) :
    List Employee :=
  (pops.filter (fun pop => jobs.any (fun job => job.pop_type = pop.type))).map (fun pop =>
    { pop := pop
      size := fixed_point_t.floor (fixed_point_t.mul_int proportion_to_hire pop.size) })

/-- The share of each matching pop that `hire` takes on. -/
def proportion_to_hire (max_employee_count available_worker_count : Int) : fixed_point_t :=
  if max_employee_count ≥ available_worker_count then fixed_point_t._1
  else
    fixed_point_t.div (fixed_point_t.parse max_employee_count)
      (fixed_point_t.parse available_worker_count)

theorem hire_pops_appends (jobs : List Job) (proportion : fixed_point_t) (pops : List Pop)
    (rgo : ResourceGatheringOperation) (htyped : ∀ p ∈ pops, p.type.isSome = true) :
    ∃ r, hire_pops jobs proportion pops rgo = some r ∧
      r.employees = rgo.employees ++ hired jobs proportion pops ∧
      r.total_employees_count_cache = rgo.total_employees_count_cache +
        ((hired jobs proportion pops).map (fun e => e.size)).sum ∧
      r.total_paid_employees_count_cache = rgo.total_paid_employees_count_cache +
        (((hired jobs proportion pops).filter is_paid).map (fun e => e.size)).sum := by
  induction pops generalizing rgo with
  | nil => exact ⟨rgo, rfl, by simp [hired], by simp [hired], by simp [hired]⟩
  | cons p rest ih =>
    obtain ⟨t, ht⟩ := Option.isSome_iff_exists.mp (htyped p (List.mem_cons_self _ _))
    have hrest : ∀ q ∈ rest, q.type.isSome = true :=
      fun q hq => htyped q (List.mem_cons_of_mem _ hq)
    unfold hire_pops hire_pop
    rw [ht]
    dsimp only
    by_cases hm : (jobs.any fun job => decide (job.pop_type = some t)) = true
    · rw [if_pos hm]
      dsimp only
      obtain ⟨r, hr, h1, h2, h3⟩ := ih _ hrest
      refine ⟨r, hr, ?_, ?_, ?_⟩
      · rw [h1]
        have : hired jobs proportion (p :: rest) =
            ⟨p, fixed_point_t.floor (fixed_point_t.mul_int proportion p.size)⟩ ::
              hired jobs proportion rest := by
          unfold hired
          rw [List.filter_cons_of_pos (by rw [ht]; exact hm)]
          rfl
        rw [this]
        simp
      · rw [h2]
        have : hired jobs proportion (p :: rest) =
            ⟨p, fixed_point_t.floor (fixed_point_t.mul_int proportion p.size)⟩ ::
              hired jobs proportion rest := by
          unfold hired
          rw [List.filter_cons_of_pos (by rw [ht]; exact hm)]
          rfl
        rw [this]
        simp only [List.map_cons, List.sum_cons]
        ring
      · rw [h3]
        have : hired jobs proportion (p :: rest) =
            ⟨p, fixed_point_t.floor (fixed_point_t.mul_int proportion p.size)⟩ ::
              hired jobs proportion rest := by
          unfold hired
          rw [List.filter_cons_of_pos (by rw [ht]; exact hm)]
          rfl
        rw [this]
        have hp := is_paid_mk p
          (fixed_point_t.floor (fixed_point_t.mul_int proportion p.size)) t ht
        by_cases hs : t.is_slave = true
        · simp [List.filter_cons, hp, hs]
        · simp [List.filter_cons, hp, hs]
          ring
    · rw [if_neg hm]
      dsimp only
      obtain ⟨r, hr, h1, h2, h3⟩ := ih rgo hrest
      have : hired jobs proportion (p :: rest) = hired jobs proportion rest := by
        unfold hired
        rw [List.filter_cons_of_neg (by rw [ht]; exact hm)]
      rw [this]
      exact ⟨r, hr, h1, h2, h3⟩

/-- What `hire` does on an operation with a production type, a positive capacity
and a positive number of available workers: it appends one employee per matching
pop to the employees already recorded and counts the appended ones only. -/
theorem hire_appends (rgo : ResourceGatheringOperation) (production_type : ProductionType)
    (location : ProvinceInstance) (available_worker_count : Int)
    (hpt : rgo.production_type_nullable = some production_type)
    (hmax : 0 < rgo.max_employee_count_cache) (havail : 0 < available_worker_count)
    (htyped : ∀ p ∈ location.pops, p.type.isSome = true) :
    ∃ r, rgo.hire location available_worker_count = some r ∧
      r.employees = rgo.employees ++
        hired production_type.jobs
          (proportion_to_hire rgo.max_employee_count_cache available_worker_count)
          location.pops ∧
      r.total_employees_count_cache =
        ((hired production_type.jobs
          (proportion_to_hire rgo.max_employee_count_cache available_worker_count)
          location.pops).map (fun e => e.size)).sum ∧
      r.total_paid_employees_count_cache =
        (((hired production_type.jobs
          (proportion_to_hire rgo.max_employee_count_cache available_worker_count)
          location.pops).filter is_paid).map (fun e => e.size)).sum := by
  unfold hire
  dsimp only
  rw [hpt]
  dsimp only
  rw [if_neg (show ¬ rgo.max_employee_count_cache ≤ 0 by omega),
    if_neg (show ¬ available_worker_count ≤ 0 by omega)]
  obtain ⟨r, hr, h1, h2, h3⟩ := hire_pops_appends production_type.jobs
    (proportion_to_hire rgo.max_employee_count_cache available_worker_count) location.pops
    { rgo with production_type_nullable := some production_type,
               total_employees_count_cache := 0,
               total_paid_employees_count_cache := 0 } htyped
  refine ⟨r, hr, h1, ?_, ?_⟩
  · rw [h2]; simp
  · rw [h3]; simp

/-- The contributions of the jobs of one pop type, as `add_jobs` meets them. -/
def job_contributions (rgo : ResourceGatheringOperation) (jobs : List Job)
    (entry : PopType × Int) : List (Job.effect_t × fixed_point_t) :=
  (jobs.filter (fun job => job.pop_type = some entry.1)).map (fun job =>
    (job.effect_type,
      fixed_point_t.mul job.effect_multiplier (relative_to_workforce rgo entry.2 job)))

/-- The running total of the contributions of one effect type. -/
def accumulate (effect_type : Job.effect_t) (start : fixed_point_t)
    (contributions : List (Job.effect_t × fixed_point_t)) : fixed_point_t :=
  ((contributions.filter (fun c => c.1 = effect_type)).map (fun c => c.2)).foldl
    fixed_point_t.add start

theorem accumulate_append (effect_type : Job.effect_t) (start : fixed_point_t)
    (xs ys : List (Job.effect_t × fixed_point_t)) :
    accumulate effect_type start (xs ++ ys) =
      accumulate effect_type (accumulate effect_type start xs) ys := by
  unfold accumulate
  rw [List.filter_append, List.map_append, List.foldl_append]

theorem add_jobs_eq (rgo : ResourceGatheringOperation) (pop_type : PopType)
    (employees_of_type : Int) (jobs : List Job) (acc : fixed_point_t × fixed_point_t) :
    add_jobs rgo pop_type employees_of_type jobs acc =
      (accumulate Job.effect_t.THROUGHPUT acc.1
          (job_contributions rgo jobs (pop_type, employees_of_type)),
        accumulate Job.effect_t.OUTPUT acc.2
          (job_contributions rgo jobs (pop_type, employees_of_type))) := by
  induction jobs generalizing acc with
  | nil => rfl
  | cons job rest ih =>
    obtain ⟨t, o⟩ := acc
    unfold add_jobs
    by_cases hj : job.pop_type = some pop_type
    · rw [if_neg (not_not.mpr hj)]
      dsimp only
      rw [ih]
      have hc : job_contributions rgo (job :: rest) (pop_type, employees_of_type) =
          (job.effect_type, fixed_point_t.mul job.effect_multiplier
              (relative_to_workforce rgo employees_of_type job)) ::
            job_contributions rgo rest (pop_type, employees_of_type) := by
        unfold job_contributions
        rw [List.filter_cons_of_pos (by simpa using hj)]
        rfl
      rw [hc]
      cases he : job.effect_type <;> simp [accumulate, List.filter_cons]
    · rw [if_pos hj]
      rw [ih]
      have hc : job_contributions rgo (job :: rest) (pop_type, employees_of_type) =
          job_contributions rgo rest (pop_type, employees_of_type) := by
        unfold job_contributions
        rw [List.filter_cons_of_neg (by simpa using hj)]
      rw [hc]

theorem add_workers_eq (rgo : ResourceGatheringOperation) (jobs : List Job)
    (keys : List (PopType × Int)) (acc : fixed_point_t × fixed_point_t) :
    add_workers rgo jobs keys acc =
      (accumulate Job.effect_t.THROUGHPUT acc.1 (keys.flatMap (job_contributions rgo jobs)),
        accumulate Job.effect_t.OUTPUT acc.2 (keys.flatMap (job_contributions rgo jobs))) := by
  induction keys generalizing acc with
  | nil => rfl
  | cons key rest ih =>
    obtain ⟨pop_type, employees_of_type⟩ := key
    unfold add_workers
    rw [ih, add_jobs_eq, List.flatMap_cons, accumulate_append, accumulate_append]

theorem relative_to_workforce_eq_spec (rgo : ResourceGatheringOperation)
    (employees_of_type : Int) (job : Job) :
    relative_to_workforce rgo employees_of_type job =
      spec_relative employees_of_type rgo.max_employee_count_cache job := by
  unfold relative_to_workforce spec_relative
  dsimp only
  by_cases hone : job.effect_multiplier = fixed_point_t._1
  · rw [if_pos hone, if_neg (fun h => h.1 hone)]
  · rw [if_neg hone]
    by_cases hcap : fixed_point_t.div (fixed_point_t.parse employees_of_type)
        (fixed_point_t.parse rgo.max_employee_count_cache) > job.amount
    · rw [if_pos ⟨hone, hcap⟩, min_eq_right (le_of_lt hcap)]
    · rw [if_neg (fun h => hcap h.2), min_eq_left (not_lt.mp hcap)]

/-- The share of 50 employees in a capacity of 100 is 0.5 (raw 32768): a job with the
effect multiplier 2 and the amount 0.25 caps it at 0.25, a job with the effect
multiplier 1 and the same amount does not. -/
theorem spec_relative_cap_scenario :
    spec_relative 50 100 ⟨none, Job.effect_t.THROUGHPUT, 131072, 16384⟩ = 16384 ∧
      spec_relative 50 100 ⟨none, Job.effect_t.THROUGHPUT, 65536, 16384⟩ = 32768 ∧
      spec_relative 50 100 ⟨none, Job.effect_t.THROUGHPUT, 131072, 65536⟩ = 32768 := by
  decide

theorem job_contributions_flatMap_eq_spec (rgo : ResourceGatheringOperation)
    (jobs : List Job) :
    rgo.employee_count_per_type_cache.flatMap (job_contributions rgo jobs) =
      spec_worker_contributions rgo jobs := by
  unfold spec_worker_contributions
  congr 1
  funext entry
  unfold job_contributions
  apply List.map_congr_left
  intro job _
  rw [relative_to_workforce_eq_spec]

theorem count_pops_eq (owner_pop_type : PopType) (pops : List Pop) (s : StateCount) :
    count_pops owner_pop_type pops s =
      { state_population := s.state_population + (pops.map (fun pop => pop.size)).sum
        owner_pops_cache := s.owner_pops_cache ++
          pops.filter (fun pop => pop.type = some owner_pop_type)
        total_owner_count_in_state_cache := s.total_owner_count_in_state_cache +
          ((pops.filter (fun pop => pop.type = some owner_pop_type)).map
            (fun pop => pop.size)).sum } := by
  induction pops generalizing s with
  | nil => simp [count_pops]
  | cons pop rest ih =>
    unfold count_pops
    rw [ih]
    by_cases h : pop.type = some owner_pop_type
    · rw [if_pos h.symm, List.filter_cons_of_pos (by simpa using h)]
      simp only [List.map_cons, List.sum_cons, List.append_assoc, List.singleton_append]
      congr 1 <;> ring
    · rw [if_neg (fun h2 => h h2.symm), List.filter_cons_of_neg (by simpa using h)]
      simp only [List.map_cons, List.sum_cons]
      congr 1; ring

theorem count_state_eq (owner_pop_type : PopType) (provinces : List (Option (List Pop)))
    (s : StateCount) (h : ∀ province ∈ provinces, province.isSome = true) :
    count_state owner_pop_type provinces s =
      (true, count_pops owner_pop_type (provinces.flatMap (fun province => province.getD [])) s)
    := by
  induction provinces generalizing s with
  | nil => rfl
  | cons province rest ih =>
    obtain ⟨pops, hp⟩ := Option.isSome_iff_exists.mp (h province (List.mem_cons_self _ _))
    subst hp
    unfold count_state
    rw [ih _ (fun q hq => h q (List.mem_cons_of_mem _ hq)), List.flatMap_cons]
    simp only [Option.getD_some]
    rw [count_pops_eq, count_pops_eq, count_pops_eq]
    simp only [List.map_append, List.sum_append, List.filter_append, List.append_assoc]
    congr 2 <;> ring

end ResourceGatheringOperation

/-! ## The RGO workforce and production -/

/-- C11, evaluated on the code: `hire` appends to the employees already recorded.
On an operation that has hired once on the scenario province (two matching pops,
40 and 60 farmers, capacity 100, 100 available workers) a second `hire` leaves
four employees, two per matching pop, of sizes 40, 60, 40, 60, while
`total_employees_count_cache` and `total_paid_employees_count_cache` are 100, the
sum over the last two only. -/
theorem hire_twice_records_each_pop_twice :
    (scenario_rgo_hired false).production_type_nullable.isSome = true ∧
      (scenario_rgo_hired false).max_employee_count_cache = 100 ∧
      (scenario_province.pops.filter (fun pop =>
        (scenario_rgo_production_type false).jobs.any
          (fun job => job.pop_type = pop.type))).length = 2 ∧
      ((scenario_rgo_hired false).hire scenario_province 100).map
          (fun r => (r.employees.map (fun e => e.size), r.total_employees_count_cache,
            r.total_paid_employees_count_cache)) =
        some ([40, 60, 40, 60], 100, 100) := by
  decide

/-- C12: `produce` returns 0 when `size_modifier` is 0, when the production type
is null and when `max_employee_count_cache ≤ 0`. Otherwise, without owner job, or
with an owner job whose pop type, the province's state and the state's provinces
are not null, it returns `base_output_quantity × size_modifier × size_multiplier ×
throughput_multiplier × throughput_from_workers × output_multiplier ×
output_from_workers`, where the two multipliers are the province's modifiers added
to 1 plus, for the multiplier named by the owner job's effect type,
`effect_multiplier × owner_count / state_population`, and the two worker
accumulators are 0 (throughput) and 1 (output) plus, for every job of every pop
type, `effect_multiplier × relative` with `relative = employees_of_type /
max_employee_count` capped by the job's amount when its effect multiplier is not
1. -/
theorem produce_returns_product (rgo : ResourceGatheringOperation)
    (location : ProvinceInstance) (owner_pops_cache : List Pop)
    (total_owner_count_in_state_cache : Int) (size_modifier : fixed_point_t) :
    (size_modifier = 0 →
      (rgo.produce location owner_pops_cache total_owner_count_in_state_cache
        size_modifier).output = 0) ∧
    (rgo.production_type_nullable = none →
      (rgo.produce location owner_pops_cache total_owner_count_in_state_cache
        size_modifier).output = 0) ∧
    (rgo.max_employee_count_cache ≤ 0 →
      (rgo.produce location owner_pops_cache total_owner_count_in_state_cache
        size_modifier).output = 0) ∧
    (∀ production_type pops, size_modifier ≠ 0 →
      rgo.production_type_nullable = some production_type →
      0 < rgo.max_employee_count_cache →
      (production_type.owner = none ∧ pops = [] ∨
        ∃ owner_job owner_pop_type state,
          production_type.owner = some owner_job ∧
          owner_job.pop_type = some owner_pop_type ∧
          location.state = some state ∧
          (∀ province ∈ state.provinces, province.isSome = true) ∧
          pops = ResourceGatheringOperation.state_pops state) →
      (rgo.produce location owner_pops_cache total_owner_count_in_state_cache
          size_modifier).output =
        fixed_point_t.mul
          (fixed_point_t.mul
            (fixed_point_t.mul
              (fixed_point_t.mul
                (fixed_point_t.mul
                  (fixed_point_t.mul production_type.base_output_quantity size_modifier)
                  rgo.size_multiplier)
                (ResourceGatheringOperation.add_modifiers location production_type
                  (ResourceGatheringOperation.spec_owner_multipliers
                    production_type.owner pops)).1)
              (ResourceGatheringOperation.spec_from_workers rgo production_type.jobs
                Job.effect_t.THROUGHPUT fixed_point_t._0))
            (ResourceGatheringOperation.add_modifiers location production_type
              (ResourceGatheringOperation.spec_owner_multipliers
                production_type.owner pops)).2)
          (ResourceGatheringOperation.spec_from_workers rgo production_type.jobs
            Job.effect_t.OUTPUT fixed_point_t._1)) := by
  have hout : ∀ production_type multipliers,
      ResourceGatheringOperation.produce_output rgo location production_type size_modifier
          multipliers =
        fixed_point_t.mul
          (fixed_point_t.mul
            (fixed_point_t.mul
              (fixed_point_t.mul
                (fixed_point_t.mul
                  (fixed_point_t.mul production_type.base_output_quantity size_modifier)
                  rgo.size_multiplier)
                (ResourceGatheringOperation.add_modifiers location production_type
                  multipliers).1)
              (ResourceGatheringOperation.spec_from_workers rgo production_type.jobs
                Job.effect_t.THROUGHPUT fixed_point_t._0))
            (ResourceGatheringOperation.add_modifiers location production_type multipliers).2)
          (ResourceGatheringOperation.spec_from_workers rgo production_type.jobs
            Job.effect_t.OUTPUT fixed_point_t._1) := by
    intro production_type multipliers
    unfold ResourceGatheringOperation.produce_output
    dsimp only
    rw [ResourceGatheringOperation.add_workers_eq,
      ResourceGatheringOperation.job_contributions_flatMap_eq_spec]
    rfl
  refine ⟨?_, ?_, ?_, ?_⟩
  · intro h
    unfold ResourceGatheringOperation.produce
    rw [if_pos (show size_modifier = fixed_point_t._0 from h)]
    rfl
  · intro h
    unfold ResourceGatheringOperation.produce
    rw [h]
    split <;> rfl
  · intro h
    unfold ResourceGatheringOperation.produce
    split
    · rfl
    · split
      · rfl
      · rfl
  · intro production_type pops hsize hpt hmax howner
    unfold ResourceGatheringOperation.produce
    rw [if_neg (show ¬ size_modifier = fixed_point_t._0 from hsize), hpt]
    dsimp only
    rw [if_neg (show ¬ rgo.max_employee_count_cache ≤ 0 by omega)]
    rcases howner with ⟨hnone, hpops⟩ | ⟨owner_job, owner_pop_type, state, hjob, htype, hstate,
      hprov, hpops⟩
    · rw [hnone]
      dsimp only
      rw [hout]
      rfl
    · rw [hjob]
      dsimp only
      rw [htype]
      dsimp only
      rw [hstate]
      dsimp only
      rw [ResourceGatheringOperation.count_state_eq _ _ _ hprov]
      dsimp only
      rw [if_pos rfl]
      dsimp only
      rw [hout, ResourceGatheringOperation.count_pops_eq, hpops]
      have hm : ResourceGatheringOperation.add_owner owner_job
          { state_population := 0 +
              ((state.provinces.flatMap (fun province => province.getD [])).map
                (fun pop => pop.size)).sum
            owner_pops_cache := [] ++
              (state.provinces.flatMap (fun province => province.getD [])).filter
                (fun pop => pop.type = some owner_pop_type)
            total_owner_count_in_state_cache := 0 +
              (((state.provinces.flatMap (fun province => province.getD [])).filter
                (fun pop => pop.type = some owner_pop_type)).map (fun pop => pop.size)).sum } =
          ResourceGatheringOperation.spec_owner_multipliers (some owner_job)
            (ResourceGatheringOperation.state_pops state) := by
        unfold ResourceGatheringOperation.add_owner
          ResourceGatheringOperation.spec_owner_multipliers
          ResourceGatheringOperation.state_pops
        simp only [zero_add, htype]
      rw [hm]

theorem produce_returns_product_witness :
    ((scenario_rgo_hired true).produce scenario_province_in_state [] 0 65536).output = 87381 :=
  ((produce_returns_product (scenario_rgo_hired true) scenario_province_in_state [] 0
      65536).2.2.2
    (scenario_rgo_production_type true) (ResourceGatheringOperation.state_pops scenario_state)
    (by decide) (by decide) (by decide)
    (Or.inr ⟨_, scenario_owner_type, scenario_state, rfl, rfl, rfl, by decide, rfl⟩)).trans
    (by decide)

/-! ## Lemmas on adjacency lists -/

namespace Map

/-- The first adjacency of a list that leads to the given province. -/
def find_adjacency (adjacencies : List adjacency_t) (index_to : Nat) : Option adjacency_t :=
  adjacencies.find? (fun adj => adj.get_to = index_to)

/-- What symmetry compares of an adjacency: its type and its through province. -/
def adjacency_key (adj : adjacency_t) : adjacency_t.type_t × Option Nat :=
  (adj.type, adj.through)

/-- No two adjacencies of the list lead to the same province. -/
def targets_nodup (adjacencies : List adjacency_t) : Prop :=
  (adjacencies.map (fun adj => adj.get_to)).Nodup

theorem find_adjacency_cons (adj : adjacency_t) (rest : List adjacency_t) (index_to : Nat) :
    find_adjacency (adj :: rest) index_to =
      if adj.get_to = index_to then some adj else find_adjacency rest index_to := by
  unfold find_adjacency
  rw [List.find?_cons]
  by_cases h : adj.get_to = index_to
  · simp [h]
  · simp [h]

theorem find_adjacency_get_to {adjacencies : List adjacency_t} {index_to : Nat}
    {adj : adjacency_t} (h : find_adjacency adjacencies index_to = some adj) :
    adj.get_to = index_to := by
  have := List.find?_some h
  simpa using this

theorem find_adjacency_eq_none {adjacencies : List adjacency_t} {index_to : Nat} :
    find_adjacency adjacencies index_to = none ↔
      index_to ∉ adjacencies.map (fun adj => adj.get_to) := by
  unfold find_adjacency
  rw [List.find?_eq_none]
  simp

theorem is_adjacent_to_eq (province : Province) (index_to : Nat) :
    province.is_adjacent_to index_to = (find_adjacency province.adjacencies index_to).isSome := by
  unfold Province.is_adjacent_to find_adjacency
  rw [Bool.eq_iff_iff, List.any_eq_true, List.find?_isSome]

theorem find_adjacency_of_mem {adjacencies : List adjacency_t} {adj : adjacency_t}
    (hn : targets_nodup adjacencies) (hmem : adj ∈ adjacencies) :
    find_adjacency adjacencies adj.get_to = some adj := by
  induction adjacencies with
  | nil => simp at hmem
  | cons a rest ih =>
    rw [find_adjacency_cons]
    unfold targets_nodup at hn
    rw [List.map_cons, List.nodup_cons] at hn
    rcases List.mem_cons.mp hmem with rfl | hrest
    · rw [if_pos rfl]
    · have hne : a.get_to ≠ adj.get_to := by
        intro h
        apply hn.1
        rw [h]
        exact List.mem_map_of_mem _ hrest
      rw [if_neg hne]
      exact ih hn.2 hrest

theorem map_get_to_replace_existing (index_to : Nat) (adjacency : adjacency_t)
    (adjacencies : List adjacency_t) (h : adjacency.get_to = index_to) :
    (replace_existing index_to adjacency adjacencies).map (fun adj => adj.get_to) =
      adjacencies.map (fun adj => adj.get_to) := by
  induction adjacencies with
  | nil => rfl
  | cons a rest ih =>
    unfold replace_existing
    by_cases ha : a.get_to = index_to
    · rw [if_pos ha]
      simp [h, ha]
    · rw [if_neg ha]
      simp [ih]

theorem find_replace_existing_self (index_to : Nat) (adjacency : adjacency_t)
    (adjacencies : List adjacency_t) (h : adjacency.get_to = index_to) :
    find_adjacency (replace_existing index_to adjacency adjacencies) index_to =
      if (find_adjacency adjacencies index_to).isSome then some adjacency else none := by
  induction adjacencies with
  | nil => rfl
  | cons a rest ih =>
    unfold replace_existing
    by_cases ha : a.get_to = index_to
    · rw [if_pos ha, find_adjacency_cons, if_pos h, find_adjacency_cons, if_pos ha]
      rfl
    · rw [if_neg ha, find_adjacency_cons, if_neg ha, find_adjacency_cons, if_neg ha, ih]

theorem find_replace_existing_other (index_to other : Nat) (adjacency : adjacency_t)
    (adjacencies : List adjacency_t) (h : adjacency.get_to = index_to) (hne : other ≠ index_to) :
    find_adjacency (replace_existing index_to adjacency adjacencies) other =
      find_adjacency adjacencies other := by
  induction adjacencies with
  | nil => rfl
  | cons a rest ih =>
    unfold replace_existing
    by_cases ha : a.get_to = index_to
    · rw [if_pos ha, find_adjacency_cons, find_adjacency_cons,
        if_neg (show ¬ adjacency.get_to = other by rw [h]; exact fun e => hne e.symm),
        if_neg (show ¬ a.get_to = other by rw [ha]; exact fun e => hne e.symm)]
    · rw [if_neg ha, find_adjacency_cons, find_adjacency_cons, ih]

theorem erase_existing_sublist (index_to : Nat) (adjacencies : List adjacency_t) :
    (erase_existing index_to adjacencies).Sublist adjacencies := by
  induction adjacencies with
  | nil => exact List.Sublist.refl _
  | cons a rest ih =>
    unfold erase_existing
    split
    · exact List.sublist_cons_self _ _
    · exact List.Sublist.cons₂ _ ih

theorem targets_nodup_erase_existing (index_to : Nat) (adjacencies : List adjacency_t)
    (hn : targets_nodup adjacencies) : targets_nodup (erase_existing index_to adjacencies) :=
  List.Nodup.sublist (List.Sublist.map _ (erase_existing_sublist index_to adjacencies)) hn

theorem find_erase_existing_self (index_to : Nat) (adjacencies : List adjacency_t)
    (hn : targets_nodup adjacencies) :
    find_adjacency (erase_existing index_to adjacencies) index_to = none := by
  induction adjacencies with
  | nil => rfl
  | cons a rest ih =>
    unfold targets_nodup at hn
    rw [List.map_cons, List.nodup_cons] at hn
    unfold erase_existing
    by_cases ha : a.get_to = index_to
    · rw [if_pos ha, find_adjacency_eq_none, ← ha]
      exact hn.1
    · rw [if_neg ha, find_adjacency_cons, if_neg ha]
      exact ih hn.2

theorem find_erase_existing_other (index_to other : Nat) (adjacencies : List adjacency_t)
    (hne : other ≠ index_to) :
    find_adjacency (erase_existing index_to adjacencies) other =
      find_adjacency adjacencies other := by
  induction adjacencies with
  | nil => rfl
  | cons a rest ih =>
    unfold erase_existing
    by_cases ha : a.get_to = index_to
    · rw [if_pos ha, find_adjacency_cons,
        if_neg (show ¬ a.get_to = other by rw [ha]; exact fun e => hne e.symm)]
    · rw [if_neg ha, find_adjacency_cons, find_adjacency_cons, ih]

theorem find_adjacency_append (adjacencies : List adjacency_t) (adjacency : adjacency_t)
    (other : Nat) :
    find_adjacency (adjacencies ++ [adjacency]) other =
      (find_adjacency adjacencies other).or
        (if adjacency.get_to = other then some adjacency else none) := by
  unfold find_adjacency
  rw [List.find?_append]
  congr 1
  rw [List.find?_cons]
  by_cases h : adjacency.get_to = other
  · simp [h]
  · simp [h]

theorem targets_nodup_append (adjacencies : List adjacency_t) (adjacency : adjacency_t)
    (hn : targets_nodup adjacencies)
    (hnone : find_adjacency adjacencies adjacency.get_to = none) :
    targets_nodup (adjacencies ++ [adjacency]) := by
  unfold targets_nodup at *
  rw [List.map_append, List.nodup_append]
  refine ⟨hn, by simp, ?_⟩
  intro x hx hx2
  simp only [List.map_cons, List.map_nil, List.mem_singleton] at hx2
  subst hx2
  exact (find_adjacency_eq_none.mp hnone) hx

end Map

/-! ## Lemmas on the adjacencies of a map -/

namespace Map

theorem get_set_province (map : Map) (index other : Nat) (province : Province) :
    (map.set_province index province).get_province_by_index other =
      if other = index ∧ (map.get_province_by_index index).isSome = true then some province
      else map.get_province_by_index other := by
  unfold set_province get_province_by_index
  by_cases h0 : index = 0
  · subst h0
    simp
  · by_cases ho : other = 0
    · subst ho
      simp [Ne.symm h0]
    · simp only [h0, ho, if_false]
      rw [List.getElem?_set]
      by_cases he : other = index
      · subst he
        by_cases hl : other - 1 < map.provinces.length
        · simp [hl]
        · rw [List.getElem?_eq_none (Nat.le_of_not_lt hl)]
          simp [hl]
      · have hne : ¬ index - 1 = other - 1 := by omega
        rw [if_neg hne, if_neg (fun h => he h.1)]

theorem set_province_self (map : Map) (index : Nat) (province : Province)
    (h : map.get_province_by_index index = some province) :
    map.set_province index province = map := by
  unfold set_province
  unfold get_province_by_index at h
  by_cases h0 : index = 0
  · rw [if_pos h0]
  · rw [if_neg h0] at h ⊢
    have hl : map.provinces.set (index - 1) province = map.provinces := by
      apply List.ext_getElem?
      intro k
      rw [List.getElem?_set]
      by_cases hk : index - 1 = k
      · subst hk
        rw [if_pos rfl, h]
        have : index - 1 < map.provinces.length := by
          by_contra hc
          rw [List.getElem?_eq_none (by omega)] at h
          simp at h
        rw [if_pos this]
      · rw [if_neg hk]
    rw [hl]

/-- The adjacency that province `a` holds to province `b`, if any. -/
def adjacency (map : Map) (a b : Nat) : Option adjacency_t :=
  (map.get_province_by_index a).bind (fun province => find_adjacency province.adjacencies b)

/-- No province holds two adjacencies to the same province, and the adjacencies
that two provinces hold to each other agree in type and through province. -/
def symmetric_adjacencies (map : Map) : Prop :=
  (∀ a province, map.get_province_by_index a = some province →
      targets_nodup province.adjacencies) ∧
    ∀ a b, (map.adjacency a b).map adjacency_key = (map.adjacency b a).map adjacency_key

theorem get_update_two (map : Map) (i j k : Nat) (pi pj pi1 pj1 : Province) (hij : i ≠ j)
    (hi : map.get_province_by_index i = some pi) (hj : map.get_province_by_index j = some pj) :
    ((map.set_province i pi1).set_province j pj1).get_province_by_index k =
      if k = j then some pj1 else if k = i then some pi1 else map.get_province_by_index k := by
  rw [get_set_province, get_set_province, get_set_province, hi, hj]
  by_cases hkj : k = j
  · subst hkj
    simp [Ne.symm hij]
  · by_cases hki : k = i
    · subst hki
      simp [hkj]
    · simp [hkj, hki]

theorem adjacency_update_two (map : Map) (i j : Nat) (pi pj pi1 pj1 : Province) (hij : i ≠ j)
    (hi : map.get_province_by_index i = some pi) (hj : map.get_province_by_index j = some pj)
    (hoi : ∀ t, t ≠ j → find_adjacency pi1.adjacencies t = find_adjacency pi.adjacencies t)
    (hoj : ∀ t, t ≠ i → find_adjacency pj1.adjacencies t = find_adjacency pj.adjacencies t)
    (a b : Nat) :
    ((map.set_province i pi1).set_province j pj1).adjacency a b =
      if a = i ∧ b = j then find_adjacency pi1.adjacencies j
      else if a = j ∧ b = i then find_adjacency pj1.adjacencies i
      else map.adjacency a b := by
  unfold adjacency
  rw [get_update_two map i j a pi pj pi1 pj1 hij hi hj]
  by_cases haj : a = j
  · rw [if_pos haj, if_neg (show ¬ (a = i ∧ b = j) from fun h => hij (h.1.symm.trans haj))]
    by_cases hbi : b = i
    · rw [if_pos (show a = j ∧ b = i from ⟨haj, hbi⟩), hbi]
      rfl
    · rw [if_neg (show ¬ (a = j ∧ b = i) from fun h => hbi h.2), haj, hj]
      exact hoj b hbi
  · rw [if_neg haj, if_neg (show ¬ (a = j ∧ b = i) from fun h => haj h.1)]
    by_cases hai : a = i
    · rw [if_pos hai]
      by_cases hbj : b = j
      · rw [if_pos (show a = i ∧ b = j from ⟨hai, hbj⟩), hbj]
        rfl
      · rw [if_neg (show ¬ (a = i ∧ b = j) from fun h => hbj h.2), hai, hi]
        exact hoi b hbj
    · rw [if_neg hai, if_neg (show ¬ (a = i ∧ b = j) from fun h => hai h.1)]

theorem symmetric_update (map : Map) (i j : Nat) (pi pj pi1 pj1 : Province) (hij : i ≠ j)
    (hi : map.get_province_by_index i = some pi) (hj : map.get_province_by_index j = some pj)
    (hni : targets_nodup pi1.adjacencies) (hnj : targets_nodup pj1.adjacencies)
    (hoi : ∀ t, t ≠ j → find_adjacency pi1.adjacencies t = find_adjacency pi.adjacencies t)
    (hoj : ∀ t, t ≠ i → find_adjacency pj1.adjacencies t = find_adjacency pj.adjacencies t)
    (hkey : (find_adjacency pi1.adjacencies j).map adjacency_key =
      (find_adjacency pj1.adjacencies i).map adjacency_key)
    (hinv : symmetric_adjacencies map) :
    symmetric_adjacencies ((map.set_province i pi1).set_province j pj1) := by
  have hadj := adjacency_update_two map i j pi pj pi1 pj1 hij hi hj hoi hoj
  constructor
  · intro a province ha
    rw [get_update_two map i j a pi pj pi1 pj1 hij hi hj] at ha
    by_cases haj : a = j
    · rw [if_pos haj] at ha
      rw [← Option.some.inj ha]
      exact hnj
    · rw [if_neg haj] at ha
      by_cases hai : a = i
      · rw [if_pos hai] at ha
        rw [← Option.some.inj ha]
        exact hni
      · rw [if_neg hai] at ha
        exact hinv.1 a province ha
  · intro a b
    rw [hadj a b, hadj b a]
    by_cases h1 : a = i ∧ b = j
    · obtain ⟨rfl, rfl⟩ := h1
      rw [if_pos ⟨rfl, rfl⟩, if_neg (fun h => hij h.2), if_pos ⟨rfl, rfl⟩]
      exact hkey
    · rw [if_neg h1]
      by_cases h2 : a = j ∧ b = i
      · obtain ⟨rfl, rfl⟩ := h2
        rw [if_pos ⟨rfl, rfl⟩, if_pos ⟨rfl, rfl⟩]
        exact hkey.symm
      · rw [if_neg h2, if_neg (fun h => h2 ⟨h.2, h.1⟩), if_neg (fun h => h1 ⟨h.2, h.1⟩)]
        exact hinv.2 a b

/-- The type and through province that `add_adjacency` leaves for the target,
from the type and through province of the existing adjacency, if any. -/
def converted_key (type : adjacency_t.type_t) (through : Option Nat) :
    Option (adjacency_t.type_t × Option Nat) → Option (adjacency_t.type_t × Option Nat)
  | some existing =>
    if type = existing.1 ∧
        (type ≠ adjacency_t.type_t.STRAIT ∧ type ≠ adjacency_t.type_t.CANAL) then
      some existing
    else if type = adjacency_t.type_t.IMPASSABLE then
      if existing.1 = adjacency_t.type_t.WATER ∨ existing.1 = adjacency_t.type_t.COASTAL then
        none
      else some (type, through)
    else if type ≠ adjacency_t.type_t.STRAIT ∧ type ≠ adjacency_t.type_t.CANAL then
      some existing
    else if type ≠ existing.1 ∧
        existing.1 ≠
          (if type = adjacency_t.type_t.CANAL then adjacency_t.type_t.WATER
            else adjacency_t.type_t.LAND) then
      some existing
    else some (type, through)
  | none => if type = adjacency_t.type_t.IMPASSABLE then none else some (type, through)

theorem add_adjacency_spec (distance : fixed_point_t) (type : adjacency_t.type_t)
    (through : Option Nat) (data : Nat) (adjacencies : List adjacency_t) (index_to : Nat)
    (hn : targets_nodup adjacencies) :
    targets_nodup (add_adjacency distance type through data adjacencies index_to).2 ∧
      (∀ other, other ≠ index_to →
        find_adjacency (add_adjacency distance type through data adjacencies index_to).2 other =
          find_adjacency adjacencies other) ∧
      (find_adjacency (add_adjacency distance type through data adjacencies index_to).2
          index_to).map adjacency_key =
        converted_key type through ((find_adjacency adjacencies index_to).map adjacency_key) := by
  have hreplace : ∀ adjacency : adjacency_t, adjacency.get_to = index_to →
      adjacency_key adjacency = (type, through) →
      (find_adjacency adjacencies index_to).isSome = true →
      targets_nodup (replace_existing index_to adjacency adjacencies) ∧
        (∀ other, other ≠ index_to →
          find_adjacency (replace_existing index_to adjacency adjacencies) other =
            find_adjacency adjacencies other) ∧
        (find_adjacency (replace_existing index_to adjacency adjacencies) index_to).map
          adjacency_key = some (type, through) := by
    intro adjacency hto hkey hsome
    refine ⟨?_, fun other hne => find_replace_existing_other _ _ _ _ hto hne, ?_⟩
    · unfold targets_nodup
      rw [map_get_to_replace_existing _ _ _ hto]
      exact hn
    · rw [find_replace_existing_self _ _ _ hto, if_pos hsome, Option.map_some', hkey]
  unfold add_adjacency
  dsimp only
  cases hfind : adjacencies.find? (fun adj => adj.get_to = index_to) with
  | none =>
    have hfind2 : find_adjacency adjacencies index_to = none := hfind
    dsimp only
    rw [hfind2]
    by_cases himp : type = adjacency_t.type_t.IMPASSABLE
    · rw [if_pos himp]
      refine ⟨hn, fun _ _ => rfl, ?_⟩
      dsimp only
      rw [hfind2]
      simp [converted_key, himp]
    · rw [if_neg himp]
      dsimp only
      refine ⟨targets_nodup_append _ _ hn hfind2, ?_, ?_⟩
      · intro other hne
        rw [find_adjacency_append, if_neg (fun h => hne h.symm)]
        simp
      · rw [find_adjacency_append, hfind2, if_pos rfl]
        simp [converted_key, himp, adjacency_key]
  | some existing =>
    have hfind2 : find_adjacency adjacencies index_to = some existing := hfind
    have hsome : (find_adjacency adjacencies index_to).isSome = true := by rw [hfind2]; rfl
    dsimp only
    rw [hfind2]
    simp only [Option.map_some', converted_key, adjacency_key]
    by_cases h1 : type = existing.type ∧
        (type ≠ adjacency_t.type_t.STRAIT ∧ type ≠ adjacency_t.type_t.CANAL)
    · rw [if_pos h1, if_pos h1]
      exact ⟨hn, fun _ _ => rfl, by rw [hfind2]; rfl⟩
    · rw [if_neg h1, if_neg h1]
      by_cases h2 : type = adjacency_t.type_t.IMPASSABLE
      · rw [if_pos h2, if_pos h2]
        by_cases h3 : existing.type = adjacency_t.type_t.WATER ∨
            existing.type = adjacency_t.type_t.COASTAL
        · rw [if_pos h3, if_pos h3]
          exact ⟨targets_nodup_erase_existing _ _ hn,
            fun other hne => find_erase_existing_other _ _ _ hne,
            by rw [find_erase_existing_self _ _ hn]; rfl⟩
        · rw [if_neg h3, if_neg h3]
          exact hreplace ⟨index_to, distance, type, through, data⟩ rfl rfl hsome
      · rw [if_neg h2, if_neg h2]
        by_cases h4 : type ≠ adjacency_t.type_t.STRAIT ∧ type ≠ adjacency_t.type_t.CANAL
        · rw [if_pos h4, if_pos h4]
          exact ⟨hn, fun _ _ => rfl, by rw [hfind2]; rfl⟩
        · rw [if_neg h4, if_neg h4]
          by_cases h5 : type ≠ existing.type ∧
              existing.type ≠
                (if type = adjacency_t.type_t.CANAL then adjacency_t.type_t.WATER
                  else adjacency_t.type_t.LAND)
          · rw [if_pos h5, if_pos h5]
            exact ⟨hn, fun _ _ => rfl, by rw [hfind2]; rfl⟩
          · rw [if_neg h5, if_neg h5]
            exact hreplace ⟨index_to, distance, type, through, data⟩ rfl rfl hsome

theorem adjacency_of_get (map : Map) (a b : Nat) (province : Province)
    (h : map.get_province_by_index a = some province) :
    map.adjacency a b = find_adjacency province.adjacencies b := by
  unfold adjacency
  rw [h]
  rfl

theorem symmetric_add_special_adjacency (map : Map) (index_from index_to : Nat)
    (type : adjacency_t.type_t) (through : Option Nat) (data : Nat)
    (hinv : symmetric_adjacencies map) :
    symmetric_adjacencies (map.add_special_adjacency index_from index_to type through data).2 := by
  unfold add_special_adjacency
  cases hf : map.get_province_by_index index_from with
  | none => exact hinv
  | some province_from =>
    cases ht : map.get_province_by_index index_to with
    | none => exact hinv
    | some province_to =>
      dsimp only
      by_cases hne : index_from = index_to
      · rw [if_pos hne]
        exact hinv
      · rw [if_neg hne]
        split
        · exact hinv
        · cases hthrough : map.through_checked type through with
          | none => exact hinv
          | some through1 =>
            dsimp only
            obtain ⟨hn1, ho1, hk1⟩ := add_adjacency_spec
              (map.calculate_distance_between province_from province_to) type through1
              (canal_data type data) province_from.adjacencies index_to (hinv.1 _ _ hf)
            obtain ⟨hn2, ho2, hk2⟩ := add_adjacency_spec
              (map.calculate_distance_between province_from province_to) type through1
              (canal_data type data) province_to.adjacencies index_from (hinv.1 _ _ ht)
            refine symmetric_update map index_from index_to province_from province_to _ _ hne
              hf ht hn1 hn2 ho1 ho2 ?_ hinv
            dsimp only
            rw [hk1, hk2]
            have hs := hinv.2 index_from index_to
            rw [adjacency_of_get map _ _ _ hf, adjacency_of_get map _ _ _ ht] at hs
            rw [hs]

/-- The adjacency type that `add_standard_adjacency` gives to two provinces
(Map.cpp:107-118). -/
def standard_type (province_from province_to : Province) : adjacency_t.type_t :=
  if province_from.is_water ≠ province_to.is_water then adjacency_t.type_t.COASTAL
  else if province_from.is_water then adjacency_t.type_t.WATER
  else adjacency_t.type_t.LAND

theorem add_standard_adjacency_spec (map : Map) (index_from index_to : Nat)
    (province_from province_to : Province)
    (hf : map.get_province_by_index index_from = some province_from)
    (ht : map.get_province_by_index index_to = some province_to)
    (hne : index_from ≠ index_to) :
    ∃ from2 to2 : Province,
      map.add_standard_adjacency index_from index_to =
        (!(find_adjacency province_from.adjacencies index_to).isSome ||
            !(find_adjacency province_to.adjacencies index_from).isSome,
          (map.set_province index_from from2).set_province index_to to2) ∧
      from2.adjacencies =
        (if (find_adjacency province_from.adjacencies index_to).isSome = true then
          province_from.adjacencies
        else province_from.adjacencies ++
          [⟨index_to, map.calculate_distance_between province_from province_to,
            standard_type province_from province_to, none, 0⟩]) ∧
      to2.adjacencies =
        (if (find_adjacency province_to.adjacencies index_from).isSome = true then
          province_to.adjacencies
        else province_to.adjacencies ++
          [⟨index_from, map.calculate_distance_between province_from province_to,
            standard_type province_from province_to, none, 0⟩]) := by
  unfold add_standard_adjacency
  rw [hf, ht]
  dsimp only
  rw [if_neg hne, is_adjacent_to_eq, is_adjacent_to_eq]
  cases h1 : (find_adjacency province_from.adjacencies index_to).isSome <;>
    cases h2 : (find_adjacency province_to.adjacencies index_from).isSome
  all_goals simp only [Bool.not_true, Bool.not_false, Bool.and_true, Bool.and_false,
    Bool.or_true, Bool.or_false, Bool.false_eq_true, if_true, if_false, standard_type]
  · exact ⟨_, _, rfl, by split <;> rfl, by split <;> rfl⟩
  · exact ⟨_, _, rfl, by split <;> rfl, by split <;> rfl⟩
  · exact ⟨_, _, rfl, by split <;> rfl, by split <;> rfl⟩
  · refine ⟨province_from, province_to, ?_, rfl, rfl⟩
    rw [set_province_self map _ _ hf, set_province_self map _ _ ht]

theorem add_standard_adjacency_invalid (map : Map) (index_from index_to : Nat)
    (h : map.get_province_by_index index_from = none ∨
      map.get_province_by_index index_to = none ∨ index_from = index_to) :
    map.add_standard_adjacency index_from index_to = (false, map) := by
  unfold add_standard_adjacency
  cases hf : map.get_province_by_index index_from with
  | none => rfl
  | some province_from =>
    cases ht : map.get_province_by_index index_to with
    | none => rfl
    | some province_to =>
      rcases h with h | h | h
      · rw [hf] at h
        cases h
      · rw [ht] at h
        cases h
      · dsimp only
        rw [if_pos h]

/-- The adjacencies of a map after `add_standard_adjacency`, for a map whose
adjacencies are symmetric: the call links its two provinces when they are distinct
provinces of the map, and changes no other adjacency. -/
theorem adjacency_add_standard_adjacency (map : Map) (index_from index_to : Nat)
    (hinv : symmetric_adjacencies map) :
    symmetric_adjacencies (map.add_standard_adjacency index_from index_to).2 ∧
    (∀ a b, ((map.add_standard_adjacency index_from index_to).2.adjacency a b).isSome = true ↔
      (map.adjacency a b).isSome = true ∨
        (index_from ≠ index_to ∧ (map.get_province_by_index index_from).isSome = true ∧
          (map.get_province_by_index index_to).isSome = true ∧
          (a = index_from ∧ b = index_to ∨ a = index_to ∧ b = index_from))) ∧
    ((map.add_standard_adjacency index_from index_to).1 = true ↔
      index_from ≠ index_to ∧ (map.get_province_by_index index_from).isSome = true ∧
        (map.get_province_by_index index_to).isSome = true ∧
        (map.adjacency index_from index_to).isSome = false) := by
  by_cases hvalid : map.get_province_by_index index_from = none ∨
      map.get_province_by_index index_to = none ∨ index_from = index_to
  · rw [add_standard_adjacency_invalid map _ _ hvalid]
    refine ⟨hinv, fun a b => ⟨Or.inl, ?_⟩, ?_⟩
    · rintro (h | ⟨h1, h2, h3, _⟩)
      · exact h
      · rcases hvalid with h | h | h
        · rw [h] at h2
          cases h2
        · rw [h] at h3
          cases h3
        · exact absurd h h1
    · constructor
      · intro h
        cases h
      · rintro ⟨h1, h2, h3, _⟩
        rcases hvalid with h | h | h
        · rw [h] at h2
          cases h2
        · rw [h] at h3
          cases h3
        · exact absurd h h1
  · have hne : index_from ≠ index_to := fun h => hvalid (Or.inr (Or.inr h))
    obtain ⟨province_from, hf⟩ : ∃ p, map.get_province_by_index index_from = some p := by
      cases h : map.get_province_by_index index_from with
      | none => exact absurd (Or.inl h) hvalid
      | some p => exact ⟨p, rfl⟩
    obtain ⟨province_to, ht⟩ : ∃ p, map.get_province_by_index index_to = some p := by
      cases h : map.get_province_by_index index_to with
      | none => exact absurd (Or.inr (Or.inl h)) hvalid
      | some p => exact ⟨p, rfl⟩
    obtain ⟨from2, to2, heq, hfrom, hto⟩ :=
      add_standard_adjacency_spec map index_from index_to province_from province_to hf ht hne
    have hs := hinv.2 index_from index_to
    rw [adjacency_of_get map _ _ _ hf, adjacency_of_get map _ _ _ ht] at hs
    have hsome : (find_adjacency province_to.adjacencies index_from).isSome =
        (find_adjacency province_from.adjacencies index_to).isSome := by
      have := congrArg Option.isSome hs
      simpa using this.symm
    rw [hsome] at hto heq
    have hnf := hinv.1 _ _ hf
    have hnt := hinv.1 _ _ ht
    have hfacts : targets_nodup from2.adjacencies ∧ targets_nodup to2.adjacencies ∧
        (∀ t, t ≠ index_to →
          find_adjacency from2.adjacencies t = find_adjacency province_from.adjacencies t) ∧
        (∀ t, t ≠ index_from →
          find_adjacency to2.adjacencies t = find_adjacency province_to.adjacencies t) ∧
        (find_adjacency from2.adjacencies index_to).map adjacency_key =
          (find_adjacency to2.adjacencies index_from).map adjacency_key ∧
        (find_adjacency from2.adjacencies index_to).isSome = true ∧
        (find_adjacency to2.adjacencies index_from).isSome = true := by
      cases hcase : (find_adjacency province_from.adjacencies index_to).isSome with
      | true =>
        rw [hcase, if_pos rfl] at hfrom hto
        rw [hfrom, hto]
        exact ⟨hnf, hnt, fun _ _ => rfl, fun _ _ => rfl, hs, hcase, hsome.trans hcase⟩
      | false =>
        rw [hcase, if_neg (by simp)] at hfrom hto
        have hnone1 : find_adjacency province_from.adjacencies index_to = none := by
          simpa using hcase
        have hnone2 : find_adjacency province_to.adjacencies index_from = none := by
          simpa using hsome.trans hcase
        rw [hfrom, hto]
        refine ⟨targets_nodup_append _ _ hnf hnone1, targets_nodup_append _ _ hnt hnone2,
          ?_, ?_, ?_, ?_, ?_⟩
        · intro t hne1
          rw [find_adjacency_append, if_neg (fun h => hne1 h.symm)]
          simp
        · intro t hne1
          rw [find_adjacency_append, if_neg (fun h => hne1 h.symm)]
          simp
        · rw [find_adjacency_append, find_adjacency_append, hnone1, hnone2, if_pos rfl,
            if_pos rfl]
          rfl
        · rw [find_adjacency_append, hnone1, if_pos rfl]
          rfl
        · rw [find_adjacency_append, hnone2, if_pos rfl]
          rfl
    obtain ⟨hn1, hn2, ho1, ho2, hkey, hs1, hs2⟩ := hfacts
    rw [heq]
    refine ⟨symmetric_update map index_from index_to province_from province_to from2 to2 hne
      hf ht hn1 hn2 ho1 ho2 hkey hinv, ?_, ?_⟩
    · intro a b
      dsimp only
      rw [adjacency_update_two map index_from index_to province_from province_to from2 to2 hne
        hf ht ho1 ho2 a b, hf, ht]
      by_cases h1 : a = index_from ∧ b = index_to
      · rw [if_pos h1]
        simp [hs1, h1, hne]
      · rw [if_neg h1]
        by_cases h2 : a = index_to ∧ b = index_from
        · rw [if_pos h2]
          simp [hs2, h2, hne]
        · rw [if_neg h2]
          simp [h1, h2]
    · dsimp only
      rw [adjacency_of_get map _ _ _ hf, hf, ht]
      cases hcase : (find_adjacency province_from.adjacencies index_to).isSome <;> simp [hne]

theorem mem_of_get_province_by_index {map : Map} {index : Nat} {province : Province}
    (h : map.get_province_by_index index = some province) : province ∈ map.provinces := by
  unfold get_province_by_index at h
  split at h
  · cases h
  · exact List.getElem?_mem h

theorem adjacency_of_no_adjacencies (map : Map)
    (hempty : ∀ province ∈ map.provinces, province.adjacencies = []) (a b : Nat) :
    map.adjacency a b = none := by
  unfold adjacency
  cases h : map.get_province_by_index a with
  | none => rfl
  | some province =>
    rw [Option.some_bind, hempty province (mem_of_get_province_by_index h)]
    rfl

theorem symmetric_of_no_adjacencies (map : Map)
    (hempty : ∀ province ∈ map.provinces, province.adjacencies = []) :
    symmetric_adjacencies map := by
  constructor
  · intro a province h
    rw [hempty province (mem_of_get_province_by_index h)]
    exact List.nodup_nil
  · intro a b
    rw [adjacency_of_no_adjacencies map hempty, adjacency_of_no_adjacencies map hempty]

theorem symmetric_run_calls (calls : List adjacency_call) (map : Map)
    (hinv : symmetric_adjacencies map) : symmetric_adjacencies (run_calls map calls) := by
  induction calls generalizing map with
  | nil => exact hinv
  | cons call rest ih =>
    unfold run_calls
    rw [List.foldl_cons]
    apply ih
    cases call with
    | standard index_from index_to =>
      exact (adjacency_add_standard_adjacency map index_from index_to hinv).1
    | special index_from index_to type through data =>
      exact symmetric_add_special_adjacency map index_from index_to type through data hinv

/-- In a map whose adjacencies are symmetric, every adjacency that a province
holds is answered by an adjacency back, of the same type and through province. -/
theorem adjacency_back_of_symmetric (map : Map) (hinv : symmetric_adjacencies map)
    (a : Nat) (province_a : Province) (adj : adjacency_t)
    (ha : map.get_province_by_index a = some province_a)
    (hadj : adj ∈ province_a.adjacencies) :
    ∃ province_b adj_back, map.get_province_by_index adj.get_to = some province_b ∧
      adj_back ∈ province_b.adjacencies ∧ adj_back.get_to = a ∧
      adj_back.type = adj.type ∧ adj_back.through = adj.through := by
  have hfind := find_adjacency_of_mem (hinv.1 a province_a ha) hadj
  have hs := hinv.2 a adj.get_to
  rw [adjacency_of_get map _ _ _ ha, hfind] at hs
  unfold adjacency at hs
  cases hb : map.get_province_by_index adj.get_to with
  | none =>
    rw [hb] at hs
    cases hs
  | some province_b =>
    rw [hb, Option.some_bind] at hs
    cases hback : find_adjacency province_b.adjacencies a with
    | none =>
      rw [hback] at hs
      cases hs
    | some adj_back =>
      rw [hback] at hs
      simp only [Option.map_some', Option.some.injEq, adjacency_key, Prod.mk.injEq] at hs
      exact ⟨province_b, adj_back, rfl, List.mem_of_find?_eq_some hback,
        find_adjacency_get_to hback, hs.1.symm, hs.2.symm⟩

theorem add_special_adjacency_of_valid (map : Map) (index_from index_to : Nat)
    (type : adjacency_t.type_t) (through through1 : Option Nat) (data : Nat)
    (province_from province_to : Province)
    (hf : map.get_province_by_index index_from = some province_from)
    (ht : map.get_province_by_index index_to = some province_to)
    (hne : index_from ≠ index_to)
    (hend : endpoints_valid type province_from province_to = true)
    (hchk : map.through_checked type through = some through1) :
    map.add_special_adjacency index_from index_to type through data =
      ((add_adjacency (map.calculate_distance_between province_from province_to) type through1
            (canal_data type data) province_from.adjacencies index_to).1 &&
          (add_adjacency (map.calculate_distance_between province_from province_to) type through1
            (canal_data type data) province_to.adjacencies index_from).1,
        (map.set_province index_from
          { province_from with
            adjacencies :=
              (add_adjacency (map.calculate_distance_between province_from province_to) type
                through1 (canal_data type data) province_from.adjacencies index_to).2 }
          ).set_province index_to
          { province_to with
            adjacencies :=
              (add_adjacency (map.calculate_distance_between province_from province_to) type
                through1 (canal_data type data) province_to.adjacencies index_from).2 }) := by
  unfold add_special_adjacency
  rw [hf, ht]
  dsimp only
  rw [if_neg hne, hend, hchk]
  rfl

theorem add_special_adjacency_of_invalid (map : Map) (index_from index_to : Nat)
    (type : adjacency_t.type_t) (through : Option Nat) (data : Nat)
    (province_from province_to : Province)
    (hf : map.get_province_by_index index_from = some province_from)
    (ht : map.get_province_by_index index_to = some province_to)
    (h : index_from = index_to ∨ endpoints_valid type province_from province_to = false ∨
      map.through_checked type through = none) :
    map.add_special_adjacency index_from index_to type through data = (false, map) := by
  unfold add_special_adjacency
  rw [hf, ht]
  dsimp only
  by_cases hne : index_from = index_to
  · rw [if_pos hne]
  · rw [if_neg hne]
    cases hend : endpoints_valid type province_from province_to with
    | false => rfl
    | true =>
      cases hchk : map.through_checked type through with
      | none => rfl
      | some through1 =>
        rcases h with h | h | h
        · exact absurd h hne
        · rw [hend] at h
          cases h
        · rw [hchk] at h
          cases h

theorem add_special_adjacency_unchanged (map : Map) (index_from index_to : Nat)
    (province_from province_to : Province)
    (hf : map.get_province_by_index index_from = some province_from)
    (ht : map.get_province_by_index index_to = some province_to) :
    (map.set_province index_from { province_from with adjacencies := province_from.adjacencies }
      ).set_province index_to { province_to with adjacencies := province_to.adjacencies } =
      map := by
  rw [set_province_self map _ _ hf, set_province_self map _ _ ht]

theorem add_adjacency_same_type (distance : fixed_point_t) (type : adjacency_t.type_t)
    (through : Option Nat) (data : Nat) (adjacencies : List adjacency_t) (index_to : Nat)
    (existing : adjacency_t) (hfind : find_adjacency adjacencies index_to = some existing)
    (htype : existing.type = type) :
    add_adjacency distance type through data adjacencies index_to =
      if type = adjacency_t.type_t.STRAIT ∨ type = adjacency_t.type_t.CANAL then
        (true, replace_existing index_to ⟨index_to, distance, type, through, data⟩ adjacencies)
      else (true, adjacencies) := by
  unfold find_adjacency at hfind
  unfold add_adjacency
  dsimp only
  rw [hfind]
  dsimp only
  rw [htype]
  cases type <;> simp

theorem add_adjacency_other_type (distance : fixed_point_t) (type : adjacency_t.type_t)
    (through : Option Nat) (data : Nat) (adjacencies : List adjacency_t) (index_to : Nat)
    (existing : adjacency_t) (hfind : find_adjacency adjacencies index_to = some existing)
    (htype : existing.type ≠ type) (himp : type ≠ adjacency_t.type_t.IMPASSABLE) :
    add_adjacency distance type through data adjacencies index_to =
      if type = adjacency_t.type_t.STRAIT ∧ existing.type = adjacency_t.type_t.LAND ∨
          type = adjacency_t.type_t.CANAL ∧ existing.type = adjacency_t.type_t.WATER then
        (true, replace_existing index_to ⟨index_to, distance, type, through, data⟩ adjacencies)
      else (false, adjacencies) := by
  unfold find_adjacency at hfind
  unfold add_adjacency
  dsimp only
  rw [hfind]
  dsimp only
  generalize existing.type = existing_type at htype
  cases type <;> cases existing_type <;> simp at htype himp ⊢

theorem add_adjacency_impassable (distance : fixed_point_t)
    (through : Option Nat) (data : Nat) (adjacencies : List adjacency_t) (index_to : Nat) :
    add_adjacency distance adjacency_t.type_t.IMPASSABLE through data adjacencies index_to =
      match find_adjacency adjacencies index_to with
      | none => (true, adjacencies)
      | some existing =>
        if existing.type = adjacency_t.type_t.IMPASSABLE then (true, adjacencies)
        else if existing.type = adjacency_t.type_t.WATER ∨
            existing.type = adjacency_t.type_t.COASTAL then
          (true, erase_existing index_to adjacencies)
        else
          (true, replace_existing index_to
            ⟨index_to, distance, adjacency_t.type_t.IMPASSABLE, through, data⟩ adjacencies) := by
  unfold find_adjacency
  unfold add_adjacency
  dsimp only
  cases hfind : adjacencies.find? (fun adj => adj.get_to = index_to) with
  | none => simp
  | some existing =>
    dsimp only
    generalize existing.type = existing_type
    cases existing_type <;> simp

theorem add_adjacency_new (distance : fixed_point_t) (type : adjacency_t.type_t)
    (through : Option Nat) (data : Nat) (adjacencies : List adjacency_t) (index_to : Nat)
    (hfind : find_adjacency adjacencies index_to = none)
    (himp : type ≠ adjacency_t.type_t.IMPASSABLE) :
    add_adjacency distance type through data adjacencies index_to =
      (true, adjacencies ++ [⟨index_to, distance, type, through, data⟩]) := by
  unfold find_adjacency at hfind
  unfold add_adjacency
  dsimp only
  rw [hfind]
  dsimp only
  rw [if_neg himp]

theorem filter_append_new (adjacencies : List adjacency_t) (adjacency : adjacency_t)
    (h : find_adjacency adjacencies adjacency.get_to = none) :
    (adjacencies ++ [adjacency]).filter (fun adj => adj.get_to = adjacency.get_to) =
      [adjacency] := by
  rw [find_adjacency_eq_none] at h
  rw [List.filter_append]
  have h1 : adjacencies.filter (fun adj => adj.get_to = adjacency.get_to) = [] := by
    rw [List.filter_eq_nil_iff]
    intro adj hadj hto
    apply h
    rw [List.mem_map]
    exact ⟨adj, hadj, by simpa using hto⟩
  rw [h1]
  simp

theorem get_after_update (map : Map) (i j : Nat) (pi pj pi1 pj1 : Province) (hij : i ≠ j)
    (hi : map.get_province_by_index i = some pi) (hj : map.get_province_by_index j = some pj) :
    ((map.set_province i pi1).set_province j pj1).get_province_by_index i = some pi1 ∧
      ((map.set_province i pi1).set_province j pj1).get_province_by_index j = some pj1 := by
  rw [get_update_two map i j i pi pj pi1 pj1 hij hi hj,
    get_update_two map i j j pi pj pi1 pj1 hij hi hj, if_neg hij, if_pos rfl, if_pos rfl]
  exact ⟨rfl, rfl⟩

theorem adjacency_after_replace (map : Map) (i j : Nat) (pi pj : Province)
    (new_i new_j : adjacency_t) (hij : i ≠ j)
    (hi : map.get_province_by_index i = some pi) (hj : map.get_province_by_index j = some pj)
    (hsome_i : (find_adjacency pi.adjacencies j).isSome = true)
    (hsome_j : (find_adjacency pj.adjacencies i).isSome = true)
    (hto_i : new_i.get_to = j) (hto_j : new_j.get_to = i) :
    ((map.set_province i { pi with adjacencies := replace_existing j new_i pi.adjacencies }
        ).set_province j { pj with adjacencies := replace_existing i new_j pj.adjacencies }
      ).adjacency i j = some new_i ∧
    ((map.set_province i { pi with adjacencies := replace_existing j new_i pi.adjacencies }
        ).set_province j { pj with adjacencies := replace_existing i new_j pj.adjacencies }
      ).adjacency j i = some new_j ∧
    ∀ a b, ¬ (a = i ∧ b = j) → ¬ (a = j ∧ b = i) →
      ((map.set_province i { pi with adjacencies := replace_existing j new_i pi.adjacencies }
          ).set_province j { pj with adjacencies := replace_existing i new_j pj.adjacencies }
        ).adjacency a b = map.adjacency a b := by
  have hadj := adjacency_update_two map i j pi pj
    { pi with adjacencies := replace_existing j new_i pi.adjacencies }
    { pj with adjacencies := replace_existing i new_j pj.adjacencies } hij hi hj
    (fun t ht => find_replace_existing_other _ _ _ _ hto_i ht)
    (fun t ht => find_replace_existing_other _ _ _ _ hto_j ht)
  refine ⟨?_, ?_, ?_⟩
  · rw [hadj, if_pos ⟨rfl, rfl⟩]
    dsimp only
    rw [find_replace_existing_self _ _ _ hto_i, if_pos hsome_i]
  · rw [hadj, if_neg (show ¬ (j = i ∧ i = j) from fun h => hij h.2), if_pos ⟨rfl, rfl⟩]
    dsimp only
    rw [find_replace_existing_self _ _ _ hto_j, if_pos hsome_j]
  · intro a b h1 h2
    rw [hadj, if_neg h1, if_neg h2]

theorem adjacency_after_erase (map : Map) (i j : Nat) (pi pj : Province) (hij : i ≠ j)
    (hi : map.get_province_by_index i = some pi) (hj : map.get_province_by_index j = some pj)
    (hn_i : targets_nodup pi.adjacencies) (hn_j : targets_nodup pj.adjacencies) :
    ((map.set_province i { pi with adjacencies := erase_existing j pi.adjacencies }
        ).set_province j { pj with adjacencies := erase_existing i pj.adjacencies }
      ).adjacency i j = none ∧
    ((map.set_province i { pi with adjacencies := erase_existing j pi.adjacencies }
        ).set_province j { pj with adjacencies := erase_existing i pj.adjacencies }
      ).adjacency j i = none ∧
    ∀ a b, ¬ (a = i ∧ b = j) → ¬ (a = j ∧ b = i) →
      ((map.set_province i { pi with adjacencies := erase_existing j pi.adjacencies }
          ).set_province j { pj with adjacencies := erase_existing i pj.adjacencies }
        ).adjacency a b = map.adjacency a b := by
  have hadj := adjacency_update_two map i j pi pj
    { pi with adjacencies := erase_existing j pi.adjacencies }
    { pj with adjacencies := erase_existing i pj.adjacencies } hij hi hj
    (fun t ht => find_erase_existing_other _ _ _ ht)
    (fun t ht => find_erase_existing_other _ _ _ ht)
  refine ⟨?_, ?_, ?_⟩
  · rw [hadj, if_pos ⟨rfl, rfl⟩]
    exact find_erase_existing_self _ _ hn_i
  · rw [hadj, if_neg (show ¬ (j = i ∧ i = j) from fun h => hij h.2), if_pos ⟨rfl, rfl⟩]
    exact find_erase_existing_self _ _ hn_j
  · intro a b h1 h2
    rw [hadj, if_neg h1, if_neg h2]

theorem through_checked_eq {map : Map} {type : adjacency_t.type_t} {through through1 : Option Nat}
    (hchk : map.through_checked type through = some through1) :
    through1 = if type = adjacency_t.type_t.STRAIT ∨ type = adjacency_t.type_t.CANAL then through
      else none := by
  unfold through_checked at hchk
  by_cases h : type = adjacency_t.type_t.STRAIT ∨ type = adjacency_t.type_t.CANAL
  · rw [if_pos h] at hchk ⊢
    dsimp only at hchk
    split at hchk
    · cases hchk
    · split at hchk
      · cases hchk
      · exact (Option.some.inj hchk).symm
  · rw [if_neg h] at hchk ⊢
    exact (Option.some.inj hchk).symm

end Map

/-- C13: starting from a map whose provinces hold no adjacencies, after any sequence
of `add_standard_adjacency` and `add_special_adjacency` calls, whenever a province A
holds an adjacency to a province B, B is a province of the map and holds an adjacency
to A of the same type and the same through province. -/
theorem adjacencies_symmetric_after_calls (map : Map) (calls : List Map.adjacency_call)
    (hempty : ∀ province ∈ map.provinces, province.adjacencies = [])
    (a b : Nat) (province_a : Province) (adj : adjacency_t)
    (ha : (map.run_calls calls).get_province_by_index a = some province_a)
    (hadj : adj ∈ province_a.adjacencies) (hb : adj.get_to = b) :
    ∃ province_b adj_back, (map.run_calls calls).get_province_by_index b = some province_b ∧
      adj_back ∈ province_b.adjacencies ∧ adj_back.get_to = a ∧
      adj_back.type = adj.type ∧ adj_back.through = adj.through := by
  subst hb
  exact Map.adjacency_back_of_symmetric _
    (Map.symmetric_run_calls calls map (Map.symmetric_of_no_adjacencies map hempty))
    a province_a adj ha hadj

theorem adjacencies_symmetric_after_calls_witness :
    ∃ province_b adj_back,
      (scenario_map.run_calls
          [Map.adjacency_call.standard 1 2,
            Map.adjacency_call.special 1 2 adjacency_t.type_t.STRAIT (some 3) 0,
            Map.adjacency_call.standard 3 1]).get_province_by_index 2 = some province_b ∧
        adj_back ∈ province_b.adjacencies ∧ adj_back.get_to = 1 ∧
        adj_back.type = adjacency_t.type_t.STRAIT ∧ adj_back.through = some 3 :=
  adjacencies_symmetric_after_calls scenario_map
    [Map.adjacency_call.standard 1 2,
      Map.adjacency_call.special 1 2 adjacency_t.type_t.STRAIT (some 3) 0,
      Map.adjacency_call.standard 3 1]
    (by decide) 1 2
    { identifier := "p1", index := 1, coastal := true,
      adjacencies :=
        [⟨2, scenario_map.calculate_distance_between
            { identifier := "p1", index := 1 }
            { identifier := "p2", index := 2, unit_position := ⟨196608, 262144⟩ },
          adjacency_t.type_t.STRAIT, some 3, 0⟩,
         ⟨3, scenario_map.calculate_distance_between
            { identifier := "p3", index := 3, water := true }
            { identifier := "p1", index := 1 },
          adjacency_t.type_t.COASTAL, none, 0⟩] }
    ⟨2, scenario_map.calculate_distance_between
        { identifier := "p1", index := 1 }
        { identifier := "p2", index := 2, unit_position := ⟨196608, 262144⟩ },
      adjacency_t.type_t.STRAIT, some 3, 0⟩
    rfl (List.mem_cons_self _ _) rfl

/-- C14: `add_special_adjacency` returns false and leaves the map, and with it every
adjacency list, unchanged whenever `from = to`, or the type is LAND or STRAIT and
an endpoint is water, or the type is WATER or CANAL and an endpoint is land, or the
type is COASTAL and both endpoints have the same water status, or the type is
STRAIT and `through` is null or a land province, or the type is CANAL and `through`
is null or a water province. -/
theorem add_special_adjacency_validation (map : Map) (index_from index_to : Nat)
    (type : adjacency_t.type_t) (through : Option Nat) (data : Nat)
    (province_from province_to : Province)
    (hf : map.get_province_by_index index_from = some province_from)
    (ht : map.get_province_by_index index_to = some province_to)
    (h : index_from = index_to ∨
      ((type = adjacency_t.type_t.LAND ∨ type = adjacency_t.type_t.STRAIT) ∧
        (province_from.is_water = true ∨ province_to.is_water = true)) ∨
      ((type = adjacency_t.type_t.WATER ∨ type = adjacency_t.type_t.CANAL) ∧
        (province_from.is_water = false ∨ province_to.is_water = false)) ∨
      (type = adjacency_t.type_t.COASTAL ∧ province_from.is_water = province_to.is_water) ∨
      (type = adjacency_t.type_t.STRAIT ∧
        (through = none ∨ ∃ index through_province, through = some index ∧
          map.get_province_by_index index = some through_province ∧
          through_province.is_water = false)) ∨
      (type = adjacency_t.type_t.CANAL ∧
        (through = none ∨ ∃ index through_province, through = some index ∧
          map.get_province_by_index index = some through_province ∧
          through_province.is_water = true))) :
    map.add_special_adjacency index_from index_to type through data = (false, map) := by
  apply Map.add_special_adjacency_of_invalid map _ _ _ _ _ _ _ hf ht
  rcases h with h | ⟨h1 | h1, h2⟩ | ⟨h1 | h1, h2⟩ | ⟨h1, h2⟩ | ⟨h1, h2⟩ | ⟨h1, h2⟩
  · exact Or.inl h
  · subst h1
    right; left
    rcases h2 with h2 | h2 <;> simp [Map.endpoints_valid, h2]
  · subst h1
    right; left
    rcases h2 with h2 | h2 <;> simp [Map.endpoints_valid, h2]
  · subst h1
    right; left
    rcases h2 with h2 | h2 <;> simp [Map.endpoints_valid, h2]
  · subst h1
    right; left
    rcases h2 with h2 | h2 <;> simp [Map.endpoints_valid, h2]
  · subst h1
    right; left
    simp [Map.endpoints_valid, h2]
  · subst h1
    right; right
    rcases h2 with h2 | ⟨index, through_province, h2, h3, h4⟩
    · subst h2
      simp [Map.through_checked]
    · subst h2
      simp [Map.through_checked, h3, h4]
  · subst h1
    right; right
    rcases h2 with h2 | ⟨index, through_province, h2, h3, h4⟩
    · subst h2
      simp [Map.through_checked]
    · subst h2
      simp [Map.through_checked, h3, h4]

theorem add_special_adjacency_validation_witness :
    scenario_map.add_special_adjacency 1 3 adjacency_t.type_t.STRAIT (some 4) 0 =
      (false, scenario_map) :=
  add_special_adjacency_validation scenario_map 1 3 adjacency_t.type_t.STRAIT (some 4) 0
    { identifier := "p1", index := 1 } { identifier := "p3", index := 3, water := true }
    rfl rfl (Or.inr (Or.inl ⟨Or.inr rfl, Or.inr rfl⟩))

/-- C15: for two distinct land provinces P1 and P2 that hold no adjacency to each
other and a water province P3, `add_special_adjacency(P1, P2, STRAIT, P3, 0)` returns
true, and afterwards the adjacencies that P1 holds to P2 are exactly one, of type
STRAIT with through province P3, and likewise those that P2 holds to P1; the same
call with a null through province returns false and leaves the map unchanged. -/
theorem add_special_adjacency_strait (map : Map) (index_1 index_2 index_3 : Nat)
    (province_1 province_2 province_3 : Province)
    (h1 : map.get_province_by_index index_1 = some province_1)
    (h2 : map.get_province_by_index index_2 = some province_2)
    (h3 : map.get_province_by_index index_3 = some province_3)
    (hne : index_1 ≠ index_2)
    (hland1 : province_1.is_water = false) (hland2 : province_2.is_water = false)
    (hwater : province_3.is_water = true)
    (hnone1 : province_1.is_adjacent_to index_2 = false)
    (hnone2 : province_2.is_adjacent_to index_1 = false) :
    (map.add_special_adjacency index_1 index_2 adjacency_t.type_t.STRAIT (some index_3) 0).1 =
        true ∧
      (∃ after_1 after_2 : Province,
        (map.add_special_adjacency index_1 index_2 adjacency_t.type_t.STRAIT (some index_3)
            0).2.get_province_by_index index_1 = some after_1 ∧
          (map.add_special_adjacency index_1 index_2 adjacency_t.type_t.STRAIT (some index_3)
            0).2.get_province_by_index index_2 = some after_2 ∧
          after_1.adjacencies.filter (fun adj => adj.get_to = index_2) =
            [⟨index_2, map.calculate_distance_between province_1 province_2,
              adjacency_t.type_t.STRAIT, some index_3, 0⟩] ∧
          after_2.adjacencies.filter (fun adj => adj.get_to = index_1) =
            [⟨index_1, map.calculate_distance_between province_1 province_2,
              adjacency_t.type_t.STRAIT, some index_3, 0⟩]) ∧
      map.add_special_adjacency index_1 index_2 adjacency_t.type_t.STRAIT none 0 =
        (false, map) := by
  have hend : Map.endpoints_valid adjacency_t.type_t.STRAIT province_1 province_2 = true := by
    simp [Map.endpoints_valid, hland1, hland2]
  have hchk : map.through_checked adjacency_t.type_t.STRAIT (some index_3) =
      some (some index_3) := by
    simp [Map.through_checked, h3, hwater]
  have hfind1 : Map.find_adjacency province_1.adjacencies index_2 = none := by
    rw [Map.is_adjacent_to_eq] at hnone1
    simpa using hnone1
  have hfind2 : Map.find_adjacency province_2.adjacencies index_1 = none := by
    rw [Map.is_adjacent_to_eq] at hnone2
    simpa using hnone2
  rw [Map.add_special_adjacency_of_valid map _ _ _ _ _ 0 _ _ h1 h2 hne hend hchk,
    Map.add_adjacency_new _ _ _ _ _ _ hfind1 (by decide),
    Map.add_adjacency_new _ _ _ _ _ _ hfind2 (by decide)]
  refine ⟨rfl, ⟨_, _, (Map.get_after_update map _ _ _ _ _ _ hne h1 h2).1,
    (Map.get_after_update map _ _ _ _ _ _ hne h1 h2).2, ?_, ?_⟩, ?_⟩
  · exact Map.filter_append_new province_1.adjacencies
      ⟨index_2, _, adjacency_t.type_t.STRAIT, some index_3, _⟩ hfind1
  · exact Map.filter_append_new province_2.adjacencies
      ⟨index_1, _, adjacency_t.type_t.STRAIT, some index_3, _⟩ hfind2
  · exact Map.add_special_adjacency_of_invalid map _ _ _ _ _ _ _ h1 h2
      (Or.inr (Or.inr (by simp [Map.through_checked])))

theorem add_special_adjacency_strait_witness :
    (scenario_map.add_special_adjacency 1 2 adjacency_t.type_t.STRAIT (some 3) 0).1 = true ∧
      scenario_map.add_special_adjacency 1 2 adjacency_t.type_t.STRAIT none 0 =
        (false, scenario_map) :=
  ⟨(add_special_adjacency_strait scenario_map 1 2 3 { identifier := "p1", index := 1 }
      { identifier := "p2", index := 2, unit_position := ⟨196608, 262144⟩ }
      { identifier := "p3", index := 3, water := true }
      rfl rfl rfl (by decide) rfl rfl rfl rfl rfl).1,
    (add_special_adjacency_strait scenario_map 1 2 3 { identifier := "p1", index := 1 }
      { identifier := "p2", index := 2, unit_position := ⟨196608, 262144⟩ }
      { identifier := "p3", index := 3, water := true }
      rfl rfl rfl (by decide) rfl rfl rfl rfl rfl).2.2⟩

/-- C16 (counterexample): the provinces 1 and 2 hold a STRAIT adjacency to each other
through province 3; a further STRAIT call through the water province 4 passes
validation and returns true, and the adjacency from 1 to 2 then has through
province 4. -/
theorem scenario_strait_again_overwrites_through :
    (scenario_map_strait.adjacency 1 2).map Map.adjacency_key =
        some (adjacency_t.type_t.STRAIT, some 3) ∧
      (scenario_map_strait.adjacency 2 1).map Map.adjacency_key =
        some (adjacency_t.type_t.STRAIT, some 3) ∧
      scenario_map_strait.through_checked adjacency_t.type_t.STRAIT (some 4) = some (some 4) ∧
      (scenario_map_strait.add_special_adjacency 1 2 adjacency_t.type_t.STRAIT (some 4) 0).1 =
        true ∧
      ((scenario_map_strait.add_special_adjacency 1 2 adjacency_t.type_t.STRAIT (some 4)
          0).2.adjacency 1 2).map Map.adjacency_key =
        some (adjacency_t.type_t.STRAIT, some 4) := by
  decide

/-- C16: when the two provinces already hold an adjacency of the requested type to
each other and the call passes endpoint and through validation,
`add_special_adjacency` returns true; for the types LAND, WATER, COASTAL and
IMPASSABLE it leaves the map, and with it every adjacency list, unchanged; for the
types STRAIT and CANAL it overwrites the two adjacencies with the distance, the
through province and the data of the call and leaves every other adjacency
unchanged. -/
theorem add_special_adjacency_existing_same_type (map : Map) (index_from index_to : Nat)
    (type : adjacency_t.type_t) (through through1 : Option Nat) (data : Nat)
    (province_from province_to : Province) (existing_from existing_to : adjacency_t)
    (hf : map.get_province_by_index index_from = some province_from)
    (ht : map.get_province_by_index index_to = some province_to)
    (hne : index_from ≠ index_to)
    (hend : Map.endpoints_valid type province_from province_to = true)
    (hchk : map.through_checked type through = some through1)
    (h1 : map.adjacency index_from index_to = some existing_from)
    (h2 : map.adjacency index_to index_from = some existing_to)
    (ht1 : existing_from.type = type) (ht2 : existing_to.type = type) :
    (map.add_special_adjacency index_from index_to type through data).1 = true ∧
      (type ≠ adjacency_t.type_t.STRAIT → type ≠ adjacency_t.type_t.CANAL →
        (map.add_special_adjacency index_from index_to type through data).2 = map) ∧
      (type = adjacency_t.type_t.STRAIT ∨ type = adjacency_t.type_t.CANAL →
        (map.add_special_adjacency index_from index_to type through data).2.adjacency
            index_from index_to =
          some ⟨index_to, map.calculate_distance_between province_from province_to, type,
            through, Map.canal_data type data⟩ ∧
        (map.add_special_adjacency index_from index_to type through data).2.adjacency
            index_to index_from =
          some ⟨index_from, map.calculate_distance_between province_from province_to, type,
            through, Map.canal_data type data⟩ ∧
        ∀ a b, ¬ (a = index_from ∧ b = index_to) → ¬ (a = index_to ∧ b = index_from) →
          (map.add_special_adjacency index_from index_to type through data).2.adjacency a b =
            map.adjacency a b) := by
  rw [Map.adjacency_of_get map _ _ _ hf] at h1
  rw [Map.adjacency_of_get map _ _ _ ht] at h2
  rw [Map.add_special_adjacency_of_valid map _ _ _ _ _ data _ _ hf ht hne hend hchk,
    Map.add_adjacency_same_type _ _ _ _ _ _ _ h1 ht1,
    Map.add_adjacency_same_type _ _ _ _ _ _ _ h2 ht2]
  have hthrough := Map.through_checked_eq hchk
  by_cases hsc : type = adjacency_t.type_t.STRAIT ∨ type = adjacency_t.type_t.CANAL
  · rw [if_pos hsc] at hthrough
    subst hthrough
    rw [if_pos hsc, if_pos hsc]
    refine ⟨rfl, fun hs hc => absurd hsc (by simp [hs, hc]), fun _ => ?_⟩
    exact Map.adjacency_after_replace map index_from index_to province_from province_to _ _
      hne hf ht (by rw [h1]; rfl) (by rw [h2]; rfl) rfl rfl
  · rw [if_neg hsc, if_neg hsc]
    refine ⟨rfl, fun _ _ => Map.add_special_adjacency_unchanged map _ _ _ _ hf ht,
      fun h => absurd h hsc⟩

theorem add_special_adjacency_existing_same_type_witness :
    (scenario_map_standard.add_special_adjacency 3 4 adjacency_t.type_t.WATER none 0).1 =
        true ∧
      (scenario_map_standard.add_special_adjacency 3 4 adjacency_t.type_t.WATER none 0).2 =
        scenario_map_standard :=
  (fun h => ⟨h.1, h.2.1 (by decide) (by decide)⟩)
    (add_special_adjacency_existing_same_type scenario_map_standard 3 4
      adjacency_t.type_t.WATER none none 0
      { identifier := "p3", index := 3, water := true,
        adjacencies :=
          [⟨4, scenario_map.calculate_distance_between
              { identifier := "p3", index := 3, water := true }
              { identifier := "p4", index := 4, water := true },
            adjacency_t.type_t.WATER, none, 0⟩] }
      { identifier := "p4", index := 4, water := true,
        adjacencies :=
          [⟨3, scenario_map.calculate_distance_between
              { identifier := "p3", index := 3, water := true }
              { identifier := "p4", index := 4, water := true },
            adjacency_t.type_t.WATER, none, 0⟩] }
      ⟨4, scenario_map.calculate_distance_between
          { identifier := "p3", index := 3, water := true }
          { identifier := "p4", index := 4, water := true },
        adjacency_t.type_t.WATER, none, 0⟩
      ⟨3, scenario_map.calculate_distance_between
          { identifier := "p3", index := 3, water := true }
          { identifier := "p4", index := 4, water := true },
        adjacency_t.type_t.WATER, none, 0⟩
      rfl rfl (by decide) rfl rfl rfl rfl rfl rfl)

/-- C17 (counterexample): the provinces 1 and 2 hold a LAND adjacency to each other;
the STRAIT call with a null through province returns false, and the STRAIT call
through the water province 3 with data 5 returns true and leaves an adjacency with
data 0. -/
theorem scenario_land_to_strait_checks_through_and_data :
    (scenario_map_standard.adjacency 1 2).map (fun adj => adj.type) =
        some adjacency_t.type_t.LAND ∧
      (scenario_map_standard.adjacency 2 1).map (fun adj => adj.type) =
        some adjacency_t.type_t.LAND ∧
      (scenario_map_standard.add_special_adjacency 1 2 adjacency_t.type_t.STRAIT none 0).1 =
        false ∧
      (scenario_map_standard.add_special_adjacency 1 2 adjacency_t.type_t.STRAIT (some 3) 5).1 =
        true ∧
      ((scenario_map_standard.add_special_adjacency 1 2 adjacency_t.type_t.STRAIT (some 3)
          5).2.adjacency 1 2).map (fun adj => (adj.type, adj.through, adj.data)) =
        some (adjacency_t.type_t.STRAIT, some 3, 0) := by
  decide

/-- C17: when the two provinces already hold adjacencies to each other of one type
that differs from the requested type, and the requested type is not IMPASSABLE,
`add_special_adjacency` returns false and leaves the map unchanged, except for an
existing LAND adjacency with requested STRAIT and an existing WATER adjacency with
requested CANAL: there, if the call passes endpoint and through validation, it
returns true and both adjacencies are overwritten with the requested type, the
distance and the through province of the call, and the data of the call for CANAL
and no canal data for STRAIT. -/
theorem add_special_adjacency_existing_other_type (map : Map) (index_from index_to : Nat)
    (type : adjacency_t.type_t) (through : Option Nat) (data : Nat)
    (province_from province_to : Province) (existing_from existing_to : adjacency_t)
    (hf : map.get_province_by_index index_from = some province_from)
    (ht : map.get_province_by_index index_to = some province_to)
    (h1 : map.adjacency index_from index_to = some existing_from)
    (h2 : map.adjacency index_to index_from = some existing_to)
    (hsame : existing_to.type = existing_from.type)
    (hother : existing_from.type ≠ type) (himp : type ≠ adjacency_t.type_t.IMPASSABLE) :
    (¬ (type = adjacency_t.type_t.STRAIT ∧ existing_from.type = adjacency_t.type_t.LAND ∨
          type = adjacency_t.type_t.CANAL ∧ existing_from.type = adjacency_t.type_t.WATER) →
        map.add_special_adjacency index_from index_to type through data = (false, map)) ∧
      (type = adjacency_t.type_t.STRAIT ∧ existing_from.type = adjacency_t.type_t.LAND ∨
          type = adjacency_t.type_t.CANAL ∧ existing_from.type = adjacency_t.type_t.WATER →
        index_from ≠ index_to →
        Map.endpoints_valid type province_from province_to = true →
        map.through_checked type through = some through →
        (map.add_special_adjacency index_from index_to type through data).1 = true ∧
          (map.add_special_adjacency index_from index_to type through data).2.adjacency
              index_from index_to =
            some ⟨index_to, map.calculate_distance_between province_from province_to, type,
              through, if type = adjacency_t.type_t.CANAL then data else adjacency_t.NO_CANAL⟩ ∧
          (map.add_special_adjacency index_from index_to type through data).2.adjacency
              index_to index_from =
            some ⟨index_from, map.calculate_distance_between province_from province_to, type,
              through,
              if type = adjacency_t.type_t.CANAL then data else adjacency_t.NO_CANAL⟩) := by
  rw [Map.adjacency_of_get map _ _ _ hf] at h1
  rw [Map.adjacency_of_get map _ _ _ ht] at h2
  have hdata : Map.canal_data type data =
      if type = adjacency_t.type_t.CANAL then data else adjacency_t.NO_CANAL := by
    unfold Map.canal_data
    by_cases hc : type = adjacency_t.type_t.CANAL
    · simp [hc]
    · by_cases hd : data = adjacency_t.NO_CANAL
      · simp [hc, hd]
      · simp [hc, hd]
  constructor
  · intro hno
    by_cases hinvalid : index_from = index_to ∨
        Map.endpoints_valid type province_from province_to = false ∨
        map.through_checked type through = none
    · exact Map.add_special_adjacency_of_invalid map _ _ _ _ _ _ _ hf ht hinvalid
    · have hne : index_from ≠ index_to := fun h => hinvalid (Or.inl h)
      have hend : Map.endpoints_valid type province_from province_to = true := by
        cases h : Map.endpoints_valid type province_from province_to with
        | false => exact absurd (Or.inr (Or.inl h)) hinvalid
        | true => rfl
      obtain ⟨through1, hchk⟩ : ∃ through1, map.through_checked type through = some through1 := by
        cases h : map.through_checked type through with
        | none => exact absurd (Or.inr (Or.inr h)) hinvalid
        | some through1 => exact ⟨through1, rfl⟩
      rw [Map.add_special_adjacency_of_valid map _ _ _ _ _ data _ _ hf ht hne hend hchk,
        Map.add_adjacency_other_type _ _ _ _ _ _ _ h1 hother himp,
        Map.add_adjacency_other_type _ _ _ _ _ _ _ h2 (by rw [hsame]; exact hother) himp,
        hsame, if_neg hno, if_neg hno]
      dsimp only
      rw [Map.add_special_adjacency_unchanged map _ _ _ _ hf ht]
      rfl
  · intro hyes hne hend hchk
    rw [Map.add_special_adjacency_of_valid map _ _ _ _ _ data _ _ hf ht hne hend hchk,
      Map.add_adjacency_other_type _ _ _ _ _ _ _ h1 hother himp,
      Map.add_adjacency_other_type _ _ _ _ _ _ _ h2 (by rw [hsame]; exact hother) himp,
      hsame, if_pos hyes, if_pos hyes, hdata]
    have hrep := Map.adjacency_after_replace map index_from index_to province_from province_to
      ⟨index_to, map.calculate_distance_between province_from province_to, type, through,
        if type = adjacency_t.type_t.CANAL then data else adjacency_t.NO_CANAL⟩
      ⟨index_from, map.calculate_distance_between province_from province_to, type, through,
        if type = adjacency_t.type_t.CANAL then data else adjacency_t.NO_CANAL⟩
      hne hf ht (by rw [h1]; rfl) (by rw [h2]; rfl) rfl rfl
    exact ⟨rfl, hrep.1, hrep.2.1⟩

theorem add_special_adjacency_existing_other_type_witness :
    scenario_map_standard.add_special_adjacency 3 4 adjacency_t.type_t.STRAIT (some 3) 0 =
      (false, scenario_map_standard) :=
  (add_special_adjacency_existing_other_type scenario_map_standard 3 4
    adjacency_t.type_t.STRAIT (some 3) 0
    { identifier := "p3", index := 3, water := true,
      adjacencies :=
        [⟨4, scenario_map.calculate_distance_between
            { identifier := "p3", index := 3, water := true }
            { identifier := "p4", index := 4, water := true },
          adjacency_t.type_t.WATER, none, 0⟩] }
    { identifier := "p4", index := 4, water := true,
      adjacencies :=
        [⟨3, scenario_map.calculate_distance_between
            { identifier := "p3", index := 3, water := true }
            { identifier := "p4", index := 4, water := true },
          adjacency_t.type_t.WATER, none, 0⟩] }
    ⟨4, scenario_map.calculate_distance_between
        { identifier := "p3", index := 3, water := true }
        { identifier := "p4", index := 4, water := true },
      adjacency_t.type_t.WATER, none, 0⟩
    ⟨3, scenario_map.calculate_distance_between
        { identifier := "p3", index := 3, water := true }
        { identifier := "p4", index := 4, water := true },
      adjacency_t.type_t.WATER, none, 0⟩
    rfl rfl rfl rfl rfl (by decide) (by decide)).1 (by decide)

/-- C18: in a map whose adjacencies are symmetric, `add_special_adjacency` with the
type IMPASSABLE between two distinct provinces returns true whatever the water
status of the two provinces; when the first holds a WATER or COASTAL adjacency to
the second, neither holds an adjacency to the other afterwards; when it holds a LAND
adjacency, both hold an IMPASSABLE adjacency to each other afterwards, with no
through province; and when it holds no adjacency to the second, the map is
unchanged. -/
theorem add_special_adjacency_impassable (map : Map) (index_from index_to : Nat)
    (through : Option Nat) (data : Nat) (province_from province_to : Province)
    (hf : map.get_province_by_index index_from = some province_from)
    (ht : map.get_province_by_index index_to = some province_to)
    (hne : index_from ≠ index_to) (hinv : map.symmetric_adjacencies) :
    (map.add_special_adjacency index_from index_to adjacency_t.type_t.IMPASSABLE through
        data).1 = true ∧
      (∀ existing, map.adjacency index_from index_to = some existing →
        existing.type = adjacency_t.type_t.WATER ∨ existing.type = adjacency_t.type_t.COASTAL →
        (map.add_special_adjacency index_from index_to adjacency_t.type_t.IMPASSABLE through
            data).2.adjacency index_from index_to = none ∧
          (map.add_special_adjacency index_from index_to adjacency_t.type_t.IMPASSABLE through
            data).2.adjacency index_to index_from = none) ∧
      (∀ existing, map.adjacency index_from index_to = some existing →
        existing.type = adjacency_t.type_t.LAND →
        (map.add_special_adjacency index_from index_to adjacency_t.type_t.IMPASSABLE through
            data).2.adjacency index_from index_to =
          some ⟨index_to, map.calculate_distance_between province_from province_to,
            adjacency_t.type_t.IMPASSABLE, none, adjacency_t.NO_CANAL⟩ ∧
          (map.add_special_adjacency index_from index_to adjacency_t.type_t.IMPASSABLE through
            data).2.adjacency index_to index_from =
          some ⟨index_from, map.calculate_distance_between province_from province_to,
            adjacency_t.type_t.IMPASSABLE, none, adjacency_t.NO_CANAL⟩) ∧
      (map.adjacency index_from index_to = none →
        (map.add_special_adjacency index_from index_to adjacency_t.type_t.IMPASSABLE through
          data).2 = map) := by
  have hs := hinv.2 index_from index_to
  rw [Map.adjacency_of_get map _ _ _ hf, Map.adjacency_of_get map _ _ _ ht] at hs
  have hdata : Map.canal_data adjacency_t.type_t.IMPASSABLE data = adjacency_t.NO_CANAL := by
    unfold Map.canal_data
    by_cases hd : data = adjacency_t.NO_CANAL
    · simp [hd]
    · simp [hd]
  rw [Map.adjacency_of_get map _ _ _ hf,
    Map.add_special_adjacency_of_valid map _ _ adjacency_t.type_t.IMPASSABLE through none data
      _ _ hf ht hne rfl
      (by simp [Map.through_checked]),
    Map.add_adjacency_impassable, Map.add_adjacency_impassable, hdata]
  cases h1 : Map.find_adjacency province_from.adjacencies index_to with
  | none =>
    rw [h1] at hs
    have h2 : Map.find_adjacency province_to.adjacencies index_from = none := by
      cases h : Map.find_adjacency province_to.adjacencies index_from with
      | none => rfl
      | some e =>
        rw [h] at hs
        cases hs
    rw [h2]
    dsimp only
    refine ⟨rfl, fun _ h => (by cases h), fun _ h => (by cases h), fun _ => ?_⟩
    exact Map.add_special_adjacency_unchanged map _ _ _ _ hf ht
  | some existing_from =>
    rw [h1] at hs
    cases h2 : Map.find_adjacency province_to.adjacencies index_from with
    | none =>
      rw [h2] at hs
      cases hs
    | some existing_to =>
      rw [h2] at hs
      simp only [Option.map_some', Option.some.injEq, Map.adjacency_key, Prod.mk.injEq] at hs
      dsimp only
      rw [← hs.1]
      refine ⟨?_, ?_, ?_, fun h => (by cases h)⟩
      · split
        · rfl
        · split <;> rfl
      · intro existing he hwc
        cases he
        have hni : ¬ existing_from.type = adjacency_t.type_t.IMPASSABLE := by
          rcases hwc with h | h <;> rw [h] <;> decide
        simp only [if_neg hni, if_pos hwc]
        have hera := Map.adjacency_after_erase map index_from index_to province_from province_to
          hne hf ht (hinv.1 _ _ hf) (hinv.1 _ _ ht)
        exact ⟨hera.1, hera.2.1⟩
      · intro existing he hland
        cases he
        have hni : ¬ existing_from.type = adjacency_t.type_t.IMPASSABLE := by
          rw [hland]
          decide
        have hnw : ¬ (existing_from.type = adjacency_t.type_t.WATER ∨
            existing_from.type = adjacency_t.type_t.COASTAL) := by
          rw [hland]
          decide
        simp only [if_neg hni, if_neg hnw]
        have hrep := Map.adjacency_after_replace map index_from index_to province_from
          province_to
          ⟨index_to, map.calculate_distance_between province_from province_to,
            adjacency_t.type_t.IMPASSABLE, none, adjacency_t.NO_CANAL⟩
          ⟨index_from, map.calculate_distance_between province_from province_to,
            adjacency_t.type_t.IMPASSABLE, none, adjacency_t.NO_CANAL⟩
          hne hf ht (by rw [h1]; rfl) (by rw [h2]; rfl) rfl rfl
        exact ⟨hrep.1, hrep.2.1⟩

theorem add_special_adjacency_impassable_witness :
    (scenario_map_standard.add_special_adjacency 3 4 adjacency_t.type_t.IMPASSABLE none 0).1 =
        true ∧
      (scenario_map_standard.add_special_adjacency 3 4 adjacency_t.type_t.IMPASSABLE none
          0).2.adjacency 3 4 = none ∧
      (scenario_map_standard.add_special_adjacency 3 4 adjacency_t.type_t.IMPASSABLE none
          0).2.adjacency 4 3 = none :=
  (fun h => ⟨h.1, h.2.1 _ rfl (Or.inl rfl)⟩)
    (add_special_adjacency_impassable scenario_map_standard 3 4 none 0
      { identifier := "p3", index := 3, water := true,
        adjacencies :=
          [⟨4, scenario_map.calculate_distance_between
              { identifier := "p3", index := 3, water := true }
              { identifier := "p4", index := 4, water := true },
            adjacency_t.type_t.WATER, none, 0⟩] }
      { identifier := "p4", index := 4, water := true,
        adjacencies :=
          [⟨3, scenario_map.calculate_distance_between
              { identifier := "p3", index := 3, water := true }
              { identifier := "p4", index := 4, water := true },
            adjacency_t.type_t.WATER, none, 0⟩] }
      rfl rfl (by decide)
      (Map.symmetric_run_calls _ scenario_map
        (Map.symmetric_of_no_adjacencies scenario_map (by decide))))

/-- C20 (counterexample): after the standard adjacency between the land province 1
and the water province 3 of the scenario is added, both hold a COASTAL adjacency to
the other, the land province is flagged coastal and the water province is not. -/
theorem scenario_coastal_water_province_not_coastal :
    (scenario_map.add_standard_adjacency 1 3).1 = true ∧
      ((scenario_map.add_standard_adjacency 1 3).2.adjacency 1 3).map (fun adj => adj.type) =
        some adjacency_t.type_t.COASTAL ∧
      ((scenario_map.add_standard_adjacency 1 3).2.adjacency 3 1).map (fun adj => adj.type) =
        some adjacency_t.type_t.COASTAL ∧
      ((scenario_map.add_standard_adjacency 1 3).2.get_province_by_index 1).map
          (fun province => (province.is_water, province.coastal)) = some (false, true) ∧
      ((scenario_map.add_standard_adjacency 1 3).2.get_province_by_index 3).map
          (fun province => (province.is_water, province.coastal)) = some (true, false) := by
  decide

/-- C20: `add_standard_adjacency` between two distinct provinces that hold no
adjacency to each other returns true and appends to the adjacency list of each one
adjacency to the other, of type LAND when both are land, WATER when both are water
and COASTAL when exactly one is water; in the COASTAL case the land province is
flagged coastal afterwards and the water province is flagged not coastal, and
otherwise the flags are unchanged. -/
theorem add_standard_adjacency_types (map : Map) (index_from index_to : Nat)
    (province_from province_to : Province)
    (hf : map.get_province_by_index index_from = some province_from)
    (ht : map.get_province_by_index index_to = some province_to)
    (hne : index_from ≠ index_to)
    (hnone1 : province_from.is_adjacent_to index_to = false)
    (hnone2 : province_to.is_adjacent_to index_from = false) :
    (map.add_standard_adjacency index_from index_to).1 = true ∧
      ∃ (type : adjacency_t.type_t) (after_from after_to : Province),
        (map.add_standard_adjacency index_from index_to).2.get_province_by_index index_from =
            some after_from ∧
          (map.add_standard_adjacency index_from index_to).2.get_province_by_index index_to =
            some after_to ∧
          after_from.adjacencies = province_from.adjacencies ++
            [⟨index_to, map.calculate_distance_between province_from province_to, type, none,
              0⟩] ∧
          after_to.adjacencies = province_to.adjacencies ++
            [⟨index_from, map.calculate_distance_between province_from province_to, type, none,
              0⟩] ∧
          (province_from.is_water = false → province_to.is_water = false →
            type = adjacency_t.type_t.LAND) ∧
          (province_from.is_water = true → province_to.is_water = true →
            type = adjacency_t.type_t.WATER) ∧
          (province_from.is_water ≠ province_to.is_water → type = adjacency_t.type_t.COASTAL) ∧
          after_from.is_water = province_from.is_water ∧
          after_to.is_water = province_to.is_water ∧
          (province_from.is_water ≠ province_to.is_water →
            after_from.coastal = !province_from.is_water ∧
              after_to.coastal = !province_to.is_water) ∧
          (province_from.is_water = province_to.is_water →
            after_from.coastal = province_from.coastal ∧
              after_to.coastal = province_to.coastal) := by
  unfold Map.add_standard_adjacency
  rw [hf, ht]
  dsimp only
  rw [if_neg hne, hnone1, hnone2]
  simp only [Bool.not_false, Bool.not_true, Bool.and_self, Bool.false_eq_true, if_false,
    if_true]
  by_cases hw : province_from.is_water = province_to.is_water
  · have hw2 : ¬ province_from.is_water ≠ province_to.is_water := fun h => h hw
    simp only [if_neg hw2]
    refine ⟨trivial,
      if province_from.is_water = true then adjacency_t.type_t.WATER
        else adjacency_t.type_t.LAND, _, _,
      (Map.get_after_update map _ _ _ _ _ _ hne hf ht).1,
      (Map.get_after_update map _ _ _ _ _ _ hne hf ht).2, rfl, rfl, ?_, ?_, ?_, rfl, rfl,
      fun h => absurd hw h, fun _ => ⟨rfl, rfl⟩⟩
    · intro h1 _
      simp [h1]
    · intro h1 _
      simp [h1]
    · intro h
      exact absurd hw h
  · have hw2 : province_from.is_water ≠ province_to.is_water := hw
    simp only [if_pos hw2]
    refine ⟨trivial, adjacency_t.type_t.COASTAL, _, _,
      (Map.get_after_update map _ _ _ _ _ _ hne hf ht).1,
      (Map.get_after_update map _ _ _ _ _ _ hne hf ht).2, rfl, rfl, ?_, ?_, fun _ => rfl,
      rfl, rfl, fun _ => ⟨rfl, rfl⟩, fun h => absurd h hw⟩
    · intro h1 h2
      exact absurd (h1.trans h2.symm) hw
    · intro h1 h2
      exact absurd (h1.trans h2.symm) hw

theorem add_standard_adjacency_types_witness :
    (scenario_map.add_standard_adjacency 1 3).1 = true :=
  (add_standard_adjacency_types scenario_map 1 3 { identifier := "p1", index := 1 }
    { identifier := "p3", index := 3, water := true } rfl rfl (by decide) rfl rfl).1

/-! ## Lemmas on the generation of the standard adjacencies -/

namespace Map

/-- The map has the dimensions, the shape image and the province indices of
another map. -/
def same_frame (map0 map : Map) : Prop :=
  map.width = map0.width ∧ map.height = map0.height ∧
    map.province_shape_image = map0.province_shape_image ∧
    ∀ k, (map.get_province_by_index k).isSome = (map0.get_province_by_index k).isSome

theorem same_frame_refl (map : Map) : same_frame map map :=
  ⟨rfl, rfl, rfl, fun _ => rfl⟩

theorem same_frame_trans {map0 map1 map2 : Map} (h1 : same_frame map0 map1)
    (h2 : same_frame map1 map2) : same_frame map0 map2 :=
  ⟨h2.1.trans h1.1, h2.2.1.trans h1.2.1, h2.2.2.1.trans h1.2.2.1,
    fun k => (h2.2.2.2 k).trans (h1.2.2.2 k)⟩

theorem same_frame_set_province (map : Map) (index : Nat) (province : Province) :
    same_frame map (map.set_province index province) := by
  refine ⟨?_, ?_, ?_, ?_⟩
  · unfold set_province
    split <;> rfl
  · unfold set_province
    split <;> rfl
  · unfold set_province
    split <;> rfl
  · intro k
    rw [get_set_province]
    by_cases h : k = index ∧ (map.get_province_by_index index).isSome = true
    · rw [if_pos h, h.1, h.2]
      rfl
    · rw [if_neg h]

theorem same_frame_add_standard_adjacency (map : Map) (index_from index_to : Nat) :
    same_frame map (map.add_standard_adjacency index_from index_to).2 := by
  by_cases hvalid : map.get_province_by_index index_from = none ∨
      map.get_province_by_index index_to = none ∨ index_from = index_to
  · rw [add_standard_adjacency_invalid map _ _ hvalid]
    exact same_frame_refl map
  · have hne : index_from ≠ index_to := fun h => hvalid (Or.inr (Or.inr h))
    obtain ⟨province_from, hf⟩ : ∃ p, map.get_province_by_index index_from = some p := by
      cases h : map.get_province_by_index index_from with
      | none => exact absurd (Or.inl h) hvalid
      | some p => exact ⟨p, rfl⟩
    obtain ⟨province_to, ht⟩ : ∃ p, map.get_province_by_index index_to = some p := by
      cases h : map.get_province_by_index index_to with
      | none => exact absurd (Or.inr (Or.inl h)) hvalid
      | some p => exact ⟨p, rfl⟩
    obtain ⟨from2, to2, heq, _, _⟩ :=
      add_standard_adjacency_spec map index_from index_to province_from province_to hf ht hne
    rw [heq]
    exact same_frame_trans (same_frame_set_province map _ _) (same_frame_set_province _ _ _)

theorem pixel_index_of_same_frame {map0 map : Map} (h : same_frame map0 map) (x y : Nat) :
    map.pixel_index x y = map0.pixel_index x y := by
  unfold pixel_index
  rw [h.1, h.2.2.1]

theorem adjacency_isSome_comm {map : Map} (hsym : symmetric_adjacencies map) (a b : Nat) :
    (map.adjacency a b).isSome = (map.adjacency b a).isSome := by
  have := congrArg Option.isSome (hsym.2 a b)
  simpa using this

/-- The provinces `a` and `b` are distinct provinces of the map that the relation
pairs in one order or the other. -/
def linked (map0 : Map) (R : Nat → Nat → Prop) (a b : Nat) : Prop :=
  a ≠ b ∧ (map0.get_province_by_index a).isSome = true ∧
    (map0.get_province_by_index b).isSome = true ∧ (R a b ∨ R b a)

/-- The flag and map reached from the map `map0` by standard adjacency calls
for the pairs of the relation `R`: the adjacencies are those of `map0` and those
between the provinces that `R` links, and the flag tells whether one was added. -/
def generated (map0 : Map) (R : Nat → Nat → Prop) (state : Bool × Map) : Prop :=
  symmetric_adjacencies state.2 ∧ same_frame map0 state.2 ∧
    (∀ a b, (state.2.adjacency a b).isSome = true ↔
      (map0.adjacency a b).isSome = true ∨ linked map0 R a b) ∧
    (state.1 = true ↔
      ∃ a b, (state.2.adjacency a b).isSome = true ∧ (map0.adjacency a b).isSome = false)

theorem generated_congr {map0 : Map} {R1 R2 : Nat → Nat → Prop} {state : Bool × Map}
    (hR : ∀ a b, R1 a b ↔ R2 a b) (h : generated map0 R1 state) : generated map0 R2 state := by
  have : R1 = R2 := by
    funext a b
    exact propext (hR a b)
  rw [← this]
  exact h

theorem generated_initial (map0 : Map) (hsym : symmetric_adjacencies map0) :
    generated map0 (fun _ _ => False) (false, map0) := by
  refine ⟨hsym, same_frame_refl map0, fun a b => ⟨Or.inl, ?_⟩, ?_⟩
  · rintro (h | ⟨_, _, _, h | h⟩)
    · exact h
    · exact h.elim
    · exact h.elim
  · constructor
    · intro h
      cases h
    · rintro ⟨a, b, h1, h2⟩
      dsimp only at h1
      rw [h2] at h1
      cases h1

theorem generated_step (map0 : Map) (R : Nat → Nat → Prop) (state : Bool × Map) (i j : Nat)
    (h : generated map0 R state) :
    generated map0 (fun a b => R a b ∨ (a = i ∧ b = j))
      (state.1 || (state.2.add_standard_adjacency i j).1,
        (state.2.add_standard_adjacency i j).2) := by
  obtain ⟨hsym, hframe, hadj, hchanged⟩ := h
  obtain ⟨hsym1, hadj1, hres⟩ := adjacency_add_standard_adjacency state.2 i j hsym
  have hv := hframe.2.2.2
  rw [hv i, hv j] at hadj1 hres
  refine ⟨hsym1, same_frame_trans hframe (same_frame_add_standard_adjacency _ _ _), ?_, ?_⟩
  · intro a b
    dsimp only
    rw [hadj1 a b, hadj a b]
    unfold linked
    constructor
    · rintro ((h | ⟨hab, ha, hb, hR⟩) | ⟨hij, hi, hj, (⟨rfl, rfl⟩ | ⟨rfl, rfl⟩)⟩)
      · exact Or.inl h
      · exact Or.inr ⟨hab, ha, hb, hR.imp Or.inl Or.inl⟩
      · exact Or.inr ⟨hij, hi, hj, Or.inl (Or.inr ⟨rfl, rfl⟩)⟩
      · exact Or.inr ⟨Ne.symm hij, hj, hi, Or.inr (Or.inr ⟨rfl, rfl⟩)⟩
    · rintro (h | ⟨hab, ha, hb, ((hR | ⟨rfl, rfl⟩) | (hR | ⟨rfl, rfl⟩))⟩)
      · exact Or.inl (Or.inl h)
      · exact Or.inl (Or.inr ⟨hab, ha, hb, Or.inl hR⟩)
      · exact Or.inr ⟨hab, ha, hb, Or.inl ⟨rfl, rfl⟩⟩
      · exact Or.inl (Or.inr ⟨hab, ha, hb, Or.inr hR⟩)
      · exact Or.inr ⟨Ne.symm hab, hb, ha, Or.inr ⟨rfl, rfl⟩⟩
  · dsimp only
    rw [Bool.or_eq_true, hchanged, hres]
    constructor
    · rintro (⟨a, b, h1, h2⟩ | ⟨hij, hi, hj, hnone⟩)
      · exact ⟨a, b, (hadj1 a b).mpr (Or.inl h1), h2⟩
      · refine ⟨i, j, (hadj1 i j).mpr (Or.inr ⟨hij, hi, hj, Or.inl ⟨rfl, rfl⟩⟩), ?_⟩
        cases h0 : (map0.adjacency i j).isSome with
        | false => rfl
        | true =>
          have := (hadj i j).mpr (Or.inl h0)
          rw [hnone] at this
          cases this
    · rintro ⟨a, b, h1, h2⟩
      rcases (hadj1 a b).mp h1 with h | ⟨hij, hi, hj, (⟨rfl, rfl⟩ | ⟨rfl, rfl⟩)⟩
      · exact Or.inl ⟨a, b, h, h2⟩
      · cases h0 : (state.2.adjacency a b).isSome with
        | false => exact Or.inr ⟨hij, hi, hj, rfl⟩
        | true => exact Or.inl ⟨a, b, h0, h2⟩
      · cases h0 : (state.2.adjacency a b).isSome with
        | false =>
          refine Or.inr ⟨hij, hi, hj, ?_⟩
          rw [adjacency_isSome_comm hsym]
          exact h0
        | true => exact Or.inl ⟨a, b, h0, h2⟩

theorem generate_adjacency_eq (map : Map) (current x y : Nat) :
    map.generate_adjacency current x y =
      map.add_standard_adjacency current (map.pixel_index x y) := by
  unfold generate_adjacency
  cases h : map.get_province_by_index (map.pixel_index x y) with
  | none => exact (add_standard_adjacency_invalid map _ _ (Or.inr (Or.inl h))).symm
  | some _ => rfl

theorem generate_pixel_eq (y : Nat) (state : Bool × Map) (x : Nat) :
    generate_pixel y state x =
      if y + 1 < state.2.height.toNat then
        ((state.1 ||
            (state.2.add_standard_adjacency (state.2.pixel_index x y)
              (state.2.pixel_index ((x + 1) % state.2.width.toNat) y)).1) ||
          ((state.2.add_standard_adjacency (state.2.pixel_index x y)
              (state.2.pixel_index ((x + 1) % state.2.width.toNat) y)).2.add_standard_adjacency
            (state.2.pixel_index x y)
            ((state.2.add_standard_adjacency (state.2.pixel_index x y)
              (state.2.pixel_index ((x + 1) % state.2.width.toNat) y)).2.pixel_index x
                (y + 1))).1,
          ((state.2.add_standard_adjacency (state.2.pixel_index x y)
              (state.2.pixel_index ((x + 1) % state.2.width.toNat) y)).2.add_standard_adjacency
            (state.2.pixel_index x y)
            ((state.2.add_standard_adjacency (state.2.pixel_index x y)
              (state.2.pixel_index ((x + 1) % state.2.width.toNat) y)).2.pixel_index x
                (y + 1))).2)
      else
        (state.1 ||
            (state.2.add_standard_adjacency (state.2.pixel_index x y)
              (state.2.pixel_index ((x + 1) % state.2.width.toNat) y)).1,
          (state.2.add_standard_adjacency (state.2.pixel_index x y)
            (state.2.pixel_index ((x + 1) % state.2.width.toNat) y)).2) := by
  unfold generate_pixel
  cases hcur : state.2.get_province_by_index (state.2.pixel_index x y) with
  | none =>
    dsimp only
    rw [add_standard_adjacency_invalid state.2 _ _ (Or.inl hcur)]
    dsimp only
    rw [add_standard_adjacency_invalid state.2 _ _ (Or.inl hcur)]
    split <;> simp
  | some _ =>
    dsimp only
    rw [generate_adjacency_eq, generate_adjacency_eq]

/-- The pairs of provinces for which the loop body of the generation calls
`add_standard_adjacency` at the pixel in column `x` of row `y`. -/
def pixel_pairs (map0 : Map) (x y : Nat) (a b : Nat) : Prop :=
  a = map0.pixel_index x y ∧
    (b = map0.pixel_index ((x + 1) % map0.width.toNat) y ∨
      (y + 1 < map0.height.toNat ∧ b = map0.pixel_index x (y + 1)))

theorem generated_pixel (map0 : Map) (R : Nat → Nat → Prop) (state : Bool × Map) (x y : Nat)
    (h : generated map0 R state) :
    generated map0 (fun a b => R a b ∨ pixel_pairs map0 x y a b) (generate_pixel y state x) := by
  have hframe := h.2.1
  have hstep1 := generated_step map0 R state (state.2.pixel_index x y)
    (state.2.pixel_index ((x + 1) % state.2.width.toNat) y) h
  rw [generate_pixel_eq]
  by_cases hy : y + 1 < state.2.height.toNat
  · rw [if_pos hy]
    have hstep2 := generated_step map0 _ _ (state.2.pixel_index x y)
      ((state.2.add_standard_adjacency (state.2.pixel_index x y)
        (state.2.pixel_index ((x + 1) % state.2.width.toNat) y)).2.pixel_index x (y + 1)) hstep1
    refine generated_congr ?_ hstep2
    intro a b
    rw [pixel_index_of_same_frame hstep1.2.1, pixel_index_of_same_frame hframe,
      pixel_index_of_same_frame hframe, hframe.1]
    rw [hframe.2.1] at hy
    unfold pixel_pairs
    constructor
    · rintro ((h | ⟨h1, h2⟩) | ⟨h1, h2⟩)
      · exact Or.inl h
      · exact Or.inr ⟨h1, Or.inl h2⟩
      · exact Or.inr ⟨h1, Or.inr ⟨hy, h2⟩⟩
    · rintro (h | ⟨h1, h2 | ⟨_, h2⟩⟩)
      · exact Or.inl (Or.inl h)
      · exact Or.inl (Or.inr ⟨h1, h2⟩)
      · exact Or.inr ⟨h1, h2⟩
  · rw [if_neg hy]
    refine generated_congr ?_ hstep1
    intro a b
    rw [pixel_index_of_same_frame hframe, pixel_index_of_same_frame hframe, hframe.1]
    rw [hframe.2.1] at hy
    unfold pixel_pairs
    constructor
    · rintro (h | ⟨h1, h2⟩)
      · exact Or.inl h
      · exact Or.inr ⟨h1, Or.inl h2⟩
    · rintro (h | ⟨h1, h2 | ⟨h3, _⟩⟩)
      · exact Or.inl h
      · exact Or.inr ⟨h1, h2⟩
      · exact absurd h3 hy

theorem generated_pixels (map0 : Map) (R : Nat → Nat → Prop) (y k : Nat) (state : Bool × Map)
    (h : generated map0 R state) :
    generated map0 (fun a b => R a b ∨ ∃ x, x < k ∧ pixel_pairs map0 x y a b)
      ((List.range k).foldl (generate_pixel y) state) := by
  induction k with
  | zero =>
    refine generated_congr ?_ h
    intro a b
    constructor
    · exact Or.inl
    · rintro (h | ⟨x, hx, _⟩)
      · exact h
      · exact absurd hx (Nat.not_lt_zero x)
  | succ k ih =>
    rw [List.range_succ, List.foldl_append, List.foldl_cons, List.foldl_nil]
    refine generated_congr ?_ (generated_pixel map0 _ _ k y ih)
    intro a b
    constructor
    · rintro ((h | ⟨x, hx, hp⟩) | hp)
      · exact Or.inl h
      · exact Or.inr ⟨x, Nat.lt_succ_of_lt hx, hp⟩
      · exact Or.inr ⟨k, Nat.lt_succ_self k, hp⟩
    · rintro (h | ⟨x, hx, hp⟩)
      · exact Or.inl (Or.inl h)
      · rcases Nat.lt_succ_iff_lt_or_eq.mp hx with hlt | rfl
        · exact Or.inl (Or.inr ⟨x, hlt, hp⟩)
        · exact Or.inr hp

theorem generated_row (map0 : Map) (R : Nat → Nat → Prop) (y : Nat) (state : Bool × Map)
    (h : generated map0 R state) :
    generated map0 (fun a b => R a b ∨ ∃ x, x < map0.width.toNat ∧ pixel_pairs map0 x y a b)
      (generate_row state y) := by
  unfold generate_row
  rw [h.2.1.1]
  exact generated_pixels map0 R y _ state h

theorem generated_rows (map0 : Map) (R : Nat → Nat → Prop) (k : Nat) (state : Bool × Map)
    (h : generated map0 R state) :
    generated map0
      (fun a b => R a b ∨
        ∃ y, y < k ∧ ∃ x, x < map0.width.toNat ∧ pixel_pairs map0 x y a b)
      ((List.range k).foldl generate_row state) := by
  induction k with
  | zero =>
    refine generated_congr ?_ h
    intro a b
    constructor
    · exact Or.inl
    · rintro (h | ⟨y, hy, _⟩)
      · exact h
      · exact absurd hy (Nat.not_lt_zero y)
  | succ k ih =>
    rw [List.range_succ, List.foldl_append, List.foldl_cons, List.foldl_nil]
    refine generated_congr ?_ (generated_row map0 _ k _ ih)
    intro a b
    constructor
    · rintro ((h | ⟨y, hy, hp⟩) | hp)
      · exact Or.inl h
      · exact Or.inr ⟨y, Nat.lt_succ_of_lt hy, hp⟩
      · exact Or.inr ⟨k, Nat.lt_succ_self k, hp⟩
    · rintro (h | ⟨y, hy, hp⟩)
      · exact Or.inl (Or.inl h)
      · rcases Nat.lt_succ_iff_lt_or_eq.mp hy with hlt | rfl
        · exact Or.inl (Or.inr ⟨y, hlt, hp⟩)
        · exact Or.inr hp

theorem generated_standard_province_adjacencies (map : Map)
    (hsym : symmetric_adjacencies map) :
    generated map
      (fun a b => ∃ y, y < map.height.toNat ∧ ∃ x, x < map.width.toNat ∧ pixel_pairs map x y a b)
      map._generate_standard_province_adjacencies := by
  unfold _generate_standard_province_adjacencies
  refine generated_congr ?_ (generated_rows map _ map.height.toNat _ (generated_initial map hsym))
  intro a b
  constructor
  · rintro (h | h)
    · exact h.elim
    · exact h
  · exact Or.inr

theorem adjacency_isSome_iff (map : Map) (a b : Nat) :
    (map.adjacency a b).isSome = true ↔
      ∃ province, map.get_province_by_index a = some province ∧
        province.is_adjacent_to b = true := by
  unfold adjacency
  cases h : map.get_province_by_index a with
  | none => simp
  | some province =>
    rw [Option.some_bind]
    simp [is_adjacent_to_eq]

theorem pixel_pairs_iff_four_neighbours (map : Map) (width height : Nat)
    (hwidth : map.width = width) (hheight : map.height = height) (a b : Nat) :
    ((∃ y, y < map.height.toNat ∧ ∃ x, x < map.width.toNat ∧ pixel_pairs map x y a b) ∨
        (∃ y, y < map.height.toNat ∧ ∃ x, x < map.width.toNat ∧ pixel_pairs map x y b a)) ↔
      ∃ x1 y1 x2 y2, spec_four_neighbours width height x1 y1 x2 y2 ∧
        map.pixel_index x1 y1 = a ∧ map.pixel_index x2 y2 = b := by
  have hW : map.width.toNat = width := by
    rw [hwidth]
    rfl
  have hH : map.height.toNat = height := by
    rw [hheight]
    rfl
  rw [hW, hH]
  unfold pixel_pairs spec_four_neighbours
  rw [hW, hH]
  constructor
  · rintro (⟨y, hy, x, hx, ha, hb | ⟨hy1, hb⟩⟩ | ⟨y, hy, x, hx, hb, ha | ⟨hy1, ha⟩⟩)
    · exact ⟨x, y, (x + 1) % width, y,
        ⟨hx, Nat.mod_lt _ (Nat.lt_of_le_of_lt (Nat.zero_le x) hx), hy, hy,
          Or.inl ⟨rfl, Or.inl rfl⟩⟩, ha.symm, hb.symm⟩
    · exact ⟨x, y, x, y + 1, ⟨hx, hx, hy, hy1, Or.inr ⟨rfl, Or.inl rfl⟩⟩, ha.symm, hb.symm⟩
    · exact ⟨(x + 1) % width, y, x, y,
        ⟨Nat.mod_lt _ (Nat.lt_of_le_of_lt (Nat.zero_le x) hx), hx, hy, hy,
          Or.inl ⟨rfl, Or.inr rfl⟩⟩, ha.symm, hb.symm⟩
    · exact ⟨x, y + 1, x, y, ⟨hx, hx, hy1, hy, Or.inr ⟨rfl, Or.inr rfl⟩⟩, ha.symm, hb.symm⟩
  · rintro ⟨x1, y1, x2, y2, ⟨hx1, hx2, hy1, hy2, ⟨hy, hx | hx⟩ | ⟨hx, hy | hy⟩⟩, ha, hb⟩
    · subst hy
      subst hx
      exact Or.inl ⟨y1, hy1, x1, hx1, ha.symm, Or.inl hb.symm⟩
    · subst hy
      subst hx
      exact Or.inr ⟨y1, hy1, x2, hx2, hb.symm, Or.inl ha.symm⟩
    · subst hx
      subst hy
      exact Or.inl ⟨y1, hy1, x1, hx1, ha.symm, Or.inr ⟨hy2, hb.symm⟩⟩
    · subst hx
      subst hy
      exact Or.inr ⟨y2, hy2, x1, hx1, hb.symm, Or.inr ⟨hy1, ha.symm⟩⟩

end Map

/-- C19: starting from a map whose provinces hold no adjacencies,
`_generate_standard_province_adjacencies` leaves two distinct provinces A and B
each adjacent to the other if and only if a pixel of A and a pixel of B are
4-neighbours in the shape image, where in each row the last column neighbours the
first and the last row does not neighbour the first; and the function returns true
if and only if afterwards some province holds an adjacency. -/
theorem generate_standard_province_adjacencies_neighbours (map : Map) (width height : Nat)
    (hwidth : map.width = width) (hheight : map.height = height)
    (hempty : ∀ province ∈ map.provinces, province.adjacencies = []) :
    (∀ a b, a ≠ b → (map.get_province_by_index a).isSome = true →
        (map.get_province_by_index b).isSome = true →
        (((∃ province_a,
              map._generate_standard_province_adjacencies.2.get_province_by_index a =
                some province_a ∧ province_a.is_adjacent_to b = true) ∧
            ∃ province_b,
              map._generate_standard_province_adjacencies.2.get_province_by_index b =
                some province_b ∧ province_b.is_adjacent_to a = true) ↔
          ∃ x1 y1 x2 y2, Map.spec_four_neighbours width height x1 y1 x2 y2 ∧
            map.pixel_index x1 y1 = a ∧ map.pixel_index x2 y2 = b)) ∧
      (map._generate_standard_province_adjacencies.1 = true ↔
        ∃ a province_a,
          map._generate_standard_province_adjacencies.2.get_province_by_index a =
            some province_a ∧ province_a.adjacencies ≠ []) := by
  obtain ⟨hsym, _, hadj, hchanged⟩ := Map.generated_standard_province_adjacencies map
    (Map.symmetric_of_no_adjacencies map hempty)
  have hnone := Map.adjacency_of_no_adjacencies map hempty
  constructor
  · intro a b hab ha hb
    rw [← Map.adjacency_isSome_iff, ← Map.adjacency_isSome_iff,
      ← Map.adjacency_isSome_comm hsym a b, and_self, hadj a b, hnone,
      ← Map.pixel_pairs_iff_four_neighbours map width height hwidth hheight a b]
    unfold Map.linked
    constructor
    · rintro (h | ⟨_, _, _, h⟩)
      · cases h
      · exact h
    · intro h
      exact Or.inr ⟨hab, ha, hb, h⟩
  · rw [hchanged]
    constructor
    · rintro ⟨a, b, h, _⟩
      obtain ⟨province_a, hget, hadjacent⟩ := (Map.adjacency_isSome_iff _ a b).mp h
      refine ⟨a, province_a, hget, ?_⟩
      intro hnil
      rw [Province.is_adjacent_to, hnil] at hadjacent
      cases hadjacent
    · rintro ⟨a, province_a, hget, hne⟩
      cases hlist : province_a.adjacencies with
      | nil => exact absurd hlist hne
      | cons adj rest =>
        refine ⟨a, adj.get_to, ?_, by rw [hnone]; rfl⟩
        rw [Map.adjacency_isSome_iff]
        refine ⟨province_a, hget, ?_⟩
        rw [Province.is_adjacent_to, hlist]
        simp

theorem generate_standard_province_adjacencies_neighbours_witness :
    (∃ province_a,
        scenario_map_image._generate_standard_province_adjacencies.2.get_province_by_index 4 =
          some province_a ∧ province_a.is_adjacent_to 2 = true) ∧
      ∃ province_b,
        scenario_map_image._generate_standard_province_adjacencies.2.get_province_by_index 2 =
          some province_b ∧ province_b.is_adjacent_to 4 = true :=
  ((generate_standard_province_adjacencies_neighbours scenario_map_image 3 3 rfl rfl
    (by decide)).1 4 2 (by decide) rfl rfl).mpr ⟨2, 1, 0, 1, by decide, rfl, rfl⟩

/-- The generation on the scenario image returns true; province 4 holds an
adjacency to province 2, whose pixels it meets only across the edge of the row, and
province 1 holds none to province 5, whose row is the last. -/
theorem scenario_map_image_generated :
    scenario_map_image._generate_standard_province_adjacencies.1 = true ∧
      (scenario_map_image._generate_standard_province_adjacencies.2.adjacency 4 2).isSome =
        true ∧
      (scenario_map_image._generate_standard_province_adjacencies.2.adjacency 1 5).isSome =
        false := by
  decide

/-! ## Lemmas on the province registry -/

namespace Map

theorem find_colour_append (entries : List (colour_t × Nat)) (colour other : colour_t)
    (index : Nat) (habsent : entries.find? (fun entry => entry.1 = colour) = none) :
    (entries ++ [(colour, index)]).find? (fun entry => entry.1 = other) =
      if other = colour then some (colour, index)
      else entries.find? (fun entry => entry.1 = other) := by
  rw [List.find?_append]
  by_cases h : other = colour
  · subst h
    rw [habsent, if_pos rfl]
    simp
  · rw [if_neg h]
    cases hfind : entries.find? (fun entry => entry.1 = other) with
    | some e => rfl
    | none =>
      simp only [Option.none_or, List.find?_cons, List.find?_nil]
      have : ¬ colour = other := fun e => h e.symm
      simp [this]

theorem set_colour_index_absent (entries : List (colour_t × Nat)) (colour : colour_t)
    (index : Nat) (habsent : entries.find? (fun entry => entry.1 = colour) = none) :
    set_colour_index entries colour index = entries ++ [(colour, index)] := by
  unfold set_colour_index
  have : entries.any (fun entry => entry.1 = colour) = false := by
    rw [List.find?_eq_none] at habsent
    rw [List.any_eq_false]
    exact habsent
  rw [this]
  rfl

/-- The provinces of the registry carry their positions as indices, the colour
index map leads from the colour of each to its index, and it holds no null index. -/
def registered (map : Map) : Prop :=
  map.max_provinces ≤ 65535 ∧ map.provinces.length ≤ map.max_provinces ∧
    (∀ entry ∈ map.colour_index_map, entry.2 ≠ 0) ∧
    ∀ k province, map.provinces[k]? = some province →
      province.index = k + 1 ∧ map.get_index_from_colour province.colour = k + 1

theorem get_index_from_colour_eq_zero {map : Map} {colour : colour_t}
    (hentries : ∀ entry ∈ map.colour_index_map, entry.2 ≠ 0)
    (h : map.get_index_from_colour colour = 0) :
    map.colour_index_map.find? (fun entry => entry.1 = colour) = none := by
  unfold get_index_from_colour at h
  cases hfind : map.colour_index_map.find? (fun entry => entry.1 = colour) with
  | none => rfl
  | some entry =>
    rw [hfind] at h
    exact absurd h (hentries entry (List.mem_of_find?_eq_some hfind))

theorem add_province_spec (map : Map) (identifier : String) (colour : colour_t)
    (hinv : registered map) :
    registered (map.add_province identifier colour).2 ∧
      ((map.add_province identifier colour).1 = true →
        identifier ≠ "" ∧ colour.is_null = false ∧
          (∀ province ∈ map.provinces, province.colour ≠ colour) ∧
          (map.add_province identifier colour).2.provinces =
            map.provinces ++
              [{ identifier := identifier, colour := colour,
                 index := map.provinces.length + 1 }] ∧
          (map.add_province identifier colour).2.get_index_from_colour colour =
            map.provinces.length + 1) := by
  obtain ⟨hmax, hlen, hentries, hprov⟩ := hinv
  have hkeep : registered map := ⟨hmax, hlen, hentries, hprov⟩
  unfold add_province
  by_cases h1 : map.provinces.length ≥ map.max_provinces
  · rw [if_pos h1]
    exact ⟨hkeep, fun h => (by cases h)⟩
  rw [if_neg h1]
  by_cases h2 : identifier.isEmpty = true
  · rw [if_pos h2]
    exact ⟨hkeep, fun h => (by cases h)⟩
  rw [if_neg h2]
  by_cases h3 : (!valid_basic_identifier identifier) = true
  · rw [if_pos h3]
    exact ⟨hkeep, fun h => (by cases h)⟩
  rw [if_neg h3]
  by_cases h4 : colour.is_null = true
  · rw [if_pos h4]
    exact ⟨hkeep, fun h => (by cases h)⟩
  rw [if_neg h4]
  dsimp only
  by_cases h5 : map.get_index_from_colour colour ≠ 0
  · rw [if_pos h5]
    exact ⟨hkeep, fun h => (by cases h)⟩
  rw [if_neg h5]
  have h5z : map.get_index_from_colour colour = 0 := not_not.mp h5
  have hlt : map.provinces.length < map.max_provinces := Nat.lt_of_not_ge h1
  have hmod : (map.provinces.length + 1) % 65536 = map.provinces.length + 1 :=
    Nat.mod_eq_of_lt (by omega)
  rw [hmod]
  have habsent := get_index_from_colour_eq_zero hentries h5z
  rw [set_colour_index_absent _ _ _ habsent]
  have hother : ∀ province ∈ map.provinces, province.colour ≠ colour := by
    intro province hmem hcol
    obtain ⟨k, hk⟩ := List.getElem?_of_mem hmem
    have := (hprov k province hk).2
    rw [hcol, h5z] at this
    omega
  have hlookup : ∀ (provinces : List Province) (other : colour_t),
      get_index_from_colour
          { map with
            colour_index_map := map.colour_index_map ++ [(colour, map.provinces.length + 1)],
            provinces := provinces } other =
        if other = colour then map.provinces.length + 1
        else map.get_index_from_colour other := by
    intro provinces other
    unfold get_index_from_colour
    dsimp only
    rw [find_colour_append _ _ _ _ habsent]
    by_cases h : other = colour
    · rw [if_pos h, if_pos h]
    · rw [if_neg h, if_neg h]
  have hentries1 : ∀ entry ∈ map.colour_index_map ++ [(colour, map.provinces.length + 1)],
      entry.2 ≠ 0 := by
    intro entry hmem
    rcases List.mem_append.mp hmem with h | h
    · exact hentries entry h
    · rw [List.mem_singleton.mp h]
      exact Nat.succ_ne_zero _
  have hisempty : identifier ≠ "" := by
    intro h
    apply h2
    rw [h]
    rfl
  have hnull : colour.is_null = false := by
    cases h : colour.is_null with
    | false => rfl
    | true => exact absurd h h4
  unfold IdentifierRegistry.add_item
  by_cases hlocked : map.provinces_locked = true
  · rw [if_pos hlocked]
    refine ⟨⟨hmax, hlen, hentries1, ?_⟩, fun h => (by cases h)⟩
    intro k province hk
    dsimp only at hk ⊢
    rw [hlookup, if_neg (hother province (List.getElem?_mem hk))]
    exact hprov k province hk
  rw [if_neg hlocked]
  by_cases hdup : (map.provinces.any (fun other =>
      other.identifier =
        ({ identifier := identifier, colour := colour,
           index := map.provinces.length + 1 } : Province).identifier)) = true
  · rw [if_pos hdup]
    refine ⟨⟨hmax, hlen, hentries1, ?_⟩, fun h => (by cases h)⟩
    intro k province hk
    dsimp only at hk ⊢
    rw [hlookup, if_neg (hother province (List.getElem?_mem hk))]
    exact hprov k province hk
  rw [if_neg hdup]
  refine ⟨⟨hmax, ?_, hentries1, ?_⟩, fun _ => ⟨hisempty, hnull, hother, rfl, ?_⟩⟩
  · dsimp only
    rw [List.length_append, List.length_singleton]
    exact hlt
  · intro k province hk
    dsimp only at hk ⊢
    rw [hlookup]
    by_cases hkl : k < map.provinces.length
    · rw [List.getElem?_append_left hkl] at hk
      rw [if_neg (hother province (List.getElem?_mem hk))]
      exact hprov k province hk
    · rw [List.getElem?_append_right (Nat.le_of_not_lt hkl)] at hk
      have hk0 : k - map.provinces.length = 0 := by
        by_contra hne
        rw [List.getElem?_eq_none (by simp; omega)] at hk
        cases hk
      rw [hk0] at hk
      simp only [List.getElem?_cons_zero, Option.some.injEq] at hk
      subst hk
      have : k = map.provinces.length := by omega
      rw [if_pos rfl, this]
      exact ⟨rfl, rfl⟩
  · dsimp only
    rw [hlookup, if_pos rfl]

theorem registered_add_provinces (calls : List (String × colour_t)) (map : Map)
    (hinv : registered map) : registered (map.add_provinces calls) := by
  induction calls generalizing map with
  | nil => exact hinv
  | cons call rest ih =>
    unfold add_provinces
    rw [List.foldl_cons]
    exact ih _ (add_province_spec map call.1 call.2 hinv).1

theorem registered_of_empty (map : Map) (hempty : map.provinces = [])
    (hmap : map.colour_index_map = []) (hmax : map.max_provinces ≤ 65535) :
    registered map := by
  refine ⟨hmax, ?_, ?_, ?_⟩
  · rw [hempty]
    exact Nat.zero_le _
  · rw [hmap]
    intro entry h
    cases h
  · intro k province hk
    rw [hempty] at hk
    cases hk

end Map

/-- C21: on a map reached from an empty province registry by `add_province` calls,
`add_province` returns true only for a non-empty identifier and a non-null colour
that no registered province has; the new province is then appended with the index
(number of provinces before the call) + 1, and `get_index_from_colour` of its colour
returns that index. Two distinct provinces of the registry never have the same
colour. -/
theorem add_province_distinct_colours (map : Map) (calls : List (String × colour_t))
    (identifier : String) (colour : colour_t)
    (hempty : map.provinces = []) (hmap : map.colour_index_map = [])
    (hmax : map.max_provinces ≤ 65535) :
    (((map.add_provinces calls).add_province identifier colour).1 = true →
        identifier ≠ "" ∧ colour.is_null = false ∧
          (∀ province ∈ (map.add_provinces calls).provinces, province.colour ≠ colour) ∧
          ((map.add_provinces calls).add_province identifier colour).2.provinces =
            (map.add_provinces calls).provinces ++
              [{ identifier := identifier, colour := colour,
                 index := (map.add_provinces calls).provinces.length + 1 }] ∧
          ((map.add_provinces calls).add_province identifier colour).2.get_index_from_colour
              colour =
            (map.add_provinces calls).provinces.length + 1) ∧
      ∀ (i j : Nat) (province_i province_j : Province),
        (map.add_provinces calls).provinces[i]? = some province_i →
        (map.add_provinces calls).provinces[j]? = some province_j →
        province_i.colour = province_j.colour → i = j := by
  have hinv := Map.registered_add_provinces calls map
    (Map.registered_of_empty map hempty hmap hmax)
  refine ⟨(Map.add_province_spec _ identifier colour hinv).2, ?_⟩
  intro i j province_i province_j hi hj hcol
  have h1 := (hinv.2.2.2 i province_i hi).2
  have h2 := (hinv.2.2.2 j province_j hj).2
  rw [hcol, h2] at h1
  omega

theorem add_province_distinct_colours_witness :
    (({ provinces := [] } : Map).add_provinces
        [("p1", ⟨255, 0, 0⟩), ("p2", ⟨0, 255, 0⟩)]).get_index_from_colour ⟨0, 255, 0⟩ = 2 ∧
      ((({ provinces := [] } : Map).add_provinces
          [("p1", ⟨255, 0, 0⟩), ("p2", ⟨0, 255, 0⟩)]).add_province "p3"
            ⟨0, 0, 255⟩).2.get_index_from_colour ⟨0, 0, 255⟩ = 3 :=
  ⟨by decide,
    ((add_province_distinct_colours { provinces := [] }
      [("p1", ⟨255, 0, 0⟩), ("p2", ⟨0, 255, 0⟩)] "p3" ⟨0, 0, 255⟩ rfl rfl
      (by decide)).1 (by decide)).2.2.2.2⟩

/-- The function `add_province` refuses the colour of a registered province, the
null colour and the empty identifier. -/
theorem add_province_rejections :
    ((({ provinces := [] } : Map).add_provinces
        [("p1", ⟨255, 0, 0⟩), ("p2", ⟨0, 255, 0⟩)]).add_province "p3" ⟨255, 0, 0⟩).1 = false ∧
      (({ provinces := [] } : Map).add_province "p1" ⟨0, 0, 0⟩).1 = false ∧
      (({ provinces := [] } : Map).add_province "" ⟨1, 0, 0⟩).1 = false := by
  decide

/-! ## Lemmas on the regions of a map -/

namespace Map

theorem mem_add_provinces (new_provinces provinces : List Nat) (province : Nat) :
    province ∈ (ProvinceSet.add_provinces provinces new_provinces).2 ↔
      province ∈ provinces ∨ province ∈ new_provinces := by
  unfold ProvinceSet.add_provinces
  suffices h : ∀ (flag : Bool) (provinces : List Nat),
      province ∈ (new_provinces.foldl
        (fun state province =>
          ((state.1 && (ProvinceSet.add_province state.2 province).1),
            (ProvinceSet.add_province state.2 province).2))
        (flag, provinces)).2 ↔ province ∈ provinces ∨ province ∈ new_provinces from
    h true provinces
  induction new_provinces with
  | nil =>
    intro flag provinces
    simp
  | cons first rest ih =>
    intro flag provinces
    rw [List.foldl_cons, ih]
    unfold ProvinceSet.add_province
    by_cases hmem : first ∈ provinces
    · rw [if_pos hmem]
      constructor
      · rintro (h | h)
        · exact Or.inl h
        · exact Or.inr (List.mem_cons_of_mem _ h)
      · rintro (h | h)
        · exact Or.inl h
        · rcases List.mem_cons.mp h with h | h
          · exact Or.inl (h ▸ hmem)
          · exact Or.inr h
    · rw [if_neg hmem]
      simp only [List.mem_append, List.mem_singleton, List.mem_cons]
      tauto

theorem get_has_region_set (map : Map) (province other : Nat) (marked : Province)
    (hget : map.get_province_by_index province = some marked) :
    (map.set_province province { marked with has_region := true }).get_has_region other =
      (map.get_has_region other || decide (other = province)) := by
  unfold get_has_region
  rw [get_set_province, hget]
  by_cases h : other = province
  · subst h
    simp
  · simp [h]

theorem isSome_get_mark_has_region (provinces : List Nat) (map : Map) (other : Nat) :
    ((mark_has_region map provinces).get_province_by_index other).isSome =
      (map.get_province_by_index other).isSome := by
  induction provinces generalizing map with
  | nil => rfl
  | cons first rest ih =>
    unfold mark_has_region
    rw [List.foldl_cons]
    have := ih
    unfold mark_has_region at this
    rw [this]
    cases hget : map.get_province_by_index first with
    | none => rfl
    | some marked => exact (same_frame_set_province map _ _).2.2.2 other

theorem get_has_region_mark (provinces : List Nat) (map : Map) (other : Nat)
    (hvalid : ∀ province ∈ provinces, (map.get_province_by_index province).isSome = true) :
    (mark_has_region map provinces).get_has_region other =
      (map.get_has_region other || decide (other ∈ provinces)) := by
  induction provinces generalizing map with
  | nil => simp [mark_has_region]
  | cons first rest ih =>
    obtain ⟨marked, hget⟩ := Option.isSome_iff_exists.mp (hvalid first (List.mem_cons_self _ _))
    have hstep : mark_has_region map (first :: rest) =
        mark_has_region (map.set_province first { marked with has_region := true }) rest := by
      unfold mark_has_region
      rw [List.foldl_cons, hget]
    rw [hstep, ih, get_has_region_set map first other marked hget]
    · by_cases h1 : other = first
      · simp [h1]
      · simp [h1]
    · intro province hmem
      rw [(same_frame_set_province map _ _).2.2.2 province]
      exact hvalid province (List.mem_cons_of_mem _ hmem)

theorem regions_set_province (map : Map) (index : Nat) (province : Province) :
    (map.set_province index province).regions = map.regions := by
  unfold set_province
  split <;> rfl

theorem regions_mark_has_region (provinces : List Nat) (map : Map) :
    (mark_has_region map provinces).regions = map.regions := by
  induction provinces generalizing map with
  | nil => rfl
  | cons first rest ih =>
    unfold mark_has_region
    rw [List.foldl_cons]
    have := ih
    unfold mark_has_region at this
    rw [this]
    cases hget : map.get_province_by_index first with
    | none => rfl
    | some marked => exact regions_set_province map _ _

/-- The flag `has_region` marks the provinces of the non-meta regions, a region is
meta exactly when an earlier non-meta region holds one of its provinces, and the
regions hold provinces of the map only. -/
def regions_marked (map : Map) : Prop :=
  (∀ province, map.get_has_region province = true ↔
      ∃ region ∈ map.regions, region.meta = false ∧ province ∈ region.provinces) ∧
    (∀ (k : Nat) (region : Region), map.regions[k]? = some region →
      (region.meta = true ↔
        ∃ province ∈ region.provinces, ∃ (j : Nat) (earlier : Region), j < k ∧
          map.regions[j]? = some earlier ∧ earlier.meta = false ∧
          province ∈ earlier.provinces))

theorem mem_iff_getElem?_lt {T : Type} (items : List T) (item : T) :
    item ∈ items ↔ ∃ j, j < items.length ∧ items[j]? = some item := by
  constructor
  · intro h
    obtain ⟨j, hj⟩ := List.getElem?_of_mem h
    refine ⟨j, ?_, hj⟩
    by_contra hlt
    rw [List.getElem?_eq_none (Nat.le_of_not_lt hlt)] at hj
    cases hj
  · rintro ⟨j, _, hj⟩
    exact List.getElem?_mem hj

theorem regions_marked_append (map map1 : Map) (region : Region)
    (hregions : map1.regions = map.regions ++ [region])
    (hmeta : region.meta = true ↔
      ∃ province ∈ region.provinces, map.get_has_region province = true)
    (hflags : ∀ province, map1.get_has_region province = true ↔
      map.get_has_region province = true ∨ (region.meta = false ∧ province ∈ region.provinces))
    (hinv : regions_marked map) : regions_marked map1 := by
  obtain ⟨h1, h2⟩ := hinv
  constructor
  · intro province
    rw [hflags, h1, hregions]
    constructor
    · rintro (⟨r, hr, hm, hp⟩ | ⟨hm, hp⟩)
      · exact ⟨r, List.mem_append_left _ hr, hm, hp⟩
      · exact ⟨region, List.mem_append_right _ (List.mem_singleton_self _), hm, hp⟩
    · rintro ⟨r, hr, hm, hp⟩
      rcases List.mem_append.mp hr with h | h
      · exact Or.inl ⟨r, h, hm, hp⟩
      · rw [List.mem_singleton.mp h] at hm hp
        exact Or.inr ⟨hm, hp⟩
  · intro k r hk
    rw [hregions] at hk
    by_cases hkl : k < map.regions.length
    · rw [List.getElem?_append_left hkl] at hk
      rw [h2 k r hk]
      constructor
      · rintro ⟨p, hp, j, earlier, hj, hget, hm, hpe⟩
        refine ⟨p, hp, j, earlier, hj, ?_, hm, hpe⟩
        rw [hregions, List.getElem?_append_left (Nat.lt_trans hj hkl)]
        exact hget
      · rintro ⟨p, hp, j, earlier, hj, hget, hm, hpe⟩
        refine ⟨p, hp, j, earlier, hj, ?_, hm, hpe⟩
        rw [hregions, List.getElem?_append_left (Nat.lt_trans hj hkl)] at hget
        exact hget
    · rw [List.getElem?_append_right (Nat.le_of_not_lt hkl)] at hk
      have hk0 : k - map.regions.length = 0 := by
        by_contra hne
        rw [List.getElem?_eq_none (by simp; omega)] at hk
        cases hk
      rw [hk0] at hk
      simp only [List.getElem?_cons_zero, Option.some.injEq] at hk
      subst hk
      have hkeq : k = map.regions.length := by omega
      rw [hmeta]
      constructor
      · rintro ⟨p, hp, hflag⟩
        obtain ⟨r, hr, hm, hpr⟩ := (h1 p).mp hflag
        obtain ⟨j, hj, hget⟩ := (mem_iff_getElem?_lt _ _).mp hr
        refine ⟨p, hp, j, r, by omega, ?_, hm, hpr⟩
        rw [hregions, List.getElem?_append_left hj]
        exact hget
      · rintro ⟨p, hp, j, earlier, hj, hget, hm, hpe⟩
        refine ⟨p, hp, (h1 p).mpr ⟨earlier, ?_, hm, hpe⟩⟩
        rw [hregions, List.getElem?_append_left (by omega)] at hget
        exact List.getElem?_mem hget

theorem add_region_spec (map : Map) (identifier : String) (provinces : List Nat)
    (colour : colour_t)
    (hvalid : ∀ province ∈ provinces, (map.get_province_by_index province).isSome = true)
    (hinv : regions_marked map) :
    regions_marked (map.add_region identifier provinces colour).2 ∧
      ∀ other, ((map.add_region identifier provinces colour).2.get_province_by_index
          other).isSome = (map.get_province_by_index other).isSome := by
  unfold add_region
  by_cases h1 : identifier.isEmpty = true
  · rw [if_pos h1]
    exact ⟨hinv, fun _ => rfl⟩
  rw [if_neg h1]
  by_cases h2 : provinces.isEmpty = true
  · rw [if_pos h2]
    exact ⟨hinv, fun _ => rfl⟩
  rw [if_neg h2]
  dsimp only
  unfold IdentifierRegistry.add_item
  by_cases h3 : map.regions_locked = true
  · rw [if_pos h3]
    exact ⟨hinv, fun _ => rfl⟩
  rw [if_neg h3]
  split
  · exact ⟨hinv, fun _ => rfl⟩
  · rw [if_pos rfl]
    have hmeta_iff : (provinces.any map.get_has_region = true ↔
        ∃ province ∈ (ProvinceSet.add_provinces [] provinces).2,
          map.get_has_region province = true) := by
      rw [List.any_eq_true]
      constructor
      · rintro ⟨p, hp, hflag⟩
        exact ⟨p, (mem_add_provinces _ _ _).mpr (Or.inr hp), hflag⟩
      · rintro ⟨p, hp, hflag⟩
        rcases (mem_add_provinces _ _ _).mp hp with h | h
        · cases h
        · exact ⟨p, h, hflag⟩
    cases hmeta : provinces.any map.get_has_region with
    | false =>
      rw [if_pos (show (!false) = true from rfl)]
      dsimp only
      refine ⟨regions_marked_append map _ _ (regions_mark_has_region _ _) ?_ ?_ hinv, ?_⟩
      · dsimp only
        rw [← hmeta_iff, hmeta]
      · intro p
        rw [get_has_region_mark provinces _ p]
        · dsimp only
          rw [Bool.or_eq_true, decide_eq_true_eq, mem_add_provinces]
          constructor
          · rintro (h | h)
            · exact Or.inl h
            · exact Or.inr ⟨rfl, Or.inr h⟩
          · rintro (h | ⟨_, h | h⟩)
            · exact Or.inl h
            · cases h
            · exact Or.inr h
        · exact hvalid
      · intro other
        exact isSome_get_mark_has_region provinces _ other
    | true =>
      rw [if_neg (show ¬ (!true) = true by decide)]
      dsimp only
      refine ⟨regions_marked_append map _ _ rfl ?_ ?_ hinv, fun _ => rfl⟩
      · dsimp only
        rw [← hmeta_iff, hmeta]
      · intro p
        constructor
        · exact Or.inl
        · rintro (h | ⟨h, _⟩)
          · exact h
          · cases h

theorem regions_marked_add_regions (calls : List region_call) (map : Map)
    (hvalid : ∀ call ∈ calls, ∀ province ∈ call.provinces,
      (map.get_province_by_index province).isSome = true)
    (hinv : regions_marked map) : regions_marked (map.add_regions calls) := by
  induction calls generalizing map with
  | nil => exact hinv
  | cons call rest ih =>
    unfold add_regions
    rw [List.foldl_cons]
    have hstep := add_region_spec map call.identifier call.provinces call.colour
      (hvalid call (List.mem_cons_self _ _)) hinv
    refine ih _ ?_ hstep.1
    intro other hother province hmem
    rw [hstep.2]
    exact hvalid other (List.mem_cons_of_mem _ hother) province hmem

theorem regions_marked_of_empty (map : Map) (hregions : map.regions = [])
    (hflags : ∀ province ∈ map.provinces, province.has_region = false) :
    regions_marked map := by
  constructor
  · intro province
    rw [hregions]
    constructor
    · intro h
      unfold get_has_region at h
      cases hget : map.get_province_by_index province with
      | none =>
        rw [hget] at h
        cases h
      | some p =>
        rw [hget] at h
        dsimp only at h
        rw [hflags p (mem_of_get_province_by_index hget)] at h
        cases h
    · rintro ⟨r, hr, _⟩
      cases hr
  · intro k region hk
    rw [hregions] at hk
    cases hk

end Map

/-- C22: starting from a map without regions whose provinces are not marked as
having a region, after any sequence of `add_region` calls on provinces of the map a
region of the registry is meta if and only if one of its provinces is a member of a
non-meta region added before it; and no province is a member of two non-meta
regions. -/
theorem add_region_meta_iff (map : Map) (calls : List Map.region_call)
    (hregions : map.regions = [])
    (hflags : ∀ province ∈ map.provinces, province.has_region = false)
    (hvalid : ∀ call ∈ calls, ∀ province ∈ call.provinces,
      (map.get_province_by_index province).isSome = true) :
    (∀ (k : Nat) (region : Region), (map.add_regions calls).regions[k]? = some region →
      (region.meta = true ↔
        ∃ province ∈ region.provinces, ∃ (j : Nat) (earlier : Region), j < k ∧
          (map.add_regions calls).regions[j]? = some earlier ∧ earlier.meta = false ∧
          province ∈ earlier.provinces)) ∧
      ∀ (province i j : Nat) (region_i region_j : Region),
        (map.add_regions calls).regions[i]? = some region_i →
        (map.add_regions calls).regions[j]? = some region_j →
        region_i.meta = false → region_j.meta = false →
        province ∈ region_i.provinces → province ∈ region_j.provinces → i = j := by
  have hinv := Map.regions_marked_add_regions calls map hvalid
    (Map.regions_marked_of_empty map hregions hflags)
  refine ⟨hinv.2, ?_⟩
  intro province i j region_i region_j hi hj hmi hmj hpi hpj
  rcases Nat.lt_trichotomy i j with h | h | h
  · have := (hinv.2 j region_j hj).mpr ⟨province, hpj, i, region_i, h, hi, hmi, hpi⟩
    rw [hmj] at this
    cases this
  · exact h
  · have := (hinv.2 i region_i hi).mpr ⟨province, hpi, j, region_j, h, hj, hmj, hpj⟩
    rw [hmi] at this
    cases this

theorem add_region_meta_iff_witness :
    ((scenario_map.add_regions
        [{ identifier := "r1", provinces := [1, 2] }, { identifier := "r2", provinces := [2, 3] },
          { identifier := "r3", provinces := [3] }]).regions.map
        (fun region => (region.identifier, region.meta)) =
      [("r1", false), ("r2", true), ("r3", false)]) ∧
    ((true = true) ↔
      ∃ province ∈ [2, 3], ∃ (j : Nat) (earlier : Region), j < 1 ∧
        (scenario_map.add_regions
          [{ identifier := "r1", provinces := [1, 2] },
            { identifier := "r2", provinces := [2, 3] },
            { identifier := "r3", provinces := [3] }]).regions[j]? = some earlier ∧
        earlier.meta = false ∧ province ∈ earlier.provinces) :=
  ⟨by decide,
    (add_region_meta_iff scenario_map
      [{ identifier := "r1", provinces := [1, 2] }, { identifier := "r2", provinces := [2, 3] },
        { identifier := "r3", provinces := [3] }]
      rfl (by decide) (by decide)).1 1
      { identifier := "r2", meta := true, provinces := [2, 3] } rfl⟩

/-! ## Lemmas on the grouping of provinces into states -/

namespace StateManager

/-- What decides the state of a province: the owner and the colony status of its
instance. -/
def key (map_instance : MapInstance) (province : Nat) :
    Option (Option String × colony_status_t) :=
  (map_instance.get_province_instance_from_definition province).map
    (fun province_instance => (province_instance.owner, province_instance.colony_status))

/-- The key of the front province of a group. -/
def group_key (map_instance : MapInstance) (provinces : List Nat) :
    Option (Option String × colony_status_t) :=
  provinces.head?.bind (key map_instance)

theorem same_state_iff (lhs rhs : ProvinceInstance) :
    provinces_belong_in_same_state lhs rhs = true ↔
      (lhs.owner, lhs.colony_status) = (rhs.owner, rhs.colony_status) := by
  unfold provinces_belong_in_same_state
  simp

theorem group_key_append (map_instance : MapInstance) (provinces : List Nat) (province : Nat)
    (h : provinces ≠ []) :
    group_key map_instance (provinces ++ [province]) = group_key map_instance provinces := by
  unfold group_key
  cases provinces with
  | nil => exact absurd rfl h
  | cons first rest => rfl

theorem add_to_existing_spec (map_instance : MapInstance) (province : Nat)
    (province_instance : ProvinceInstance)
    (hget : map_instance.get_province_instance_from_definition province =
      some province_instance)
    (groups : List (List Nat)) :
    match add_to_existing map_instance province province_instance groups with
    | some grouped =>
      ∃ before provinces after, groups = before ++ provinces :: after ∧
        grouped = before ++ (provinces ++ [province]) :: after ∧
        group_key map_instance provinces = key map_instance province
    | none => ∀ provinces ∈ groups,
        group_key map_instance provinces ≠ key map_instance province := by
  have hkey : key map_instance province =
      some (province_instance.owner, province_instance.colony_status) := by
    unfold key
    rw [hget]
    rfl
  induction groups with
  | nil =>
    unfold add_to_existing
    intro provinces h
    cases h
  | cons provinces rest ih =>
    unfold add_to_existing
    cases hfront : provinces.head?.bind map_instance.get_province_instance_from_definition with
    | none =>
      dsimp only
      have hgk : group_key map_instance provinces = none := by
        unfold group_key key
        cases hhead : provinces.head? with
        | none => rfl
        | some first =>
          rw [hhead] at hfront
          rw [Option.some_bind] at hfront ⊢
          rw [hfront]
          rfl
      cases hrest : add_to_existing map_instance province province_instance rest with
      | none =>
        rw [hrest] at ih
        intro other hmem
        rcases List.mem_cons.mp hmem with h | h
        · rw [h, hgk, hkey]
          exact fun e => (by cases e)
        · exact ih other h
      | some grouped =>
        rw [hrest] at ih
        obtain ⟨before, g, after, h1, h2, h3⟩ := ih
        exact ⟨provinces :: before, g, after, by rw [h1]; rfl, by rw [h2]; rfl, h3⟩
    | some front =>
      dsimp only
      have hgk : group_key map_instance provinces =
          some (front.owner, front.colony_status) := by
        unfold group_key key
        cases hhead : provinces.head? with
        | none =>
          rw [hhead] at hfront
          cases hfront
        | some first =>
          rw [hhead] at hfront
          rw [Option.some_bind] at hfront ⊢
          rw [hfront]
          rfl
      by_cases hsame : provinces_belong_in_same_state front province_instance = true
      · rw [if_pos hsame]
        refine ⟨[], provinces, rest, rfl, rfl, ?_⟩
        rw [hgk, hkey, (same_state_iff _ _).mp hsame]
      · rw [if_neg hsame]
        cases hrest : add_to_existing map_instance province province_instance rest with
        | none =>
          rw [hrest] at ih
          intro other hmem
          rcases List.mem_cons.mp hmem with h | h
          · rw [h, hgk, hkey]
            intro e
            apply hsame
            rw [same_state_iff]
            exact Option.some.inj e
          · exact ih other h
        | some grouped =>
          rw [hrest] at ih
          obtain ⟨before, g, after, h1, h2, h3⟩ := ih
          exact ⟨provinces :: before, g, after, by rw [h1]; rfl, by rw [h2]; rfl, h3⟩

/-- The groups hold exactly the provinces dealt with so far, each group the
provinces of one key, no two groups the same key. -/
def grouped (map_instance : MapInstance) (done : List Nat) (groups : List (List Nat)) :
    Prop :=
  (∀ provinces ∈ groups, provinces ≠ []) ∧
    (∀ provinces ∈ groups, ∀ province ∈ provinces,
      (key map_instance province).isSome = true ∧
        key map_instance province = group_key map_instance provinces) ∧
    (groups.map (group_key map_instance)).Nodup ∧
    (∀ province, (∃ provinces ∈ groups, province ∈ provinces) ↔ province ∈ done) ∧
    groups.length ≤ done.length

theorem grouped_group_province (map_instance : MapInstance) (done : List Nat)
    (groups : List (List Nat)) (province : Nat)
    (hvalid : (map_instance.get_province_instance_from_definition province).isSome = true)
    (h : grouped map_instance done groups) :
    grouped map_instance (done ++ [province]) (group_province map_instance groups province) := by
  obtain ⟨province_instance, hget⟩ := Option.isSome_iff_exists.mp hvalid
  obtain ⟨h1, h2, h3, h4, h5⟩ := h
  have hkeysome : (key map_instance province).isSome = true := by
    unfold key
    rw [hget]
    rfl
  unfold group_province
  rw [hget]
  dsimp only
  have hspec := add_to_existing_spec map_instance province province_instance hget groups
  cases hadd : add_to_existing map_instance province province_instance groups with
  | some result =>
    rw [hadd] at hspec
    obtain ⟨before, provinces, after, hg, hr, hk⟩ := hspec
    dsimp only
    subst hg
    subst hr
    have hne : provinces ≠ [] := h1 provinces (by simp)
    refine ⟨?_, ?_, ?_, ?_, ?_⟩
    · intro g hmem
      rcases List.mem_append.mp hmem with h | h
      · exact h1 g (by simp [h])
      · rcases List.mem_cons.mp h with h | h
        · rw [h]
          simp
        · exact h1 g (by simp [h])
    · intro g hmem q hq
      rcases List.mem_append.mp hmem with h | h
      · exact h2 g (by simp [h]) q hq
      · rcases List.mem_cons.mp h with h | h
        · subst h
          rw [group_key_append _ _ _ hne]
          rcases List.mem_append.mp hq with hq | hq
          · exact h2 provinces (by simp) q hq
          · rw [List.mem_singleton.mp hq]
            exact ⟨hkeysome, hk.symm⟩
        · exact h2 g (by simp [h]) q hq
    · rw [List.map_append, List.map_cons, group_key_append _ _ _ hne]
      rw [List.map_append, List.map_cons] at h3
      exact h3
    · intro q
      rw [List.mem_append, List.mem_singleton, ← h4 q]
      constructor
      · rintro ⟨g, hmem, hq⟩
        rcases List.mem_append.mp hmem with h | h
        · exact Or.inl ⟨g, by simp [h], hq⟩
        · rcases List.mem_cons.mp h with h | h
          · subst h
            rcases List.mem_append.mp hq with hq | hq
            · exact Or.inl ⟨provinces, by simp, hq⟩
            · exact Or.inr (List.mem_singleton.mp hq)
          · exact Or.inl ⟨g, by simp [h], hq⟩
      · rintro (⟨g, hmem, hq⟩ | hq)
        · rcases List.mem_append.mp hmem with h | h
          · exact ⟨g, by simp [h], hq⟩
          · rcases List.mem_cons.mp h with h | h
            · subst h
              exact ⟨g ++ [province], by simp, by simp [hq]⟩
            · exact ⟨g, by simp [h], hq⟩
        · exact ⟨provinces ++ [province], by simp, by simp [hq]⟩
    · simp only [List.length_append, List.length_cons, List.length_nil] at h5 ⊢
      omega
  | none =>
    rw [hadd] at hspec
    dsimp only
    have hgk : group_key map_instance [province] = key map_instance province := rfl
    refine ⟨?_, ?_, ?_, ?_, ?_⟩
    · intro g hmem
      rcases List.mem_append.mp hmem with h | h
      · exact h1 g h
      · rw [List.mem_singleton.mp h]
        simp
    · intro g hmem q hq
      rcases List.mem_append.mp hmem with h | h
      · exact h2 g h q hq
      · rw [List.mem_singleton.mp h] at hq ⊢
        rw [List.mem_singleton.mp hq]
        exact ⟨hkeysome, hgk.symm⟩
    · rw [List.map_append, List.map_cons, List.map_nil, hgk]
      rw [List.nodup_append]
      refine ⟨h3, List.nodup_singleton _, ?_⟩
      intro k hk1 hk2
      rw [List.mem_singleton] at hk2
      obtain ⟨g, hg, hgkey⟩ := List.mem_map.mp hk1
      exact hspec g hg (hgkey.trans hk2)
    · intro q
      rw [List.mem_append, List.mem_singleton, ← h4 q]
      constructor
      · rintro ⟨g, hmem, hq⟩
        rcases List.mem_append.mp hmem with h | h
        · exact Or.inl ⟨g, h, hq⟩
        · rw [List.mem_singleton.mp h] at hq
          exact Or.inr (List.mem_singleton.mp hq)
      · rintro (⟨g, hmem, hq⟩ | hq)
        · exact ⟨g, List.mem_append_left _ hmem, hq⟩
        · exact ⟨[province], by simp, by simp [hq]⟩
    · simp only [List.length_append, List.length_cons, List.length_nil] at h5 ⊢
      omega

theorem grouped_foldl (map_instance : MapInstance) (rest : List Nat) :
    ∀ (done : List Nat) (groups : List (List Nat)),
      (∀ province ∈ rest,
        (map_instance.get_province_instance_from_definition province).isSome = true) →
      grouped map_instance done groups →
      grouped map_instance (done ++ rest) (rest.foldl (group_province map_instance) groups) := by
  induction rest with
  | nil =>
    intro done groups _ h
    rw [List.append_nil]
    exact h
  | cons province rest ih =>
    intro done groups hvalid h
    rw [List.foldl_cons]
    have := ih (done ++ [province]) _ (fun q hq => hvalid q (List.mem_cons_of_mem _ hq))
      (grouped_group_province map_instance done groups province
        (hvalid province (List.mem_cons_self _ _)) h)
    rw [List.append_assoc] at this
    exact this

theorem grouped_nil (map_instance : MapInstance) : grouped map_instance [] [] := by
  refine ⟨?_, ?_, List.nodup_nil, ?_, Nat.le_refl _⟩
  · intro g h
    cases h
  · intro g h
    cases h
  · intro q
    constructor
    · rintro ⟨g, h, _⟩
      cases h
    · intro h
      cases h

theorem get_set_state (map_instance : MapInstance) (province other : Nat) (state : State) :
    (map_instance.set_state province state).get_province_instance_from_definition other =
      if other = province then
        (map_instance.get_province_instance_from_definition province).map
          (fun province_instance => { province_instance with state := some state })
      else map_instance.get_province_instance_from_definition other := by
  unfold MapInstance.set_state
  cases hget : map_instance.get_province_instance_from_definition province with
  | none =>
    dsimp only
    by_cases h : other = province
    · rw [if_pos h, h, hget]
      rfl
    · rw [if_neg h]
  | some province_instance =>
    dsimp only
    unfold MapInstance.get_province_instance_from_definition at hget ⊢
    dsimp only
    by_cases h0 : province = 0
    · rw [if_pos h0] at hget
      cases hget
    rw [if_neg h0] at hget
    by_cases h : other = province
    · subst h
      rw [if_pos rfl, if_neg h0, List.getElem?_set]
      have hlt : other - 1 < map_instance.province_instances.length := by
        by_contra hc
        rw [List.getElem?_eq_none (Nat.le_of_not_lt hc)] at hget
        cases hget
      simp [hlt]
    · rw [if_neg h]
      by_cases ho : other = 0
      · rw [if_pos ho, if_pos ho]
      · rw [if_neg ho, if_neg ho, List.getElem?_set]
        have hne : ¬ province - 1 = other - 1 := by omega
        rw [if_neg hne]

theorem get_set_states (state : State) (provinces : List Nat) (map_instance : MapInstance)
    (other : Nat) :
    (provinces.foldl (fun map_instance province => map_instance.set_state province state)
        map_instance).get_province_instance_from_definition other =
      if other ∈ provinces then
        (map_instance.get_province_instance_from_definition other).map
          (fun province_instance => { province_instance with state := some state })
      else map_instance.get_province_instance_from_definition other := by
  induction provinces generalizing map_instance with
  | nil => simp
  | cons first rest ih =>
    rw [List.foldl_cons, ih, get_set_state]
    by_cases h1 : other = first
    · subst h1
      rw [if_pos rfl, if_pos (List.mem_cons_self _ _)]
      by_cases h2 : other ∈ rest
      · rw [if_pos h2]
        cases map_instance.get_province_instance_from_definition other <;> rfl
      · rw [if_neg h2]
    · rw [if_neg h1]
      by_cases h2 : other ∈ rest
      · rw [if_pos h2, if_pos (List.mem_cons_of_mem _ h2)]
      · rw [if_neg h2, if_neg (fun h => (List.mem_cons.mp h).elim h1 h2)]

/-- The states created for the groups dealt with so far list the provinces of these
groups, the map instance has instances for the same provinces as before, and every
province of these groups points to a state that lists it. -/
def created_states (map_instance : MapInstance) (groups : List (List Nat))
    (created : List State × MapInstance) : Prop :=
  created.1.map (fun state => state.province_indices) = groups ∧
    (∀ province, (created.2.get_province_instance_from_definition province).isSome =
      (map_instance.get_province_instance_from_definition province).isSome) ∧
    ∀ province, (∃ provinces ∈ groups, province ∈ provinces) →
      ∃ state ∈ created.1, province ∈ state.province_indices ∧
        (created.2.get_province_instance_from_definition province).bind
          (fun province_instance => province_instance.state) = some state

theorem created_states_create_state (region : Region) (map_instance : MapInstance)
    (groups : List (List Nat)) (created : List State × MapInstance) (provinces : List Nat)
    (hne : provinces ≠ [])
    (hvalid : ∀ province ∈ provinces,
      (map_instance.get_province_instance_from_definition province).isSome = true)
    (h : created_states map_instance groups created) :
    created_states map_instance (groups ++ [provinces])
      (create_state region created provinces) := by
  obtain ⟨h1, h2, h3⟩ := h
  obtain ⟨first, rest, hfirst⟩ := List.exists_cons_of_ne_nil hne
  have hvalid1 : (created.2.get_province_instance_from_definition first).isSome = true := by
    rw [h2]
    exact hvalid first (by rw [hfirst]; exact List.mem_cons_self _ _)
  obtain ⟨capital, hcapital⟩ := Option.isSome_iff_exists.mp hvalid1
  unfold create_state
  have hhead : provinces.head?.bind created.2.get_province_instance_from_definition =
      some capital := by
    rw [hfirst]
    exact hcapital
  rw [hhead]
  dsimp only
  refine ⟨?_, ?_, ?_⟩
  · rw [List.map_append, h1]
    rfl
  · intro province
    rw [get_set_states, ← h2 province]
    split
    · cases created.2.get_province_instance_from_definition province <;> rfl
    · rfl
  · intro province hex
    by_cases hmem : province ∈ provinces
    · refine ⟨_, List.mem_append_right _ (List.mem_singleton_self _), hmem, ?_⟩
      rw [get_set_states, if_pos hmem]
      have hsome : (created.2.get_province_instance_from_definition province).isSome = true := by
        rw [h2]
        exact hvalid province hmem
      obtain ⟨province_instance, hget⟩ := Option.isSome_iff_exists.mp hsome
      rw [hget]
      rfl
    · obtain ⟨g, hg, hpg⟩ := hex
      have hg1 : g ∈ groups := by
        rcases List.mem_append.mp hg with h | h
        · exact h
        · rw [List.mem_singleton.mp h] at hpg
          exact absurd hpg hmem
      obtain ⟨state, hs, hps, hptr⟩ := h3 province ⟨g, hg1, hpg⟩
      refine ⟨state, List.mem_append_left _ hs, hps, ?_⟩
      rw [get_set_states, if_neg hmem]
      exact hptr

theorem created_states_foldl (region : Region) (map_instance : MapInstance)
    (rest : List (List Nat)) :
    ∀ (groups : List (List Nat)) (created : List State × MapInstance),
      (∀ provinces ∈ rest, provinces ≠ [] ∧ ∀ province ∈ provinces,
        (map_instance.get_province_instance_from_definition province).isSome = true) →
      created_states map_instance groups created →
      created_states map_instance (groups ++ rest)
        (rest.foldl (create_state region) created) := by
  induction rest with
  | nil =>
    intro groups created _ h
    rw [List.append_nil]
    exact h
  | cons provinces rest ih =>
    intro groups created hvalid h
    rw [List.foldl_cons]
    have hp := hvalid provinces (List.mem_cons_self _ _)
    have := ih (groups ++ [provinces]) _ (fun g hg => hvalid g (List.mem_cons_of_mem _ hg))
      (created_states_create_state region map_instance groups created provinces hp.1 hp.2 h)
    rw [List.append_assoc] at this
    exact this

theorem index_eq_of_nodup {T : Type} {items : List T} (hn : items.Nodup) {i j : Nat}
    (item : T)
    (hi : items[i]? = some item) (hj : items[j]? = some item) : i = j := by
  have hlt : ∀ (k : Nat), items[k]? = some item → k < items.length := by
    intro k hk
    by_contra hc
    rw [List.getElem?_eq_none (Nat.le_of_not_lt hc)] at hk
    cases hk
  rcases Nat.lt_trichotomy i j with h | h | h
  · exact absurd (hi.trans hj.symm)
      (List.nodup_iff_getElem?_ne_getElem?.mp hn i j h (hlt j hj))
  · exact h
  · exact absurd (hj.trans hi.symm)
      (List.nodup_iff_getElem?_ne_getElem?.mp hn j i h (hlt i hi))

end StateManager

/-- C23: `add_state_set` rejects a meta region and an empty region with false and
adds no state set. On a non-meta, non-empty region it returns true and adds one state
set whose states partition the provinces of the region: there are at most as many
states as the region has provinces, every province of the region is listed by a
state to which its state pointer leads, the states list provinces of the region only,
no province is listed by two states, and two provinces of the region are listed by
the same state if and only if they have the same owner and the same colony status. -/
theorem add_state_set_partition (manager : StateManager) (map_instance : MapInstance)
    (region : Region)
    (hvalid : ∀ province ∈ region.provinces,
      (map_instance.get_province_instance_from_definition province).isSome = true) :
    (region.meta = true ∨ region.provinces = [] →
        manager.add_state_set map_instance region = (false, manager, map_instance)) ∧
      (region.meta = false → region.provinces ≠ [] →
        ∃ states : List State,
          (manager.add_state_set map_instance region).1 = true ∧
          (manager.add_state_set map_instance region).2.1.state_sets =
            manager.state_sets ++ [{ region := region, states := states }] ∧
          states.length ≤ region.provinces.length ∧
          (∀ province ∈ region.provinces, ∃ state ∈ states,
            province ∈ state.province_indices ∧
            ((manager.add_state_set map_instance
                region).2.2.get_province_instance_from_definition province).bind
              (fun province_instance => province_instance.state) = some state) ∧
          (∀ state ∈ states, ∀ province ∈ state.province_indices,
            province ∈ region.provinces) ∧
          (∀ (i j : Nat) (state_i state_j : State) (province : Nat),
            states[i]? = some state_i → states[j]? = some state_j →
            province ∈ state_i.province_indices → province ∈ state_j.province_indices →
            i = j) ∧
          ∀ (p q : Nat) (instance_p instance_q : ProvinceInstance),
            p ∈ region.provinces → q ∈ region.provinces →
            map_instance.get_province_instance_from_definition p = some instance_p →
            map_instance.get_province_instance_from_definition q = some instance_q →
            ((∃ state ∈ states, p ∈ state.province_indices ∧ q ∈ state.province_indices) ↔
              instance_p.owner = instance_q.owner ∧
                instance_p.colony_status = instance_q.colony_status)) := by
  have hany : region.provinces.any (fun province =>
      (map_instance.get_province_instance_from_definition province).isNone) = false := by
    rw [List.any_eq_false]
    intro province hmem
    have := hvalid province hmem
    cases hget : map_instance.get_province_instance_from_definition province with
    | none =>
      rw [hget] at this
      cases this
    | some _ => simp
  unfold StateManager.add_state_set
  rw [hany]
  simp only [Bool.false_eq_true, if_false]
  constructor
  · rintro (h | h)
    · rw [if_pos h]
    · by_cases hm : region.meta = true
      · rw [if_pos hm]
      · rw [if_neg hm, h]
        rfl
  · intro hmeta hne
    have hempty : ¬ region.provinces.isEmpty = true := by
      intro h
      exact hne (List.isEmpty_iff.mp h)
    rw [if_neg (by rw [hmeta]; decide), if_neg hempty]
    dsimp only
    have hgrouped := StateManager.grouped_foldl map_instance region.provinces [] [] hvalid
      (StateManager.grouped_nil map_instance)
    rw [List.nil_append] at hgrouped
    obtain ⟨g1, g2, g3, g4, g5⟩ := hgrouped
    have hcreated := StateManager.created_states_foldl region map_instance
      (region.provinces.foldl (StateManager.group_province map_instance) []) []
      ([], map_instance)
      (fun provinces hp => ⟨g1 provinces hp, fun province hmem =>
        hvalid province ((g4 province).mp ⟨provinces, hp, hmem⟩)⟩)
      ⟨rfl, fun _ => rfl, fun _ h => (by
        obtain ⟨g, hg, _⟩ := h
        cases hg)⟩
    rw [List.nil_append] at hcreated
    obtain ⟨c1, _, c3⟩ := hcreated
    refine ⟨_, rfl, rfl, ?_, ?_, ?_, ?_, ?_⟩
    · have := congrArg List.length c1
      rw [List.length_map] at this
      rw [this]
      exact g5
    · intro province hmem
      exact c3 province ((g4 province).mpr hmem)
    · intro state hs province hp
      apply (g4 province).mp
      refine ⟨state.province_indices, ?_, hp⟩
      rw [← c1]
      exact List.mem_map_of_mem _ hs
    · intro i j state_i state_j province hi hj hpi hpj
      have hgi : (region.provinces.foldl (StateManager.group_province map_instance) [])[i]? =
          some state_i.province_indices := by
        rw [← c1, List.getElem?_map, hi]
        rfl
      have hgj : (region.provinces.foldl (StateManager.group_province map_instance) [])[j]? =
          some state_j.province_indices := by
        rw [← c1, List.getElem?_map, hj]
        rfl
      have hki := (g2 _ (List.getElem?_mem hgi) province hpi).2
      have hkj := (g2 _ (List.getElem?_mem hgj) province hpj).2
      apply StateManager.index_eq_of_nodup g3 (StateManager.key map_instance province)
      · rw [List.getElem?_map, hgi, hki]
        rfl
      · rw [List.getElem?_map, hgj, hkj]
        rfl
    · intro p q instance_p instance_q hp hq hgp hgq
      have hkp : StateManager.key map_instance p =
          some (instance_p.owner, instance_p.colony_status) := by
        unfold StateManager.key
        rw [hgp]
        rfl
      have hkq : StateManager.key map_instance q =
          some (instance_q.owner, instance_q.colony_status) := by
        unfold StateManager.key
        rw [hgq]
        rfl
      constructor
      · rintro ⟨state, hs, hps, hqs⟩
        have hg : state.province_indices ∈
            region.provinces.foldl (StateManager.group_province map_instance) [] := by
          rw [← c1]
          exact List.mem_map_of_mem _ hs
        have h1 := (g2 _ hg p hps).2
        have h2 := (g2 _ hg q hqs).2
        rw [← h2, hkp, hkq] at h1
        have := Option.some.inj h1
        exact ⟨congrArg Prod.fst this, congrArg Prod.snd this⟩
      · rintro ⟨ho, hc⟩
        obtain ⟨sp, hsp, hpsp, _⟩ := c3 p ((g4 p).mpr hp)
        obtain ⟨sq, hsq, hqsq, _⟩ := c3 q ((g4 q).mpr hq)
        obtain ⟨i, hi⟩ := List.getElem?_of_mem hsp
        obtain ⟨j, hj⟩ := List.getElem?_of_mem hsq
        have hgi : (region.provinces.foldl (StateManager.group_province map_instance) [])[i]? =
            some sp.province_indices := by
          rw [← c1, List.getElem?_map, hi]
          rfl
        have hgj : (region.provinces.foldl (StateManager.group_province map_instance) [])[j]? =
            some sq.province_indices := by
          rw [← c1, List.getElem?_map, hj]
          rfl
        have hki := (g2 _ (List.getElem?_mem hgi) p hpsp).2
        have hkj := (g2 _ (List.getElem?_mem hgj) q hqsq).2
        have hkeys : StateManager.key map_instance p = StateManager.key map_instance q := by
          rw [hkp, hkq, ho, hc]
        have hij : i = j := by
          apply StateManager.index_eq_of_nodup g3 (StateManager.key map_instance p)
          · rw [List.getElem?_map, hgi, hki]
            rfl
          · rw [List.getElem?_map, hgj, hkeys, hkj]
            rfl
        subst hij
        rw [hi] at hj
        have : sp = sq := Option.some.inj hj
        subst this
        exact ⟨sp, hsp, hpsp, hqsq⟩

theorem add_state_set_partition_witness :
    ∃ states : List State,
      (({} : StateManager).add_state_set scenario_map_instance
        { identifier := "region", meta := false, provinces := [1, 2, 3, 4] }).2.1.state_sets =
          [{ region := { identifier := "region", meta := false, provinces := [1, 2, 3, 4] },
             states := states }] ∧
        states.length ≤ 4 :=
  (fun h => ⟨h.choose, h.choose_spec.2.1, h.choose_spec.2.2.1⟩)
    ((add_state_set_partition {} scenario_map_instance
      { identifier := "region", meta := false, provinces := [1, 2, 3, 4] } (by decide)).2 rfl
      (by decide))

/-- The grouping of the state scenario: provinces 1 and 3 form one state, province 2
and province 4 one each, and a meta region is rejected. -/
theorem scenario_map_instance_states :
    ((({} : StateManager).add_state_set scenario_map_instance
        { identifier := "region", meta := false, provinces := [1, 2, 3, 4] }).2.1.state_sets.map
        (fun state_set => state_set.states.map
          (fun state => (state.owner, state.colony_status, state.province_indices)))) =
      [[(some "ENG", colony_status_t.STATE, [1, 3]), (some "FRA", colony_status_t.STATE, [2]),
        (some "ENG", colony_status_t.COLONY, [4])]] ∧
      (({} : StateManager).add_state_set scenario_map_instance
        { identifier := "region", meta := true, provinces := [1, 2, 3, 4] }).1 = false := by
  decide

/-! ## Lemmas on the climates of a map -/

namespace Map

theorem get_climate_set_province (map : Map) (index : Nat) (province : Province)
    (identifier : String) :
    (map.set_province index province).get_climate_by_identifier identifier =
      map.get_climate_by_identifier identifier := by
  unfold set_province
  split <;> rfl

theorem find_map_replace (climates : List Climate) (climate : Climate) (identifier : String) :
    (climates.map (fun other =>
        if other.identifier = climate.identifier then climate else other)).find?
        (fun other => other.identifier = identifier) =
      if identifier = climate.identifier then
        (climates.find? (fun other => other.identifier = identifier)).map (fun _ => climate)
      else climates.find? (fun other => other.identifier = identifier) := by
  induction climates with
  | nil => simp
  | cons first rest ih =>
    rw [List.map_cons, List.find?_cons, List.find?_cons, ih]
    by_cases h1 : identifier = climate.identifier
    · rw [if_pos h1, if_pos h1]
      by_cases h2 : first.identifier = climate.identifier
      · rw [if_pos h2]
        simp [h1, h2]
      · rw [if_neg h2]
        simp [h1, h2]
    · rw [if_neg h1, if_neg h1]
      by_cases h2 : first.identifier = climate.identifier
      · rw [if_pos h2]
        have h3 : ¬ climate.identifier = identifier := fun e => h1 e.symm
        have h4 : ¬ first.identifier = identifier := fun e => h1 (e.symm.trans h2)
        simp [h3, h4]
      · rw [if_neg h2]

theorem get_climate_set_climate (map : Map) (climate : Climate) (identifier : String) :
    (map.set_climate climate).get_climate_by_identifier identifier =
      if identifier = climate.identifier then
        (map.get_climate_by_identifier identifier).map (fun _ => climate)
      else map.get_climate_by_identifier identifier := by
  unfold set_climate get_climate_by_identifier
  exact find_map_replace map.climates climate identifier

theorem identifier_of_get_climate {map : Map} {identifier : String} {climate : Climate}
    (h : map.get_climate_by_identifier identifier = some climate) :
    climate.identifier = identifier := by
  have := List.find?_some h
  simpa using this

theorem mem_add_province (provinces : List Nat) (province other : Nat) :
    other ∈ (ProvinceSet.add_province provinces province).2 ↔
      other ∈ provinces ∨ other = province := by
  unfold ProvinceSet.add_province
  by_cases h : province ∈ provinces
  · rw [if_pos h]
    constructor
    · exact Or.inl
    · rintro (h1 | h1)
      · exact h1
      · rw [h1]
        exact h
  · rw [if_neg h]
    simp

theorem mem_remove_province (provinces : List Nat) (province other : Nat) :
    other ∈ (ProvinceSet.remove_province provinces province).2 ↔
      other ∈ provinces ∧ other ≠ province := by
  unfold ProvinceSet.remove_province
  by_cases h : province ∈ provinces
  · rw [if_pos h]
    simp
  · rw [if_neg h]
    constructor
    · intro h1
      exact ⟨h1, fun e => h (e ▸ h1)⟩
    · exact fun h1 => h1.1

/-- The provinces of every registered climate are the provinces whose climate
pointer leads to it, and every climate pointer leads to a registered climate. -/
def climates_consistent (map : Map) : Prop :=
  (∀ identifier climate, map.get_climate_by_identifier identifier = some climate →
      ∀ province, province ∈ climate.provinces ↔
        ∃ listed, map.get_province_by_index province = some listed ∧
          listed.climate = some identifier) ∧
    ∀ province listed identifier, map.get_province_by_index province = some listed →
      listed.climate = some identifier →
      (map.get_climate_by_identifier identifier).isSome = true

theorem get_province_set_climate (map : Map) (climate : Climate) (province : Nat) :
    (map.set_climate climate).get_province_by_index province =
      map.get_province_by_index province := rfl

/-- What `add_province_to_climate` leaves, by lookups: the climate of every
identifier and the province of every index. -/
theorem add_province_to_climate_lookups (map : Map) (identifier : String) (province : Nat)
    (listed : Province) (cur_climate : Climate)
    (hget : map.get_province_by_index province = some listed)
    (hcur : map.get_climate_by_identifier identifier = some cur_climate)
    (hne : listed.climate ≠ some identifier)
    (hreg : ∀ old, listed.climate = some old →
      (map.get_climate_by_identifier old).isSome = true) :
    (∀ other, (map.add_province_to_climate identifier province).get_province_by_index other =
      if other = province then some { listed with climate := some identifier }
      else map.get_province_by_index other) ∧
    ∀ other, (map.add_province_to_climate identifier province).get_climate_by_identifier
        other =
      if other = identifier then
        some { cur_climate with
          provinces := (ProvinceSet.add_province cur_climate.provinces province).2 }
      else if listed.climate = some other then
        (map.get_climate_by_identifier other).map (fun old_climate =>
          { old_climate with
            provinces := (ProvinceSet.remove_province old_climate.provinces province).2 })
      else map.get_climate_by_identifier other := by
  have hid := identifier_of_get_climate hcur
  have hadded : ∀ other,
      (map.set_climate
        { cur_climate with
          provinces := (ProvinceSet.add_province cur_climate.provinces province).2 }
        ).get_climate_by_identifier other =
      if other = identifier then
        some { cur_climate with
          provinces := (ProvinceSet.add_province cur_climate.provinces province).2 }
      else map.get_climate_by_identifier other := by
    intro other
    rw [get_climate_set_climate]
    dsimp only
    rw [hid]
    by_cases h : other = identifier
    · rw [if_pos h, if_pos h, h, hcur]
      rfl
    · rw [if_neg h, if_neg h]
  unfold add_province_to_climate
  rw [hget, hcur]
  dsimp only
  rw [if_pos hne]
  cases hlc : listed.climate with
  | none =>
    dsimp only [Option.none_bind]
    constructor
    · intro other
      rw [get_set_province, get_province_set_climate, hget]
      by_cases h : other = province
      · rw [if_pos ⟨h, rfl⟩, if_pos h]
      · rw [if_neg (fun c => h c.1), if_neg h, get_province_set_climate]
    · intro other
      rw [get_climate_set_province, hadded]
      by_cases h : other = identifier
      · rw [if_pos h, if_pos h]
      · rw [if_neg h, if_neg h, if_neg (fun c => (by cases c))]
  | some old =>
    have hold_ne : old ≠ identifier := by
      intro e
      apply hne
      rw [hlc, e]
    obtain ⟨old_climate, hold⟩ := Option.isSome_iff_exists.mp (hreg old hlc)
    have hold_id := identifier_of_get_climate hold
    rw [Option.some_bind, hadded, if_neg hold_ne, hold]
    dsimp only
    constructor
    · intro other
      rw [get_set_province, get_province_set_climate, get_province_set_climate, hget]
      by_cases h : other = province
      · rw [if_pos ⟨h, rfl⟩, if_pos h]
      · rw [if_neg (fun c => h c.1), if_neg h, get_province_set_climate, get_province_set_climate]
    · intro other
      rw [get_climate_set_province, get_climate_set_climate, hadded]
      dsimp only
      rw [hold_id]
      by_cases h : other = identifier
      · rw [if_pos h, if_neg (show ¬ other = old from fun e => hold_ne (e.symm.trans h)),
          if_pos h]
      · rw [if_neg h, if_neg h]
        by_cases h2 : other = old
        · rw [if_pos h2, if_pos (by rw [h2]), h2, hold]
          simp only [Option.map_some', hold_id]
        · rw [if_neg h2, if_neg (fun c => h2 (Option.some.inj c).symm)]

theorem add_province_to_climate_spec (map : Map) (identifier : String) (province : Nat)
    (hinv : climates_consistent map) :
    climates_consistent (map.add_province_to_climate identifier province) ∧
      (∀ other, ((map.add_province_to_climate identifier province).get_climate_by_identifier
          other).isSome = (map.get_climate_by_identifier other).isSome) ∧
      (∀ other, ((map.add_province_to_climate identifier province).get_province_by_index
          other).isSome = (map.get_province_by_index other).isSome) ∧
      (∀ other, other ≠ province →
        ((map.add_province_to_climate identifier province).get_province_by_index other).map
            (fun listed => listed.climate) =
          (map.get_province_by_index other).map (fun listed => listed.climate)) ∧
      ((map.get_province_by_index province).isSome = true →
        (map.get_climate_by_identifier identifier).isSome = true →
        ((map.add_province_to_climate identifier province).get_province_by_index
            province).map (fun listed => listed.climate) = some (some identifier)) := by
  obtain ⟨hJ, hJ2⟩ := hinv
  cases hget : map.get_province_by_index province with
  | none =>
    have hsame : map.add_province_to_climate identifier province = map := by
      unfold add_province_to_climate
      rw [hget]
    rw [hsame]
    exact ⟨⟨hJ, hJ2⟩, fun _ => rfl, fun _ => rfl, fun _ _ => rfl, fun h => (by cases h)⟩
  | some listed =>
    cases hcur : map.get_climate_by_identifier identifier with
    | none =>
      have hsame : map.add_province_to_climate identifier province = map := by
        unfold add_province_to_climate
        rw [hget, hcur]
      rw [hsame]
      exact ⟨⟨hJ, hJ2⟩, fun _ => rfl, fun _ => rfl, fun _ _ => rfl, fun _ h => (by cases h)⟩
    | some cur_climate =>
      by_cases hne : listed.climate ≠ some identifier
      · obtain ⟨hp, hc⟩ := add_province_to_climate_lookups map identifier province listed
          cur_climate hget hcur hne (fun old h => hJ2 province listed old hget h)
        have hsome : ∀ other,
            ((map.add_province_to_climate identifier province).get_climate_by_identifier
              other).isSome = (map.get_climate_by_identifier other).isSome := by
          intro other
          rw [hc]
          by_cases h1 : other = identifier
          · rw [if_pos h1, h1, hcur]
            rfl
          · rw [if_neg h1]
            by_cases h2 : listed.climate = some other
            · rw [if_pos h2, Option.isSome_map']
            · rw [if_neg h2]
        refine ⟨⟨?_, ?_⟩, hsome, ?_, ?_, ?_⟩
        · intro other climate hclimate q
          rw [hc] at hclimate
          rw [hp]
          by_cases h1 : other = identifier
          · rw [if_pos h1] at hclimate
            rw [← Option.some.inj hclimate]
            dsimp only
            rw [mem_add_province, hJ identifier cur_climate hcur q, h1]
            by_cases hq : q = province
            · rw [if_pos hq]
              exact ⟨fun _ => ⟨_, rfl, rfl⟩, fun _ => Or.inr hq⟩
            · rw [if_neg hq]
              exact ⟨fun h => h.elim id (fun e => absurd e hq), Or.inl⟩
          · rw [if_neg h1] at hclimate
            by_cases h2 : listed.climate = some other
            · rw [if_pos h2] at hclimate
              obtain ⟨old_climate, hold, hmk⟩ := Option.map_eq_some'.mp hclimate
              rw [← hmk]
              dsimp only
              rw [mem_remove_province, hJ other old_climate hold q]
              by_cases hq : q = province
              · rw [if_pos hq]
                constructor
                · rintro ⟨_, h⟩
                  exact absurd hq h
                · rintro ⟨l, hl, hlc⟩
                  rw [← Option.some.inj hl] at hlc
                  exact absurd (Option.some.inj hlc).symm h1
              · rw [if_neg hq]
                exact ⟨fun h => h.1, fun h => ⟨h, hq⟩⟩
            · rw [if_neg h2] at hclimate
              rw [hJ other climate hclimate q]
              by_cases hq : q = province
              · rw [if_pos hq, hq, hget]
                constructor
                · rintro ⟨l, hl, hlc⟩
                  rw [← Option.some.inj hl] at hlc
                  exact absurd hlc h2
                · rintro ⟨l, hl, hlc⟩
                  rw [← Option.some.inj hl] at hlc
                  exact absurd (Option.some.inj hlc).symm h1
              · rw [if_neg hq]
        · intro q l other hq hl
          rw [hp] at hq
          rw [hsome]
          by_cases hqp : q = province
          · rw [if_pos hqp] at hq
            rw [← Option.some.inj hq] at hl
            rw [← Option.some.inj hl, hcur]
            rfl
          · rw [if_neg hqp] at hq
            exact hJ2 q l other hq hl
        · intro other
          rw [hp]
          by_cases hq : other = province
          · rw [if_pos hq, hq, hget]
            rfl
          · rw [if_neg hq]
        · intro other hq
          rw [hp, if_neg hq]
        · intro _ _
          rw [hp, if_pos rfl]
          rfl
      · have hsame : map.add_province_to_climate identifier province = map := by
          unfold add_province_to_climate
          rw [hget, hcur]
          dsimp only
          rw [if_neg hne]
        rw [hsame]
        refine ⟨⟨hJ, hJ2⟩, fun _ => rfl, fun _ => rfl, fun _ _ => rfl, fun _ _ => ?_⟩
        rw [hget, Option.map_some', not_not.mp hne]

theorem climate_identifiers_set_climate (map : Map) (climate : Climate) :
    (map.set_climate climate).climates.map (fun other => other.identifier) =
      map.climates.map (fun other => other.identifier) ∧
    (map.set_climate climate).climates_locked = map.climates_locked := by
  refine ⟨?_, rfl⟩
  unfold set_climate
  dsimp only
  rw [List.map_map]
  apply List.map_congr_left
  intro other _
  dsimp only [Function.comp]
  split
  · rename_i h
    exact h.symm
  · rfl

theorem climate_identifiers_set_province (map : Map) (index : Nat) (province : Province) :
    (map.set_province index province).climates.map (fun other => other.identifier) =
      map.climates.map (fun other => other.identifier) ∧
    (map.set_province index province).climates_locked = map.climates_locked := by
  unfold set_province
  split
  · exact ⟨rfl, rfl⟩
  · exact ⟨rfl, rfl⟩

theorem climate_identifiers_add_province_to_climate (map : Map) (identifier : String)
    (province : Nat) :
    (map.add_province_to_climate identifier province).climates.map
        (fun other => other.identifier) =
      map.climates.map (fun other => other.identifier) ∧
    (map.add_province_to_climate identifier province).climates_locked =
      map.climates_locked := by
  unfold add_province_to_climate
  cases map.get_province_by_index province with
  | none => exact ⟨rfl, rfl⟩
  | some listed =>
    cases map.get_climate_by_identifier identifier with
    | none => exact ⟨rfl, rfl⟩
    | some cur_climate =>
      dsimp only
      split
      · have h1 := climate_identifiers_set_climate map
          { cur_climate with
            provinces := (ProvinceSet.add_province cur_climate.provinces province).2 }
        split
        · rename_i old_climate _
          have h2 := climate_identifiers_set_climate
            (map.set_climate
              { cur_climate with
                provinces := (ProvinceSet.add_province cur_climate.provinces province).2 })
            { old_climate with
              provinces := (ProvinceSet.remove_province old_climate.provinces province).2 }
          have h3 := climate_identifiers_set_province
            ((map.set_climate
              { cur_climate with
                provinces := (ProvinceSet.add_province cur_climate.provinces province).2 }
              ).set_climate
              { old_climate with
                provinces := (ProvinceSet.remove_province old_climate.provinces province).2 })
            province { listed with climate := some identifier }
          exact ⟨h3.1.trans (h2.1.trans h1.1), h3.2.trans (h2.2.trans h1.2)⟩
        · have h3 := climate_identifiers_set_province
            (map.set_climate
              { cur_climate with
                provinces := (ProvinceSet.add_province cur_climate.provinces province).2 })
            province { listed with climate := some identifier }
          exact ⟨h3.1.trans h1.1, h3.2.trans h1.2⟩
      · exact ⟨rfl, rfl⟩

/-- The map is reached from `map0` by steps of the climate loader: its climates
are consistent and have distinct identifiers, the climates registered in `map0` are
still registered, and the lock and the provinces of the registry are those of
`map0`. -/
def climate_reached (map0 map : Map) : Prop :=
  climates_consistent map ∧
    (map.climates.map (fun other => other.identifier)).Nodup ∧
    (∀ other, (map0.get_climate_by_identifier other).isSome = true →
      (map.get_climate_by_identifier other).isSome = true) ∧
    (∀ other, (map.get_province_by_index other).isSome =
      (map0.get_province_by_index other).isSome) ∧
    map.climates_locked = map0.climates_locked

theorem climate_reached_trans {map0 map1 map2 : Map} (h1 : climate_reached map0 map1)
    (h2 : climate_reached map1 map2) : climate_reached map0 map2 :=
  ⟨h2.1, h2.2.1, fun other h => h2.2.2.1 other (h1.2.2.1 other h),
    fun other => (h2.2.2.2.1 other).trans (h1.2.2.2.1 other),
    h2.2.2.2.2.trans h1.2.2.2.2⟩

theorem climate_reached_add_province (map : Map) (identifier : String) (province : Nat)
    (hinv : climates_consistent map)
    (hnodup : (map.climates.map (fun other => other.identifier)).Nodup) :
    climate_reached map (map.add_province_to_climate identifier province) := by
  obtain ⟨h1, h2, h3, _, _⟩ := add_province_to_climate_spec map identifier province hinv
  refine ⟨h1, ?_, ?_, h3,
    (climate_identifiers_add_province_to_climate map identifier province).2⟩
  · rw [(climate_identifiers_add_province_to_climate map identifier province).1]
    exact hnodup
  · intro other h
    rw [h2]
    exact h

theorem add_provinces_to_climate_spec (identifier : String) (provinces : List Nat) (map : Map)
    (hinv : climates_consistent map)
    (hnodup : (map.climates.map (fun other => other.identifier)).Nodup) :
    climate_reached map
        (provinces.foldl (fun map province => map.add_province_to_climate identifier province)
          map) ∧
      (∀ other, other ∉ provinces →
        ((provinces.foldl
            (fun map province => map.add_province_to_climate identifier province)
            map).get_province_by_index other).map (fun listed => listed.climate) =
          (map.get_province_by_index other).map (fun listed => listed.climate)) ∧
      (∀ other, other ∈ provinces → (map.get_province_by_index other).isSome = true →
        (map.get_climate_by_identifier identifier).isSome = true →
        ((provinces.foldl
            (fun map province => map.add_province_to_climate identifier province)
            map).get_province_by_index other).map (fun listed => listed.climate) =
          some (some identifier)) := by
  induction provinces generalizing map with
  | nil =>
    refine ⟨⟨hinv, hnodup, fun _ h => h, fun _ => rfl, rfl⟩, fun _ _ => rfl, ?_⟩
    intro other h
    cases h
  | cons province rest ih =>
    rw [List.foldl_cons]
    have hstep := climate_reached_add_province map identifier province hinv hnodup
    obtain ⟨_, _, _, s4, s5⟩ := add_province_to_climate_spec map identifier province hinv
    obtain ⟨i1, i2, i3⟩ := ih (map.add_province_to_climate identifier province) hstep.1
      hstep.2.1
    refine ⟨climate_reached_trans hstep i1, ?_, ?_⟩
    · intro other hmem
      rw [i2 other (fun h => hmem (List.mem_cons_of_mem _ h)),
        s4 other (fun h => hmem (h ▸ List.mem_cons_self _ _))]
    · intro other hmem hvalid hreg
      by_cases hrest : other ∈ rest
      · apply i3 other hrest
        · rw [hstep.2.2.2.1]
          exact hvalid
        · exact hstep.2.2.1 identifier hreg
      · have hop : other = province := by
          rcases List.mem_cons.mp hmem with h | h
          · exact h
          · exact absurd h hrest
        rw [i2 other hrest, hop]
        rw [hop] at hvalid
        exact s5 hvalid hreg

theorem get_climate_append_new (map : Map) (identifier other : String)
    (hnew : map.get_climate_by_identifier identifier = none) :
    ({ map with climates := map.climates ++ [{ identifier := identifier }]
      } : Map).get_climate_by_identifier other =
      if other = identifier then some { identifier := identifier }
      else map.get_climate_by_identifier other := by
  unfold get_climate_by_identifier at hnew ⊢
  dsimp only
  rw [List.find?_append]
  by_cases h : other = identifier
  · rw [if_pos h, h, hnew]
    simp
  · rw [if_neg h]
    cases map.climates.find? (fun climate => climate.identifier = other) with
    | some c => rfl
    | none =>
      have : ¬ identifier = other := fun e => h e.symm
      simp [this]

theorem load_climate_entry_spec (loaded : Bool × Map) (entry : province_set_entry)
    (hinv : climates_consistent loaded.2)
    (hnodup : (loaded.2.climates.map (fun other => other.identifier)).Nodup) :
    climate_reached loaded.2 (load_climate_entry loaded entry).2 ∧
      (∀ other, other ∉ entry.provinces →
        ((load_climate_entry loaded entry).2.get_province_by_index other).map
            (fun listed => listed.climate) =
          (loaded.2.get_province_by_index other).map (fun listed => listed.climate)) ∧
      (entry.identifier.isEmpty = false → loaded.2.climates_locked = false →
        ((load_climate_entry loaded entry).2.get_climate_by_identifier
          entry.identifier).isSome = true) ∧
      (∀ other, other ∈ entry.provinces → entry.identifier.isEmpty = false →
        (loaded.2.get_province_by_index other).isSome = true →
        (loaded.2.get_climate_by_identifier entry.identifier).isSome = true →
        ((load_climate_entry loaded entry).2.get_province_by_index other).map
            (fun listed => listed.climate) = some (some entry.identifier)) := by
  have hrefl : climate_reached loaded.2 loaded.2 :=
    ⟨hinv, hnodup, fun _ h => h, fun _ => rfl, rfl⟩
  unfold load_climate_entry
  by_cases hempty : entry.identifier.isEmpty = true
  · rw [if_pos hempty]
    refine ⟨hrefl, fun _ _ => rfl, fun h => ?_, fun _ _ h => ?_⟩
    · rw [hempty] at h
      cases h
    · rw [hempty] at h
      cases h
  rw [if_neg hempty]
  cases hcur : loaded.2.get_climate_by_identifier entry.identifier with
  | some cur_climate =>
    dsimp only
    obtain ⟨f1, f2, f3⟩ := add_provinces_to_climate_spec entry.identifier entry.provinces
      loaded.2 hinv hnodup
    refine ⟨f1, f2, fun _ _ => ?_, fun other hmem _ hvalid _ =>
      f3 other hmem hvalid (by rw [hcur]; rfl)⟩
    apply f1.2.2.1
    rw [hcur]
    rfl
  | none =>
    dsimp only
    unfold IdentifierRegistry.add_item
    by_cases hlocked : loaded.2.climates_locked = true
    · rw [if_pos hlocked]
      refine ⟨hrefl, fun _ _ => rfl, fun _ h => ?_, fun _ _ _ _ h => ?_⟩
      · rw [hlocked] at h
        cases h
      · cases h
    rw [if_neg hlocked]
    have hany : (loaded.2.climates.any (fun other =>
        other.identifier = ({ identifier := entry.identifier } : Climate).identifier)) =
        false := by
      unfold get_climate_by_identifier at hcur
      rw [List.find?_eq_none] at hcur
      rw [List.any_eq_false]
      exact hcur
    rw [hany]
    simp only [Bool.false_eq_true, if_false]
    refine ⟨⟨⟨?_, ?_⟩, ?_, ?_, fun _ => rfl, rfl⟩, fun _ _ => rfl, fun _ _ => ?_,
      fun _ _ _ _ h => ?_⟩
    · intro other climate hclimate q
      rw [get_climate_append_new _ _ _ hcur] at hclimate
      by_cases h : other = entry.identifier
      · rw [if_pos h] at hclimate
        rw [← Option.some.inj hclimate]
        constructor
        · intro hq
          cases hq
        · rintro ⟨l, hl, hlc⟩
          have := hinv.2 q l other hl hlc
          rw [h, hcur] at this
          cases this
      · rw [if_neg h] at hclimate
        exact hinv.1 other climate hclimate q
    · intro q l other hq hl
      rw [get_climate_append_new _ _ _ hcur]
      by_cases h : other = entry.identifier
      · rw [if_pos h]
        rfl
      · rw [if_neg h]
        exact hinv.2 q l other hq hl
    · dsimp only
      rw [List.map_append, List.nodup_append]
      refine ⟨hnodup, List.nodup_singleton _, ?_⟩
      intro k hk1 hk2
      rw [List.map_cons, List.map_nil, List.mem_singleton] at hk2
      obtain ⟨c, hc, hck⟩ := List.mem_map.mp hk1
      unfold get_climate_by_identifier at hcur
      rw [List.find?_eq_none] at hcur
      have := hcur c hc
      simp only [decide_eq_true_eq] at this
      exact this (hck.trans hk2)
    · intro other h
      rw [get_climate_append_new _ _ _ hcur]
      by_cases h1 : other = entry.identifier
      · rw [if_pos h1]
        rfl
      · rw [if_neg h1]
        exact h
    · rw [get_climate_append_new _ _ _ hcur, if_pos rfl]
      rfl
    · cases h

theorem load_climate_entries_spec (entries : List province_set_entry) (loaded : Bool × Map)
    (hinv : climates_consistent loaded.2)
    (hnodup : (loaded.2.climates.map (fun other => other.identifier)).Nodup) :
    climate_reached loaded.2 (entries.foldl load_climate_entry loaded).2 ∧
      (∀ other, (∀ entry ∈ entries, other ∉ entry.provinces) →
        ((entries.foldl load_climate_entry loaded).2.get_province_by_index other).map
            (fun listed => listed.climate) =
          (loaded.2.get_province_by_index other).map (fun listed => listed.climate)) ∧
      (∀ entry ∈ entries, entry.identifier.isEmpty = false →
        loaded.2.climates_locked = false →
        ((entries.foldl load_climate_entry loaded).2.get_climate_by_identifier
          entry.identifier).isSome = true) := by
  induction entries generalizing loaded with
  | nil =>
    refine ⟨⟨hinv, hnodup, fun _ h => h, fun _ => rfl, rfl⟩, fun _ _ => rfl, ?_⟩
    intro entry h
    cases h
  | cons first rest ih =>
    rw [List.foldl_cons]
    obtain ⟨s1, s2, s3, _⟩ := load_climate_entry_spec loaded first hinv hnodup
    obtain ⟨i1, i2, i3⟩ := ih (load_climate_entry loaded first) s1.1 s1.2.1
    refine ⟨climate_reached_trans s1 i1, ?_, ?_⟩
    · intro other h
      rw [i2 other (fun entry hmem => h entry (List.mem_cons_of_mem _ hmem)),
        s2 other (h first (List.mem_cons_self _ _))]
    · intro entry hmem hempty hlocked
      rcases List.mem_cons.mp hmem with h | h
      · rw [h]
        exact i1.2.2.1 _ (s3 (h ▸ hempty) hlocked)
      · exact i3 entry h hempty (s1.2.2.2.2.trans hlocked)

/-- The climate loader is last-wins: a province listed under a registered climate
points to that climate after the file is read, unless a later entry lists it again. -/
theorem load_climate_file_last_listing (map : Map) (pre post : List province_set_entry)
    (entry : province_set_entry) (province : Nat)
    (hinv : climates_consistent map)
    (hnodup : (map.climates.map (fun other => other.identifier)).Nodup)
    (hlocked : map.climates_locked = false)
    (hempty : entry.identifier.isEmpty = false)
    (hdefined : ∃ earlier ∈ pre, earlier.identifier = entry.identifier)
    (hlisted : province ∈ entry.provinces)
    (hvalid : (map.get_province_by_index province).isSome = true)
    (hlater : ∀ later ∈ post, province ∉ later.provinces) :
    ((map.load_climate_file (pre ++ entry :: post)).2.get_province_by_index province).map
        (fun listed => listed.climate) = some (some entry.identifier) := by
  unfold load_climate_file
  rw [List.foldl_append, List.foldl_cons]
  obtain ⟨p1, _, p3⟩ := load_climate_entries_spec pre (true, map) hinv hnodup
  obtain ⟨earlier, hmem, hid⟩ := hdefined
  have hreg := p3 earlier hmem (hid ▸ hempty) hlocked
  rw [hid] at hreg
  obtain ⟨s1, _, _, s4⟩ := load_climate_entry_spec (pre.foldl load_climate_entry (true, map))
    entry p1.1 p1.2.1
  have hptr := s4 province hlisted hempty ((p1.2.2.2.1 province).trans hvalid) hreg
  obtain ⟨_, q2, _⟩ := load_climate_entries_spec post
    (load_climate_entry (pre.foldl load_climate_entry (true, map)) entry) s1.1 s1.2.1
  exact (q2 province hlater).trans hptr

theorem load_climate_file_consistent (map : Map) (entries : List province_set_entry)
    (hinv : climates_consistent map)
    (hnodup : (map.climates.map (fun other => other.identifier)).Nodup) :
    climates_consistent (map.load_climate_file entries).2 :=
  (load_climate_entries_spec entries (true, map) hinv hnodup).1.1

theorem climates_consistent_of_empty (map : Map) (hclimates : map.climates = [])
    (hpointers : ∀ province ∈ map.provinces, province.climate = none) :
    climates_consistent map := by
  constructor
  · intro identifier climate h
    unfold get_climate_by_identifier at h
    rw [hclimates] at h
    cases h
  · intro province listed identifier h hclimate
    have hmem : listed ∈ map.provinces := by
      unfold get_province_by_index at h
      split at h
      · cases h
      · exact List.getElem?_mem h
    rw [hpointers listed hmem] at hclimate
    cases hclimate

end Map

/-! ## Lemmas on the continent loader -/

theorem mem_add_provinces_set (new_provinces provinces : List Nat) (province : Nat) :
    province ∈ (ProvinceSet.add_provinces provinces new_provinces).2 ↔
      province ∈ provinces ∨ province ∈ new_provinces := by
  unfold ProvinceSet.add_provinces
  suffices h : ∀ (state : Bool × List Nat),
      province ∈ (new_provinces.foldl
        (fun state province =>
          ((state.1 && (ProvinceSet.add_province state.2 province).1),
            (ProvinceSet.add_province state.2 province).2)) state).2 ↔
        province ∈ state.2 ∨ province ∈ new_provinces from h (true, provinces)
  induction new_provinces with
  | nil =>
    intro state
    simp
  | cons first rest ih =>
    intro state
    rw [List.foldl_cons, ih]
    dsimp only
    unfold ProvinceSet.add_province
    by_cases h : first ∈ state.2
    · rw [if_pos h]
      dsimp only
      constructor
      · rintro (h1 | h1)
        · exact Or.inl h1
        · exact Or.inr (List.mem_cons_of_mem _ h1)
      · rintro (h1 | h1)
        · exact Or.inl h1
        · rcases List.mem_cons.mp h1 with h2 | h2
          · exact Or.inl (h2 ▸ h)
          · exact Or.inr h2
    · rw [if_neg h]
      dsimp only
      rw [List.mem_append, List.mem_singleton, List.mem_cons]
      tauto

namespace Map

/-- The continent pointer of the province with the given index, when there is such a
province. -/
def continent_of (map : Map) (province : Nat) : Option (Option String) :=
  (map.get_province_by_index province).map (fun listed => listed.continent)

theorem mem_continent_provinces (map : Map) (provinces : List Nat) (province : Nat) :
    province ∈ continent_provinces map provinces ↔
      province ∈ provinces ∧ map.continent_of province = some none := by
  unfold continent_provinces continent_of
  rw [List.mem_filter]
  cases map.get_province_by_index province with
  | none => simp
  | some listed =>
    cases h : listed.continent with
    | none => simp [h]
    | some identifier => simp [h]

theorem set_continent_spec (identifier : String) (provinces : List Nat) (map : Map) :
    (set_continent map identifier provinces).continents = map.continents ∧
      (set_continent map identifier provinces).continents_locked = map.continents_locked ∧
      ∀ province, (set_continent map identifier provinces).continent_of province =
        if province ∈ provinces ∧ (map.get_province_by_index province).isSome = true then
          some (some identifier)
        else map.continent_of province := by
  unfold set_continent
  induction provinces generalizing map with
  | nil =>
    refine ⟨rfl, rfl, fun province => ?_⟩
    simp
  | cons first rest ih =>
    rw [List.foldl_cons]
    have hstep : ∀ listed, map.get_province_by_index first = some listed →
        (map.set_province first { listed with continent := some identifier }).continents =
            map.continents ∧
          (map.set_province first { listed with continent := some identifier
            }).continents_locked = map.continents_locked := by
      intro listed _
      unfold set_province
      split <;> exact ⟨rfl, rfl⟩
    cases hfirst : map.get_province_by_index first with
    | none =>
      dsimp only
      obtain ⟨i1, i2, i3⟩ := ih map
      refine ⟨i1, i2, fun province => ?_⟩
      rw [i3 province]
      by_cases hp : province = first
      · have hnone : ¬ (map.get_province_by_index province).isSome = true := by
          rw [hp, hfirst]
          simp
        rw [if_neg (fun h => hnone h.2), if_neg (fun h => hnone h.2)]
      · simp [hp]
    | some listed =>
      dsimp only
      obtain ⟨i1, i2, i3⟩ := ih (map.set_province first
        { listed with continent := some identifier })
      obtain ⟨t1, t2⟩ := hstep listed hfirst
      refine ⟨i1.trans t1, i2.trans t2, fun province => ?_⟩
      rw [i3 province]
      unfold continent_of
      rw [get_set_province]
      by_cases hp : province = first
      · subst hp
        simp [hfirst]
      · simp [hp]

/-- The provinces of every registered continent are the provinces whose continent
pointer leads to it, every continent pointer leads to a registered continent, and
the registered continents have distinct identifiers. -/
def continents_consistent (map : Map) : Prop :=
  (∀ continent ∈ map.continents, ∀ province,
      province ∈ continent.provinces ↔
        map.continent_of province = some (some continent.identifier)) ∧
    (∀ province identifier, map.continent_of province = some (some identifier) →
      ∃ continent ∈ map.continents, continent.identifier = identifier) ∧
    (map.continents.map (fun other => other.identifier)).Nodup

/-- What the callback of the continent loader does for an entry that it registers:
the continents and the continent pointers it leaves. -/
theorem load_continent_entry_added (loaded : Bool × Map) (entry : province_set_entry)
    (hempty : entry.identifier.isEmpty = false)
    (hlocked : loaded.2.continents_locked = false)
    (hnew : ∀ continent ∈ loaded.2.continents, continent.identifier ≠ entry.identifier) :
    (load_continent_entry loaded entry).2.continents =
        loaded.2.continents ++
          [{ identifier := entry.identifier,
             provinces :=
               (ProvinceSet.add_provinces []
                 (continent_provinces loaded.2 entry.provinces)).2 }] ∧
      (load_continent_entry loaded entry).2.continents_locked = false ∧
      ∀ province, (load_continent_entry loaded entry).2.continent_of province =
        if province ∈ entry.provinces ∧ loaded.2.continent_of province = some none then
          some (some entry.identifier)
        else loaded.2.continent_of province := by
  have hany : (loaded.2.continents.any (fun other =>
      other.identifier = entry.identifier)) = false := by
    rw [List.any_eq_false]
    intro continent hmem
    simpa using hnew continent hmem
  unfold load_continent_entry IdentifierRegistry.add_item
  rw [hempty, hlocked]
  simp only [Bool.false_eq_true, if_false]
  rw [hany]
  simp only [Bool.false_eq_true, if_false, if_true]
  obtain ⟨s1, s2, s3⟩ := set_continent_spec entry.identifier
    (ProvinceSet.add_provinces [] (continent_provinces loaded.2 entry.provinces)).2
    { loaded.2 with
      continents := loaded.2.continents ++
        [{ identifier := entry.identifier,
           provinces :=
             (ProvinceSet.add_provinces []
               (continent_provinces loaded.2 entry.provinces)).2 }] }
  refine ⟨s1, s2.trans hlocked, fun province => ?_⟩
  rw [s3 province]
  have hmem : province ∈ (ProvinceSet.add_provinces []
      (continent_provinces loaded.2 entry.provinces)).2 ↔
      province ∈ entry.provinces ∧ loaded.2.continent_of province = some none := by
    rw [mem_add_provinces_set, mem_continent_provinces]
    constructor
    · rintro (h1 | h1)
      · cases h1
      · exact h1
    · exact fun h1 => Or.inr h1
  by_cases h : province ∈ entry.provinces ∧ loaded.2.continent_of province = some none
  · rw [if_pos h, if_pos]
    refine ⟨hmem.mpr h, ?_⟩
    have h2 := h.2
    unfold continent_of at h2
    change (loaded.2.get_province_by_index province).isSome = true
    cases hget : loaded.2.get_province_by_index province with
    | none =>
      rw [hget] at h2
      cases h2
    | some listed => rfl
  · rw [if_neg h, if_neg]
    · rfl
    · exact fun h1 => h (hmem.mp h1.1)

/-- What the callback of the continent loader does for an entry that it refuses: it
leaves the map as it is. -/
theorem load_continent_entry_refused (loaded : Bool × Map) (entry : province_set_entry)
    (h : ¬ (entry.identifier.isEmpty = false ∧ loaded.2.continents_locked = false ∧
      ∀ continent ∈ loaded.2.continents, continent.identifier ≠ entry.identifier)) :
    (load_continent_entry loaded entry).2 = loaded.2 := by
  unfold load_continent_entry IdentifierRegistry.add_item
  by_cases hempty : entry.identifier.isEmpty = true
  · rw [if_pos hempty]
  rw [if_neg hempty]
  dsimp only
  by_cases hlocked : loaded.2.continents_locked = true
  · rw [if_pos hlocked]
    rfl
  rw [if_neg hlocked]
  have hany : (loaded.2.continents.any (fun other =>
      other.identifier = entry.identifier)) = true := by
    by_contra hno
    apply h
    refine ⟨by simpa using hempty, by simpa using hlocked, ?_⟩
    intro continent hmem heq
    apply hno
    rw [List.any_eq_true]
    exact ⟨continent, hmem, by simpa using heq⟩
  rw [if_pos hany]
  rfl

/-- The map is reached from `map0` by steps of the continent loader. -/
def continent_reached (map0 map : Map) : Prop :=
  continents_consistent map ∧
    map.continents_locked = map0.continents_locked ∧
    (∀ province, (map.continent_of province).isSome = (map0.continent_of province).isSome) ∧
    (∀ province identifier, map0.continent_of province = some (some identifier) →
      map.continent_of province = some (some identifier))

theorem continent_reached_refl (map : Map) (hinv : continents_consistent map) :
    continent_reached map map :=
  ⟨hinv, rfl, fun _ => rfl, fun _ _ h => h⟩

theorem continent_reached_trans {map0 map1 map2 : Map} (h1 : continent_reached map0 map1)
    (h2 : continent_reached map1 map2) : continent_reached map0 map2 :=
  ⟨h2.1, h2.2.1.trans h1.2.1, fun province => (h2.2.2.1 province).trans (h1.2.2.1 province),
    fun province identifier h => h2.2.2.2 province identifier (h1.2.2.2 province identifier h)⟩

theorem load_continent_entry_spec (loaded : Bool × Map) (entry : province_set_entry)
    (hinv : continents_consistent loaded.2) :
    continent_reached loaded.2 (load_continent_entry loaded entry).2 ∧
      (∀ province, province ∉ entry.provinces →
        (load_continent_entry loaded entry).2.continent_of province =
          loaded.2.continent_of province) ∧
      (∀ continent ∈ (load_continent_entry loaded entry).2.continents,
        continent ∈ loaded.2.continents ∨ continent.identifier = entry.identifier) := by
  by_cases h : entry.identifier.isEmpty = false ∧ loaded.2.continents_locked = false ∧
      ∀ continent ∈ loaded.2.continents, continent.identifier ≠ entry.identifier
  · obtain ⟨a1, a2, a3⟩ := load_continent_entry_added loaded entry h.1 h.2.1 h.2.2
    refine ⟨⟨⟨?_, ?_, ?_⟩, a2.trans h.2.1.symm, ?_, ?_⟩, ?_, ?_⟩
    · intro continent hmem province
      rw [a1, List.mem_append, List.mem_singleton] at hmem
      rw [a3 province]
      rcases hmem with hmem | hmem
      · rw [hinv.1 continent hmem province]
        by_cases hp : province ∈ entry.provinces ∧ loaded.2.continent_of province = some none
        · rw [if_pos hp, hp.2]
          constructor
          · intro h1
            cases h1
          · intro h1
            exact absurd (Option.some.inj (Option.some.inj h1)).symm (h.2.2 continent hmem)
        · rw [if_neg hp]
      · rw [hmem]
        dsimp only
        rw [mem_add_provinces_set, mem_continent_provinces]
        by_cases hp : province ∈ entry.provinces ∧ loaded.2.continent_of province = some none
        · rw [if_pos hp]
          exact ⟨fun _ => rfl, fun _ => Or.inr hp⟩
        · rw [if_neg hp]
          constructor
          · rintro (h1 | h1)
            · cases h1
            · exact absurd h1 hp
          · intro h1
            obtain ⟨other, hother, hid⟩ := hinv.2.1 province entry.identifier h1
            exact absurd hid (h.2.2 other hother)
    · intro province identifier hptr
      rw [a3 province] at hptr
      rw [a1]
      by_cases hp : province ∈ entry.provinces ∧ loaded.2.continent_of province = some none
      · rw [if_pos hp] at hptr
        refine ⟨_, List.mem_append_right _ (List.mem_singleton_self _), ?_⟩
        exact Option.some.inj (Option.some.inj hptr)
      · rw [if_neg hp] at hptr
        obtain ⟨other, hother, hid⟩ := hinv.2.1 province identifier hptr
        exact ⟨other, List.mem_append_left _ hother, hid⟩
    · rw [a1, List.map_append, List.nodup_append]
      refine ⟨hinv.2.2, List.nodup_singleton _, ?_⟩
      intro identifier h1 h2
      rw [List.map_cons, List.map_nil, List.mem_singleton] at h2
      obtain ⟨other, hother, hid⟩ := List.mem_map.mp h1
      exact h.2.2 other hother (hid.trans h2)
    · intro province
      rw [a3 province]
      by_cases hp : province ∈ entry.provinces ∧ loaded.2.continent_of province = some none
      · rw [if_pos hp, hp.2]
        rfl
      · rw [if_neg hp]
    · intro province identifier hptr
      rw [a3 province, if_neg, hptr]
      rintro ⟨_, h2⟩
      rw [hptr] at h2
      cases h2
    · intro province hp
      rw [a3 province, if_neg (fun h1 => hp h1.1)]
    · intro continent hmem
      rw [a1, List.mem_append, List.mem_singleton] at hmem
      rcases hmem with hmem | hmem
      · exact Or.inl hmem
      · exact Or.inr (by rw [hmem])
  · rw [load_continent_entry_refused loaded entry h]
    exact ⟨continent_reached_refl _ hinv, fun _ _ => rfl, fun _ hmem => Or.inl hmem⟩

theorem load_continent_entries_spec (entries : List province_set_entry)
    (loaded : Bool × Map) (hinv : continents_consistent loaded.2) :
    continent_reached loaded.2 (entries.foldl load_continent_entry loaded).2 ∧
      (∀ province, (∀ entry ∈ entries, province ∉ entry.provinces) →
        (entries.foldl load_continent_entry loaded).2.continent_of province =
          loaded.2.continent_of province) ∧
      (∀ continent ∈ (entries.foldl load_continent_entry loaded).2.continents,
        continent ∈ loaded.2.continents ∨
          ∃ entry ∈ entries, continent.identifier = entry.identifier) := by
  induction entries generalizing loaded with
  | nil =>
    exact ⟨continent_reached_refl _ hinv, fun _ _ => rfl, fun _ hmem => Or.inl hmem⟩
  | cons first rest ih =>
    rw [List.foldl_cons]
    obtain ⟨s1, s2, s3⟩ := load_continent_entry_spec loaded first hinv
    obtain ⟨i1, i2, i3⟩ := ih (load_continent_entry loaded first) s1.1
    refine ⟨continent_reached_trans s1 i1, ?_, ?_⟩
    · intro province h
      rw [i2 province (fun entry hmem => h entry (List.mem_cons_of_mem _ hmem)),
        s2 province (h first (List.mem_cons_self _ _))]
    · intro continent hmem
      rcases i3 continent hmem with h | ⟨entry, hentry, hid⟩
      · rcases s3 continent h with h1 | h1
        · exact Or.inl h1
        · exact Or.inr ⟨first, List.mem_cons_self _ _, h1⟩
      · exact Or.inr ⟨entry, List.mem_cons_of_mem _ hentry, hid⟩

/-- The continent loader is first-wins: a province without continent that is listed
under a new continent points to that continent after the file is read. -/
theorem load_continent_file_first_listing (map : Map) (pre post : List province_set_entry)
    (entry : province_set_entry) (province : Nat)
    (hinv : continents_consistent map)
    (hcontinents : map.continents = [])
    (hlocked : map.continents_locked = false)
    (hempty : entry.identifier.isEmpty = false)
    (hnew : ∀ earlier ∈ pre, earlier.identifier ≠ entry.identifier)
    (hlisted : province ∈ entry.provinces)
    (hvalid : map.continent_of province = some none)
    (hearlier : ∀ earlier ∈ pre, province ∉ earlier.provinces) :
    (map.load_continent_file (pre ++ entry :: post)).2.continent_of province =
      some (some entry.identifier) := by
  unfold load_continent_file
  rw [List.foldl_append, List.foldl_cons]
  obtain ⟨p1, p2, p3⟩ := load_continent_entries_spec pre (true, map) hinv
  have hnew1 : ∀ continent ∈ (pre.foldl load_continent_entry (true, map)).2.continents,
      continent.identifier ≠ entry.identifier := by
    intro continent hmem
    rcases p3 continent hmem with h | ⟨earlier, hearly, hid⟩
    · rw [hcontinents] at h
      cases h
    · rw [hid]
      exact hnew earlier hearly
  obtain ⟨_, _, a3⟩ := load_continent_entry_added (pre.foldl load_continent_entry (true, map))
    entry hempty (p1.2.1.trans hlocked) hnew1
  have hptr := a3 province
  rw [if_pos ⟨hlisted, (p2 province hearlier).trans hvalid⟩] at hptr
  obtain ⟨s1, _, _⟩ := load_continent_entry_spec (pre.foldl load_continent_entry (true, map))
    entry p1.1
  obtain ⟨q1, _, _⟩ := load_continent_entries_spec post
    (load_continent_entry (pre.foldl load_continent_entry (true, map)) entry) s1.1
  exact q1.2.2.2 province entry.identifier hptr

theorem continents_consistent_of_empty (map : Map) (hcontinents : map.continents = [])
    (hpointers : ∀ province ∈ map.provinces, province.continent = none) :
    continents_consistent map := by
  refine ⟨?_, ?_, ?_⟩
  · intro continent hmem
    rw [hcontinents] at hmem
    cases hmem
  · intro province identifier h
    unfold continent_of at h
    cases hget : map.get_province_by_index province with
    | none =>
      rw [hget] at h
      cases h
    | some listed =>
      rw [hget] at h
      have hmem : listed ∈ map.provinces := by
        unfold get_province_by_index at hget
        split at hget
        · cases hget
        · exact List.getElem?_mem hget
      have h1 : listed.continent = some identifier := Option.some.inj h
      rw [hpointers listed hmem] at h1
      cases h1
  · rw [hcontinents]
    exact List.nodup_nil

/-- C24 (amended): after the climate file and the continent file are loaded into a
map without climates, continents and pointers, a province is among the provinces of
a climate exactly when its climate pointer leads to that climate, and likewise for
continents, so that it belongs to at most one of each. Duplicates are resolved
last-wins for climates and first-wins for continents: a province listed under a
registered climate ends in that climate unless a later entry lists it again, and a
province listed under a new continent ends in that continent unless an earlier entry
lists it. -/
theorem load_climate_and_continent_file_membership (map : Map)
    (climate_file continent_file : List province_set_entry)
    (hclimates : map.climates = []) (hcontinents : map.continents = [])
    (hlocked : map.climates_locked = false ∧ map.continents_locked = false)
    (hpointers : ∀ province ∈ map.provinces,
      province.climate = none ∧ province.continent = none) :
    (∀ identifier climate province,
      (map.load_climate_file climate_file).2.get_climate_by_identifier identifier =
          some climate →
        (province ∈ climate.provinces ↔
          ((map.load_climate_file climate_file).2.get_province_by_index province).map
            (fun listed => listed.climate) = some (some identifier))) ∧
      (∀ first second climate_first climate_second province,
        (map.load_climate_file climate_file).2.get_climate_by_identifier first =
            some climate_first →
          (map.load_climate_file climate_file).2.get_climate_by_identifier second =
            some climate_second →
          province ∈ climate_first.provinces → province ∈ climate_second.provinces →
          first = second) ∧
      (∀ pre entry post province, climate_file = pre ++ entry :: post →
        entry.identifier.isEmpty = false →
        (∃ earlier ∈ pre, earlier.identifier = entry.identifier) →
        province ∈ entry.provinces →
        (map.get_province_by_index province).isSome = true →
        (∀ later ∈ post, province ∉ later.provinces) →
        ((map.load_climate_file climate_file).2.get_province_by_index province).map
          (fun listed => listed.climate) = some (some entry.identifier)) ∧
      (∀ continent ∈ (map.load_continent_file continent_file).2.continents, ∀ province,
        (province ∈ continent.provinces ↔
          ((map.load_continent_file continent_file).2.get_province_by_index province).map
            (fun listed => listed.continent) = some (some continent.identifier))) ∧
      (∀ first ∈ (map.load_continent_file continent_file).2.continents,
        ∀ second ∈ (map.load_continent_file continent_file).2.continents, ∀ province,
          province ∈ first.provinces → province ∈ second.provinces →
          first.identifier = second.identifier) ∧
      (∀ pre entry post province, continent_file = pre ++ entry :: post →
        entry.identifier.isEmpty = false →
        (∀ earlier ∈ pre, earlier.identifier ≠ entry.identifier) →
        province ∈ entry.provinces →
        (map.get_province_by_index province).isSome = true →
        (∀ earlier ∈ pre, province ∉ earlier.provinces) →
        ((map.load_continent_file continent_file).2.get_province_by_index province).map
          (fun listed => listed.continent) = some (some entry.identifier)) := by
  have hcl : climates_consistent map :=
    climates_consistent_of_empty map hclimates (fun province h => (hpointers province h).1)
  have hnodup : (map.climates.map (fun other => other.identifier)).Nodup := by
    rw [hclimates]
    exact List.nodup_nil
  have hco : continents_consistent map :=
    continents_consistent_of_empty map hcontinents
      (fun province h => (hpointers province h).2)
  have hclimate := load_climate_file_consistent map climate_file hcl hnodup
  have hcontinent : continents_consistent (map.load_continent_file continent_file).2 :=
    (load_continent_entries_spec continent_file (true, map) hco).1.1
  have hiff : ∀ identifier climate province,
      (map.load_climate_file climate_file).2.get_climate_by_identifier identifier =
          some climate →
        (province ∈ climate.provinces ↔
          ((map.load_climate_file climate_file).2.get_province_by_index province).map
            (fun listed => listed.climate) = some (some identifier)) := by
    intro identifier climate province h
    rw [hclimate.1 identifier climate h province, Option.map_eq_some']
  refine ⟨hiff, ?_, ?_, hcontinent.1, ?_, ?_⟩
  · intro first second climate_first climate_second province h1 h2 m1 m2
    have p1 := (hiff first climate_first province h1).mp m1
    have p2 := (hiff second climate_second province h2).mp m2
    rw [p1] at p2
    exact Option.some.inj (Option.some.inj p2)
  · intro pre entry post province hfile hempty hdefined hlisted hvalid hlater
    rw [hfile]
    exact load_climate_file_last_listing map pre post entry province hcl hnodup hlocked.1
      hempty hdefined hlisted hvalid hlater
  · intro first hfirst second hsecond province m1 m2
    have p1 := (hcontinent.1 first hfirst province).mp m1
    have p2 := (hcontinent.1 second hsecond province).mp m2
    rw [p1] at p2
    exact Option.some.inj (Option.some.inj p2)
  · intro pre entry post province hfile hempty hnew hlisted hvalid hearlier
    rw [hfile]
    apply load_continent_file_first_listing map pre post entry province hco hcontinents
      hlocked.2 hempty hnew hlisted _ hearlier
    unfold continent_of
    cases hget : map.get_province_by_index province with
    | none =>
      rw [hget] at hvalid
      cases hvalid
    | some listed =>
      have hmem : listed ∈ map.provinces := by
        unfold get_province_by_index at hget
        split at hget
        · cases hget
        · exact List.getElem?_mem hget
      rw [Option.map_some', (hpointers listed hmem).2]

theorem load_climate_and_continent_file_membership_witness :
    (scenario_map.climates = [] ∧ scenario_map.continents = [] ∧
      (scenario_map.climates_locked = false ∧ scenario_map.continents_locked = false) ∧
      ∀ province ∈ scenario_map.provinces,
        province.climate = none ∧ province.continent = none) ∧
      ((scenario_map.load_climate_file
          ([{ identifier := "tropical" }, { identifier := "arctic" }] ++
            { identifier := "tropical", provinces := [1, 2] } ::
              [{ identifier := "arctic", provinces := [3] }])).2.get_province_by_index 1).map
          (fun listed => listed.climate) = some (some "tropical") ∧
      ((scenario_map.load_continent_file
          ([] ++ { identifier := "europe", provinces := [1, 2] } ::
            [{ identifier := "asia", provinces := [1, 3] }])).2.get_province_by_index 1).map
          (fun listed => listed.continent) = some (some "europe") := by
  have h := load_climate_and_continent_file_membership scenario_map
    ([{ identifier := "tropical" }, { identifier := "arctic" }] ++
      { identifier := "tropical", provinces := [1, 2] } ::
        [{ identifier := "arctic", provinces := [3] }])
    ([] ++ { identifier := "europe", provinces := [1, 2] } ::
      [{ identifier := "asia", provinces := [1, 3] }])
    rfl rfl ⟨rfl, rfl⟩ (by decide)
  have hclimate := h.2.2.1 [{ identifier := "tropical" }, { identifier := "arctic" }]
    { identifier := "tropical", provinces := [1, 2] }
    [{ identifier := "arctic", provinces := [3] }] 1 rfl (by decide)
    ⟨{ identifier := "tropical" }, by decide, rfl⟩ (by decide) (by decide) (by decide)
  have hcontinent := h.2.2.2.2.2 [] { identifier := "europe", provinces := [1, 2] }
    [{ identifier := "asia", provinces := [1, 3] }] 1 rfl (by decide)
    (by decide) (by decide) (by decide) (by decide)
  exact ⟨by decide, hclimate, hcontinent⟩

/-- The climate scenario in which province 1 is listed under the climate "tropical"
and then under the climate "arctic": after loading, the province is a member of the
climate listed second and its climate pointer leads to that climate. -/
theorem scenario_province_in_two_climates_ends_in_second :
    ((scenario_map.load_climate_file
        [{ identifier := "tropical" }, { identifier := "arctic" },
         { identifier := "tropical", provinces := [1] },
         { identifier := "arctic", provinces := [1] }]).2.get_climate_by_identifier
        "tropical").map (fun climate => climate.provinces) = some [] ∧
      ((scenario_map.load_climate_file
        [{ identifier := "tropical" }, { identifier := "arctic" },
         { identifier := "tropical", provinces := [1] },
         { identifier := "arctic", provinces := [1] }]).2.get_climate_by_identifier
        "arctic").map (fun climate => climate.provinces) = some [1] ∧
      ((scenario_map.load_climate_file
        [{ identifier := "tropical" }, { identifier := "arctic" },
         { identifier := "tropical", provinces := [1] },
         { identifier := "arctic", provinces := [1] }]).2.get_province_by_index 1).map
        (fun listed => listed.climate) = some (some "arctic") := by
  decide

end Map

/-! ## Lemmas on the pixel loop of `load_map_images` -/

namespace Map

/-- The pixel count that the pixel loop reaches by counting the given pixels. -/
def counted (pixels : List (Nat × Nat)) : fixed_point_t :=
  pixels.foldl (fun count _ => fixed_point_t.increment count) 0

/-- The position sum that the pixel loop reaches by adding the given pixels. -/
def summed (pixels : List (Nat × Nat)) : fvec2_t :=
  pixels.foldl (fun sum pixel => fvec2_t.add sum (fvec2_t.of_ivec2 pixel.1 pixel.2))
    { x := 0, y := 0 }

/-- The pixels among the given ones whose colour belongs to the province at
`array_index` of the registry. -/
def looked_up_pixels (map : Map) (province_data : List Nat) (width : Nat)
    (pixels : List (Nat × Nat)) (array_index : Nat) : List (Nat × Nat) :=
  pixels.filter (fun pixel =>
    map.direct_lookup_index province_data (pixel.1 + pixel.2 * width) = array_index + 1)

/-- The state of the pixel loop after the pixels `done`, which are the first `count`
pixels of the image, have been scanned. -/
def scanned (map : Map) (province_data : List Nat) (width size : Nat)
    (done : List (Nat × Nat)) (count : Nat) (scan : image_scan) : Prop :=
  scan.province_shape_image.length = size ∧
    (∀ pixel, pixel < count →
      (scan.province_shape_image.getD pixel ⟨0, 0⟩).index =
        map.direct_lookup_index province_data pixel) ∧
    scan.pixels_per_province.length = map.provinces.length ∧
    scan.pixel_position_sum_per_province.length = map.provinces.length ∧
    (∀ array_index, array_index < map.provinces.length →
      scan.pixels_per_province.getD array_index 0 =
        counted (looked_up_pixels map province_data width done array_index)) ∧
    ∀ array_index, array_index < map.provinces.length →
      scan.pixel_position_sum_per_province.getD array_index { x := 0, y := 0 } =
        summed (looked_up_pixels map province_data width done array_index)

theorem getD_set {T : Type} (items : List T) (index other : Nat) (item default : T) :
    (items.set index item).getD other default =
      if other = index ∧ index < items.length then item else items.getD other default := by
  rw [List.getD_eq_getElem?_getD, List.getD_eq_getElem?_getD, List.getElem?_set]
  by_cases h : index = other
  · subst h
    by_cases hl : index < items.length
    · simp [hl]
    · rw [List.getElem?_eq_none (Nat.le_of_not_lt hl)]
      simp [hl]
  · rw [if_neg h, if_neg (fun h1 => h h1.1.symm)]

theorem looked_up_pixels_append (map : Map) (province_data : List Nat) (width : Nat)
    (done : List (Nat × Nat)) (pixel : Nat × Nat) (array_index : Nat) :
    looked_up_pixels map province_data width (done ++ [pixel]) array_index =
      if map.direct_lookup_index province_data (pixel.1 + pixel.2 * width) = array_index + 1
      then looked_up_pixels map province_data width done array_index ++ [pixel]
      else looked_up_pixels map province_data width done array_index := by
  unfold looked_up_pixels
  rw [List.filter_append]
  by_cases h : map.direct_lookup_index province_data (pixel.1 + pixel.2 * width) =
      array_index + 1
  · rw [if_pos h]
    simp [h]
  · rw [if_neg h]
    simp [h]

theorem counted_append (pixels : List (Nat × Nat)) (pixel : Nat × Nat) :
    counted (pixels ++ [pixel]) = fixed_point_t.increment (counted pixels) := by
  unfold counted
  rw [List.foldl_append]
  rfl

theorem summed_append (pixels : List (Nat × Nat)) (pixel : Nat × Nat) :
    summed (pixels ++ [pixel]) =
      fvec2_t.add (summed pixels) (fvec2_t.of_ivec2 pixel.1 pixel.2) := by
  unfold summed
  rw [List.foldl_append]
  rfl

/-- The pixel loop stores the directly looked-up index for the pixel it scans and
counts the pixel for the province of that index. -/
theorem scanned_scan_pixel (map : Map) (province_data terrain_data : List Nat)
    (width size : Nat) (done : List (Nat × Nat)) (scan : image_scan) (x y : Nat)
    (hx : x < width) (hsize : x + y * width < size)
    (h : scanned map province_data width size done (x + y * width) scan) :
    scanned map province_data width size (done ++ [(x, y)]) (x + y * width + 1)
      (scan_pixel map province_data terrain_data width y scan x) := by
  obtain ⟨h1, h2, h3, h4, h5, h6⟩ := h
  have hidx : (if x > 0 ∧ colour_at province_data (x + y * width - 1) =
        colour_at province_data (x + y * width) then
        (scan.province_shape_image.getD (x + y * width - 1) ⟨0, 0⟩).index
      else if y > 0 ∧ colour_at province_data (x + y * width - width) =
        colour_at province_data (x + y * width) then
        (scan.province_shape_image.getD (x + y * width - width) ⟨0, 0⟩).index
      else map.get_index_from_colour (colour_at province_data (x + y * width))) =
      map.direct_lookup_index province_data (x + y * width) := by
    by_cases hl : x > 0 ∧ colour_at province_data (x + y * width - 1) =
        colour_at province_data (x + y * width)
    · rw [if_pos hl, h2 _ (by omega)]
      unfold direct_lookup_index
      rw [hl.2]
    · rw [if_neg hl]
      by_cases hu : y > 0 ∧ colour_at province_data (x + y * width - width) =
          colour_at province_data (x + y * width)
      · have hge : width ≤ y * width := Nat.le_mul_of_pos_left width hu.1
        rw [if_pos hu, h2 _ (by omega)]
        unfold direct_lookup_index
        rw [hu.2]
      · rw [if_neg hu]
        rfl
  unfold scan_pixel
  simp only [hidx]
  refine ⟨?_, ?_, ?_, ?_, ?_, ?_⟩
  · rw [List.length_set]
    exact h1
  · intro pixel hpixel
    rw [getD_set]
    by_cases hp : pixel = x + y * width
    · rw [if_pos ⟨hp, by rw [h1]; exact hsize⟩, hp]
    · rw [if_neg (fun h => hp h.1)]
      exact h2 pixel (by omega)
  · dsimp only
    by_cases hne : map.direct_lookup_index province_data (x + y * width) ≠ 0
    · rw [if_pos hne, List.length_set]
      exact h3
    · rw [if_neg hne]
      exact h3
  · dsimp only
    by_cases hne : map.direct_lookup_index province_data (x + y * width) ≠ 0
    · rw [if_pos hne, List.length_set]
      exact h4
    · rw [if_neg hne]
      exact h4
  · intro array_index harray
    rw [looked_up_pixels_append]
    dsimp only
    by_cases hp : map.direct_lookup_index province_data (x + y * width) = array_index + 1
    · rw [if_pos hp, if_pos (by omega), getD_set, hp, counted_append,
        if_pos ⟨rfl, by rw [h3]; exact harray⟩]
      exact congrArg _ (h5 array_index harray)
    · rw [if_neg hp]
      by_cases hne : map.direct_lookup_index province_data (x + y * width) ≠ 0
      · rw [if_pos hne, getD_set, if_neg (fun h => hp (by omega))]
        exact h5 array_index harray
      · rw [if_neg hne]
        exact h5 array_index harray
  · intro array_index harray
    rw [looked_up_pixels_append]
    dsimp only
    by_cases hp : map.direct_lookup_index province_data (x + y * width) = array_index + 1
    · rw [if_pos hp, if_pos (by omega), getD_set, hp, summed_append,
        if_pos ⟨rfl, by rw [h4]; exact harray⟩]
      exact congrArg (fun sum => fvec2_t.add sum (fvec2_t.of_ivec2 x y))
        (h6 array_index harray)
    · rw [if_neg hp]
      by_cases hne : map.direct_lookup_index province_data (x + y * width) ≠ 0
      · rw [if_pos hne, getD_set, if_neg (fun h => hp (by omega))]
        exact h6 array_index harray
      · rw [if_neg hne]
        exact h6 array_index harray

theorem pixel_coordinates_succ (width height : Nat) :
    pixel_coordinates width (height + 1) =
      pixel_coordinates width height ++ (List.range width).map (fun x => (x, height)) := by
  unfold pixel_coordinates
  rw [List.range_succ, List.flatMap_append]
  simp

theorem mem_pixel_coordinates (width height : Nat) (pixel : Nat × Nat) :
    pixel ∈ pixel_coordinates width height ↔ pixel.1 < width ∧ pixel.2 < height := by
  unfold pixel_coordinates
  rw [List.mem_flatMap]
  constructor
  · rintro ⟨y, hy, hmem⟩
    obtain ⟨x, hx, rfl⟩ := List.mem_map.mp hmem
    exact ⟨List.mem_range.mp hx, List.mem_range.mp hy⟩
  · rintro ⟨hx, hy⟩
    exact ⟨pixel.2, List.mem_range.mpr hy,
      List.mem_map.mpr ⟨pixel.1, List.mem_range.mpr hx, rfl⟩⟩

theorem length_pixel_coordinates (width height : Nat) :
    (pixel_coordinates width height).length = height * width := by
  induction height with
  | zero => simp [pixel_coordinates]
  | succ height ih =>
    rw [pixel_coordinates_succ, List.length_append, ih, List.length_map, List.length_range,
      Nat.succ_mul]

theorem scanned_row (map : Map) (province_data terrain_data : List Nat)
    (width size : Nat) (done : List (Nat × Nat)) (scan : image_scan) (y : Nat)
    (hsize : width + y * width ≤ size)
    (h : scanned map province_data width size done (0 + y * width) scan) (columns : Nat)
    (hcolumns : columns ≤ width) :
    scanned map province_data width size
      (done ++ (List.range columns).map (fun x => (x, y))) (columns + y * width)
      ((List.range columns).foldl (scan_pixel map province_data terrain_data width y)
        scan) := by
  induction columns with
  | zero =>
    rw [List.range_zero, List.map_nil, List.append_nil, List.foldl_nil]
    exact h
  | succ columns ih =>
    rw [List.range_succ, List.map_append, List.foldl_append, ← List.append_assoc]
    have hstep := scanned_scan_pixel map province_data terrain_data width size _ _
      columns y (by omega) (by omega) (ih (by omega))
    rw [show columns + 1 + y * width = columns + y * width + 1 by omega]
    exact hstep

theorem scanned_rows (map : Map) (province_data terrain_data : List Nat)
    (width height size : Nat) (scan : image_scan) (hsize : height * width ≤ size)
    (h : scanned map province_data width size [] 0 scan) (rows : Nat)
    (hrows : rows ≤ height) :
    scanned map province_data width size (pixel_coordinates width rows) (rows * width)
      (scan_pixels map province_data terrain_data width rows scan) := by
  induction rows with
  | zero =>
    rw [Nat.zero_mul]
    exact h
  | succ rows ih =>
    unfold scan_pixels at ih ⊢
    rw [List.range_succ, List.foldl_append, pixel_coordinates_succ]
    have hle : (rows + 1) * width ≤ height * width := Nat.mul_le_mul_right _ hrows
    have hrow := scanned_row map province_data terrain_data width size _ _ rows
      (by rw [Nat.succ_mul] at hle; omega)
      (by rw [Nat.zero_add]; exact ih (by omega)) width (Nat.le_refl _)
    rw [show (rows + 1) * width = width + rows * width by rw [Nat.succ_mul]; omega]
    exact hrow

/-- The state of the pixel loop of `load_map_images` after the last pixel. -/
def loaded_scan (map : Map) (province_bmp terrain_bmp : BMP) : image_scan :=
  scan_pixels map province_bmp.pixel_data terrain_bmp.pixel_data province_bmp.width.toNat
    province_bmp.height.toNat
    { province_shape_image :=
        map.province_shape_image.take (province_bmp.width * province_bmp.height).toNat ++
          List.replicate
            ((province_bmp.width * province_bmp.height).toNat -
              map.province_shape_image.length) ⟨0, 0⟩
      pixels_per_province := List.replicate map.provinces.length 0
      pixel_position_sum_per_province :=
        List.replicate map.provinces.length { x := 0, y := 0 } }

theorem toNat_mul_le (width height : Int) :
    height.toNat * width.toNat ≤ (width * height).toNat := by
  by_cases hw : 0 ≤ width
  · by_cases hh : 0 ≤ height
    · obtain ⟨w, rfl⟩ := Int.eq_ofNat_of_zero_le hw
      obtain ⟨h, rfl⟩ := Int.eq_ofNat_of_zero_le hh
      rw [← Int.ofNat_mul, Int.toNat_ofNat, Int.toNat_ofNat, Int.toNat_ofNat, Nat.mul_comm]
    · rw [Int.toNat_eq_zero.mpr (by omega : height ≤ 0), Nat.zero_mul]
      exact Nat.zero_le _
  · rw [Int.toNat_eq_zero.mpr (by omega : width ≤ 0), Nat.mul_zero]
    exact Nat.zero_le _

theorem scanned_loaded_scan (map : Map) (province_bmp terrain_bmp : BMP) :
    scanned map province_bmp.pixel_data province_bmp.width.toNat
      (province_bmp.width * province_bmp.height).toNat
      (pixel_coordinates province_bmp.width.toNat province_bmp.height.toNat)
      (province_bmp.height.toNat * province_bmp.width.toNat)
      (loaded_scan map province_bmp terrain_bmp) := by
  apply scanned_rows map province_bmp.pixel_data terrain_bmp.pixel_data _ _ _ _
    (toNat_mul_le _ _) _ _ (Nat.le_refl _)
  refine ⟨?_, ?_, ?_, ?_, ?_, ?_⟩
  · rw [List.length_append, List.length_take, List.length_replicate]
    omega
  · intro pixel hpixel
    omega
  · exact List.length_replicate _ _
  · exact List.length_replicate _ _
  · intro array_index harray
    rw [List.getD_eq_getElem?_getD, List.getElem?_replicate]
    simp [harray, looked_up_pixels, counted]
  · intro array_index harray
    rw [List.getD_eq_getElem?_getD, List.getElem?_replicate]
    simp [harray, looked_up_pixels, summed]

/-- What the province loop of `load_map_images` writes to the province at
`array_index` of the registry. -/
def pixel_result (scan : image_scan) (array_index : Nat) (province : Province) : Province :=
  if scan.pixels_per_province.getD array_index 0 > 0 then
    { province with
      on_map := true
      centre :=
        fvec2_t.div
          (scan.pixel_position_sum_per_province.getD array_index { x := 0, y := 0 })
          (scan.pixels_per_province.getD array_index 0) }
  else { province with on_map := false }

theorem set_pixel_results_eq (scan : image_scan) (map : Map) (array_index : Nat) :
    set_pixel_results scan map array_index =
      match map.get_province_by_index (array_index + 1) with
      | some province =>
        map.set_province (array_index + 1) (pixel_result scan array_index province)
      | none => map := by
  unfold set_pixel_results pixel_result
  cases map.get_province_by_index (array_index + 1) with
  | none => rfl
  | some province =>
    dsimp only
    split <;> rfl

theorem colour_index_map_set_province (map : Map) (index : Nat) (province : Province) :
    (map.set_province index province).colour_index_map = map.colour_index_map := by
  unfold set_province
  split <;> rfl

theorem set_pixel_results_fold (scan : image_scan) (map : Map) (count : Nat) :
    ((List.range count).foldl (set_pixel_results scan) map).width = map.width ∧
      ((List.range count).foldl (set_pixel_results scan) map).height = map.height ∧
      ((List.range count).foldl (set_pixel_results scan) map).province_shape_image =
        map.province_shape_image ∧
      ((List.range count).foldl (set_pixel_results scan) map).colour_index_map =
        map.colour_index_map ∧
      ∀ index,
        ((List.range count).foldl (set_pixel_results scan) map).get_province_by_index index =
          if 1 ≤ index ∧ index ≤ count then
            (map.get_province_by_index index).map (pixel_result scan (index - 1))
          else map.get_province_by_index index := by
  induction count with
  | zero =>
    refine ⟨rfl, rfl, rfl, rfl, fun index => ?_⟩
    rw [if_neg (by omega)]
    rfl
  | succ count ih =>
    obtain ⟨i1, i2, i3, i4, i5⟩ := ih
    rw [List.range_succ, List.foldl_append, List.foldl_cons, List.foldl_nil,
      set_pixel_results_eq]
    have hnext := i5 (count + 1)
    rw [if_neg (by omega)] at hnext
    cases hget : map.get_province_by_index (count + 1) with
    | none =>
      rw [hget] at hnext
      rw [hnext]
      refine ⟨i1, i2, i3, i4, fun index => ?_⟩
      rw [i5 index]
      by_cases hindex : index = count + 1
      · rw [hindex, if_neg (by omega), if_pos (by omega), hget]
        rfl
      · by_cases hle : 1 ≤ index ∧ index ≤ count
        · rw [if_pos hle, if_pos (by omega)]
        · rw [if_neg hle, if_neg (by omega)]
    | some province =>
      rw [hget] at hnext
      rw [hnext]
      dsimp only
      obtain ⟨f1, f2, f3, _⟩ := same_frame_set_province
        ((List.range count).foldl (set_pixel_results scan) map) (count + 1)
        (pixel_result scan count province)
      refine ⟨f1.trans i1, f2.trans i2, f3.trans i3,
        (colour_index_map_set_province _ _ _).trans i4, fun index => ?_⟩
      rw [get_set_province, hnext]
      by_cases hindex : index = count + 1
      · rw [if_pos ⟨hindex, rfl⟩, if_pos (by omega), hindex, hget]
        rfl
      · rw [if_neg (fun h => hindex h.1), i5 index]
        by_cases hle : 1 ≤ index ∧ index ≤ count
        · rw [if_pos hle, if_pos (by omega)]
        · rw [if_neg hle, if_neg (by omega)]

/-- The map that `load_map_images` leaves when it returns true. -/
theorem load_map_images_loaded (map : Map) (province_bmp terrain_bmp : BMP)
    (hloaded : (map.load_map_images province_bmp terrain_bmp).1 = true) :
    (map.load_map_images province_bmp terrain_bmp).2 =
      (List.range map.provinces.length).foldl
        (set_pixel_results (loaded_scan map province_bmp terrain_bmp))
        { map with
          width := province_bmp.width
          height := province_bmp.height
          province_shape_image :=
            (loaded_scan map province_bmp terrain_bmp).province_shape_image } := by
  unfold load_map_images at hloaded ⊢
  split_ifs at hloaded ⊢
  rfl

/-- What `load_map_images` leaves when it returns true: the dimensions of the images,
the shape image of the pixel loop, the colour index map as it was, and every
province with the result of the province loop. -/
theorem load_map_images_spec (map : Map) (province_bmp terrain_bmp : BMP)
    (hloaded : (map.load_map_images province_bmp terrain_bmp).1 = true) :
    (map.load_map_images province_bmp terrain_bmp).2.width = province_bmp.width ∧
      (map.load_map_images province_bmp terrain_bmp).2.height = province_bmp.height ∧
      (map.load_map_images province_bmp terrain_bmp).2.colour_index_map =
        map.colour_index_map ∧
      (∀ x y, x < province_bmp.width.toNat → y < province_bmp.height.toNat →
        (map.load_map_images province_bmp terrain_bmp).2.pixel_index x y =
          map.direct_lookup_index province_bmp.pixel_data
            (x + y * province_bmp.width.toNat)) ∧
      ∀ index,
        (map.load_map_images province_bmp terrain_bmp).2.get_province_by_index index =
          (map.get_province_by_index index).map
            (pixel_result (loaded_scan map province_bmp terrain_bmp) (index - 1)) := by
  rw [load_map_images_loaded map province_bmp terrain_bmp hloaded]
  obtain ⟨f1, f2, f3, f4, f5⟩ := set_pixel_results_fold
    (loaded_scan map province_bmp terrain_bmp)
    { map with
      width := province_bmp.width
      height := province_bmp.height
      province_shape_image := (loaded_scan map province_bmp terrain_bmp).province_shape_image }
    map.provinces.length
  obtain ⟨s1, s2, _⟩ := scanned_loaded_scan map province_bmp terrain_bmp
  refine ⟨f1, f2, f4, ?_, ?_⟩
  · intro x y hx hy
    unfold pixel_index
    rw [f1, f3]
    dsimp only
    have hlt : x + y * province_bmp.width.toNat <
        province_bmp.height.toNat * province_bmp.width.toNat := by
      have h1 : (y + 1) * province_bmp.width.toNat ≤
          province_bmp.height.toNat * province_bmp.width.toNat :=
        Nat.mul_le_mul_right _ hy
      rw [Nat.succ_mul] at h1
      omega
    have hlen : x + y * province_bmp.width.toNat <
        (loaded_scan map province_bmp terrain_bmp).province_shape_image.length := by
      rw [s1]
      exact lt_of_lt_of_le hlt (toNat_mul_le _ _)
    have hscan := s2 _ hlt
    rw [List.getD_eq_getElem?_getD, List.getElem?_eq_getElem hlen] at hscan
    rw [List.getElem?_eq_getElem hlen]
    exact hscan
  · intro index
    rw [f5 index]
    by_cases hle : 1 ≤ index ∧ index ≤ map.provinces.length
    · rw [if_pos hle]
      rfl
    · rw [if_neg hle]
      have hnone : map.get_province_by_index index = none := by
        unfold get_province_by_index
        by_cases h0 : index = 0
        · rw [if_pos h0]
        · rw [if_neg h0]
          exact List.getElem?_eq_none (by omega)
      have hnone1 : ({ map with
          width := province_bmp.width
          height := province_bmp.height
          province_shape_image :=
            (loaded_scan map province_bmp terrain_bmp).province_shape_image
          } : Map).get_province_by_index index = none := hnone
      rw [hnone1, hnone]
      rfl

/-- C25: when `load_map_images` returns true, the province index that the shape image
holds for the pixel in column x of row y is the index that a direct lookup of the
colour of that pixel gives, `get_index_from_colour` of `colour_at` of the pixel, which
is the null index for a colour that the colour index map does not hold. -/
theorem load_map_images_pixel_index (map : Map) (province_bmp terrain_bmp : BMP)
    (x y : Nat)
    (hloaded : (map.load_map_images province_bmp terrain_bmp).1 = true)
    (hx : (x : Int) < province_bmp.width) (hy : (y : Int) < province_bmp.height) :
    (map.load_map_images province_bmp terrain_bmp).2.pixel_index x y =
        (map.load_map_images province_bmp terrain_bmp).2.direct_lookup_index
          province_bmp.pixel_data (x + y * province_bmp.width.toNat) ∧
      (map.load_map_images province_bmp terrain_bmp).2.direct_lookup_index
          province_bmp.pixel_data (x + y * province_bmp.width.toNat) =
        (map.load_map_images province_bmp terrain_bmp).2.get_index_from_colour
          (colour_at province_bmp.pixel_data (x + y * province_bmp.width.toNat)) ∧
      ((∀ entry ∈ (map.load_map_images province_bmp terrain_bmp).2.colour_index_map,
          entry.1 ≠ colour_at province_bmp.pixel_data (x + y * province_bmp.width.toNat)) →
        (map.load_map_images province_bmp terrain_bmp).2.pixel_index x y = 0) := by
  obtain ⟨_, _, s3, s4, _⟩ := load_map_images_spec map province_bmp terrain_bmp hloaded
  have hindex : (map.load_map_images province_bmp terrain_bmp).2.pixel_index x y =
      (map.load_map_images province_bmp terrain_bmp).2.direct_lookup_index
        province_bmp.pixel_data (x + y * province_bmp.width.toNat) := by
    rw [s4 x y (by omega) (by omega)]
    unfold direct_lookup_index get_index_from_colour
    rw [s3]
  refine ⟨hindex, rfl, fun hnew => ?_⟩
  rw [hindex]
  unfold direct_lookup_index get_index_from_colour
  rw [List.find?_eq_none.mpr]
  intro entry hentry
  simpa using hnew entry hentry

theorem load_map_images_pixel_index_witness :
    ((scenario_map_unloaded.load_map_images scenario_province_bmp scenario_terrain_bmp).1 =
        true ∧
      ((1 : Nat) : Int) < scenario_province_bmp.width ∧
      ((1 : Nat) : Int) < scenario_province_bmp.height) ∧
      (scenario_map_unloaded.load_map_images scenario_province_bmp
          scenario_terrain_bmp).2.pixel_index 1 1 =
        (scenario_map_unloaded.load_map_images scenario_province_bmp
          scenario_terrain_bmp).2.direct_lookup_index scenario_province_bmp.pixel_data
          (1 + 1 * scenario_province_bmp.width.toNat) :=
  ⟨by decide,
    (load_map_images_pixel_index scenario_map_unloaded scenario_province_bmp
      scenario_terrain_bmp 1 1 (by decide) (by decide) (by decide)).1⟩

theorem increment_pos (count : Int) (h : 0 ≤ count) : 0 < fixed_point_t.increment count := by
  have h1 := fixed_point_t.saturate_mono (show (65536 : Int) ≤ count + 65536 by omega)
  have h2 : fixed_point_t.saturate 65536 = 65536 :=
    fixed_point_t.saturate_of_mem (by decide) (by decide)
  rw [h2] at h1
  exact lt_of_lt_of_le (show (0 : Int) < 65536 by decide) h1

theorem foldl_increment_pos (pixels : List (Nat × Nat)) (count : Int) (h : 0 < count) :
    0 < pixels.foldl (fun count _ => fixed_point_t.increment count) count := by
  induction pixels generalizing count with
  | nil => exact h
  | cons pixel rest ih =>
    rw [List.foldl_cons]
    exact ih _ (increment_pos count (by omega))

theorem counted_pos_iff (pixels : List (Nat × Nat)) : 0 < counted pixels ↔ pixels ≠ [] := by
  unfold counted
  cases pixels with
  | nil => simp
  | cons pixel rest =>
    rw [List.foldl_cons]
    simp only [ne_eq, reduceCtorEq, not_false_eq_true, iff_true]
    exact foldl_increment_pos rest _ (increment_pos 0 (le_refl _))

theorem parse_natCast (count : Nat) (h : (count : Int) * 65536 ≤ 9223372036854775807) :
    fixed_point_t.parse (count : Int) = (count : Int) * 65536 := by
  unfold fixed_point_t.parse
  apply fixed_point_t.saturate_of_mem
  · unfold fixed_point_t.MAX
    omega
  · exact h

theorem add_parse_natCast (a b : Nat)
    (h : ((a : Int) + (b : Int)) * 65536 ≤ 9223372036854775807) :
    fixed_point_t.add (fixed_point_t.parse (a : Int)) (fixed_point_t.parse (b : Int)) =
      fixed_point_t.parse ((a + b : Nat) : Int) := by
  rw [parse_natCast a (by omega), parse_natCast b (by omega),
    parse_natCast (a + b) (by rw [Nat.cast_add]; exact h)]
  unfold fixed_point_t.add
  rw [fixed_point_t.saturate_of_mem, Nat.cast_add]
  · ring
  · unfold fixed_point_t.MAX
    omega
  · unfold fixed_point_t.MAX
    omega

theorem foldl_increment_eq (pixels : List (Nat × Nat)) (count : Nat)
    (h : ((count : Int) + (pixels.length : Int)) * 65536 ≤ 9223372036854775807) :
    pixels.foldl (fun count _ => fixed_point_t.increment count)
        (fixed_point_t.parse (count : Int)) =
      fixed_point_t.parse ((count + pixels.length : Nat) : Int) := by
  induction pixels generalizing count with
  | nil => rfl
  | cons pixel rest ih =>
    rw [List.foldl_cons]
    rw [List.length_cons, Nat.cast_add, Nat.cast_one] at h
    have hone : fixed_point_t._1 = fixed_point_t.parse ((1 : Nat) : Int) := rfl
    have hstep : fixed_point_t.increment (fixed_point_t.parse (count : Int)) =
        fixed_point_t.parse ((count + 1 : Nat) : Int) := by
      unfold fixed_point_t.increment
      rw [hone]
      exact add_parse_natCast count 1 (by rw [Nat.cast_one]; omega)
    rw [hstep, ih (count + 1) (by rw [Nat.cast_add, Nat.cast_one]; omega),
      List.length_cons, Nat.add_assoc, Nat.add_comm 1]

theorem counted_eq_parse (pixels : List (Nat × Nat))
    (h : (pixels.length : Int) * 65536 ≤ 9223372036854775807) :
    counted pixels = fixed_point_t.parse (pixels.length : Int) := by
  have h1 := foldl_increment_eq pixels 0 (by rw [Nat.cast_zero]; omega)
  rw [Nat.zero_add] at h1
  exact h1

theorem foldl_add_eq (pixels : List (Nat × Nat)) (sum_x sum_y : Nat)
    (hx : ((sum_x : Int) + ((pixels.map (fun pixel => pixel.1)).sum : Nat)) * 65536 ≤
      9223372036854775807)
    (hy : ((sum_y : Int) + ((pixels.map (fun pixel => pixel.2)).sum : Nat)) * 65536 ≤
      9223372036854775807) :
    pixels.foldl (fun sum pixel => fvec2_t.add sum (fvec2_t.of_ivec2 pixel.1 pixel.2))
        (fvec2_t.of_ivec2 (sum_x : Nat) (sum_y : Nat)) =
      fvec2_t.of_ivec2 ((sum_x + (pixels.map (fun pixel => pixel.1)).sum : Nat) : Int)
        ((sum_y + (pixels.map (fun pixel => pixel.2)).sum : Nat) : Int) := by
  induction pixels generalizing sum_x sum_y with
  | nil => rfl
  | cons pixel rest ih =>
    rw [List.foldl_cons]
    rw [List.map_cons, List.sum_cons, Nat.cast_add] at hx hy
    have hstep : fvec2_t.add (fvec2_t.of_ivec2 (sum_x : Nat) (sum_y : Nat))
        (fvec2_t.of_ivec2 pixel.1 pixel.2) =
        fvec2_t.of_ivec2 ((sum_x + pixel.1 : Nat) : Int) ((sum_y + pixel.2 : Nat) : Int) := by
      unfold fvec2_t.add fvec2_t.of_ivec2
      dsimp only
      rw [add_parse_natCast sum_x pixel.1 (by omega),
        add_parse_natCast sum_y pixel.2 (by omega)]
    rw [hstep, ih (sum_x + pixel.1) (sum_y + pixel.2)
      (by rw [Nat.cast_add]; omega) (by rw [Nat.cast_add]; omega),
      List.map_cons, List.sum_cons, List.map_cons, List.sum_cons, Nat.add_assoc,
      Nat.add_assoc]

theorem summed_eq (pixels : List (Nat × Nat))
    (hx : (((pixels.map (fun pixel => pixel.1)).sum : Nat) : Int) * 65536 ≤
      9223372036854775807)
    (hy : (((pixels.map (fun pixel => pixel.2)).sum : Nat) : Int) * 65536 ≤
      9223372036854775807) :
    summed pixels =
      fvec2_t.of_ivec2 (((pixels.map (fun pixel => pixel.1)).sum : Nat) : Int)
        (((pixels.map (fun pixel => pixel.2)).sum : Nat) : Int) := by
  have h1 := foldl_add_eq pixels 0 0 (by rw [Nat.cast_zero]; omega)
    (by rw [Nat.cast_zero]; omega)
  rw [Nat.zero_add, Nat.zero_add] at h1
  exact h1

theorem sum_coordinates_le (pixels : List (Nat × Nat)) (width height : Nat)
    (h : ∀ pixel ∈ pixels, pixel.1 < width ∧ pixel.2 < height) :
    (pixels.map (fun pixel => pixel.1)).sum ≤ pixels.length * width ∧
      (pixels.map (fun pixel => pixel.2)).sum ≤ pixels.length * height := by
  induction pixels with
  | nil => simp
  | cons pixel rest ih =>
    obtain ⟨i1, i2⟩ := ih (fun other hmem => h other (List.mem_cons_of_mem _ hmem))
    obtain ⟨p1, p2⟩ := h pixel (List.mem_cons_self _ _)
    rw [List.map_cons, List.sum_cons, List.map_cons, List.sum_cons, List.length_cons,
      Nat.succ_mul, Nat.succ_mul]
    omega

theorem pixel_sums_small (pixels : List (Nat × Nat)) (width height : Nat)
    (h : ∀ pixel ∈ pixels, pixel.1 < width ∧ pixel.2 < height)
    (hlength : pixels.length ≤ height * width)
    (hsmall : ((width * height * (width + height) : Nat) : Int) * 65536 ≤
      fixed_point_t.MAX) :
    (pixels.length : Int) * 65536 ≤ 9223372036854775807 ∧
      (((pixels.map (fun pixel => pixel.1)).sum : Nat) : Int) * 65536 ≤
        9223372036854775807 ∧
      (((pixels.map (fun pixel => pixel.2)).sum : Nat) : Int) * 65536 ≤
        9223372036854775807 := by
  obtain ⟨s1, s2⟩ := sum_coordinates_le pixels width height h
  have hbound : ∀ amount : Nat, amount ≤ width * height * (width + height) →
      (amount : Int) * 65536 ≤ 9223372036854775807 := by
    intro amount hle
    have hcast : (amount : Int) ≤ ((width * height * (width + height) : Nat) : Int) :=
      Int.ofNat_le.mpr hle
    unfold fixed_point_t.MAX at hsmall
    omega
  have hx : pixels.length * width ≤ width * height * (width + height) := by
    calc pixels.length * width ≤ height * width * width := Nat.mul_le_mul_right _ hlength
      _ = width * height * width := by rw [Nat.mul_comm height width]
      _ ≤ width * height * (width + height) := Nat.mul_le_mul_left _ (Nat.le_add_right _ _)
  have hy : pixels.length * height ≤ width * height * (width + height) := by
    calc pixels.length * height ≤ height * width * height := Nat.mul_le_mul_right _ hlength
      _ = width * height * height := by rw [Nat.mul_comm height width]
      _ ≤ width * height * (width + height) := Nat.mul_le_mul_left _ (Nat.le_add_left _ _)
  refine ⟨?_, hbound _ (le_trans s1 hx), hbound _ (le_trans s2 hy)⟩
  cases pixels with
  | nil => simp
  | cons pixel rest =>
    have hwidth := (h pixel (List.mem_cons_self _ _)).1
    apply hbound
    calc (pixel :: rest).length ≤ (pixel :: rest).length * width :=
        Nat.le_mul_of_pos_right _ (by omega)
      _ ≤ width * height * (width + height) := hx

theorem province_pixels_loaded (map : Map) (province_bmp terrain_bmp : BMP) (index : Nat)
    (hloaded : (map.load_map_images province_bmp terrain_bmp).1 = true)
    (hindex : 1 ≤ index) :
    (map.load_map_images province_bmp terrain_bmp).2.province_pixels index =
      looked_up_pixels map province_bmp.pixel_data province_bmp.width.toNat
        (pixel_coordinates province_bmp.width.toNat province_bmp.height.toNat)
        (index - 1) := by
  obtain ⟨s1, s2, _, s4, _⟩ := load_map_images_spec map province_bmp terrain_bmp hloaded
  unfold province_pixels looked_up_pixels
  rw [s1, s2]
  apply List.filter_congr
  intro pixel hmem
  obtain ⟨hx, hy⟩ := (mem_pixel_coordinates _ _ pixel).mp hmem
  rw [s4 pixel.1 pixel.2 hx hy, show index - 1 + 1 = index by omega]

/-- C26: when `load_map_images` returns true, a province is flagged `on_map` exactly
when some pixel of the shape image carries its index, and the centre of such a
province is the sum of the x coordinates and the sum of the y coordinates of the
pixels that carry its index, divided by the number of those pixels, in fixed-point
numbers, provided the image is small enough for the sums not to saturate. -/
theorem load_map_images_on_map_and_centre (map : Map) (province_bmp terrain_bmp : BMP)
    (index : Nat) (province : Province)
    (hloaded : (map.load_map_images province_bmp terrain_bmp).1 = true)
    (hprovince :
      (map.load_map_images province_bmp terrain_bmp).2.get_province_by_index index =
        some province) :
    (province.on_map = true ↔
        ∃ x y : Nat, (x : Int) < province_bmp.width ∧ (y : Int) < province_bmp.height ∧
          (map.load_map_images province_bmp terrain_bmp).2.pixel_index x y = index) ∧
      (((province_bmp.width.toNat * province_bmp.height.toNat *
            (province_bmp.width.toNat + province_bmp.height.toNat) : Nat) : Int) * 65536 ≤
          fixed_point_t.MAX →
        province.on_map = true →
        province.centre =
          pixel_position_mean
            ((map.load_map_images province_bmp terrain_bmp).2.province_pixels index)) := by
  obtain ⟨s1, s2, _, _, s5⟩ := load_map_images_spec map province_bmp terrain_bmp hloaded
  obtain ⟨_, _, c3, c4, c5, c6⟩ := scanned_loaded_scan map province_bmp terrain_bmp
  rw [s5 index] at hprovince
  obtain ⟨before, hbefore, hresult⟩ := Option.map_eq_some'.mp hprovince
  have hrange : 1 ≤ index ∧ index - 1 < map.provinces.length := by
    unfold get_province_by_index at hbefore
    by_cases h0 : index = 0
    · rw [if_pos h0] at hbefore
      cases hbefore
    · rw [if_neg h0] at hbefore
      have := (List.getElem?_eq_some_iff.mp hbefore).1
      omega
  have hpixels := province_pixels_loaded map province_bmp terrain_bmp index hloaded hrange.1
  have hcount := c5 (index - 1) hrange.2
  have hsum := c6 (index - 1) hrange.2
  rw [← hpixels] at hcount hsum
  have hon : province.on_map = true ↔
      (map.load_map_images province_bmp terrain_bmp).2.province_pixels index ≠ [] := by
    rw [← counted_pos_iff, ← hcount, ← hresult]
    unfold pixel_result
    by_cases hpos : (loaded_scan map province_bmp terrain_bmp).pixels_per_province.getD
        (index - 1) 0 > 0
    · rw [if_pos hpos]
      exact ⟨fun _ => hpos, fun _ => rfl⟩
    · rw [if_neg hpos]
      exact ⟨fun h => (by cases h), fun h => absurd h hpos⟩
  have hmem : ∀ pixel : Nat × Nat,
      pixel ∈ (map.load_map_images province_bmp terrain_bmp).2.province_pixels index ↔
        (pixel.1 < province_bmp.width.toNat ∧ pixel.2 < province_bmp.height.toNat) ∧
          (map.load_map_images province_bmp terrain_bmp).2.pixel_index pixel.1 pixel.2 =
            index := by
    intro pixel
    unfold province_pixels
    rw [List.mem_filter, mem_pixel_coordinates, s1, s2, decide_eq_true_eq]
  refine ⟨?_, ?_⟩
  · rw [hon]
    constructor
    · intro hne
      obtain ⟨pixel, hpixel⟩ := List.exists_mem_of_ne_nil _ hne
      obtain ⟨⟨hx, hy⟩, hcarry⟩ := (hmem pixel).mp hpixel
      exact ⟨pixel.1, pixel.2, by omega, by omega, hcarry⟩
    · rintro ⟨x, y, hx, hy, hcarry⟩
      exact List.ne_nil_of_mem ((hmem (x, y)).mpr ⟨⟨by omega, by omega⟩, hcarry⟩)
  · intro hsmall honmap
    have hne := hon.mp honmap
    obtain ⟨b1, b2, b3⟩ := pixel_sums_small
      ((map.load_map_images province_bmp terrain_bmp).2.province_pixels index)
      province_bmp.width.toNat province_bmp.height.toNat
      (fun pixel hpixel => ((hmem pixel).mp hpixel).1)
      (by
        rw [← length_pixel_coordinates]
        unfold province_pixels
        rw [s1, s2]
        exact List.length_filter_le _ _)
      hsmall
    have hpos : (loaded_scan map province_bmp terrain_bmp).pixels_per_province.getD
        (index - 1) 0 > 0 := by
      rw [hcount]
      exact (counted_pos_iff _).mpr hne
    rw [← hresult]
    unfold pixel_result
    rw [if_pos hpos]
    dsimp only
    rw [hcount, hsum, counted_eq_parse _ b1, summed_eq _ b2 b3]
    rfl

theorem load_map_images_on_map_and_centre_witness :
    ((scenario_map_unloaded.load_map_images scenario_province_bmp scenario_terrain_bmp).1 =
        true ∧
      (scenario_map_unloaded.load_map_images scenario_province_bmp
          scenario_terrain_bmp).2.get_province_by_index 2 =
        some
          { identifier := "p2", index := 2, colour := ⟨2, 0, 0⟩, on_map := true,
            centre := { x := 65536, y := 65536 } } ∧
      ((scenario_province_bmp.width.toNat * scenario_province_bmp.height.toNat *
          (scenario_province_bmp.width.toNat + scenario_province_bmp.height.toNat) :
            Nat) : Int) * 65536 ≤ fixed_point_t.MAX) ∧
      ({ x := 65536, y := 65536 } : fvec2_t) =
        pixel_position_mean
          ((scenario_map_unloaded.load_map_images scenario_province_bmp
            scenario_terrain_bmp).2.province_pixels 2) :=
  ⟨by decide,
    (load_map_images_on_map_and_centre scenario_map_unloaded scenario_province_bmp
      scenario_terrain_bmp 2
      { identifier := "p2", index := 2, colour := ⟨2, 0, 0⟩, on_map := true,
        centre := { x := 65536, y := 65536 } } (by decide) (by decide)).2 (by decide) rfl⟩

end Map

/-! ## Lemmas on modifier effect mappings -/

namespace ModifierEffectMapping

theorem chain_head (mapping : ModifierEffectMapping) :
    ∃ rest, mapping.chain = mapping :: rest := by
  cases mapping with
  | mk type locked fallback_mapping effect_map =>
    cases fallback_mapping with
    | none => exact ⟨[], by rw [chain]⟩
    | some fallback => exact ⟨chain fallback, by rw [chain]⟩

theorem lookup_modifier_effect_chain :
    ∀ (mapping : ModifierEffectMapping) (identifier : String),
      (∀ other ∈ mapping.chain, other.is_locked = true) →
      mapping.lookup_modifier_effect identifier = first_hit mapping.chain identifier
  | mk type locked none effect_map, identifier, hlocked => by
    have hl : locked = true := hlocked (mk type locked none effect_map) (by rw [chain]; simp)
    subst hl
    rw [lookup_modifier_effect, chain]
    unfold first_hit registered_effect get_effect_map
    cases hfind : effect_map.find? (fun entry => entry.1 = identifier) with
    | none => simp [hfind]
    | some entry => simp [hfind]
  | mk type locked (some fallback) effect_map, identifier, hlocked => by
    have hl : locked = true :=
      hlocked (mk type locked (some fallback) effect_map) (by rw [chain]; simp)
    subst hl
    have ih := lookup_modifier_effect_chain fallback identifier
      (fun other hmem => hlocked other (by rw [chain]; exact List.mem_cons_of_mem _ hmem))
    rw [lookup_modifier_effect, chain]
    cases hfind : effect_map.find? (fun entry => entry.1 = identifier) with
    | none =>
      have hnone : ((mk type true (some fallback) effect_map).registered_effect
          identifier).isSome = false := by
        unfold registered_effect get_effect_map
        simp [hfind]
      unfold first_hit
      rw [List.find?_cons_of_neg _ (by rw [hnone]; simp)]
      simp only [Bool.not_true, Bool.false_eq_true, if_false]
      exact ih
    | some entry =>
      have hsome : (mk type true (some fallback) effect_map).registered_effect identifier =
          some entry.2 := by
        unfold registered_effect get_effect_map
        simp [hfind]
      unfold first_hit
      rw [List.find?_cons_of_pos _ (by rw [hsome]; rfl)]
      simp [hsome]

/-- C27: for a locked mapping whose fallback chain consists of locked mappings,
`lookup_modifier_effect` returns the first hit along the chain: the effect registered
under the key in the first mapping of the chain (the mapping itself, its fallback,
the fallback of its fallback, and so on) that contains the key, and the null pointer
when no mapping of the chain contains the key. -/
theorem lookup_modifier_effect_first_hit (mapping : ModifierEffectMapping)
    (identifier : String) (hlocked : ∀ other ∈ mapping.chain, other.is_locked = true) :
    mapping.lookup_modifier_effect identifier = first_hit mapping.chain identifier ∧
      (∀ before hit after, mapping.chain = before ++ hit :: after →
        (∀ other ∈ before, other.registered_effect identifier = none) →
        (hit.registered_effect identifier).isSome = true →
        mapping.lookup_modifier_effect identifier = hit.registered_effect identifier) ∧
      ((∀ other ∈ mapping.chain, other.registered_effect identifier = none) →
        mapping.lookup_modifier_effect identifier = none) := by
  have hlookup := lookup_modifier_effect_chain mapping identifier hlocked
  refine ⟨hlookup, ?_, ?_⟩
  · intro before hit after hchain hbefore hhit
    rw [hlookup, hchain]
    unfold first_hit
    rw [List.find?_append]
    have hnone : before.find?
        (fun mapping => (mapping.registered_effect identifier).isSome) = none := by
      rw [List.find?_eq_none]
      intro other hmem
      rw [hbefore other hmem]
      simp
    have hfind : (hit :: after).find?
        (fun mapping => (mapping.registered_effect identifier).isSome) = some hit := by
      rw [List.find?_cons, hhit]
    rw [hnone, Option.none_or, hfind]
  · intro hnone
    rw [hlookup]
    unfold first_hit
    have hfind : mapping.chain.find?
        (fun mapping => (mapping.registered_effect identifier).isSome) = none := by
      rw [List.find?_eq_none]
      intro other hmem
      rw [hnone other hmem]
      simp
    rw [hfind]

theorem lookup_modifier_effect_first_hit_witness :
    (∀ other ∈ scenario_mapping.chain, other.is_locked = true) ∧
      scenario_mapping.lookup_modifier_effect "supply_limit" =
        first_hit scenario_mapping.chain "supply_limit" ∧
      scenario_mapping.lookup_modifier_effect "supply_limit" = some scenario_effect ∧
      scenario_mapping.lookup_modifier_effect "movement_cost" = some scenario_effect_other ∧
      scenario_mapping.lookup_modifier_effect "attrition" = none :=
  ⟨by decide,
    (lookup_modifier_effect_first_hit scenario_mapping "supply_limit" (by decide)).1,
    by decide, by decide, by decide⟩

end ModifierEffectMapping

/-- C28: `modifier_type_to_modifier_effect_mapping_type` maps every modifier type to a
valid mapping type, never to `MODIFIER_EFFECT_MAPPING_COUNT`, and it maps a type to a
mapping type exactly when the fixed table lists the type in the row of that mapping
type; the table lists eighteen types. -/
theorem modifier_type_to_modifier_effect_mapping_type_table
    (type : Modifier.modifier_type_t) :
    modifier_type_to_modifier_effect_mapping_type type ≠
        ModifierEffectMapping.modifier_effect_mapping_type_t.MODIFIER_EFFECT_MAPPING_COUNT ∧
      (∀ mapping_type, modifier_type_to_modifier_effect_mapping_type type = mapping_type ↔
        ∃ row ∈ modifier_effect_mapping_table, row.1 = mapping_type ∧ type ∈ row.2) ∧
      (modifier_effect_mapping_table.map (fun row => row.2.length)).sum = 18 := by
  refine ⟨?_, ?_, by decide⟩
  · cases type <;> decide
  · intro mapping_type
    cases type <;> cases mapping_type <;> decide

/-! ## Lemmas on modifier values -/

namespace effect_map_t

theorem contains_set (m : effect_map_t) (effect other : ModifierEffect)
    (value : fixed_point_t) :
    contains (set m effect value) other = (contains m other || decide (other = effect)) := by
  unfold set contains
  by_cases h : m.any (fun entry => entry.1 = effect) = true
  · rw [if_pos h, List.any_map]
    by_cases ho : other = effect
    · subst ho
      rw [Bool.eq_iff_iff]
      simp only [List.any_eq_true, Function.comp, decide_eq_true_eq, Bool.or_eq_true]
      constructor
      · intro _
        exact Or.inr trivial
      · intro _
        obtain ⟨entry, hmem, hkey⟩ := List.any_eq_true.mp h
        refine ⟨entry, hmem, ?_⟩
        rw [if_pos (by simpa using hkey)]
    · rw [Bool.eq_iff_iff]
      simp only [List.any_eq_true, Function.comp, decide_eq_true_eq, Bool.or_eq_true, ho,
        or_false]
      constructor
      · rintro ⟨entry, hmem, hkey⟩
        by_cases he : entry.1 = effect
        · rw [if_pos he] at hkey
          exact absurd hkey.symm ho
        · rw [if_neg he] at hkey
          exact ⟨entry, hmem, hkey⟩
      · rintro ⟨entry, hmem, hkey⟩
        refine ⟨entry, hmem, ?_⟩
        rw [if_neg (by rw [hkey]; exact ho)]
        exact hkey
  · rw [if_neg h, List.any_append]
    simp [eq_comm]

theorem find_map_other (m : effect_map_t) (effect other : ModifierEffect)
    (value : fixed_point_t) (ho : ¬ other = effect) :
    (m.map (fun entry => if entry.1 = effect then (effect, value) else entry)).find?
        (fun entry => entry.1 = other) =
      m.find? (fun entry => entry.1 = other) := by
  induction m with
  | nil => rfl
  | cons first rest ih =>
    rw [List.map_cons, List.find?_cons, List.find?_cons, ih]
    by_cases hf : first.1 = effect
    · rw [if_pos hf]
      have h1 : ¬ effect = other := fun h => ho h.symm
      have h2 : ¬ first.1 = other := fun h => ho (h.symm.trans hf)
      simp [h1, h2]
    · rw [if_neg hf]

theorem find_map_self (m : effect_map_t) (effect : ModifierEffect) (value : fixed_point_t)
    (h : m.any (fun entry => entry.1 = effect) = true) :
    (m.map (fun entry => if entry.1 = effect then (effect, value) else entry)).find?
        (fun entry => entry.1 = effect) = some (effect, value) := by
  induction m with
  | nil => simp at h
  | cons first rest ih =>
    rw [List.map_cons, List.find?_cons]
    by_cases hf : first.1 = effect
    · rw [if_pos hf]
      simp
    · rw [if_neg hf]
      rw [List.any_cons] at h
      have hrest : rest.any (fun entry => entry.1 = effect) = true := by
        simpa [hf] using h
      simp only [hf, decide_False]
      exact ih hrest

theorem get_set (m : effect_map_t) (effect other : ModifierEffect) (value : fixed_point_t) :
    get (set m effect value) other = if other = effect then value else get m other := by
  unfold set get
  by_cases h : m.any (fun entry => entry.1 = effect) = true
  · rw [if_pos h]
    by_cases ho : other = effect
    · rw [if_pos ho, ho, find_map_self m effect value h]
    · rw [if_neg ho, find_map_other m effect other value ho]
  · rw [if_neg h, List.find?_append]
    have hnone : ∀ entry ∈ m, ¬ entry.1 = effect := by
      intro entry hmem hkey
      exact h (List.any_eq_true.mpr ⟨entry, hmem, by simpa using hkey⟩)
    by_cases ho : other = effect
    · rw [if_pos ho, ho]
      have hfind : m.find? (fun entry => entry.1 = effect) = none := by
        rw [List.find?_eq_none]
        intro entry hmem
        simpa using hnone entry hmem
      rw [hfind]
      simp
    · rw [if_neg ho]
      cases m.find? (fun entry => entry.1 = other) with
      | some entry => rfl
      | none => simp [Ne.symm ho]

end effect_map_t

namespace ModifierValue

theorem foldl_assign (op : fixed_point_t → fixed_point_t → fixed_point_t)
    (entries : effect_map_t) (hnodup : (entries.map (fun value => value.1)).Nodup)
    (m : effect_map_t) (effect : ModifierEffect) :
    (entries.foldl
        (fun values value => values.set value.1 (op (values.get value.1) value.2))
        m).contains effect = (m.contains effect || entries.contains effect) ∧
      (entries.foldl
        (fun values value => values.set value.1 (op (values.get value.1) value.2))
        m).get effect =
        if entries.contains effect = true then op (m.get effect) (entries.get effect)
        else m.get effect := by
  induction entries generalizing m with
  | nil => simp [effect_map_t.contains]
  | cons first rest ih =>
    rw [List.map_cons, List.nodup_cons] at hnodup
    obtain ⟨i1, i2⟩ := ih hnodup.2 (m.set first.1 (op (m.get first.1) first.2))
    rw [List.foldl_cons, i1, i2, effect_map_t.contains_set, effect_map_t.get_set]
    have hcons : effect_map_t.contains (first :: rest) effect =
        (decide (first.1 = effect) || effect_map_t.contains rest effect) := by
      unfold effect_map_t.contains
      rw [List.any_cons]
    have hget : effect_map_t.get (first :: rest) effect =
        if first.1 = effect then first.2 else effect_map_t.get rest effect := by
      unfold effect_map_t.get
      rw [List.find?_cons]
      by_cases hf : first.1 = effect
      · simp [hf]
      · simp [hf]
    rw [hcons, hget]
    by_cases hf : first.1 = effect
    · have hrest : effect_map_t.contains rest effect = false := by
        unfold effect_map_t.contains
        rw [List.any_eq_false]
        intro entry hmem hkey
        apply hnodup.1
        rw [hf]
        exact List.mem_map.mpr ⟨entry, hmem, by simpa using hkey⟩
      rw [hrest, if_pos hf.symm, if_pos hf, hf]
      simp
    · have hne : ¬ effect = first.1 := fun h => hf h.symm
      rw [if_neg hne, if_neg hf]
      simp [hf, hne]

theorem get_effect_fst (modifier : ModifierValue) (effect : ModifierEffect) :
    (modifier.get_effect effect).1 = effect_map_t.get modifier.values effect := by
  unfold get_effect effect_map_t.get
  cases modifier.values.find? (fun entry => entry.1 = effect) with
  | none => rfl
  | some entry => rfl

theorem get_effect_ne_zero (modifier : ModifierValue) (effect : ModifierEffect)
    (h : modifier.no_zero_entries) (hhas : modifier.has_effect effect = true) :
    (modifier.get_effect effect).1 ≠ 0 := by
  unfold has_effect effect_map_t.contains at hhas
  unfold get_effect
  cases hfind : modifier.values.find? (fun entry => entry.1 = effect) with
  | none =>
    rw [List.find?_eq_none] at hfind
    obtain ⟨entry, hmem, hkey⟩ := List.any_eq_true.mp hhas
    exact absurd hkey (hfind entry hmem)
  | some entry => exact h entry (List.mem_of_find?_eq_some hfind)

theorem neg_ne_zero (value : Int) (h : value ≠ 0) : fixed_point_t.neg value ≠ 0 := by
  rcases lt_or_gt_of_ne h with hneg | hpos
  · have h1 := fixed_point_t.saturate_mono (show (1 : Int) ≤ -value by omega)
    have h2 : fixed_point_t.saturate 1 = 1 :=
      fixed_point_t.saturate_of_mem (by decide) (by decide)
    rw [h2] at h1
    intro h0
    unfold fixed_point_t.neg at h0
    rw [h0] at h1
    exact absurd h1 (by decide)
  · have h1 := fixed_point_t.saturate_mono (show -value ≤ (-1 : Int) by omega)
    have h2 : fixed_point_t.saturate (-1) = -1 :=
      fixed_point_t.saturate_of_mem (by decide) (by decide)
    rw [h2] at h1
    intro h0
    unfold fixed_point_t.neg at h0
    rw [h0] at h1
    exact absurd h1 (by decide)

/-- The modifier value that `operator+=` and `operator-=` leave, for the operation
`op` on the values. -/
def assigned (op : fixed_point_t → fixed_point_t → fixed_point_t) (a b : ModifierValue) :
    ModifierValue :=
  { values :=
      b.values.foldl
        (fun values value => values.set value.1 (op (values.get value.1) value.2))
        a.values }

/-- What `operator+=` and `operator-=` leave, for the operation `op` on the values: the
effects of both operands, with the combined value for every effect of the right
operand; the entry of an effect is zero exactly when the right operand holds the
effect and the combined value is zero. -/
theorem assigned_spec (op : fixed_point_t → fixed_point_t → fixed_point_t)
    (a b : ModifierValue) (ha : a.no_zero_entries)
    (hb : (b.values.map (fun value => value.1)).Nodup) (effect : ModifierEffect) :
    ((assigned op a b).has_effect effect = (a.has_effect effect || b.has_effect effect)) ∧
      ((assigned op a b).get_effect effect).1 =
        (if b.has_effect effect = true then
          op (a.get_effect effect).1 (b.get_effect effect).1
        else (a.get_effect effect).1) ∧
      (((assigned op a b).has_effect effect = true ∧
          ((assigned op a b).get_effect effect).1 = 0) ↔
        (b.has_effect effect = true ∧
          op (a.get_effect effect).1 (b.get_effect effect).1 = 0)) := by
  obtain ⟨f1, f2⟩ := foldl_assign op b.values hb a.values effect
  have h1 : (assigned op a b).has_effect effect =
      (a.has_effect effect || b.has_effect effect) := f1
  have h2 : ((assigned op a b).get_effect effect).1 =
      (if b.has_effect effect = true then
        op (a.get_effect effect).1 (b.get_effect effect).1
      else (a.get_effect effect).1) := by
    rw [get_effect_fst, get_effect_fst, get_effect_fst]
    exact f2
  refine ⟨h1, h2, ?_⟩
  rw [h1, h2]
  by_cases hhas : b.has_effect effect = true
  · rw [if_pos hhas, hhas]
    simp
  · rw [if_neg hhas]
    constructor
    · rintro ⟨hin, hzero⟩
      have ha_has : a.has_effect effect = true := by
        rcases (Bool.or_eq_true _ _).mp hin with h | h
        · exact h
        · exact absurd h hhas
      exact absurd hzero (get_effect_ne_zero a effect ha ha_has)
    · rintro ⟨h, _⟩
      exact absurd h hhas

theorem no_zero_entries_trim (modifier : ModifierValue) : modifier.trim.no_zero_entries := by
  intro value hmem
  unfold trim at hmem
  have h := (List.mem_filter.mp hmem).2
  simpa using h

/-- C29 (amended): `trim` leaves no zero-valued entry, and unary minus leaves none for
a modifier value without zero entries. The operators `+=`, `+`, `-=` and `-` do not
trim: for a modifier value `a` without zero entries and a modifier value `b` they
leave the effects of `a` and `b`, with the sum (the difference) of the two values
for every effect of `b`, so that the result holds a zero-valued entry exactly for
the effects of `b` whose values cancel, for which `has_effect` stays true until
`trim` is called. -/
theorem modifier_value_zero_entries (a b : ModifierValue) (ha : a.no_zero_entries)
    (hb : (b.values.map (fun value => value.1)).Nodup) :
    a.trim.no_zero_entries ∧ (a.add_assign b).trim.no_zero_entries ∧
      (a.sub_assign b).trim.no_zero_entries ∧ a.neg.no_zero_entries ∧
      a.add b = a.add_assign b ∧ a.sub b = a.sub_assign b ∧
      (∀ effect,
        (a.add_assign b).has_effect effect = (a.has_effect effect || b.has_effect effect) ∧
          ((a.add_assign b).get_effect effect).1 =
            (if b.has_effect effect = true then
              fixed_point_t.add (a.get_effect effect).1 (b.get_effect effect).1
            else (a.get_effect effect).1) ∧
          (((a.add_assign b).has_effect effect = true ∧
              ((a.add_assign b).get_effect effect).1 = 0) ↔
            (b.has_effect effect = true ∧
              fixed_point_t.add (a.get_effect effect).1 (b.get_effect effect).1 = 0))) ∧
      ∀ effect,
        (a.sub_assign b).has_effect effect = (a.has_effect effect || b.has_effect effect) ∧
          ((a.sub_assign b).get_effect effect).1 =
            (if b.has_effect effect = true then
              fixed_point_t.sub (a.get_effect effect).1 (b.get_effect effect).1
            else (a.get_effect effect).1) ∧
          (((a.sub_assign b).has_effect effect = true ∧
              ((a.sub_assign b).get_effect effect).1 = 0) ↔
            (b.has_effect effect = true ∧
              fixed_point_t.sub (a.get_effect effect).1 (b.get_effect effect).1 = 0)) := by
  refine ⟨no_zero_entries_trim _, no_zero_entries_trim _, no_zero_entries_trim _, ?_, rfl, rfl,
    fun effect => assigned_spec fixed_point_t.add a b ha hb effect,
    fun effect => assigned_spec fixed_point_t.sub a b ha hb effect⟩
  intro value hmem
  unfold neg at hmem
  obtain ⟨entry, hentry, rfl⟩ := List.mem_map.mp hmem
  exact neg_ne_zero entry.2 (ha entry hentry)

theorem modifier_value_zero_entries_witness :
    (scenario_modifier_value.no_zero_entries ∧
      (scenario_modifier_value_opposite.values.map (fun value => value.1)).Nodup) ∧
      (((scenario_modifier_value.add_assign scenario_modifier_value_opposite).has_effect
          scenario_effect = true ∧
        ((scenario_modifier_value.add_assign scenario_modifier_value_opposite).get_effect
          scenario_effect).1 = 0) ↔
        (scenario_modifier_value_opposite.has_effect scenario_effect = true ∧
          fixed_point_t.add (scenario_modifier_value.get_effect scenario_effect).1
            (scenario_modifier_value_opposite.get_effect scenario_effect).1 = 0)) :=
  ⟨by decide,
    ((modifier_value_zero_entries scenario_modifier_value scenario_modifier_value_opposite
      (by decide) (by decide)).2.2.2.2.2.2.1 scenario_effect).2.2⟩

/-- The modifier scenario in which the values of an effect cancel: both operands hold
no zero entry, and their sum, like the difference of the first operand with itself,
holds the effect with the value zero, so that `has_effect` is true for an effect
whose value is zero. -/
theorem scenario_sum_of_opposite_values_keeps_zero_entry :
    scenario_modifier_value.no_zero_entries ∧
      scenario_modifier_value_opposite.no_zero_entries ∧
      (scenario_modifier_value.add_assign scenario_modifier_value_opposite).values =
        [(scenario_effect, 0)] ∧
      (scenario_modifier_value.add scenario_modifier_value_opposite).has_effect
        scenario_effect = true ∧
      ((scenario_modifier_value.add scenario_modifier_value_opposite).get_effect
        scenario_effect).1 = 0 ∧
      (scenario_modifier_value.sub_assign scenario_modifier_value).values =
        [(scenario_effect, 0)] ∧
      (scenario_modifier_value.sub scenario_modifier_value).has_effect scenario_effect =
        true ∧
      ¬ (scenario_modifier_value.add_assign
        scenario_modifier_value_opposite).no_zero_entries := by
  decide

end ModifierValue

/-! ## Parsing a modifier block: unknown keys -/

section

open NodeTools

/-- The key callback of `expect_modifier_value_and_default` of Modifier.cpp hands a key
that is no modifier effect to the default callback: the result for the key is the
result of the default callback, and the modifier value stays as it is. -/
theorem modifier_effect_callback_unknown_key {σ : Type} (manager : ModifierManager)
    (default_callback : key_value_callback_t σ) (key : String) (value : Node)
    (state : ModifierValue × σ)
    (hunknown : Modifier_cpp.get_modifier_effect_by_identifier manager key = none) :
    Modifier_cpp.modifier_effect_callback manager default_callback key value state =
      ((default_callback key value state.2).1,
        (state.1, (default_callback key value state.2).2)) := by
  unfold Modifier_cpp.modifier_effect_callback
  rw [hunknown]

/-- The function `dictionary_keys_callback` hands a key that the key map does not hold
to its default callback. -/
theorem dictionary_keys_callback_unknown_key {σ : Type}
    (default_callback : key_value_callback_t σ) (key : String) (value : Node)
    (state : key_map_t σ × σ)
    (hunknown : state.1.find? (fun entry => entry.1 = key) = none) :
    dictionary_keys_callback default_callback key value state =
      ((default_callback key value state.2).1,
        (state.1, (default_callback key value state.2).2)) := by
  unfold dictionary_keys_callback
  rw [hunknown]

/-- The key callback of modifier/ModifierManager.cpp hands a key to the default
callback when the key does not resolve: the value is an identifier and the mapping
chain of the modifier type does not hold the key, or the value is a list and the key
is no complex modifier, or the value is a string. -/
theorem modifier_effect_callback_of_manager_unknown_key {σ : Type} (manager : ModifierManager)
    (type : Modifier.modifier_type_t) (default_callback : key_value_callback_t σ)
    (key : String) (value : Node) (state : ModifierValue × σ)
    (modifier_effect_mapping : ModifierEffectMapping)
    (hmapping : manager.modifier_effect_mappings[
      (modifier_type_to_modifier_effect_mapping_type type).toNat]? =
        some modifier_effect_mapping)
    (hidentifier : ∀ name fixed_point, value = Node.identifier name fixed_point →
      modifier_effect_mapping.lookup_modifier_effect key = none)
    (hlist : ∀ statements, value = Node.list statements →
      manager.complex_modifiers.contains key = false) :
    ModifierManager._modifier_effect_callback manager type default_callback key value state =
      ((default_callback key value state.2).1,
        (state.1, (default_callback key value state.2).2)) := by
  have hvalid : ¬ (modifier_type_to_modifier_effect_mapping_type type).toNat ≥
      ModifierEffectMapping.modifier_effect_mapping_type_t.MODIFIER_EFFECT_MAPPING_COUNT.toNat := by
    cases type <;> decide
  unfold ModifierManager._modifier_effect_callback
  rw [if_neg hvalid, hmapping]
  cases value with
  | identifier name fixed_point =>
    dsimp only
    rw [hidentifier name fixed_point rfl]
  | string name => rfl
  | list statements =>
    dsimp only
    rw [hlist statements rfl]
    rfl

/-- The key callback that `expect_modifier_value_and_key_map_and_default` of
Modifier.cpp reads the block with returns false for every key that is neither a
modifier effect nor held by the key map, whatever the default callback of the caller
is, and leaves the state of the caller as it is. -/
theorem key_map_callback_of_modifier_cpp_unknown_key {σ : Type} (manager : ModifierManager)
    (key : String) (value : Node) (state : ModifierValue × key_map_t σ × σ)
    (hunknown : Modifier_cpp.get_modifier_effect_by_identifier manager key = none)
    (hkey_map : state.2.1.find? (fun entry => entry.1 = key) = none) :
    Modifier_cpp.modifier_effect_callback manager
        (dictionary_keys_callback key_value_invalid_callback) key value state =
      (false, state) := by
  rw [modifier_effect_callback_unknown_key manager _ key value state hunknown,
    dictionary_keys_callback_unknown_key _ key value state.2 hkey_map]
  rfl

/-- C30, evaluated on the code: on the block with the modifier effect "supply_limit"
and the key "icon", which is neither a modifier effect nor in the empty key map, with
a default callback that records the key and returns true,
`expect_modifier_value_and_key_map_and_default` of Modifier.cpp returns false and the
default callback has recorded nothing, while `expect_modifier_value_and_default` of
the same file and `expect_modifier_value_and_key_map_and_default` of
modifier/ModifierManager.cpp return true and the default callback has recorded the
key. -/
theorem key_map_and_default_of_modifier_cpp_drops_default_callback :
    Modifier_cpp.get_modifier_effect_by_identifier scenario_modifier_manager "icon" = none ∧
      scenario_default_callback "icon" (Node.identifier "3" (some 196608)) [] =
        (true, ["icon"]) ∧
      Modifier_cpp.expect_modifier_value_and_key_map_and_default scenario_modifier_manager
          scenario_modifier_callback scenario_default_callback []
          (some scenario_modifier_block) [] = (false, []) ∧
      Modifier_cpp.expect_modifier_value_and_default scenario_modifier_manager
          scenario_modifier_callback scenario_default_callback
          (some scenario_modifier_block) [] = (true, ["icon"]) ∧
      ModifierManager.expect_modifier_value_and_key_map_and_default scenario_modifier_manager
          scenario_modifier_callback Modifier.modifier_type_t.CLIMATE
          scenario_default_callback [] (some scenario_modifier_block) [] =
        (true, ["icon"]) := by
  decide

end

/-! ## Lemmas on the identifier registry of Types.hpp -/

namespace Types_hpp

namespace IdentifierRegistry

variable {T : Type} [HasIdentifier T]

/-- The identifier index map agrees with the items: the identifiers of the items are
distinct, every entry of the map leads to an item with the identifier of the entry,
every item has its entry, and a lookup by identifier gives the item with that
identifier. -/
def consistent (registry : IdentifierRegistry T) : Prop :=
  (registry.items.map HasIdentifier.get_identifier).Nodup ∧
    (∀ entry ∈ registry.identifier_index_map, ∃ item,
      registry.items[entry.2]? = some item ∧ HasIdentifier.get_identifier item = entry.1) ∧
    (∀ (index : Nat) (item : T), registry.items[index]? = some item →
      (HasIdentifier.get_identifier item, index) ∈ registry.identifier_index_map) ∧
    ∀ identifier, registry.get_item_by_identifier identifier =
      registry.items.find? (fun item => HasIdentifier.get_identifier item = identifier)

theorem consistent_empty : consistent ({} : IdentifierRegistry T) := by
  refine ⟨List.nodup_nil, ?_, ?_, fun _ => rfl⟩
  · intro entry h
    cases h
  · intro index item h
    simp at h

theorem consistent_reset (registry : IdentifierRegistry T) : consistent registry.reset :=
  consistent_empty

theorem consistent_lock (registry : IdentifierRegistry T) (h : consistent registry) :
    consistent registry.lock := by
  unfold lock
  split
  · exact h
  · exact h

/-- A lookup by identifier finds nothing exactly when no item has the identifier. -/
theorem get_item_by_identifier_eq_none (registry : IdentifierRegistry T)
    (h : consistent registry) (identifier : String) :
    registry.get_item_by_identifier identifier = none ↔
      ∀ item ∈ registry.items, HasIdentifier.get_identifier item ≠ identifier := by
  rw [h.2.2.2 identifier, List.find?_eq_none]
  constructor
  · intro hnone item hmem
    simpa using hnone item hmem
  · intro hne item hmem
    simpa using hne item hmem

theorem find_identifier_eq_none (registry : IdentifierRegistry T) (h : consistent registry)
    (identifier : String)
    (hnone : registry.get_item_by_identifier identifier = none) :
    registry.identifier_index_map.find? (fun entry => entry.1 = identifier) = none := by
  cases hfind : registry.identifier_index_map.find? (fun entry => entry.1 = identifier) with
  | none => rfl
  | some entry =>
    exfalso
    unfold get_item_by_identifier at hnone
    rw [hfind] at hnone
    obtain ⟨item, hitem, _⟩ := h.2.1 entry (List.mem_of_find?_eq_some hfind)
    dsimp only at hnone
    rw [hitem] at hnone
    cases hnone

/-- What `add_item` does: it fails and leaves the registry as it is when the registry
is locked or holds an item with the identifier, and otherwise succeeds and appends
the item. -/
theorem add_item_spec (registry : IdentifierRegistry T) (h : consistent registry)
    (item : T) :
    ((registry.locked = true ∨
        ∃ other ∈ registry.items,
          HasIdentifier.get_identifier other = HasIdentifier.get_identifier item) →
      registry.add_item item = (FAILURE, registry)) ∧
      (registry.locked = false →
        (∀ other ∈ registry.items,
          HasIdentifier.get_identifier other ≠ HasIdentifier.get_identifier item) →
        (registry.add_item item).1 = SUCCESS ∧
          (registry.add_item item).2.items = registry.items ++ [item] ∧
          (registry.add_item item).2.locked = false ∧
          (registry.add_item item).2.identifier_index_map =
            registry.identifier_index_map ++
              [(HasIdentifier.get_identifier item, registry.items.length)]) := by
  constructor
  · intro hfail
    unfold add_item
    by_cases hlocked : registry.locked = true
    · rw [if_pos hlocked]
    · rw [if_neg hlocked]
      rcases hfail with hl | ⟨other, hmem, hid⟩
      · exact absurd hl hlocked
      · cases hget : registry.get_item_by_identifier (HasIdentifier.get_identifier item) with
        | some found => rfl
        | none =>
          exact absurd hid
            ((get_item_by_identifier_eq_none registry h _).mp hget other hmem)
  · intro hlocked hnew
    have hget := (get_item_by_identifier_eq_none registry h
      (HasIdentifier.get_identifier item)).mpr hnew
    have hfind := find_identifier_eq_none registry h _ hget
    have hany : registry.identifier_index_map.any
        (fun entry => entry.1 = HasIdentifier.get_identifier item) = false := by
      rw [List.any_eq_false]
      intro entry hmem
      have := List.find?_eq_none.mp hfind entry hmem
      simpa using this
    have hadd : registry.add_item item =
        (SUCCESS,
          { registry with
            identifier_index_map :=
              registry.identifier_index_map ++
                [(HasIdentifier.get_identifier item, registry.items.length)]
            items := registry.items ++ [item] }) := by
      unfold add_item
      rw [hlocked, hget]
      unfold set_index
      rw [hany]
      rfl
    rw [hadd]
    exact ⟨rfl, rfl, hlocked, rfl⟩

theorem consistent_add_item (registry : IdentifierRegistry T) (h : consistent registry)
    (item : T) : consistent (registry.add_item item).2 := by
  by_cases hfail : registry.locked = true ∨
      ∃ other ∈ registry.items,
        HasIdentifier.get_identifier other = HasIdentifier.get_identifier item
  · rw [(add_item_spec registry h item).1 hfail]
    exact h
  · have hlocked : registry.locked = false := by
      cases hl : registry.locked with
      | false => rfl
      | true => exact absurd (Or.inl hl) hfail
    have hnew : ∀ other ∈ registry.items,
        HasIdentifier.get_identifier other ≠ HasIdentifier.get_identifier item :=
      fun other hmem hid => hfail (Or.inr ⟨other, hmem, hid⟩)
    obtain ⟨_, s2, _, s4⟩ := (add_item_spec registry h item).2 hlocked hnew
    obtain ⟨h1, h2, h3, h4⟩ := h
    refine ⟨?_, ?_, ?_, ?_⟩
    · rw [s2, List.map_append, List.nodup_append]
      refine ⟨h1, List.nodup_singleton _, ?_⟩
      intro identifier hin hsingle
      rw [List.map_cons, List.map_nil, List.mem_singleton] at hsingle
      obtain ⟨other, hmem, hid⟩ := List.mem_map.mp hin
      exact hnew other hmem (hid.trans hsingle)
    · intro entry hentry
      rw [s4, List.mem_append, List.mem_singleton] at hentry
      rw [s2]
      rcases hentry with hold | hlast
      · obtain ⟨found, hfound, hid⟩ := h2 entry hold
        refine ⟨found, ?_, hid⟩
        have hlt : entry.2 < registry.items.length := by
          by_contra hge
          rw [List.getElem?_eq_none (Nat.le_of_not_lt hge)] at hfound
          cases hfound
        rw [List.getElem?_append_left hlt]
        exact hfound
      · refine ⟨item, ?_, ?_⟩
        · rw [hlast]
          simp
        · rw [hlast]
    · intro index found hfound
      rw [s2] at hfound
      rw [s4, List.mem_append, List.mem_singleton]
      by_cases hlt : index < registry.items.length
      · rw [List.getElem?_append_left hlt] at hfound
        exact Or.inl (h3 index found hfound)
      · right
        rw [List.getElem?_append_right (Nat.le_of_not_lt hlt)] at hfound
        have hzero : index - registry.items.length = 0 := by
          by_contra hne
          rw [List.getElem?_eq_none (by simp; omega)] at hfound
          cases hfound
        rw [hzero] at hfound
        have hitem : found = item := by simpa using hfound.symm
        rw [hitem]
        congr 1
        omega
    · intro identifier
      unfold get_item_by_identifier
      rw [s2, s4, List.find?_append, List.find?_append]
      have hold := h4 identifier
      unfold get_item_by_identifier at hold
      cases hfind : registry.identifier_index_map.find?
          (fun entry => entry.1 = identifier) with
      | some entry =>
        rw [hfind] at hold
        obtain ⟨found, hfound, _⟩ := h2 entry (List.mem_of_find?_eq_some hfind)
        have hlt : entry.2 < registry.items.length := by
          by_contra hge
          rw [List.getElem?_eq_none (Nat.le_of_not_lt hge)] at hfound
          cases hfound
        dsimp only at hold ⊢
        rw [← hold, hfound]
        have hor : ∀ (other : Option (String × Nat)), (some entry).or other = some entry :=
          fun other => rfl
        rw [hor]
        dsimp only
        rw [List.getElem?_append_left hlt, hfound]
        rfl
      | none =>
        rw [hfind] at hold
        dsimp only at hold
        rw [← hold, Option.none_or, Option.none_or]
        by_cases hid : HasIdentifier.get_identifier item = identifier
        · simp [hid]
        · simp [hid]

theorem consistent_step (registry : IdentifierRegistry T) (h : consistent registry)
    (call : operation T) : consistent (registry.step call) := by
  cases call with
  | add_item item => exact consistent_add_item registry h item
  | lock => exact consistent_lock registry h
  | reset => exact consistent_reset registry

theorem consistent_run (calls : List (operation T)) (registry : IdentifierRegistry T)
    (h : consistent registry) : consistent (registry.run calls) := by
  unfold run
  induction calls generalizing registry with
  | nil => exact h
  | cons call rest ih => exact ih _ (consistent_step registry h call)

theorem add_item_cases (registry : IdentifierRegistry T) (item : T) :
    registry.add_item item = (FAILURE, registry) ∨
      ((registry.add_item item).1 = SUCCESS ∧
        (registry.add_item item).2.items = registry.items ++ [item]) := by
  unfold add_item
  by_cases hlocked : registry.locked = true
  · rw [if_pos hlocked]
    exact Or.inl rfl
  · rw [if_neg hlocked]
    cases registry.get_item_by_identifier (HasIdentifier.get_identifier item) with
    | some found => exact Or.inl rfl
    | none => exact Or.inr ⟨rfl, rfl⟩

theorem add_items_spec (added : List T) (registry : IdentifierRegistry T)
    (h : consistent registry) :
    consistent (registry.add_items added).2 ∧
      (registry.add_items added).1.length = added.length ∧
      (registry.add_items added).2.items =
        registry.items ++
          ((added.zip (registry.add_items added).1).filter
            (fun call => call.2 = SUCCESS)).map (fun call => call.1) := by
  induction added generalizing registry with
  | nil =>
    refine ⟨h, rfl, ?_⟩
    simp [add_items]
  | cons item rest ih =>
    obtain ⟨i1, i2, i3⟩ := ih (registry.add_item item).2 (consistent_add_item registry h item)
    unfold add_items
    refine ⟨i1, by rw [List.length_cons, i2, List.length_cons], ?_⟩
    dsimp only
    rw [i3, List.zip_cons_cons, List.filter_cons]
    rcases add_item_cases registry item with hfail | ⟨hok, hitems⟩
    · rw [hfail]
      simp [FAILURE, SUCCESS]
    · rw [hitems]
      simp [hok]

/-- C31 (amended): `add_item` returns `FAILURE`, which is the boolean true (`SUCCESS`
is the boolean false), and leaves the registry and so its item count unchanged when
the registry is locked or an item with the same identifier is already registered.
The registry is one reached from the empty registry by any calls. -/
theorem add_item_fails_when_locked_or_duplicate (calls : List (operation T)) (item : T)
    (hfail : (run ({} : IdentifierRegistry T) calls).locked = true ∨
      ∃ other ∈ (run ({} : IdentifierRegistry T) calls).items,
        HasIdentifier.get_identifier other = HasIdentifier.get_identifier item) :
    ((run ({} : IdentifierRegistry T) calls).add_item item).1 = FAILURE ∧
      FAILURE = true ∧ SUCCESS = false ∧
      ((run ({} : IdentifierRegistry T) calls).add_item item).2 =
        run ({} : IdentifierRegistry T) calls ∧
      ((run ({} : IdentifierRegistry T) calls).add_item item).2.get_item_count =
        (run ({} : IdentifierRegistry T) calls).get_item_count := by
  have hspec := (add_item_spec (run ({} : IdentifierRegistry T) calls)
    (consistent_run calls _ consistent_empty) item).1 hfail
  rw [hspec]
  exact ⟨rfl, rfl, rfl, rfl, rfl⟩

/-- C32 (amended): once a registry is locked, no sequence of `add_item` and `lock`
calls changes its item sequence: the registry stays locked, every index keeps its
item, and `get_item_by_index` keeps returning the item at the position of the
index. A call of `reset` clears the items and unlocks the registry. -/
theorem locked_registry_keeps_items (registry : IdentifierRegistry T)
    (calls : List (operation T)) (hlocked : registry.locked = true)
    (hcalls : ∀ call ∈ calls, call.is_reset = false) :
    (registry.run calls).items = registry.items ∧ (registry.run calls).locked = true ∧
      (∀ index, (registry.run calls).get_item_by_index index =
        registry.get_item_by_index index) ∧
      (∀ index, (registry.run calls).get_item_by_index index = registry.items[index]?) ∧
      registry.reset.items = [] ∧ registry.reset.locked = false := by
  have hrun : registry.run calls = registry := by
    unfold run
    induction calls with
    | nil => rfl
    | cons call rest ih =>
      rw [List.foldl_cons]
      have hstep : registry.step call = registry := by
        cases call with
        | add_item item =>
          show (registry.add_item item).2 = registry
          unfold add_item
          rw [if_pos hlocked]
        | lock =>
          show registry.lock = registry
          unfold lock
          cases registry
          cases hlocked
          rfl
        | reset =>
          have := hcalls operation.reset (List.mem_cons_self _ _)
          cases this
      rw [hstep]
      exact ih (fun call hmem => hcalls call (List.mem_cons_of_mem _ hmem))
  rw [hrun]
  refine ⟨rfl, hlocked, fun _ => rfl, ?_, rfl, rfl⟩
  intro index
  unfold get_item_by_index
  by_cases hlt : index < registry.items.length
  · rw [if_pos hlt]
  · rw [if_neg hlt, List.getElem?_eq_none (Nat.le_of_not_lt hlt)]

/-- C33: for every registry built from the empty registry by a sequence of `add_item`
calls, the items are exactly the items whose call returned `SUCCESS`, in the order of
the calls, their identifiers are pairwise distinct, and the identifier index map
agrees with the items: the map holds the entry (identifier, position) exactly for the
items at their positions, `get_item_by_identifier` returns the item that has the
identifier, which is the item that `get_item_by_index` returns for its position, and
the null pointer when no item has the identifier. -/
theorem add_items_registry (added : List T) :
    (({} : IdentifierRegistry T).add_items added).2.items =
        ((added.zip (({} : IdentifierRegistry T).add_items added).1).filter
          (fun call => call.2 = SUCCESS)).map (fun call => call.1) ∧
      ((({} : IdentifierRegistry T).add_items added).2.items.map
        HasIdentifier.get_identifier).Nodup ∧
      (∀ (index : Nat) (item : T),
        (({} : IdentifierRegistry T).add_items added).2.items[index]? = some item →
        (({} : IdentifierRegistry T).add_items added).2.get_item_by_identifier
            (HasIdentifier.get_identifier item) = some item ∧
          (({} : IdentifierRegistry T).add_items added).2.get_item_by_index index =
            some item ∧
          (HasIdentifier.get_identifier item, index) ∈
            (({} : IdentifierRegistry T).add_items added).2.identifier_index_map) ∧
      (∀ entry ∈ (({} : IdentifierRegistry T).add_items added).2.identifier_index_map,
        ∃ item, (({} : IdentifierRegistry T).add_items added).2.items[entry.2]? = some item ∧
          HasIdentifier.get_identifier item = entry.1) ∧
      ∀ identifier,
        (∀ item ∈ (({} : IdentifierRegistry T).add_items added).2.items,
          HasIdentifier.get_identifier item ≠ identifier) →
        (({} : IdentifierRegistry T).add_items added).2.get_item_by_identifier identifier =
          none := by
  obtain ⟨⟨h1, h2, h3, h4⟩, _, hitems⟩ :=
    add_items_spec added ({} : IdentifierRegistry T) consistent_empty
  refine ⟨?_, h1, ?_, h2, ?_⟩
  · rw [hitems]
    rfl
  · intro index item hitem
    have hlt : index < (({} : IdentifierRegistry T).add_items added).2.items.length := by
      by_contra hge
      rw [List.getElem?_eq_none (Nat.le_of_not_lt hge)] at hitem
      cases hitem
    refine ⟨?_, ?_, h3 index item hitem⟩
    · rw [h4]
      cases hfind : (({} : IdentifierRegistry T).add_items added).2.items.find?
          (fun other =>
            HasIdentifier.get_identifier other = HasIdentifier.get_identifier item) with
      | none =>
        have := List.find?_eq_none.mp hfind item (List.getElem?_mem hitem)
        simp at this
      | some other =>
        have hid : HasIdentifier.get_identifier other = HasIdentifier.get_identifier item := by
          simpa using List.find?_some hfind
        obtain ⟨position, hposition⟩ :=
          List.getElem?_of_mem (List.mem_of_find?_eq_some hfind)
        have hsame : position = index := by
          have e1 : ((({} : IdentifierRegistry T).add_items added).2.items.map
              HasIdentifier.get_identifier)[position]? =
              some (HasIdentifier.get_identifier item) := by
            rw [List.getElem?_map, hposition, Option.map_some', hid]
          have e2 : ((({} : IdentifierRegistry T).add_items added).2.items.map
              HasIdentifier.get_identifier)[index]? =
              some (HasIdentifier.get_identifier item) := by
            rw [List.getElem?_map, hitem, Option.map_some']
          exact StateManager.index_eq_of_nodup h1 _ e1 e2
        rw [hsame, hitem] at hposition
        rw [Option.some.inj hposition]
    · unfold get_item_by_index
      rw [if_pos hlt]
      exact hitem
  · intro identifier hnone
    rw [h4, List.find?_eq_none]
    intro item hmem
    simpa using hnone item hmem

/-- The scenario of C31: the registry after adding an item named "a". -/
theorem add_item_fails_when_locked_or_duplicate_witness :
    ((run ({} : IdentifierRegistry scenario_item) [operation.add_item ⟨"a"⟩]).locked = true ∨
      ∃ other ∈ (run ({} : IdentifierRegistry scenario_item) [operation.add_item ⟨"a"⟩]).items,
        HasIdentifier.get_identifier other =
          HasIdentifier.get_identifier (⟨"a"⟩ : scenario_item)) ∧
      ((run ({} : IdentifierRegistry scenario_item)
        [operation.add_item ⟨"a"⟩]).add_item ⟨"a"⟩).1 = FAILURE ∧
      ((run ({} : IdentifierRegistry scenario_item)
        [operation.add_item ⟨"a"⟩]).add_item ⟨"a"⟩).2.get_item_count = 1 := by
  have hfail : (run ({} : IdentifierRegistry scenario_item)
      [operation.add_item ⟨"a"⟩]).locked = true ∨
      ∃ other ∈ (run ({} : IdentifierRegistry scenario_item) [operation.add_item ⟨"a"⟩]).items,
        HasIdentifier.get_identifier other =
          HasIdentifier.get_identifier (⟨"a"⟩ : scenario_item) :=
    Or.inr ⟨⟨"a"⟩, by decide, rfl⟩
  have h := add_item_fails_when_locked_or_duplicate [operation.add_item ⟨"a"⟩]
    (⟨"a"⟩ : scenario_item) hfail
  exact ⟨hfail, h.1, by rw [h.2.2.2.2]; decide⟩

/-- Adding "a" twice: the second call returns true, not false, and the registry holds
one item; after `lock`, adding "b" returns true as well and the count stays one. -/
theorem scenario_duplicate_add_item_returns_true :
    ((({} : IdentifierRegistry scenario_item).add_item ⟨"a"⟩).2.add_item ⟨"a"⟩).1 = true ∧
      ((({} : IdentifierRegistry scenario_item).add_item ⟨"a"⟩).2.add_item ⟨"a"⟩).1 ≠ false ∧
      ((({} : IdentifierRegistry scenario_item).add_item
        ⟨"a"⟩).2.add_item ⟨"a"⟩).2.get_item_count = 1 ∧
      (((({} : IdentifierRegistry scenario_item).add_item
        ⟨"a"⟩).2.add_item ⟨"a"⟩).2.lock.add_item ⟨"b"⟩).1 = true ∧
      (((({} : IdentifierRegistry scenario_item).add_item
        ⟨"a"⟩).2.add_item ⟨"a"⟩).2.lock.add_item ⟨"b"⟩).2.get_item_count = 1 ∧
      (({} : IdentifierRegistry scenario_item).add_item ⟨"a"⟩).1 = false := by
  decide

/-- A locked registry holding "a", with a duplicate and a new item added and `lock`
called again. -/
theorem locked_registry_keeps_items_witness :
    (run (({} : IdentifierRegistry scenario_item).add_item ⟨"a"⟩).2.lock
        [operation.add_item ⟨"a"⟩, operation.add_item ⟨"b"⟩, operation.lock]).items =
        [⟨"a"⟩] ∧
      (run (({} : IdentifierRegistry scenario_item).add_item ⟨"a"⟩).2.lock
        [operation.add_item ⟨"a"⟩, operation.add_item ⟨"b"⟩,
          operation.lock]).get_item_by_index 0 = some ⟨"a"⟩ := by
  have h := locked_registry_keeps_items
    (({} : IdentifierRegistry scenario_item).add_item ⟨"a"⟩).2.lock
    [operation.add_item ⟨"a"⟩, operation.add_item ⟨"b"⟩, operation.lock]
    (by decide) (by decide)
  exact ⟨h.1, by rw [h.2.2.1 0]; decide⟩

/-- A locked registry holding "a": `get_item_by_index 0` returns the item, and after
the public operation `reset` the item sequence is empty, the registry is unlocked and
`get_item_by_index 0` returns the null pointer. -/
theorem scenario_reset_changes_locked_registry :
    (({} : IdentifierRegistry scenario_item).add_item ⟨"a"⟩).2.lock.locked = true ∧
      (({} : IdentifierRegistry scenario_item).add_item ⟨"a"⟩).2.lock.get_item_by_index 0 =
        some ⟨"a"⟩ ∧
      (run (({} : IdentifierRegistry scenario_item).add_item ⟨"a"⟩).2.lock
        [operation.reset]).items = [] ∧
      (run (({} : IdentifierRegistry scenario_item).add_item ⟨"a"⟩).2.lock
        [operation.reset]).items ≠
        (({} : IdentifierRegistry scenario_item).add_item ⟨"a"⟩).2.lock.items ∧
      (run (({} : IdentifierRegistry scenario_item).add_item ⟨"a"⟩).2.lock
        [operation.reset]).get_item_by_index 0 = none ∧
      (run (({} : IdentifierRegistry scenario_item).add_item ⟨"a"⟩).2.lock
        [operation.reset]).locked = false := by
  decide

end IdentifierRegistry

end Types_hpp

/-! ## Lemmas on the budgeting of `artisan_tick` -/

namespace good_definition_map_t

theorem set_keys_nodup (m : good_definition_map_t) (key : GoodDefinition)
    (value : fixed_point_t) (h : (m.map Prod.fst).Nodup) :
    ((m.set key value).map Prod.fst).Nodup := by
  unfold set
  by_cases hany : m.any (fun e => e.1 = key) = true
  · rw [if_pos hany]
    have hkeys : (m.map (fun e => if e.1 = key then (key, value) else e)).map Prod.fst =
        m.map Prod.fst := by
      rw [List.map_map]
      apply List.map_congr_left
      intro e _
      by_cases hk : e.1 = key
      · simp [hk]
      · simp [hk]
    rw [hkeys]
    exact h
  · rw [if_neg hany, List.map_append]
    apply List.Nodup.append h (List.nodup_singleton _)
    intro a ha hb
    have hkey : a = key := by simpa using hb
    obtain ⟨e, he, hea⟩ := List.mem_map.mp ha
    apply hany
    rw [List.any_eq_true]
    exact ⟨e, he, by simp [hea, hkey]⟩

theorem set_length_le (m : good_definition_map_t) (key : GoodDefinition)
    (value : fixed_point_t) : (m.set key value).length ≤ m.length + 1 := by
  unfold set
  split
  · rw [List.length_map]
    omega
  · rw [List.length_append, List.length_singleton]

theorem mem_set (m : good_definition_map_t) (key : GoodDefinition)
    (value : fixed_point_t) (e : GoodDefinition × fixed_point_t) (h : e ∈ m.set key value) :
    e ∈ m ∨ e = (key, value) := by
  unfold set at h
  split at h
  · obtain ⟨other, hother, heq⟩ := List.mem_map.mp h
    by_cases hk : other.1 = key
    · rw [if_pos hk] at heq
      exact Or.inr heq.symm
    · rw [if_neg hk] at heq
      exact Or.inl (heq ▸ hother)
  · rcases List.mem_append.mp h with h1 | h1
    · exact Or.inl h1
    · exact Or.inr (List.mem_singleton.mp h1)

theorem erase_sublist (m : good_definition_map_t) (key : GoodDefinition) :
    (m.erase key).Sublist m :=
  List.filter_sublist _

end good_definition_map_t

namespace ArtisanalProducer

/-- The entry pairs its good with the `max_next_price` of the good's instance. -/
def priced (ap : ArtisanalProducer) (e : GoodDefinition × fixed_point_t) : Prop :=
  ∃ good, ap.market_instance.good_instance_manager.get_good_instance_by_identifier
    e.1.identifier = some good ∧ e.2 = good.max_next_price

theorem read_inputs_goods (ap : ArtisanalProducer)
    (inputs : List (GoodDefinition × fixed_point_t)) (s r : Inputs)
    (h : read_inputs ap inputs s = some r)
    (hnodup : (s.goods_to_buy_and_max_price.map Prod.fst).Nodup)
    (hpriced : ∀ e ∈ s.goods_to_buy_and_max_price, priced ap e) :
    (r.goods_to_buy_and_max_price.map Prod.fst).Nodup ∧
      (∀ e ∈ r.goods_to_buy_and_max_price, priced ap e) ∧
      r.goods_to_buy_and_max_price.length ≤
        s.goods_to_buy_and_max_price.length + inputs.length := by
  induction inputs generalizing s with
  | nil =>
    unfold read_inputs at h
    cases h
    exact ⟨hnodup, hpriced, Nat.le_add_right _ _⟩
  | cons e rest ih =>
    obtain ⟨input_good, base_desired_quantity⟩ := e
    unfold read_inputs at h
    dsimp only at h
    cases hgood : ap.market_instance.good_instance_manager.get_good_instance_by_identifier
        input_good.identifier with
    | none =>
      rw [hgood] at h
      cases h
    | some good =>
      rw [hgood] at h
      dsimp only at h
      obtain ⟨i1, i2, i3⟩ := ih _ h
        (good_definition_map_t.set_keys_nodup _ _ _ hnodup)
        (by
          intro e he
          rcases good_definition_map_t.mem_set _ _ _ _ he with h1 | h1
          · exact hpriced e h1
          · rw [h1]
            exact ⟨good, hgood, rfl⟩)
      refine ⟨i1, i2, ?_⟩
      have := good_definition_map_t.set_length_le s.goods_to_buy_and_max_price input_good
        good.max_next_price
      rw [List.length_cons]
      dsimp only at i3
      omega

theorem consume_inputs_sublist (demand : good_definition_map_t)
    (inputs_bought_scalar : fixed_point_t) (inputs : List (GoodDefinition × fixed_point_t))
    (state : good_definition_map_t × good_definition_map_t) :
    (consume_inputs demand inputs_bought_scalar inputs state).2.Sublist state.2 := by
  induction inputs generalizing state with
  | nil => exact List.Sublist.refl _
  | cons e rest ih =>
    obtain ⟨input_good, base_desired_quantity⟩ := e
    obtain ⟨stockpile, goods⟩ := state
    unfold consume_inputs
    dsimp only
    refine (ih _).trans ?_
    dsimp only
    split
    · exact good_definition_map_t.erase_sublist _ _
    · exact List.Sublist.refl _

theorem consumed_inputs_sublist (ap : ArtisanalProducer) (s : Inputs) :
    (consumed_inputs ap s).2.Sublist s.goods_to_buy_and_max_price := by
  unfold consumed_inputs
  split
  · exact consume_inputs_sublist _ _ _ _
  · exact List.Sublist.refl _

theorem satisfaction_pass_sublist (demand stockpile : good_definition_map_t)
    (cash : fixed_point_t) (goods : good_definition_map_t) :
    (satisfaction_pass demand stockpile cash goods).2.Sublist goods :=
  List.filter_sublist _

theorem satisfaction_pass_fst (demand stockpile : good_definition_map_t)
    (cash : fixed_point_t) (goods : good_definition_map_t) :
    (satisfaction_pass demand stockpile cash goods).1 =
      min fixed_point_t._1
        (fixed_point_t.div (fixed_point_t.add (total_value goods stockpile) cash)
          (total_value goods demand)) := rfl

theorem satisfaction_pass_stable (demand stockpile : good_definition_map_t)
    (cash : fixed_point_t) (goods : good_definition_map_t)
    (h : (satisfaction_pass demand stockpile cash goods).2.length = goods.length) :
    (satisfaction_pass demand stockpile cash goods).2 = goods ∧
      ∀ e ∈ goods, stockpile.get e.1 <
        fixed_point_t.mul (demand.get e.1) (satisfaction_pass demand stockpile cash goods).1 := by
  have hsame : (satisfaction_pass demand stockpile cash goods).2 = goods :=
    (satisfaction_pass_sublist demand stockpile cash goods).eq_of_length h
  have hall := List.filter_eq_self.mp hsame
  refine ⟨hsame, ?_⟩
  intro e he
  have := hall e he
  simpa using this

theorem satisfaction_loop_result (demand stockpile : good_definition_map_t)
    (cash : fixed_point_t) (fuel : Nat) (goods : good_definition_map_t)
    (r : fixed_point_t × good_definition_map_t)
    (h : satisfaction_loop demand stockpile cash fuel goods = some r) :
    r.2.Sublist goods ∧
      r.1 = min fixed_point_t._1
        (fixed_point_t.div (fixed_point_t.add (total_value r.2 stockpile) cash)
          (total_value r.2 demand)) ∧
      ∀ e ∈ r.2, stockpile.get e.1 < fixed_point_t.mul (demand.get e.1) r.1 := by
  induction fuel generalizing goods with
  | zero =>
    unfold satisfaction_loop at h
    cases h
  | succ n ih =>
    unfold satisfaction_loop at h
    dsimp only at h
    split at h
    · rename_i hlen
      cases h
      obtain ⟨hsame, hall⟩ := satisfaction_pass_stable demand stockpile cash goods hlen
      refine ⟨satisfaction_pass_sublist _ _ _ _, ?_, ?_⟩
      · rw [hsame]
        rfl
      · rw [hsame]
        exact hall
    · obtain ⟨i1, i2, i3⟩ := ih _ h
      exact ⟨i1.trans (satisfaction_pass_sublist _ _ _ _), i2, i3⟩

theorem satisfaction_loop_passes_spec (demand stockpile : good_definition_map_t)
    (cash : fixed_point_t) (fuel : Nat) (goods : good_definition_map_t)
    (h : goods.length < fuel) :
    (satisfaction_loop_passes demand stockpile cash fuel goods).length ≤ goods.length + 1 ∧
      0 < (satisfaction_loop_passes demand stockpile cash fuel goods).length ∧
      List.Chain' (fun before after =>
        after = (satisfaction_pass demand stockpile cash before).2 ∧
          after.length < before.length)
        (satisfaction_loop_passes demand stockpile cash fuel goods) ∧
      (satisfaction_loop_passes demand stockpile cash fuel goods).head? = some goods ∧
      ∃ last, (satisfaction_loop_passes demand stockpile cash fuel goods).getLast? =
          some last ∧
        satisfaction_loop demand stockpile cash fuel goods =
          some (satisfaction_pass demand stockpile cash last) ∧
        (satisfaction_pass demand stockpile cash last).2 = last := by
  induction fuel generalizing goods with
  | zero => omega
  | succ n ih =>
    unfold satisfaction_loop_passes satisfaction_loop
    dsimp only
    by_cases hlen : (satisfaction_pass demand stockpile cash goods).2.length = goods.length
    · rw [if_pos hlen, if_pos hlen]
      refine ⟨by simp, by simp, by simp, rfl, goods, rfl, rfl, ?_⟩
      exact (satisfaction_pass_stable demand stockpile cash goods hlen).1
    · rw [if_neg hlen, if_neg hlen]
      have hle : (satisfaction_pass demand stockpile cash goods).2.length ≤ goods.length :=
        List.length_filter_le _ _
      have hlt : (satisfaction_pass demand stockpile cash goods).2.length < goods.length := by
        omega
      obtain ⟨i1, i2, i3, i4, last, i5, i6, i7⟩ :=
        ih (satisfaction_pass demand stockpile cash goods).2 (by omega)
      refine ⟨?_, by simp, ?_, rfl, last, ?_, i6, i7⟩
      · rw [List.length_cons]
        omega
      · rw [List.chain'_cons']
        refine ⟨?_, i3⟩
        intro after hafter
        rw [i4] at hafter
        cases hafter
        exact ⟨rfl, hlt⟩
      · obtain ⟨first, others, hpasses⟩ := List.exists_cons_of_length_pos i2
        rw [hpasses] at i5 ⊢
        rw [List.getLast?_cons_cons]
        exact i5

theorem artisan_tick_eq (ap : ArtisanalProducer) (s : Inputs)
    (hinputs : ap.production_type.input_goods ≠ [])
    (hread : read_inputs ap ap.production_type.input_goods
      { demand := [], inputs_bought_scalar := fixed_point_t._1,
        goods_to_buy_and_max_price := [] } = some s) :
    artisan_tick ap = buy_inputs_and_produce ap s (consumed_inputs ap s) := by
  unfold artisan_tick
  have hempty : ap.production_type.input_goods.isEmpty = false := by
    cases hgoods : ap.production_type.input_goods with
    | nil => exact absurd hgoods hinputs
    | cons e rest => rfl
  rw [hempty, hread]
  rfl

/-- The order that the last loop of `artisan_tick` places for one entry of
`goods_to_buy_and_max_price` (ArtisanalProducer.cpp:84-95): up to the desired quantity
times the satisfaction, for at most that quantity times the maximum price. -/
def buy_order (demand : good_definition_map_t) (max_satisfaction : fixed_point_t)
    (e : GoodDefinition × fixed_point_t) : BuyUpToOrder :=
  { good := e.1
    max_quantity := fixed_point_t.mul (demand.get e.1) max_satisfaction
    money_to_spend :=
      fixed_point_t.mul (fixed_point_t.mul (demand.get e.1) max_satisfaction) e.2 }

/-- C35: when the pop has positive cash and some input is still wanted, the
budgeting loop of `artisan_tick` ends with goods `R`, a sublist of the wanted goods
with pairwise distinct goods, each paired with the `max_next_price` of its good
instance, and a value `max_satisfaction` that is the minimum of 1 and (the sum over
`R` of price times stockpile, plus the cash) divided by (the sum over `R` of price
times desired quantity), and the stockpile of every good of `R` is below its desired
quantity times `max_satisfaction`. The tick then places exactly the orders of `R`,
one for each good of `R` and none for another good, each with the maximum quantity
desired times `max_satisfaction` and with that quantity times the price as money to
spend. -/
theorem artisan_tick_budget (ap : ArtisanalProducer) (s : Inputs)
    (hread : read_inputs ap ap.production_type.input_goods
      { demand := [], inputs_bought_scalar := fixed_point_t._1,
        goods_to_buy_and_max_price := [] } = some s)
    (hcash : ap.pop.cash > 0)
    (hwanted : (consumed_inputs ap s).2 ≠ []) :
    ∃ (max_satisfaction : fixed_point_t) (R : good_definition_map_t) (tick : Tick),
      satisfaction_loop s.demand (consumed_inputs ap s).1 ap.pop.cash
          ((consumed_inputs ap s).2.length + 1) (consumed_inputs ap s).2 =
        some (max_satisfaction, R) ∧
      artisan_tick ap = some tick ∧
      R.Sublist (consumed_inputs ap s).2 ∧
      (R.map Prod.fst).Nodup ∧
      (∀ e ∈ R, ∃ good,
        ap.market_instance.good_instance_manager.get_good_instance_by_identifier
          e.1.identifier = some good ∧ e.2 = good.max_next_price) ∧
      max_satisfaction = min fixed_point_t._1
        (fixed_point_t.div
          (fixed_point_t.add (total_value R (consumed_inputs ap s).1) ap.pop.cash)
          (total_value R s.demand)) ∧
      (∀ e ∈ R, (consumed_inputs ap s).1.get e.1 <
        fixed_point_t.mul (s.demand.get e.1) max_satisfaction) ∧
      tick.buy_up_to_orders = R.map (buy_order s.demand max_satisfaction) ∧
      tick.buy_up_to_orders.map (fun order => order.good) = R.map Prod.fst ∧
      tick.producer.stockpile = (consumed_inputs ap s).1 := by
  have hinputs : ap.production_type.input_goods ≠ [] := by
    intro hnil
    rw [hnil] at hread
    unfold read_inputs at hread
    cases hread
    apply hwanted
    have hsub := consumed_inputs_sublist ap
      { demand := [], inputs_bought_scalar := fixed_point_t._1,
        goods_to_buy_and_max_price := [] }
    exact List.eq_nil_of_sublist_nil hsub
  obtain ⟨hnodup, hpriced, _⟩ := read_inputs_goods ap _ _ s hread List.nodup_nil
    (fun e he => by cases he)
  obtain ⟨r, hr⟩ := satisfaction_loop_some s.demand (consumed_inputs ap s).1 ap.pop.cash
    ((consumed_inputs ap s).2.length + 1) (consumed_inputs ap s).2 (Nat.lt_succ_self _)
  obtain ⟨max_satisfaction, R⟩ := r
  obtain ⟨hsub, hvalue, hbelow⟩ := satisfaction_loop_result _ _ _ _ _ _ hr
  have hsub2 : R.Sublist s.goods_to_buy_and_max_price :=
    hsub.trans (consumed_inputs_sublist ap s)
  have htick : artisan_tick ap = some (produce_and_sell ap (consumed_inputs ap s).1
      s.inputs_bought_scalar (buy_orders s.demand max_satisfaction R)) := by
    rw [artisan_tick_eq ap s hinputs hread]
    unfold buy_inputs_and_produce
    dsimp only
    have hcond : ap.pop.cash > 0 ∧ ¬ (consumed_inputs ap s).2.isEmpty = true := by
      refine ⟨hcash, ?_⟩
      intro hempty
      exact hwanted (List.isEmpty_iff.mp hempty)
    rw [if_pos hcond, hr]
  refine ⟨max_satisfaction, R, _, hr, htick, hsub, ?_, ?_, hvalue, hbelow, rfl, ?_, rfl⟩
  · exact List.Nodup.sublist (hsub2.map Prod.fst) hnodup
  · intro e he
    exact hpriced e (hsub2.subset he)
  · show (buy_orders s.demand max_satisfaction R).map (fun order => order.good) =
      R.map Prod.fst
    unfold buy_orders
    rw [List.map_map]
    rfl

/-- The artisan with cash 10 and an empty stockpile wants 10 of the input good. -/
theorem artisan_tick_budget_witness :
    ∃ (max_satisfaction : fixed_point_t) (R : good_definition_map_t) (tick : Tick),
      artisan_tick (scenario_artisan 655360 0) = some tick ∧
      R = [(scenario_input_good, 66191)] ∧
      max_satisfaction = min fixed_point_t._1
        (fixed_point_t.div
          (fixed_point_t.add (total_value R [(scenario_input_good, 0)]) 655360)
          (total_value R [(scenario_input_good, 655360)])) ∧
      tick.buy_up_to_orders =
        R.map (buy_order [(scenario_input_good, 655360)] max_satisfaction) := by
  have h := artisan_tick_budget (scenario_artisan 655360 0)
    { demand := [(scenario_input_good, 655360)], inputs_bought_scalar := 0,
      goods_to_buy_and_max_price := [(scenario_input_good, 66191)] }
    (by decide) (by decide) (by decide)
  obtain ⟨max_satisfaction, R, tick, h1, h2, _, _, _, h6, _, h8, _⟩ := h
  have hloop : satisfaction_loop [(scenario_input_good, 655360)]
      [(scenario_input_good, 0)] 655360 2 [(scenario_input_good, 66191)] =
      some (max_satisfaction, R) := h1
  have hR : R = [(scenario_input_good, 66191)] := by
    have hdec : (satisfaction_loop [(scenario_input_good, 655360)]
        [(scenario_input_good, 0)] 655360 2 [(scenario_input_good, 66191)]).map
        Prod.snd = some [(scenario_input_good, 66191)] := by decide
    rw [hloop] at hdec
    exact (Option.some.inj hdec)
  exact ⟨max_satisfaction, R, tick, h2, hR, h6, h8⟩

/-- C38: the satisfaction loop of `artisan_tick` terminates for every input. With any
bound on the passes above the number of goods to buy the loop returns a result, the
one of the pass over the last map, which that pass leaves unchanged; every run of the
body that does not end the loop starts the next run on the map its pass left, which
holds fewer goods; and the body runs at least once and at most (number of goods to
buy + 1) times, which is at most (number of input goods + 1). -/
theorem satisfaction_loop_terminates (ap : ArtisanalProducer) (s : Inputs) (fuel : Nat)
    (hread : read_inputs ap ap.production_type.input_goods
      { demand := [], inputs_bought_scalar := fixed_point_t._1,
        goods_to_buy_and_max_price := [] } = some s)
    (hfuel : (consumed_inputs ap s).2.length < fuel) :
    (∃ last,
      (satisfaction_loop_passes s.demand (consumed_inputs ap s).1 ap.pop.cash fuel
        (consumed_inputs ap s).2).getLast? = some last ∧
      satisfaction_loop s.demand (consumed_inputs ap s).1 ap.pop.cash fuel
          (consumed_inputs ap s).2 =
        some (satisfaction_pass s.demand (consumed_inputs ap s).1 ap.pop.cash last) ∧
      (satisfaction_pass s.demand (consumed_inputs ap s).1 ap.pop.cash last).2 = last) ∧
      (satisfaction_loop_passes s.demand (consumed_inputs ap s).1 ap.pop.cash fuel
        (consumed_inputs ap s).2).head? = some (consumed_inputs ap s).2 ∧
      List.Chain' (fun before after =>
        after = (satisfaction_pass s.demand (consumed_inputs ap s).1 ap.pop.cash before).2 ∧
          after.length < before.length)
        (satisfaction_loop_passes s.demand (consumed_inputs ap s).1 ap.pop.cash fuel
          (consumed_inputs ap s).2) ∧
      0 < (satisfaction_loop_passes s.demand (consumed_inputs ap s).1 ap.pop.cash fuel
        (consumed_inputs ap s).2).length ∧
      (satisfaction_loop_passes s.demand (consumed_inputs ap s).1 ap.pop.cash fuel
        (consumed_inputs ap s).2).length ≤ (consumed_inputs ap s).2.length + 1 ∧
      (satisfaction_loop_passes s.demand (consumed_inputs ap s).1 ap.pop.cash fuel
        (consumed_inputs ap s).2).length ≤ ap.production_type.input_goods.length + 1 := by
  obtain ⟨i1, i2, i3, i4, i5⟩ := satisfaction_loop_passes_spec s.demand
    (consumed_inputs ap s).1 ap.pop.cash fuel (consumed_inputs ap s).2 hfuel
  obtain ⟨_, _, hlen⟩ := read_inputs_goods ap _ _ s hread List.nodup_nil
    (fun e he => by cases he)
  have hsub := (consumed_inputs_sublist ap s).length_le
  refine ⟨i5, i4, i3, i2, i1, ?_⟩
  rw [List.length_nil, Nat.zero_add] at hlen
  omega

/-- The artisan with cash 10 and an empty stockpile: the body runs once. -/
theorem satisfaction_loop_terminates_witness :
    (satisfaction_loop_passes [(scenario_input_good, 655360)] [(scenario_input_good, 0)]
      655360 2 [(scenario_input_good, 66191)]).length ≤ 1 + 1 := by
  have h := satisfaction_loop_terminates (scenario_artisan 655360 0)
    { demand := [(scenario_input_good, 655360)], inputs_bought_scalar := 0,
      goods_to_buy_and_max_price := [(scenario_input_good, 66191)] } 2
    (by decide) (by decide)
  exact h.2.2.2.2.2

end ArtisanalProducer

/-! ## The colour index map after a refused province -/

namespace Map

/-- C36, evaluated on the code: `add_province` writes `colour_index_map` before it
calls `provinces.add_item`, so a call that the registry refuses returns false and yet
changes the map. After "p1" is added with the colour (255, 0, 0), the call for "p1"
with the colour (0, 255, 0) returns false and leaves the provinces as they were, but
`get_index_from_colour` then returns 2 for (0, 255, 0) although no province has the
index 2; when "p2" is added with (0, 0, 255) afterwards it gets the index 2, and
(0, 255, 0) still leads to it. -/
theorem add_province_refused_identifier_writes_colour_index_map :
    (({ provinces := [] } : Map).add_province "p1" ⟨255, 0, 0⟩).1 = true ∧
      ((({ provinces := [] } : Map).add_province "p1" ⟨255, 0, 0⟩).2.add_province "p1"
        ⟨0, 255, 0⟩).1 = false ∧
      ((({ provinces := [] } : Map).add_province "p1" ⟨255, 0, 0⟩).2.add_province "p1"
        ⟨0, 255, 0⟩).2.provinces =
        (({ provinces := [] } : Map).add_province "p1" ⟨255, 0, 0⟩).2.provinces ∧
      (({ provinces := [] } : Map).add_province "p1"
        ⟨255, 0, 0⟩).2.get_index_from_colour ⟨0, 255, 0⟩ = 0 ∧
      ((({ provinces := [] } : Map).add_province "p1" ⟨255, 0, 0⟩).2.add_province "p1"
        ⟨0, 255, 0⟩).2.get_index_from_colour ⟨0, 255, 0⟩ = 2 ∧
      ((({ provinces := [] } : Map).add_province "p1" ⟨255, 0, 0⟩).2.add_province "p1"
        ⟨0, 255, 0⟩).2.get_province_by_index 2 = none ∧
      (((({ provinces := [] } : Map).add_province "p1" ⟨255, 0, 0⟩).2.add_province "p1"
        ⟨0, 255, 0⟩).2.add_province "p2" ⟨0, 0, 255⟩).2.get_index_from_colour
          ⟨0, 255, 0⟩ = 2 ∧
      ((((({ provinces := [] } : Map).add_province "p1" ⟨255, 0, 0⟩).2.add_province "p1"
        ⟨0, 255, 0⟩).2.add_province "p2" ⟨0, 0, 255⟩).2.get_province_by_index 2).map
          (fun province => (province.identifier, province.colour)) =
        some ("p2", ⟨0, 0, 255⟩) := by
  decide

/-- A locked province registry refuses every province, and the colour of the refused
province is written to the map all the same. -/
theorem add_province_locked_writes_colour_index_map :
    (({ provinces := [], provinces_locked := true } : Map).add_province "p1"
      ⟨255, 0, 0⟩).1 = false ∧
      (({ provinces := [], provinces_locked := true } : Map).add_province "p1"
        ⟨255, 0, 0⟩).2.provinces = [] ∧
      (({ provinces := [], provinces_locked := true } : Map).add_province "p1"
        ⟨255, 0, 0⟩).2.get_index_from_colour ⟨255, 0, 0⟩ = 1 := by
  decide

/-- The calls that `add_province` refuses by one of its own tests leave the map
unchanged. -/
theorem add_province_refused_by_guard (map : Map) (identifier : String) (colour : colour_t)
    (h : map.provinces.length ≥ map.max_provinces ∨ identifier.isEmpty = true ∨
      valid_basic_identifier identifier = false ∨ colour.is_null = true ∨
      map.get_index_from_colour colour ≠ 0) :
    map.add_province identifier colour = (false, map) := by
  unfold add_province
  by_cases h1 : map.provinces.length ≥ map.max_provinces
  · rw [if_pos h1]
  rw [if_neg h1]
  by_cases h2 : identifier.isEmpty = true
  · rw [if_pos h2]
  rw [if_neg h2]
  by_cases h3 : valid_basic_identifier identifier = false
  · rw [if_pos (by rw [h3]; rfl)]
  rw [if_neg (by simpa using h3)]
  by_cases h4 : colour.is_null = true
  · rw [if_pos h4]
  rw [if_neg h4]
  dsimp only
  by_cases h5 : map.get_index_from_colour colour ≠ 0
  · rw [if_pos h5]
  · rcases h with h | h | h | h | h
    · exact absurd h h1
    · exact absurd h h2
    · exact absurd h h3
    · exact absurd h h4
    · exact absurd h h5

end Map

/-! ## Lemmas on the output of an RGO without a throughput job -/

namespace fixed_point_t

theorem mul_zero_right (a : fixed_point_t) : mul a 0 = 0 := by
  unfold mul
  rw [Int.mul_zero]
  rfl

theorem mul_zero_left (a : fixed_point_t) : mul 0 a = 0 := by
  unfold mul
  rw [Int.zero_mul]
  rfl

end fixed_point_t

namespace ResourceGatheringOperation

theorem accumulate_of_no_contribution (effect_type : Job.effect_t) (start : fixed_point_t)
    (contributions : List (Job.effect_t × fixed_point_t))
    (h : ∀ c ∈ contributions, c.1 ≠ effect_type) :
    accumulate effect_type start contributions = start := by
  unfold accumulate
  have hnil : contributions.filter (fun c => c.1 = effect_type) = [] := by
    rw [List.filter_eq_nil_iff]
    intro c hc
    simpa using h c hc
  rw [hnil]
  rfl

theorem add_workers_without_throughput (rgo : ResourceGatheringOperation) (jobs : List Job)
    (keys : List (PopType × Int))
    (h : ∀ job ∈ jobs, job.effect_type ≠ Job.effect_t.THROUGHPUT) :
    (add_workers rgo jobs keys (fixed_point_t._0, fixed_point_t._1)).1 = 0 := by
  rw [add_workers_eq]
  dsimp only
  rw [accumulate_of_no_contribution]
  · rfl
  · intro c hc
    obtain ⟨key, _, hkey⟩ := List.mem_flatMap.mp hc
    unfold job_contributions at hkey
    obtain ⟨job, hjob, hjc⟩ := List.mem_map.mp hkey
    rw [← hjc]
    exact h job (List.mem_filter.mp hjob).1

theorem produce_output_without_throughput (rgo : ResourceGatheringOperation)
    (location : ProvinceInstance) (production_type : ProductionType)
    (size_modifier : fixed_point_t) (multipliers : fixed_point_t × fixed_point_t)
    (h : ∀ job ∈ production_type.jobs, job.effect_type ≠ Job.effect_t.THROUGHPUT) :
    produce_output rgo location production_type size_modifier multipliers = 0 := by
  unfold produce_output
  dsimp only
  rw [add_workers_without_throughput rgo production_type.jobs _ h,
    fixed_point_t.mul_zero_right, fixed_point_t.mul_zero_left, fixed_point_t.mul_zero_left]

/-- C39: an RGO whose production type has no job with the effect type THROUGHPUT
produces nothing: `produce` returns 0 for every location, size modifier and content of
the reference parameters, because the throughput accumulator of the workers starts at
0, only THROUGHPUT jobs add to it, and it is a factor of the returned product. -/
theorem produce_without_throughput_job (rgo : ResourceGatheringOperation)
    (production_type : ProductionType) (location : ProvinceInstance)
    (owner_pops_cache : List Pop) (total_owner_count_in_state_cache : Int)
    (size_modifier : fixed_point_t)
    (hpt : rgo.production_type_nullable = some production_type)
    (h : ∀ job ∈ production_type.jobs, job.effect_type ≠ Job.effect_t.THROUGHPUT) :
    (rgo.produce location owner_pops_cache total_owner_count_in_state_cache
      size_modifier).output = 0 ∧
      (add_workers rgo production_type.jobs rgo.employee_count_per_type_cache
        (fixed_point_t._0, fixed_point_t._1)).1 = 0 := by
  refine ⟨?_, add_workers_without_throughput rgo production_type.jobs _ h⟩
  unfold produce
  split
  · rfl
  · rw [hpt]
    dsimp only
    split
    · rfl
    · split
      · exact produce_output_without_throughput rgo location production_type _ _ h
      · split
        · rfl
        · split
          · rfl
          · split
            · exact produce_output_without_throughput rgo location production_type _ _ h
            · rfl

/-- The scenario operation with an OUTPUT job only, all 100 farmers hired. -/
theorem produce_without_throughput_job_witness :
    scenario_rgo_output_hired.total_employees_count_cache = 100 ∧
      (scenario_rgo_output_hired.produce scenario_province [] 0 65536).output = 0 := by
  have h := produce_without_throughput_job scenario_rgo_output_hired
    scenario_rgo_output_production_type scenario_province [] 0 65536 (by decide) (by decide)
  exact ⟨by decide, h.1⟩

end ResourceGatheringOperation

/-! ## Lemmas on sliders -/

theorem slider_value_t.new_wrapped (storage : slider_value_t) (value min max : Int) :
    slider_value_t.new storage value min max =
      (storage, slider_value_t.wrapped value min max) := by
  unfold slider_value_t.new slider_value_t.wrapped
  dsimp only
  congr 1
  split_ifs <;> omega

theorem SliderManager.set_slider_value_wrapped (slider : slider_value_t) (new_value : Int) :
    SliderManager.set_slider_value slider new_value =
      { slider with value := slider_value_t.wrapped new_value slider.min slider.max } := by
  unfold SliderManager.set_slider_value slider_value_t.wrapped
  split_ifs <;> first | rfl | omega

/-- C40, evaluated on the code: the constructor call `slider_value_t(50, 0, 100)`
leaves the three members as the storage held them (here 7, 7 and 7): it stores
neither `min` nor `max` nor the value. Its parameter `value` ends as 50, the value
that `set_slider_value` stores for 50 in a slider with the bounds 0 and 100. -/
theorem slider_value_t_constructor_stores_nothing :
    (slider_value_t.new ⟨7, 7, 7⟩ 50 0 100).1 = ⟨7, 7, 7⟩ ∧
      (slider_value_t.new ⟨7, 7, 7⟩ 50 0 100).1 ≠ ⟨0, 100, 50⟩ ∧
      (slider_value_t.new ⟨7, 7, 7⟩ 50 0 100).2 = 50 ∧
      SliderManager.set_slider_value ⟨0, 100, 0⟩ 50 = ⟨0, 100, 50⟩ ∧
      SliderManager.set_slider_value ⟨0, 100, 0⟩ 150 = ⟨0, 100, 0⟩ ∧
      SliderManager.set_slider_value ⟨0, 100, 0⟩ (-5) = ⟨0, 100, 100⟩ := by
  decide

/-! ## Lemmas on the capacity of an RGO -/

namespace ResourceGatheringOperation

theorem total_worker_count_in_province_eq (jobs : List Job) (pops : List Pop) (total : Int) :
    total_worker_count_in_province jobs pops total =
      total + ((pops.filter (fun pop => jobs.any (fun job => job.pop_type = pop.type))).map
        (fun pop => pop.size)).sum := by
  induction pops generalizing total with
  | nil => simp [total_worker_count_in_province]
  | cons pop rest ih =>
    unfold total_worker_count_in_province
    rw [ih]
    by_cases hm : (jobs.any fun job => decide (job.pop_type = pop.type)) = true
    · rw [if_pos hm, List.filter_cons_of_pos (by exact hm), List.map_cons, List.sum_cons]
      ring
    · rw [if_neg hm, List.filter_cons_of_neg (by exact hm)]

theorem hire_pops_max_employee_count (jobs : List Job) (proportion : fixed_point_t)
    (pops : List Pop) (rgo r : ResourceGatheringOperation)
    (h : hire_pops jobs proportion pops rgo = some r) :
    r.max_employee_count_cache = rgo.max_employee_count_cache := by
  induction pops generalizing rgo with
  | nil =>
    unfold hire_pops at h
    cases h
    rfl
  | cons pop rest ih =>
    unfold hire_pops at h
    cases hpop : hire_pop jobs proportion rgo pop with
    | none =>
      rw [hpop] at h
      cases h
    | some rgo1 =>
      rw [hpop] at h
      dsimp only at h
      rw [ih rgo1 h]
      unfold hire_pop at hpop
      cases htype : pop.type with
      | none =>
        rw [htype] at hpop
        dsimp only at hpop
        split at hpop
        · cases hpop
        · cases hpop
          rfl
      | some pop_type =>
        rw [htype] at hpop
        dsimp only at hpop
        split at hpop
        · cases hpop
          rfl
        · cases hpop
          rfl

theorem hire_max_employee_count (rgo r : ResourceGatheringOperation)
    (location : ProvinceInstance) (available_worker_count : Int)
    (h : rgo.hire location available_worker_count = some r) :
    r.max_employee_count_cache = rgo.max_employee_count_cache := by
  unfold hire at h
  dsimp only at h
  cases hpt : rgo.production_type_nullable with
  | none =>
    rw [hpt] at h
    cases h
    rfl
  | some production_type =>
    rw [hpt] at h
    dsimp only at h
    split at h
    · cases h
      rfl
    · split at h
      · cases h
        rfl
      · rw [hire_pops_max_employee_count _ _ _ _ _ h]

/-- The share that `hire` takes of a pop of the given size. -/
theorem floor_mul_int_share {proportion size : Int} (hp0 : 0 ≤ proportion)
    (hp1 : proportion ≤ 65536) (hs0 : 0 ≤ size)
    (hs1 : size * 65536 ≤ 9223372036854775807) :
    0 ≤ fixed_point_t.floor (fixed_point_t.mul_int proportion size) ∧
      fixed_point_t.floor (fixed_point_t.mul_int proportion size) ≤ size ∧
      fixed_point_t.floor (fixed_point_t.mul_int proportion size) * 65536 ≤
        proportion * size := by
  have hprod0 : 0 ≤ proportion * size := Int.mul_nonneg hp0 hs0
  have hprod1 : proportion * size ≤ 65536 * size :=
    Int.mul_le_mul_of_nonneg_right hp1 hs0
  have hsat : fixed_point_t.mul_int proportion size = proportion * size := by
    unfold fixed_point_t.mul_int
    apply fixed_point_t.saturate_of_mem
    · unfold fixed_point_t.MAX
      omega
    · unfold fixed_point_t.MAX
      omega
  unfold fixed_point_t.floor
  rw [hsat]
  refine ⟨Int.ediv_nonneg hprod0 (by decide), ?_, Int.ediv_mul_le _ (by decide)⟩
  have h1 : proportion * size / 65536 ≤ 65536 * size / 65536 :=
    Int.ediv_le_ediv (by decide) hprod1
  rw [Int.mul_ediv_cancel_left _ (by decide : (65536 : Int) ≠ 0)] at h1
  exact h1

theorem proportion_to_hire_bounds (max_employee_count available_worker_count : Int)
    (hmax : 0 < max_employee_count) (havailable : 0 < available_worker_count)
    (hbound : available_worker_count * 65536 ≤ 9223372036854775807) :
    0 ≤ proportion_to_hire max_employee_count available_worker_count ∧
      proportion_to_hire max_employee_count available_worker_count ≤ 65536 ∧
      proportion_to_hire max_employee_count available_worker_count * available_worker_count ≤
        max_employee_count * 65536 := by
  unfold proportion_to_hire
  by_cases hge : max_employee_count ≥ available_worker_count
  · rw [if_pos hge]
    refine ⟨by decide, by decide, ?_⟩
    show (65536 : Int) * available_worker_count ≤ max_employee_count * 65536
    omega
  · rw [if_neg hge]
    have hlt : max_employee_count < available_worker_count := by omega
    have hpmax : fixed_point_t.parse max_employee_count = max_employee_count * 65536 := by
      unfold fixed_point_t.parse
      apply fixed_point_t.saturate_of_mem
      · unfold fixed_point_t.MAX
        omega
      · unfold fixed_point_t.MAX
        omega
    have hpavailable :
        fixed_point_t.parse available_worker_count = available_worker_count * 65536 := by
      unfold fixed_point_t.parse
      apply fixed_point_t.saturate_of_mem
      · unfold fixed_point_t.MAX
        omega
      · unfold fixed_point_t.MAX
        omega
    rw [hpmax, hpavailable,
      fixed_point_t.div_eq_of_nonneg (show (0 : Int) ≤ max_employee_count * 65536 by omega)
        (show (0 : Int) < available_worker_count * 65536 by omega)]
    have hq0 : 0 ≤ max_employee_count * 65536 * 65536 / (available_worker_count * 65536) :=
      Int.ediv_nonneg (by omega) (by omega)
    have hq1 : max_employee_count * 65536 * 65536 / (available_worker_count * 65536) ≤
        65536 := by
      have h1 : max_employee_count * 65536 * 65536 ≤ 65536 * (available_worker_count * 65536) := by
        omega
      have h2 := Int.ediv_le_ediv
        (show (0 : Int) < available_worker_count * 65536 by omega) h1
      rw [Int.mul_ediv_cancel _ (show available_worker_count * 65536 ≠ 0 by omega)] at h2
      exact h2
    have hsat : fixed_point_t.saturate
        (max_employee_count * 65536 * 65536 / (available_worker_count * 65536)) =
        max_employee_count * 65536 * 65536 / (available_worker_count * 65536) := by
      apply fixed_point_t.saturate_of_mem
      · unfold fixed_point_t.MAX
        omega
      · unfold fixed_point_t.MAX
        omega
    rw [hsat]
    refine ⟨hq0, hq1, ?_⟩
    have h3 : max_employee_count * 65536 * 65536 / (available_worker_count * 65536) *
        (available_worker_count * 65536) ≤ max_employee_count * 65536 * 65536 :=
      Int.ediv_mul_le _ (by omega)
    have h4 : max_employee_count * 65536 * 65536 / (available_worker_count * 65536) *
        available_worker_count * 65536 ≤ max_employee_count * 65536 * 65536 := by
      rw [Int.mul_assoc]
      exact h3
    generalize max_employee_count * 65536 * 65536 / (available_worker_count * 65536) *
      available_worker_count = product at h4 ⊢
    have h5 : (product : Int) ≤ max_employee_count * 65536 := by omega
    exact h5

theorem sum_member_le (sizes : List Int) (h : ∀ size ∈ sizes, 0 ≤ size) (size : Int)
    (hmem : size ∈ sizes) : size ≤ sizes.sum := by
  induction sizes with
  | nil => cases hmem
  | cons first rest ih =>
    have hrest : 0 ≤ rest.sum := List.sum_nonneg (fun x hx => h x (List.mem_cons_of_mem _ hx))
    rw [List.sum_cons]
    rcases List.mem_cons.mp hmem with heq | hin
    · omega
    · have := ih (fun x hx => h x (List.mem_cons_of_mem _ hx)) hin
      have := h first (List.mem_cons_self _ _)
      omega

theorem sum_filter_le (employees : List Employee) (keep : Employee → Bool)
    (h : ∀ e ∈ employees, 0 ≤ e.size) :
    0 ≤ ((employees.filter keep).map (fun e => e.size)).sum ∧
      ((employees.filter keep).map (fun e => e.size)).sum ≤
        (employees.map (fun e => e.size)).sum := by
  induction employees with
  | nil => simp
  | cons e rest ih =>
    obtain ⟨i1, i2⟩ := ih (fun x hx => h x (List.mem_cons_of_mem _ hx))
    have he := h e (List.mem_cons_self _ _)
    by_cases hk : keep e = true
    · rw [List.filter_cons_of_pos hk]
      simp only [List.map_cons, List.sum_cons]
      omega
    · rw [List.filter_cons_of_neg hk]
      simp only [List.map_cons, List.sum_cons]
      omega

theorem hired_sum_le (jobs : List Job) (proportion : fixed_point_t) (pops : List Pop)
    (hp0 : 0 ≤ proportion) (hp1 : proportion ≤ 65536)
    (hsizes : ∀ pop ∈ pops, (jobs.any fun job => decide (job.pop_type = pop.type)) = true →
      0 ≤ pop.size ∧ pop.size * 65536 ≤ 9223372036854775807) :
    ((hired jobs proportion pops).map (fun e => e.size)).sum * 65536 ≤
      proportion * ((pops.filter
        (fun pop => jobs.any (fun job => job.pop_type = pop.type))).map
          (fun pop => pop.size)).sum := by
  unfold hired
  induction pops with
  | nil => simp
  | cons pop rest ih =>
    have hrest := ih (fun x hx => hsizes x (List.mem_cons_of_mem _ hx))
    by_cases hm : (jobs.any fun job => decide (job.pop_type = pop.type)) = true
    · rw [List.filter_cons_of_pos (by exact hm)]
      simp only [List.map_cons, List.sum_cons]
      obtain ⟨hs0, hs1⟩ := hsizes pop (List.mem_cons_self _ _) hm
      obtain ⟨_, _, hshare⟩ := floor_mul_int_share hp0 hp1 hs0 hs1
      rw [Int.add_mul, Int.mul_add]
      exact Int.add_le_add hshare hrest
    · rw [List.filter_cons_of_neg (by exact hm)]
      exact hrest

theorem hire_pops_hired (jobs : List Job) (proportion : fixed_point_t) (pops : List Pop)
    (rgo : ResourceGatheringOperation)
    (hmatched : ∀ p ∈ pops,
      (jobs.any fun job => decide (job.pop_type = p.type)) = true → p.type.isSome = true) :
    ∃ r, hire_pops jobs proportion pops rgo = some r ∧
      r.employees = rgo.employees ++ hired jobs proportion pops ∧
      r.total_employees_count_cache = rgo.total_employees_count_cache +
        ((hired jobs proportion pops).map (fun e => e.size)).sum ∧
      r.total_paid_employees_count_cache = rgo.total_paid_employees_count_cache +
        (((hired jobs proportion pops).filter is_paid).map (fun e => e.size)).sum := by
  induction pops generalizing rgo with
  | nil => exact ⟨rgo, rfl, by simp [hired], by simp [hired], by simp [hired]⟩
  | cons p rest ih =>
    have hrest : ∀ q ∈ rest,
        (jobs.any fun job => decide (job.pop_type = q.type)) = true → q.type.isSome = true :=
      fun q hq => hmatched q (List.mem_cons_of_mem _ hq)
    cases ht : p.type with
    | none =>
      have hno : ¬ (jobs.any fun job => decide (job.pop_type = none)) = true := by
        intro hm
        have hsome := hmatched p (List.mem_cons_self _ _) (by rw [ht]; exact hm)
        rw [ht] at hsome
        cases hsome
      unfold hire_pops hire_pop
      rw [ht]
      dsimp only
      rw [if_neg hno]
      dsimp only
      obtain ⟨r, hr, h1, h2, h3⟩ := ih rgo hrest
      have : hired jobs proportion (p :: rest) = hired jobs proportion rest := by
        unfold hired
        rw [List.filter_cons_of_neg (by rw [ht]; exact hno)]
      rw [this]
      exact ⟨r, hr, h1, h2, h3⟩
    | some t =>
      unfold hire_pops hire_pop
      rw [ht]
      dsimp only
      by_cases hm : (jobs.any fun job => decide (job.pop_type = some t)) = true
      · rw [if_pos hm]
        dsimp only
        obtain ⟨r, hr, h1, h2, h3⟩ := ih _ hrest
        have hcons : hired jobs proportion (p :: rest) =
            ⟨p, fixed_point_t.floor (fixed_point_t.mul_int proportion p.size)⟩ ::
              hired jobs proportion rest := by
          unfold hired
          rw [List.filter_cons_of_pos (by rw [ht]; exact hm)]
          rfl
        refine ⟨r, hr, ?_, ?_, ?_⟩
        · rw [h1, hcons]
          simp
        · rw [h2, hcons]
          simp only [List.map_cons, List.sum_cons]
          ring
        · rw [h3, hcons]
          have hp := is_paid_mk p
            (fixed_point_t.floor (fixed_point_t.mul_int proportion p.size)) t ht
          by_cases hs : t.is_slave = true
          · simp [List.filter_cons, hp, hs]
          · simp [List.filter_cons, hp, hs]
            ring
      · rw [if_neg hm]
        dsimp only
        obtain ⟨r, hr, h1, h2, h3⟩ := ih rgo hrest
        have : hired jobs proportion (p :: rest) = hired jobs proportion rest := by
          unfold hired
          rw [List.filter_cons_of_neg (by rw [ht]; exact hm)]
        rw [this]
        exact ⟨r, hr, h1, h2, h3⟩

/-- What `hire` does on an operation with a production type, a positive capacity and a
positive number of available workers when every pop that matches a job has a type: it
returns, having appended one employee per matching pop. -/
theorem hire_hired (rgo : ResourceGatheringOperation) (production_type : ProductionType)
    (location : ProvinceInstance) (available_worker_count : Int)
    (hpt : rgo.production_type_nullable = some production_type)
    (hmax : 0 < rgo.max_employee_count_cache) (havail : 0 < available_worker_count)
    (hmatched : ∀ p ∈ location.pops,
      (production_type.jobs.any fun job => decide (job.pop_type = p.type)) = true →
        p.type.isSome = true) :
    ∃ r, rgo.hire location available_worker_count = some r ∧
      r.employees = rgo.employees ++
        hired production_type.jobs
          (proportion_to_hire rgo.max_employee_count_cache available_worker_count)
          location.pops ∧
      r.total_employees_count_cache =
        ((hired production_type.jobs
          (proportion_to_hire rgo.max_employee_count_cache available_worker_count)
          location.pops).map (fun e => e.size)).sum ∧
      r.total_paid_employees_count_cache =
        (((hired production_type.jobs
          (proportion_to_hire rgo.max_employee_count_cache available_worker_count)
          location.pops).filter is_paid).map (fun e => e.size)).sum := by
  unfold hire
  dsimp only
  rw [hpt]
  dsimp only
  rw [if_neg (show ¬ rgo.max_employee_count_cache ≤ 0 by omega),
    if_neg (show ¬ available_worker_count ≤ 0 by omega)]
  obtain ⟨r, hr, h1, h2, h3⟩ := hire_pops_hired production_type.jobs
    (proportion_to_hire rgo.max_employee_count_cache available_worker_count) location.pops
    { rgo with production_type_nullable := some production_type,
               total_employees_count_cache := 0,
               total_paid_employees_count_cache := 0 } hmatched
  refine ⟨r, hr, h1, ?_, ?_⟩
  · rw [h2]; simp
  · rw [h3]; simp

/-- A pop without a type is skipped by `hire`: on the scenario province with a third,
untyped pop of 25 the employees are the 40 and 60 farmers. When the production type
has a job without a pop type as well, the untyped pop matches it and the code reads the
pop type through the null reference; the model stops with `none`. -/
theorem hire_skips_untyped_pop :
    total_worker_count_in_province (scenario_rgo_production_type false).jobs
        scenario_province_untyped.pops 0 = 100 ∧
      ((scenario_rgo false).hire scenario_province_untyped 100).map
          (fun r => (r.employees.map (fun e => e.size), r.total_employees_count_cache,
            r.total_paid_employees_count_cache)) =
        some ([40, 60], 100, 100) ∧
      total_worker_count_in_province scenario_rgo_untyped_job_production_type.jobs
        scenario_province_untyped.pops 0 = 125 ∧
      ({ scenario_rgo false with
          production_type_nullable := some scenario_rgo_untyped_job_production_type
          } : ResourceGatheringOperation).hire scenario_province_untyped 125 = none := by
  decide

theorem update_size_returns_total_worker_count (rgo : ResourceGatheringOperation)
    (production_type : ProductionType) (location : ProvinceInstance)
    (size_modifier : fixed_point_t)
    (hpt : rgo.production_type_nullable = some production_type) :
    (rgo.update_size_and_return_total_worker_count location size_modifier).2 =
        total_worker_count_in_province production_type.jobs location.pops 0 ∧
      (rgo.update_size_and_return_total_worker_count location
        size_modifier).1.production_type_nullable = some production_type ∧
      (rgo.update_size_and_return_total_worker_count location size_modifier).1.employees =
        rgo.employees := by
  unfold update_size_and_return_total_worker_count
  rw [hpt]
  exact ⟨rfl, rfl, rfl⟩

/-- C37 (amended): for an operation with a production type and no previously recorded
employees and a province whose pops have non-negative sizes and whose pops matching a
job all have a pop type, where the available worker count is the summed size of the
province's pops matching a job and that count times 65536 is within the range of
`fixed_point_t`: `hire` returns, the employee count is at most the larger of 0 and
`max_employee_count_cache`, so at most `max_employee_count_cache` when that is not
negative; it is at most the available worker count and is the sum of the employees'
sizes; every employee is a pop of the province that has a type, with a size between 0
and its pop's size; and the paid employee count is at most the employee count. -/
theorem hire_within_capacity (rgo : ResourceGatheringOperation)
    (production_type : ProductionType) (location : ProvinceInstance)
    (hpt : rgo.production_type_nullable = some production_type)
    (hemployees : rgo.employees = [])
    (hmatched : ∀ pop ∈ location.pops,
      (production_type.jobs.any fun job => decide (job.pop_type = pop.type)) = true →
        pop.type.isSome = true)
    (hsizes : ∀ pop ∈ location.pops, 0 ≤ pop.size)
    (hbound : total_worker_count_in_province production_type.jobs location.pops 0 * 65536 ≤
      9223372036854775807) :
    ∃ r, rgo.hire location
        (total_worker_count_in_province production_type.jobs location.pops 0) = some r ∧
      total_worker_count_in_province production_type.jobs location.pops 0 =
        ((location.pops.filter (fun pop =>
          production_type.jobs.any (fun job => job.pop_type = pop.type))).map
            (fun pop => pop.size)).sum ∧
      r.max_employee_count_cache = rgo.max_employee_count_cache ∧
      r.total_employees_count_cache ≤ max 0 r.max_employee_count_cache ∧
      (0 ≤ r.max_employee_count_cache →
        r.total_employees_count_cache ≤ r.max_employee_count_cache) ∧
      r.total_employees_count_cache ≤
        total_worker_count_in_province production_type.jobs location.pops 0 ∧
      r.total_employees_count_cache = (r.employees.map (fun e => e.size)).sum ∧
      (∀ e ∈ r.employees, e.pop ∈ location.pops ∧ e.pop.type.isSome = true ∧
        0 ≤ e.size ∧ e.size ≤ e.pop.size) ∧
      0 ≤ r.total_paid_employees_count_cache ∧
      r.total_paid_employees_count_cache ≤ r.total_employees_count_cache := by
  have havailable := total_worker_count_in_province_eq production_type.jobs location.pops 0
  rw [Int.zero_add] at havailable
  have hsum0 : 0 ≤ ((location.pops.filter (fun pop =>
      production_type.jobs.any (fun job => job.pop_type = pop.type))).map
        (fun pop => pop.size)).sum := by
    apply List.sum_nonneg
    intro size hsize
    obtain ⟨pop, hpop, heq⟩ := List.mem_map.mp hsize
    rw [← heq]
    exact hsizes pop (List.mem_filter.mp hpop).1
  rw [havailable] at hbound ⊢
  generalize hS : ((location.pops.filter (fun pop =>
      production_type.jobs.any (fun job => job.pop_type = pop.type))).map
        (fun pop => pop.size)).sum = available at hbound hsum0 ⊢
  have hearly : ∀ r, rgo.hire location available = some r → r.employees = [] →
      r.total_employees_count_cache = 0 → r.total_paid_employees_count_cache = 0 →
      rgo.hire location available = some r ∧ available = available ∧
      r.max_employee_count_cache = rgo.max_employee_count_cache ∧
      r.total_employees_count_cache ≤ max 0 r.max_employee_count_cache ∧
      (0 ≤ r.max_employee_count_cache →
        r.total_employees_count_cache ≤ r.max_employee_count_cache) ∧
      r.total_employees_count_cache ≤ available ∧
      r.total_employees_count_cache = (r.employees.map (fun e => e.size)).sum ∧
      (∀ e ∈ r.employees, e.pop ∈ location.pops ∧ e.pop.type.isSome = true ∧
        0 ≤ e.size ∧ e.size ≤ e.pop.size) ∧
      0 ≤ r.total_paid_employees_count_cache ∧
      r.total_paid_employees_count_cache ≤ r.total_employees_count_cache := by
    intro r hr he ht hp
    rw [he, ht, hp]
    refine ⟨hr, rfl, hire_max_employee_count rgo r location available hr, le_max_left _ _,
      fun h => h, hsum0, rfl, ?_, le_refl _, le_refl _⟩
    intro e hmem
    cases hmem
  by_cases hmax : rgo.max_employee_count_cache ≤ 0
  · have hr : rgo.hire location available =
        some { rgo with total_employees_count_cache := 0,
                        total_paid_employees_count_cache := 0 } := by
      unfold hire
      dsimp only
      rw [hpt]
      dsimp only
      rw [if_pos hmax]
    exact ⟨_, hearly _ hr hemployees rfl rfl⟩
  by_cases hnone : available ≤ 0
  · have hr : rgo.hire location available =
        some { rgo with total_employees_count_cache := 0,
                        total_paid_employees_count_cache := 0 } := by
      unfold hire
      dsimp only
      rw [hpt]
      dsimp only
      rw [if_neg hmax, if_pos hnone]
    exact ⟨_, hearly _ hr hemployees rfl rfl⟩
  have hmax0 : 0 < rgo.max_employee_count_cache := by omega
  have havail0 : 0 < available := by omega
  obtain ⟨r, hr, h1, h2, h3⟩ := hire_hired rgo production_type location available hpt
    hmax0 havail0 hmatched
  obtain ⟨hp0, hp1, hp2⟩ := proportion_to_hire_bounds rgo.max_employee_count_cache
    available hmax0 havail0 hbound
  rw [hemployees, List.nil_append] at h1
  have hmatching : ∀ pop ∈ location.pops,
      (production_type.jobs.any fun job => decide (job.pop_type = pop.type)) = true →
      0 ≤ pop.size ∧ pop.size * 65536 ≤ 9223372036854775807 := by
    intro pop hpop hm
    have h0 := hsizes pop hpop
    have hle : pop.size ≤ available := by
      rw [← hS]
      apply sum_member_le
      · intro size hsize
        obtain ⟨other, hother, heq⟩ := List.mem_map.mp hsize
        rw [← heq]
        exact hsizes other (List.mem_filter.mp hother).1
      · exact List.mem_map.mpr ⟨pop, List.mem_filter.mpr ⟨hpop, hm⟩, rfl⟩
    exact ⟨h0, by omega⟩
  have hsum := hired_sum_le production_type.jobs
    (proportion_to_hire rgo.max_employee_count_cache available) location.pops hp0 hp1 hmatching
  rw [hS] at hsum
  have hnonneg : ∀ e ∈ hired production_type.jobs
      (proportion_to_hire rgo.max_employee_count_cache available) location.pops,
      e.pop ∈ location.pops ∧ e.pop.type.isSome = true ∧ 0 ≤ e.size ∧
        e.size ≤ e.pop.size := by
    intro e he
    unfold hired at he
    obtain ⟨pop, hpop, heq⟩ := List.mem_map.mp he
    obtain ⟨hin, hm⟩ := List.mem_filter.mp hpop
    obtain ⟨hs0, hs1⟩ := hmatching pop hin hm
    obtain ⟨f0, f1, _⟩ := floor_mul_int_share hp0 hp1 hs0 hs1
    rw [← heq]
    exact ⟨hin, hmatched pop hin hm, f0, f1⟩
  obtain ⟨hpaid0, hpaid1⟩ := sum_filter_le
    (hired production_type.jobs
      (proportion_to_hire rgo.max_employee_count_cache available) location.pops) is_paid
    (fun e he => (hnonneg e he).2.2.1)
  have hmaxeq := hire_max_employee_count rgo r location available hr
  have hle1 : proportion_to_hire rgo.max_employee_count_cache available * available ≤
      65536 * available := Int.mul_le_mul_of_nonneg_right hp1 (by omega)
  have htotal_available : r.total_employees_count_cache ≤ available := by
    rw [h2]
    generalize ((hired production_type.jobs
      (proportion_to_hire rgo.max_employee_count_cache available) location.pops).map
        (fun e => e.size)).sum = total at hsum ⊢
    generalize proportion_to_hire rgo.max_employee_count_cache available * available =
      product at hsum hle1
    have h5 : (total : Int) * 65536 ≤ 65536 * available := le_trans hsum hle1
    omega
  have htotal_max : r.total_employees_count_cache ≤ rgo.max_employee_count_cache := by
    rw [h2]
    generalize ((hired production_type.jobs
      (proportion_to_hire rgo.max_employee_count_cache available) location.pops).map
        (fun e => e.size)).sum = total at hsum ⊢
    generalize proportion_to_hire rgo.max_employee_count_cache available * available =
      product at hsum hp2
    have h5 : (total : Int) * 65536 ≤ rgo.max_employee_count_cache * 65536 :=
      le_trans hsum hp2
    omega
  refine ⟨r, hr, rfl, hmaxeq, ?_, ?_, htotal_available, ?_, ?_, ?_, ?_⟩
  · rw [hmaxeq]
    exact le_trans htotal_max (le_max_right _ _)
  · intro _
    rw [hmaxeq]
    exact htotal_max
  · rw [h2, h1]
  · rw [h1]
    exact hnonneg
  · rw [h3]
    exact hpaid0
  · rw [h3, h2]
    exact hpaid1

/-- The scenario operation on the scenario province with the untyped pop: 100 farmers
are available, the capacity is 100 and the untyped pop is not hired. -/
theorem hire_within_capacity_witness :
    ∃ r, (scenario_rgo false).hire scenario_province_untyped 100 = some r ∧
      r.total_employees_count_cache ≤ r.max_employee_count_cache ∧
      r.total_employees_count_cache ≤ 100 ∧
      r.total_paid_employees_count_cache ≤ r.total_employees_count_cache := by
  have h := hire_within_capacity (scenario_rgo false) (scenario_rgo_production_type false)
    scenario_province_untyped (by decide) (by decide) (by decide) (by decide) (by decide)
  obtain ⟨r, h1, _, h3, _, h5, h6, _, _, _, h10⟩ := h
  have hcount : total_worker_count_in_province (scenario_rgo_production_type false).jobs
      scenario_province_untyped.pops 0 = 100 := by decide
  rw [hcount] at h1 h6
  refine ⟨r, h1, h5 ?_, h6, h10⟩
  rw [h3]
  decide

/-- An operation whose capacity is negative: with a global farm size modifier of +3
and a local one of -2, `calculate_size_modifier` gives 2, and
`update_size_and_return_total_worker_count` counts 100 workers and sets the size
multiplier to -2 and `max_employee_count_cache` to -400; `hire` then returns at once
with an employee count of 0, which is above `max_employee_count_cache`. -/
theorem scenario_negative_capacity_below_employee_count :
    (scenario_rgo false).employees = [] ∧
      (scenario_rgo false).calculate_size_modifier scenario_province_shrunk = 131072 ∧
      ((scenario_rgo false).update_size_and_return_total_worker_count scenario_province_shrunk
        131072).2 = 100 ∧
      ((scenario_rgo false).update_size_and_return_total_worker_count scenario_province_shrunk
        131072).1.max_employee_count_cache = -400 ∧
      ((scenario_rgo false).update_size_and_hire scenario_province_shrunk).map
          (fun r => (r.total_employees_count_cache, r.max_employee_count_cache)) =
        some (0, -400) ∧
      ¬ ((0 : Int) ≤ -400) := by
  decide

end ResourceGatheringOperation

end OpenVic
